import Mathlib

/-!
# carmel/xlsx: worksheet normalization and merged-cell resolution

A shallow embedding of `checkSheet`, `checkSheetR0` (xlsx.go), `checkRow`
(rows.go) and of the merged-cell functions of merge.go, with the properties
of the specification stated over it.

Conventions of the embedding.

* Go `int` is `Int`; a slice is a `List`; indexing outside the bounds of a
  slice is a run-time panic, written `none` in the result of the function
  (`Option` around the result).
* A Go `error` result is a value of type `Err`; a function that returns an
  error alongside state it has already changed returns both.
* `*xlsxMergeCell` pointers are addresses into an explicit `Heap`.
-/

namespace Xlsx

/-! ## Errors -/

/-- The Go `error` values the modelled functions return. `sheetNotExist`,
`notWorksheet` and `xmlDecode` are the values `fmt.Errorf` builds in
`workSheetReader`; `errSheetNotExist` is the value `ErrSheetNotExist{sheet}`
of the type declared in rows.go; `strconvAtoi` is the error of `strconv.Atoi`
and `jsonUnmarshal` that of `json.Unmarshal`; `maxRows` is `ErrMaxRows`,
`invalidStyleID` the value of `newInvalidStyleID`, `optionsUnzipSizeLimit` is
`ErrOptionsUnzipSizeLimit` and `fieldLength` the value of
`newFieldLengthError`. -/
inductive Err where
  | invalidCellName (cell : String)
  | invalidCoordinates (col row : Int)
  | parameterInvalid
  | sheetNotExist (sheet : String)
  | notWorksheet (sheet : String)
  | xmlDecode (msg : String)
  | invalidRowNumber (row : Int)
  | maxRowHeight
  | outlineLevel
  | errSheetNotExist (sheet : String)
  | strconvAtoi (s : String)
  | definedNameDuplicate
  | jsonUnmarshal (msg : String)
  | maxRows
  | invalidStyleID (styleID : Int)
  | optionsUnzipSizeLimit
  | fieldLength (name : String)
  deriving DecidableEq, Repr

deriving instance DecidableEq for Except

/-! ## Slices -/

/-- Read `s[i]` for a Go `int` index; `none` is the index-out-of-range panic. -/
def getI {α : Type} (s : List α) (i : Int) : Option α :=
  if i < 0 then none else s[i.toNat]?

/-- Write `s[i] = v` for a Go `int` index; `none` is the index-out-of-range panic. -/
def setI {α : Type} (s : List α) (i : Int) (v : α) : Option (List α) :=
  if i < 0 then none else if i.toNat < s.length then some (s.set i.toNat v) else none

/-- The values `lo, lo+1, ..., hi` of a loop `for x := lo; x <= hi; x++`. -/
def intRange (lo hi : Int) : List Int :=
  (List.range (hi + 1 - lo).toNat).map (fun (k : Nat) => lo + (k : Int))

/-! ## Coordinate codec -/

/-- A letter of a column name. -/
def isLetter (c : Char) : Bool :=
  (65 ≤ c.toNat && c.toNat ≤ 90) || (97 ≤ c.toNat && c.toNat ≤ 122)

/-- A decimal digit of a row number. -/
def isDigit (c : Char) : Bool := 48 ≤ c.toNat && c.toNat ≤ 57

/-- The value 1..26 of a column letter, either case. -/
def letterVal (c : Char) : Nat :=
  if c.toNat ≤ 90 then c.toNat - 64 else c.toNat - 96

/-- Modelled from the spec: `ColumnNameToNumber` (lib.go is not among the
sources) reads a column name as a bijective base-26 numeral, `A` = 1. -/
def ColumnNameToNumber (name : List Char) : Nat :=
  name.foldl (fun acc c => acc * 26 + letterVal c) 0

/-- The decimal value of a digit string (`strconv.Atoi` on digits). -/
def atoi (ds : List Char) : Nat :=
  ds.foldl (fun acc c => acc * 10 + (c.toNat - 48)) 0

/-- The letters of column `n`, most significant first (`fuel` bounds the length). -/
def columnLetters : Nat → Nat → List Char
  | 0, _ => []
  | fuel + 1, n =>
    if n = 0 then [] else columnLetters fuel ((n - 1) / 26) ++ [Char.ofNat (65 + (n - 1) % 26)]

/-- The decimal digits of `n`, most significant first (`strconv.Itoa`). -/
def decimalDigits : Nat → Nat → List Char
  | 0, _ => []
  | fuel + 1, n =>
    if n < 10 then [Char.ofNat (48 + n)]
    else decimalDigits fuel (n / 10) ++ [Char.ofNat (48 + n % 10)]

/-- Modelled from the spec: `CellNameToCoordinates` (lib.go is not among the
sources) "fails with `InvalidCellName` when ref does not match the pattern of
one-or-more letters followed by one-or-more digits, or when the resulting
column/row is zero". -/
def CellNameToCoordinates (cell : String) : Except Err (Int × Int) :=
  let letters := cell.data.takeWhile isLetter
  let digits := cell.data.dropWhile isLetter
  if letters = [] ∨ digits = [] ∨ digits.all isDigit = false then
    .error (.invalidCellName cell)
  else if ColumnNameToNumber letters = 0 ∨ atoi digits = 0 then
    .error (.invalidCellName cell)
  else .ok ((ColumnNameToNumber letters : Int), (atoi digits : Int))

/-- Modelled from the spec: `CoordinatesToCellName` (lib.go is not among the
sources) "fails when col or row < 1". -/
def CoordinatesToCellName (col row : Int) : Except Err String :=
  if col < 1 ∨ row < 1 then .error (.invalidCoordinates col row)
  else .ok (String.mk (columnLetters col.toNat col.toNat ++
    decimalDigits (row.toNat + 1) row.toNat))

/-- The string a call `name, _ := CoordinatesToCellName(col, row)` keeps: the
name, or the empty string when the call fails. -/
def cellNameOrEmpty (col row : Int) : String :=
  match CoordinatesToCellName col row with
  | .ok s => s
  | .error _ => ""

/-- A rectangle `[x1, y1, x2, y2]`: the four `int`s of a `rect` slice. -/
structure Rect where
  x1 : Int
  y1 : Int
  x2 : Int
  y2 : Int
  deriving DecidableEq, Repr

/-- Modelled from the spec: `areaRefToCoordinates` (lib.go is not among the
sources) "splits on ':', applies the single-cell codec to each side, fails if
either side is malformed"; the coordinates are not sorted. -/
def areaRefToCoordinates (ref : String) : Except Err Rect :=
  let first := ref.data.takeWhile (fun c => c != ':')
  match ref.data.dropWhile (fun c => c != ':') with
  | [] => .error .parameterInvalid
  | _ :: second =>
    match CellNameToCoordinates (String.mk first), CellNameToCoordinates (String.mk second) with
    | .ok (x1, y1), .ok (x2, y2) => .ok ⟨x1, y1, x2, y2⟩
    | .error e, _ => .error e
    | _, .error e => .error e

/-! ## Worksheet data model (xmlWorksheet.go) -/

/-- The formula element of a cell (`xlsxF`). -/
structure xlsxF where
  Content : String := ""
  T : String := ""
  Aca : Bool := false
  Ref : String := ""
  Dt2D : Bool := false
  Dtr : Bool := false
  Del1 : Bool := false
  Del2 : Bool := false
  R1 : String := ""
  R2 : String := ""
  Ca : Bool := false
  Si : Option Int := none
  Bx : Bool := false
  deriving DecidableEq, Repr

/-- The inline string of a cell (`xlsxSI`), reduced to its text. -/
structure xlsxSI where
  T : String := ""
  deriving DecidableEq, Repr

/-- A cell (`xlsxC`); the defaults are the Go zero values, so `{}` is `xlsxC{}`. -/
structure xlsxC where
  XMLName : String := ""
  XMLSpace : String := ""
  R : String := ""
  S : Int := 0
  T : String := ""
  F : Option xlsxF := none
  V : String := ""
  IS : Option xlsxSI := none
  deriving DecidableEq, Repr

/-- A row (`xlsxRow`); the defaults are the Go zero values. `Ht` is a
`float64` the modelled code only stores and compares. -/
structure xlsxRow where
  C : List xlsxC := []
  R : Int := 0
  Spans : String := ""
  S : Int := 0
  CustomFormat : Bool := false
  Ht : Rat := 0
  Hidden : Bool := false
  CustomHeight : Bool := false
  OutlineLevel : Nat := 0
  Collapsed : Bool := false
  ThickTop : Bool := false
  ThickBot : Bool := false
  Ph : Bool := false
  deriving DecidableEq, Repr

/-- The `sheetData` element (`xlsxSheetData`). -/
structure xlsxSheetData where
  Row : List xlsxRow := []
  deriving DecidableEq, Repr

/-! ## checkSheet (xlsx.go) -/

/-- The first loop of `checkSheet`: at index 0 a row without number is taken
as `r0` and cut off `ws.SheetData.Row`; otherwise `row` is raised to a larger
explicit number, or incremented when the row's number differs from it. The
state is `(row, r0, ws.SheetData.Row)`. -/
def checkSheetScan : Nat → List xlsxRow → Int × xlsxRow × List xlsxRow →
    Int × xlsxRow × List xlsxRow
  | _, [], st => st
  | i, r :: rs, (row, r0, wsRows) =>
    if i = 0 ∧ r.R = 0 then checkSheetScan (i + 1) rs (row, r, wsRows.drop 1)
    else if r.R ≠ 0 ∧ r.R > row then checkSheetScan (i + 1) rs (r.R, r0, wsRows)
    else if r.R ≠ row then checkSheetScan (i + 1) rs (row + 1, r0, wsRows)
    else checkSheetScan (i + 1) rs (row, r0, wsRows)

/-- The second loop of `checkSheet`, over the rows left in `ws.SheetData.Row`:
a row with the number of the row before it has its cells appended to
`sheetData.Row[r.R-1]`; another numbered row is stored at `r.R-1`; a row
without number takes `row+1`. The state is `(sheetData.Row, row)`. -/
def checkSheetPlace : List xlsxRow → List xlsxRow × Int → Option (List xlsxRow × Int)
  | [], st => some st
  | r :: rs, (sd, row) =>
    if r.R = row ∧ row > 0 then
      match getI sd (r.R - 1) with
      | none => none
      | some t =>
        match setI sd (r.R - 1) { t with C := t.C ++ r.C } with
        | none => none
        | some sd1 => checkSheetPlace rs (sd1, row)
    else if r.R ≠ 0 then
      match setI sd (r.R - 1) r with
      | none => none
      | some sd1 => checkSheetPlace rs (sd1, r.R)
    else
      match setI sd (row + 1 - 1) { r with R := row + 1 } with
      | none => none
      | some sd1 => checkSheetPlace rs (sd1, row + 1)

/-- The third loop of `checkSheet`: `sheetData.Row[i-1].R = i` for the given
values of `i`. -/
def checkSheetRenumber : List Int → List xlsxRow → Option (List xlsxRow)
  | [], sd => some sd
  | i :: is, sd =>
    match getI sd (i - 1) with
    | none => none
    | some t =>
      match setI sd (i - 1) { t with R := i } with
      | none => none
      | some sd1 => checkSheetRenumber is sd1

/-- One iteration of the loop of `checkSheetR0` over the cells of `r0`: a cell
whose reference does not parse is skipped; otherwise the rows and the cells of
the target row are grown to reach the target, which takes the cell when it has
no value. `hasValue` is the method `(*xlsxC).hasValue`, not among the
sources. -/
def checkSheetR0Cell (hasValue : xlsxC → Bool) (sd : List xlsxRow) (cell : xlsxC) :
    Option (List xlsxRow) :=
  match CellNameToCoordinates cell.R with
  | .error _ => some sd
  | .ok (col, row) =>
    let rows : Int := sd.length
    let rowIdx := row - 1
    let sd1 := sd ++ (intRange rows (row - 1)).map (fun r => ({ R := r + 1 } : xlsxRow))
    match getI sd1 rowIdx with
    | none => none
    | some t =>
      let columns : Int := t.C.length
      let colIdx := col - 1
      let cs := t.C ++ (intRange columns (col - 1)).map (fun _ => ({} : xlsxC))
      match getI cs colIdx with
      | none => none
      | some old =>
        if !hasValue old then
          match setI cs colIdx cell with
          | none => none
          | some cs1 => setI sd1 rowIdx { t with C := cs1 }
        else setI sd1 rowIdx { t with C := cs }

/-- The loop of `checkSheetR0` over `r0.C`; the result is the new
`ws.SheetData.Row`. -/
def checkSheetR0 (hasValue : xlsxC → Bool) : List xlsxRow → List xlsxC → Option (List xlsxRow)
  | sd, [] => some sd
  | sd, cell :: cells =>
    match checkSheetR0Cell hasValue sd cell with
    | none => none
    | some sd1 => checkSheetR0 hasValue sd1 cells

/-- The dense rows `checkSheet` has built when it calls `checkSheetR0`, with
the fallback row `r0`. `make([]xlsxRow, row)` panics on a negative length. -/
def checkSheetDense (rows : List xlsxRow) : Option (List xlsxRow × xlsxRow) :=
  match checkSheetScan 0 rows (0, {}, rows) with
  | (row, r0, wsRows) =>
    if row < 0 then none
    else
      match checkSheetPlace wsRows (List.replicate row.toNat {}, 0) with
      | none => none
      | some (sd, row1) =>
        match checkSheetRenumber (intRange 1 row1) sd with
        | none => none
        | some sd1 => some (sd1, r0)

/-- `checkSheet`, on the rows of the worksheet: the new `ws.SheetData`, or
`none` when the function panics. -/
def checkSheet (hasValue : xlsxC → Bool) (sheetData : xlsxSheetData) : Option xlsxSheetData :=
  match checkSheetDense sheetData.Row with
  | none => none
  | some (sd, r0) =>
    match checkSheetR0 hasValue sd r0.C with
    | none => none
    | some sd1 => some { Row := sd1 }

/-! ## checkRow (rows.go) -/

/-- The first loop of `checkRow` in one row ("check and fill the cell without
r attribute in a row element"): returns the cells, with the references it has
assigned, and the error of the first reference that does not parse. -/
def checkRowFill (rowIdx : Int) : List xlsxC → Int → List xlsxC × Option Err
  | [], _ => ([], none)
  | cell :: cells, rCount =>
    if cell.R ≠ "" then
      match CellNameToCoordinates cell.R with
      | .error e => (cell :: cells, some e)
      | .ok (lastR, _) =>
        let r := checkRowFill rowIdx cells (if lastR > rCount + 1 then lastR else rCount + 1)
        (cell :: r.1, r.2)
    else
      let r := checkRowFill rowIdx cells (rCount + 1)
      ({ cell with R := cellNameOrEmpty (rCount + 1) (rowIdx + 1) } :: r.1, r.2)

/-- The loop of `checkRow` that builds `newlist`: a cell with only its
reference for each `colIdx`. -/
def checkRowNew (rowIdx : Int) : List Int → Except Err (List xlsxC)
  | [] => .ok []
  | colIdx :: rest =>
    match CoordinatesToCellName (colIdx + 1) (rowIdx + 1) with
    | .error e => .error e
    | .ok cellName =>
      match checkRowNew rowIdx rest with
      | .error e => .error e
      | .ok cs => .ok (({ R := cellName } : xlsxC) :: cs)

/-- The last loop of `checkRow`: each cell of `oldList` is written at the
index its reference names; `none` when that index is out of range. -/
def checkRowPut : List xlsxC → List xlsxC → Option (List xlsxC × Option Err)
  | [], cs => some (cs, none)
  | colData :: rest, cs =>
    match CellNameToCoordinates colData.R with
    | .error e => some (cs, some e)
    | .ok (colNum, _) =>
      match setI cs (colNum - 1) colData with
      | none => none
      | some cs1 => checkRowPut rest cs1

/-- The body of the loop of `checkRow` for the row at `rowIdx`. -/
def checkRowAt (rowIdx : Int) (rowData : xlsxRow) : Option (xlsxRow × Option Err) :=
  let colCount : Int := rowData.C.length
  if colCount = 0 then some (rowData, none)
  else
    match checkRowFill rowIdx rowData.C 0 with
    | (cs, some e) => some ({ rowData with C := cs }, some e)
    | (cs, none) =>
      match getI cs (colCount - 1) with
      | none => none
      | some last =>
        match CellNameToCoordinates last.R with
        | .error e => some ({ rowData with C := cs }, some e)
        | .ok (lastCol, _) =>
          if colCount < lastCol then
            match checkRowNew rowIdx (intRange 0 (lastCol - 1)) with
            | .error e => some ({ rowData with C := [] }, some e)
            | .ok newlist =>
              match checkRowPut cs newlist with
              | none => none
              | some (cs1, e) => some ({ rowData with C := cs1 }, e)
          else some ({ rowData with C := cs }, none)

/-- The loop of `checkRow` over the rows, from index `rowIdx` on. -/
def checkRowLoop : Int → List xlsxRow → Option (List xlsxRow × Option Err)
  | _, [] => some ([], none)
  | rowIdx, r :: rs =>
    match checkRowAt rowIdx r with
    | none => none
    | some (r1, some e) => some (r1 :: rs, some e)
    | some (r1, none) =>
      match checkRowLoop (rowIdx + 1) rs with
      | none => none
      | some (rs1, e) => some (r1 :: rs1, e)

/-- `checkRow`, on the rows of the worksheet: the new `ws.SheetData` and the
returned error, or `none` when the function panics. -/
def checkRow (sheetData : xlsxSheetData) : Option (xlsxSheetData × Option Err) :=
  match checkRowLoop 0 sheetData.Row with
  | none => none
  | some (rs, e) => some ({ Row := rs }, e)

/-! ## Merged cells (merge.go) -/

/-- A merged cell (`xlsxMergeCell`). `rect` is the address, in the heap, of
the backing array of the cached `rect` slice; `none` is the nil slice. -/
structure xlsxMergeCell where
  Ref : String := ""
  rect : Option Nat := none
  deriving DecidableEq, Repr

/-- A pointer `*xlsxMergeCell`: nil, or the address of an object in the heap. -/
abbrev Ptr := Option Nat

/-- The `mergeCells` element (`xlsxMergeCells`); `Cells` is `[]*xlsxMergeCell`. -/
structure xlsxMergeCells where
  Count : Int := 0
  Cells : List Ptr := []
  deriving DecidableEq, Repr

/-- The `sheetFormatPr` element (`xlsxSheetFormatPr`); the defaults are the
Go zero values. -/
structure xlsxSheetFormatPr where
  BaseColWidth : Nat := 0
  DefaultColWidth : Rat := 0
  DefaultRowHeight : Rat := 0
  CustomHeight : Bool := false
  ZeroHeight : Bool := false
  ThickTop : Bool := false
  ThickBottom : Bool := false
  OutlineLevelRow : Nat := 0
  OutlineLevelCol : Nat := 0
  deriving DecidableEq, Repr

/-- A sheet view (`xlsxSheetView`), with the fields `SetActiveSheet` uses. -/
structure xlsxSheetView where
  TabSelected : Bool := false
  WorkbookViewID : Int := 0
  deriving DecidableEq, Repr

/-- The `headerFooter` element (`xlsxHeaderFooter`), with the fields
`SetHeaderFooter` writes. -/
structure xlsxHeaderFooter where
  AlignWithMargins : Bool := false
  DifferentFirst : Bool := false
  DifferentOddEven : Bool := false
  ScaleWithDoc : Bool := false
  OddHeader : String := ""
  OddFooter : String := ""
  EvenHeader : String := ""
  EvenFooter : String := ""
  FirstFooter : String := ""
  FirstHeader : String := ""
  deriving DecidableEq, Repr

/-- The worksheet (`xlsxWorksheet`), with the parts the modelled functions use;
`SheetFormatPr`, `SheetViews` and `HeaderFooter` are pointers, nil when the
element is absent (`SheetViews` then holds the slice `SheetView`). -/
structure xlsxWorksheet where
  SheetData : xlsxSheetData := {}
  MergeCells : Option xlsxMergeCells := none
  SheetFormatPr : Option xlsxSheetFormatPr := none
  SheetViews : Option (List xlsxSheetView) := none
  HeaderFooter : Option xlsxHeaderFooter := none
  deriving DecidableEq, Repr

/-- The objects pointers refer to: the merged cells, and the backing arrays of
their `rect` slices. A `rect` slice shared by two cells is one address. -/
structure Heap where
  cells : List xlsxMergeCell := []
  rects : List Rect := []
  deriving DecidableEq, Repr

/-- The occupancy grid `matrix [][]*xlsxMergeCell`, indexed `matrix[x][y]`. -/
abbrev Matrix := List (List Ptr)

/-- Read `matrix[x][y]`. -/
def mget (m : Matrix) (x y : Int) : Option Ptr :=
  match getI m x with
  | none => none
  | some col => getI col y

/-- Write `matrix[x][y] = v`. -/
def mset (m : Matrix) (x y : Int) (v : Ptr) : Option Matrix :=
  match getI m x with
  | none => none
  | some col =>
    match setI col y v with
    | none => none
    | some col1 => setI m x col1

/-- `(*xlsxMergeCell).Rect`: the cached rectangle, parsed from `Ref` and stored
on first use. The result is the address of the rectangle, or the error of the
parse; calling it on nil panics. -/
def xlsxMergeCell.Rect (h : Heap) (mc : Ptr) : Option (Heap × Except Err Nat) :=
  match mc with
  | none => none
  | some p =>
    match h.cells[p]? with
    | none => none
    | some c =>
      match c.rect with
      | some a => some (h, .ok a)
      | none =>
        match areaRefToCoordinates c.Ref with
        | .error e => some (h, .error e)
        | .ok r =>
          some ({ cells := h.cells.set p { c with rect := some h.rects.length },
                  rects := h.rects ++ [r] }, .ok h.rects.length)

/-- The rectangle a `rect` slice holds; indexing the nil slice an ignored
error leaves panics. -/
def rectAt (h : Heap) (a : Except Err Nat) : Option Rect :=
  match a with
  | .error _ => none
  | .ok a => h.rects[a]?

/-- `overlapRange`: the largest row and column of the merged cells, `(row,
col, err)`. -/
def overlapRange : Heap → List Ptr → Int × Int → Option (Heap × Int × Int × Option Err)
  | h, [], (row, col) => some (h, row, col, none)
  | h, mergeCell :: rest, (row, col) =>
    if mergeCell = none then overlapRange h rest (row, col)
    else
      match xlsxMergeCell.Rect h mergeCell with
      | none => none
      | some (h1, .error e) => some (h1, row, col, some e)
      | some (h1, .ok a) =>
        match h1.rects[a]? with
        | none => none
        | some r =>
          let col1 := if r.x1 > col then r.x1 else col
          let col2 := if r.x2 > col1 then r.x2 else col1
          let row1 := if r.y1 > row then r.y1 else row
          let row2 := if r.y2 > row1 then r.y2 else row1
          overlapRange h1 rest (row2, col2)

/-- One statement `if rect1[k] > rect2[k] { rect1[k], rect2[k] = rect2[k],
rect1[k] }` of `mergeCell` (with `<` when `gt` is false), on the slices at the
addresses `a1` and `a2`: `get` reads coordinate `k`, `set` writes it. -/
def swapCoordinate (get : Rect → Int) (set : Rect → Int → Rect) (gt : Bool) (a1 a2 : Nat)
    (rs : List Rect) : Option (List Rect) :=
  match rs[a1]?, rs[a2]? with
  | some r1, some r2 =>
    if (if gt then get r1 > get r2 else get r1 < get r2) then
      some (List.modify (fun r => set r (get r1)) a2 (List.modify (fun r => set r (get r2)) a1 rs))
    else some rs
  | _, _ => none

/-- `mergeCell`: the two rectangles are rewritten in place, the first to the
bounding rectangle; the result is a new object that shares the first
rectangle's slice. Indexing the nil slice an ignored error of `Rect` leaves
panics. -/
def mergeCell (h : Heap) (cell1 cell2 : Ptr) : Option (Heap × Ptr) :=
  match xlsxMergeCell.Rect h cell1 with
  | none => none
  | some (h1, a1) =>
    match xlsxMergeCell.Rect h1 cell2 with
    | none => none
    | some (h2, a2) =>
      match a1, a2 with
      | .ok a1, .ok a2 =>
        match swapCoordinate (fun r => r.x1) (fun r v => { r with x1 := v }) true a1 a2 h2.rects with
        | none => none
        | some rs1 =>
          match swapCoordinate (fun r => r.x2) (fun r v => { r with x2 := v }) false a1 a2 rs1 with
          | none => none
          | some rs2 =>
            match swapCoordinate (fun r => r.y1) (fun r v => { r with y1 := v }) true a1 a2 rs2 with
            | none => none
            | some rs3 =>
              match swapCoordinate (fun r => r.y2) (fun r v => { r with y2 := v }) false a1 a2 rs3 with
              | none => none
              | some rs4 =>
                match rs4[a1]? with
                | none => none
                | some r =>
                  let hcell := cellNameOrEmpty r.x1 r.y1
                  let vcell := cellNameOrEmpty r.x2 r.y2
                  some ({ cells := h2.cells ++ [{ rect := some a1, Ref := hcell ++ ":" ++ vcell }],
                          rects := rs4 }, some h2.cells.length)
      | _, _ => none

/-- The inner loop `for y := y1; y <= y2; y++` of the first painting of
`flatMergedCells`, in column `x`: a non-nil entry is recorded in
`overlapCells`, and the entry becomes `cell`. -/
def paintColumn (cell : Ptr) (x : Int) : List Int → Matrix × List Ptr → Option (Matrix × List Ptr)
  | [], st => some st
  | y :: ys, (m, overlapCells) =>
    match mget m x y with
    | none => none
    | some e =>
      match mset m x y cell with
      | none => none
      | some m1 => paintColumn cell x ys (m1, if e ≠ none then overlapCells ++ [e] else overlapCells)

/-- The loop `for x := x1; x <= x2; x++` around `paintColumn`. -/
def paint (cell : Ptr) (ys : List Int) : List Int → Matrix × List Ptr → Option (Matrix × List Ptr)
  | [], st => some st
  | x :: xs, st =>
    match paintColumn cell x ys st with
    | none => none
    | some st1 => paint cell ys xs st1

/-- The loops `matrix[x][y] = v` over a rectangle (the repainting of
`flatMergedCells` with `newCell`, the clearing of `mergeOverlapCells` with nil). -/
def fillColumn (v : Ptr) (x : Int) : List Int → Matrix → Option Matrix
  | [], m => some m
  | y :: ys, m =>
    match mset m x y v with
    | none => none
    | some m1 => fillColumn v x ys m1

/-- The loop `for x := x1; x <= x2; x++` around `fillColumn`. -/
def fill (v : Ptr) (ys : List Int) : List Int → Matrix → Option Matrix
  | [], m => some m
  | x :: xs, m =>
    match fillColumn v x ys m with
    | none => none
    | some m1 => fill v ys xs m1

/-- The loop `for _, overlapCell := range overlapCells` of `flatMergedCells`:
`newCell = mergeCell(cell, overlapCell)`. -/
def mergeAll (cell : Ptr) : List Ptr → Heap × Ptr → Option (Heap × Ptr)
  | [], st => some st
  | overlapCell :: rest, (h, _) =>
    match mergeCell h cell overlapCell with
    | none => none
    | some st1 => mergeAll cell rest st1

/-- The state of `flatMergedCells` and `mergeOverlapCells`: the heap, the
slice `ws.MergeCells.Cells` and the grid. -/
structure MergeState where
  heap : Heap
  cells : List Ptr
  matrix : Matrix
  deriving DecidableEq, Repr

/-- The body of the loop of `flatMergedCells` for the cell at index `i`. The
second component is the error the function returns with, if any. -/
def flatMergedCell (st : MergeState) (i : Nat) (cell : Ptr) : Option (MergeState × Option Err) :=
  match xlsxMergeCell.Rect st.heap cell with
  | none => none
  | some (h1, .error e) => some ({ st with heap := h1 }, some e)
  | some (h1, .ok a) =>
    match h1.rects[a]? with
    | none => none
    | some rect =>
      match paint cell (intRange (rect.y1 - 1) (rect.y2 - 1)) (intRange (rect.x1 - 1) (rect.x2 - 1))
          (st.matrix, []) with
      | none => none
      | some (m1, overlapCells) =>
        if overlapCells.length ≠ 0 then
          match mergeAll cell overlapCells (h1, cell) with
          | none => none
          | some (h2, newCell) =>
            match xlsxMergeCell.Rect h2 newCell with
            | none => none
            | some (h3, a3) =>
              match rectAt h3 a3 with
              | none => none
              | some newRect =>
                match fill newCell (intRange (newRect.y1 - 1) (newRect.y2 - 1))
                    (intRange (newRect.x1 - 1) (newRect.x2 - 1)) m1 with
                | none => none
                | some m2 =>
                  if i < st.cells.length then
                    some ({ heap := h3, cells := st.cells.set i newCell, matrix := m2 }, none)
                  else none
        else some ({ heap := h1, cells := st.cells, matrix := m1 }, none)

/-- `flatMergedCells`: the loop over `ws.MergeCells.Cells`, from index `i` on;
`todo` holds the cells the `range` has still to visit. -/
def flatMergedCells : Nat → List Ptr → MergeState → Option (MergeState × Option Err)
  | _, [], st => some (st, none)
  | i, cell :: todo, st =>
    match flatMergedCell st i cell with
    | none => none
    | some (st1, some e) => some (st1, some e)
    | some (st1, none) => flatMergedCells (i + 1) todo st1

/-- The last loop of `mergeOverlapCells`: a cell that still owns the grid
entry of its top-left corner is kept, and its rectangle is cleared. The third
component is `mergeCells`. -/
def keepOwners : List Ptr → Heap × Matrix × List Ptr → Option (Heap × Matrix × List Ptr)
  | [], st => some st
  | cell :: rest, (h, m, mergeCells) =>
    match xlsxMergeCell.Rect h cell with
    | none => none
    | some (h1, a) =>
      match rectAt h1 a with
      | none => none
      | some rect =>
        match mget m (rect.x1 - 1) (rect.y1 - 1) with
        | none => none
        | some e =>
          if e = cell then
            match fill none (intRange (rect.y1 - 1) (rect.y2 - 1))
                (intRange (rect.x1 - 1) (rect.x2 - 1)) m with
            | none => none
            | some m1 => keepOwners rest (h1, m1, mergeCells ++ [cell])
          else keepOwners rest (h1, m, mergeCells)

/-- `mergeOverlapCells`, on the heap and `ws.MergeCells` (which its callers
have checked not to be nil): the new heap and `ws.MergeCells`, and the
returned error. -/
def mergeOverlapCells (h : Heap) (mc : xlsxMergeCells) :
    Option (Heap × xlsxMergeCells × Option Err) :=
  match overlapRange h mc.Cells (0, 0) with
  | none => none
  | some (h1, _, _, some e) => some (h1, mc, some e)
  | some (h1, rows, cols, none) =>
    if rows = 0 ∨ cols = 0 then some (h1, mc, none)
    else if cols < 0 ∨ rows < 0 then none
    else
      match flatMergedCells 0 mc.Cells
          { heap := h1, cells := mc.Cells,
            matrix := List.replicate cols.toNat (List.replicate rows.toNat none) } with
      | none => none
      | some (st, _) =>
        match keepOwners st.cells (st.heap, st.matrix, []) with
        | none => none
        | some (h2, _, mergeCells) =>
          some (h2, { Count := mergeCells.length, Cells := mergeCells }, none)

/-- The references of the merged cells of a list, in order (nil pointers and
dangling addresses give the empty string). -/
def refsOf (h : Heap) (cells : List Ptr) : List String :=
  cells.map (fun p =>
    match p with
    | none => ""
    | some a =>
      match h.cells[a]? with
      | none => ""
      | some c => c.Ref)

/-- The heap and the `ws.MergeCells` of a worksheet decoded with the given
`ref` attributes: one object per reference, no rectangle cached. -/
def decodedMergeCells (refs : List String) : Heap × xlsxMergeCells :=
  ({ cells := refs.map (fun r => { Ref := r }), rects := [] },
   { Count := refs.length, Cells := (List.range refs.length).map some })

/-- Overlap resolution run `n` times in a row on a decoded merge list: the
references left, or `none` when a run panics or returns an error. -/
def resolveTimes : Nat → Heap × xlsxMergeCells → Option (List String)
  | 0, (h, mc) => some (refsOf h mc.Cells)
  | n + 1, (h, mc) =>
    match mergeOverlapCells h mc with
    | some (h1, mc1, none) => resolveTimes n (h1, mc1)
    | _ => none

/-! ## The document and workSheetReader (xlsx.go, sheet.go) -/

/-- The loop of `trimSheetName`: the characters `:\/?*[]` are dropped, and
the loop stops once `r` holds 31 characters. -/
def trimSheetNameLoop : List Char → List Char → List Char
  | [], r => r
  | v :: vs, r =>
    if v.toNat = 58 ∨ v.toNat = 92 ∨ v.toNat = 47 ∨ v.toNat = 63 ∨ v.toNat = 42 ∨
        v.toNat = 91 ∨ v.toNat = 93 then trimSheetNameLoop vs r
    else if (r ++ [v]).length = 31 then r ++ [v]
    else trimSheetNameLoop vs (r ++ [v])

/-- `trimSheetName`. -/
def trimSheetName (name : String) : String :=
  if name.data.any (fun v => v.toNat = 58 ∨ v.toNat = 92 ∨ v.toNat = 47 ∨ v.toNat = 63 ∨
      v.toNat = 42 ∨ v.toNat = 91 ∨ v.toNat = 93) = true ∨ name.data.length > 31 then
    String.mk (trimSheetNameLoop name.data [])
  else name

/-- What the XML decoder makes of the bytes of a worksheet part: the
attributes of the root element, and the decoded worksheet or the message of a
decoding error other than `io.EOF`. -/
structure Part where
  rootAttr : List String := []
  decoded : Except String xlsxWorksheet := .ok {}
  deriving DecidableEq

/-- A relationship (`xlsxRelationship`; its declaration is not among the
sources), with the fields xlsx.go and sheet.go use; `Typ` is the field `Type`. -/
structure xlsxRelationship where
  ID : String := ""
  Target : String := ""
  Typ : String := ""
  TargetMode : String := ""
  deriving DecidableEq, Repr

/-- A content-type override (`xlsxOverride`; its declaration is not among the
sources), with the fields sheet.go uses. -/
structure xlsxOverride where
  PartName : String := ""
  ContentType : String := ""
  deriving DecidableEq, Repr

/-- A sheet of the workbook (`xlsxSheet`; its declaration is not among the
sources), with the fields sheet.go uses. -/
structure xlsxSheet where
  Name : String := ""
  SheetID : Int := 0
  ID : String := ""
  State : String := ""
  deriving DecidableEq, Repr

/-- A defined name of the workbook (`xlsxDefinedName`; its declaration is not
among the sources); `LocalSheetID` is a `*int`. -/
structure xlsxDefinedName where
  Comment : String := ""
  Name : String := ""
  Data : String := ""
  LocalSheetID : Option Int := none
  deriving DecidableEq, Repr

/-- The workbook (`xlsxWorkbook`; its declaration is not among the sources),
with the fields sheet.go uses: `Sheets` is the slice `wb.Sheets.Sheet`,
`DefinedNames` the pointer `wb.DefinedNames` with its slice `DefinedName`,
`BookViews` the pointer `wb.BookViews` with the `ActiveTab` of each of its
`WorkBookView`. -/
structure xlsxWorkbook where
  Sheets : List xlsxSheet := []
  DefinedNames : Option (List xlsxDefinedName) := none
  BookViews : Option (List Int) := none
  deriving DecidableEq, Repr

/-- An entry of the calculation chain (`xlsxCalcChainC`; its declaration is
not among the sources), with the fields calcchain.go uses. -/
structure xlsxCalcChainC where
  R : String := ""
  I : Int := 0
  deriving DecidableEq, Repr

/-- A comment of a comments part (`xlsxComment`; its declaration is not among
the sources), with the fields comment.go uses: `T` is the pointer `Text.T`,
and `R` holds the pointer `T` of each run of `Text.R`. -/
structure xlsxComment where
  Ref : String := ""
  AuthorID : Int := 0
  T : Option String := none
  R : List (Option String) := []
  deriving DecidableEq, Repr

/-- A comments part (`xlsxComments`; its declaration is not among the
sources): `Authors` is the slice `Authors.Author`, `CommentList` the slice
`CommentList.Comment`. -/
structure xlsxComments where
  Authors : List String := []
  CommentList : List xlsxComment := []
  deriving DecidableEq, Repr

/-- The document (`File`), with the fields the modelled functions use; a Go
map is an association list, read at its first matching key. The workbook, the
content types, the relationships of a part and the calculation chain are
decoded at their first use and kept; the fields hold what is decoded.
`ContentTypes` is the slice `f.ContentTypes.Overrides`, `Relationships` maps
the path of a relationships part to its slice `Relationships`, `CalcChain`
is the slice `f.CalcChain.C`, and `Comments` maps the path of a comments part
to the part `commentsReader` gives for it. -/
structure File where
  sheetMap : List (String × String) := []
  Sheet : List (String × xlsxWorksheet) := []
  checked : List (String × Bool) := []
  xmlAttr : List (String × List String) := []
  Pkg : List (String × Part) := []
  SheetCount : Int := 0
  WorkBook : xlsxWorkbook := {}
  ContentTypes : List xlsxOverride := []
  Relationships : List (String × List xlsxRelationship) := []
  CalcChain : List xlsxCalcChainC := []
  Comments : List (String × xlsxComments) := []
  deriving DecidableEq

/-- `workSheetReader`: the document after the call, the returned worksheet
and the returned error; `none` when `checkSheet` or `checkRow` panics. The
bytes of a part that is missing are empty, so that decoding ends with
`io.EOF` and leaves the empty worksheet; the worksheet a failed decoding
leaves behind is not modelled. -/
def workSheetReader (hasValue : xlsxC → Bool) (f : File) (sheet : String) :
    Option (File × Option xlsxWorksheet × Option Err) :=
  match f.sheetMap.lookup (trimSheetName sheet) with
  | none => some (f, none, some (.sheetNotExist sheet))
  | some name =>
    match f.Sheet.lookup name with
    | some worksheet => some (f, some worksheet, none)
    | none =>
      if "xl/chartsheets".data.isPrefixOf name.data || "xl/macrosheet".data.isPrefixOf name.data
      then some (f, none, some (.notWorksheet sheet))
      else
        let part := (f.Pkg.lookup name).getD {}
        let f1 : File :=
          if (f.xmlAttr.lookup name).isSome then f
          else { f with xmlAttr := (name, part.rootAttr) :: f.xmlAttr }
        match part.decoded with
        | .error msg => some (f1, none, some (.xmlDecode msg))
        | .ok ws =>
          if (f1.checked.lookup name).getD false then
            some ({ f1 with Sheet := (name, ws) :: f1.Sheet }, some ws, none)
          else
            match checkSheet hasValue ws.SheetData with
            | none => none
            | some sd =>
              match checkRow sd with
              | none => none
              | some (sd1, some e) => some (f1, some { ws with SheetData := sd1 }, some e)
              | some (sd1, none) =>
                some ({ f1 with checked := (name, true) :: f1.checked,
                                Sheet := (name, { ws with SheetData := sd1 }) :: f1.Sheet },
                      some { ws with SheetData := sd1 }, none)

/-! ## Rows (rows.go, sheet.go) -/

/-- The rows iterator (`Rows`), with the counters `Next` uses. -/
structure Rows where
  curRow : Int := 0
  totalRows : Int := 0
  stashRow : Int := 0
  deriving DecidableEq, Repr

/-- `(*Rows).CurrentRow`. -/
def Rows.CurrentRow (rows : Rows) : Int := rows.curRow

/-- `(*Rows).TotalRows`. -/
def Rows.TotalRows (rows : Rows) : Int := rows.totalRows

/-- `(*Rows).Next`: the iterator after the call, and the returned flag. -/
def Rows.Next (rows : Rows) : Rows × Bool :=
  ({ rows with curRow := rows.curRow + 1 }, decide (rows.curRow + 1 ≤ rows.totalRows))

/-- The iterator `(*File).Rows` returns once its scan has counted `total`
rows: every other counter is zero. -/
def newRows (total : Int) : Rows := { totalRows := total }

/-- The iterator after `k` calls of `Next`. -/
def nextTimes : Nat → Rows → Rows
  | 0, rows => rows
  | k + 1, rows => (nextTimes k rows).Next.1

/-- A write through the worksheet pointer `ws` that `workSheetReader` has
returned without error: the pointer is the one the document holds under the
part name of the sheet, so the write is a new binding of that name. -/
def storeSheet (f : File) (sheet : String) (ws : xlsxWorksheet) : File :=
  match f.sheetMap.lookup (trimSheetName sheet) with
  | none => f
  | some name => { f with Sheet := (name, ws) :: f.Sheet }

/-- The assignment `ws.SheetData.Row = rows`. -/
def withRows (ws : xlsxWorksheet) (rows : List xlsxRow) : xlsxWorksheet :=
  { ws with SheetData := { Row := rows } }

/-- `fillColumns`: cells are appended to the row until it has `col` of them. -/
def fillColumns (rowData : xlsxRow) (col row : Int) : xlsxRow :=
  { rowData with
    C := rowData.C ++ (intRange rowData.C.length (col - 1)).map
      (fun colIdx => ({ R := cellNameOrEmpty (colIdx + 1) row } : xlsxC)) }

/-- The rows `prepareSheetXML` appends to `rowCount` rows to reach `row`. -/
def backfillRows (ws : xlsxWorksheet) (rowCount : Nat) (row : Int) : List xlsxRow :=
  (intRange rowCount (row - 1)).map (fun rowIdx =>
    match ws.SheetFormatPr with
    | some pr =>
      if pr.CustomHeight then
        ({ R := rowIdx + 1, CustomHeight := true, Ht := pr.DefaultRowHeight } : xlsxRow)
      else { R := rowIdx + 1 }
    | none => { R := rowIdx + 1 })

/-- `prepareSheetXML`; `none` when `ws.SheetData.Row[row-1]` is out of range. -/
def prepareSheetXML (ws : xlsxWorksheet) (col row : Int) : Option xlsxWorksheet :=
  let rows := ws.SheetData.Row ++ backfillRows ws ws.SheetData.Row.length row
  match getI rows (row - 1) with
  | none => none
  | some rowData =>
    match setI rows (row - 1) (fillColumns rowData col row) with
    | none => none
    | some rows1 => some (withRows ws rows1)

/-- An assignment `ws.SheetData.Row[idx].field = v`, `set` writing the field. -/
def setRowField (ws : xlsxWorksheet) (idx : Int) (set : xlsxRow → xlsxRow) :
    Option xlsxWorksheet :=
  match getI ws.SheetData.Row idx with
  | none => none
  | some r =>
    match setI ws.SheetData.Row idx (set r) with
    | none => none
    | some rows => some (withRows ws rows)

/-- `SetRowHeight`: the document after the call and the returned error.
`MaxRowHeight` is a constant that is not among the sources. -/
def SetRowHeight (hasValue : xlsxC → Bool) (MaxRowHeight : Rat) (f : File) (sheet : String)
    (row : Int) (height : Rat) : Option (File × Option Err) :=
  if row < 1 then some (f, some (.invalidRowNumber row))
  else if height > MaxRowHeight then some (f, some .maxRowHeight)
  else
    match workSheetReader hasValue f sheet with
    | none => none
    | some (f1, _, some err) => some (f1, some err)
    | some (_, none, none) => none
    | some (f1, some ws, none) =>
      match prepareSheetXML ws 0 row with
      | none => none
      | some ws1 =>
        match setRowField ws1 (row - 1) (fun r => { r with Ht := height }) with
        | none => none
        | some ws2 =>
          match setRowField ws2 (row - 1) (fun r => { r with CustomHeight := true }) with
          | none => none
          | some ws3 => some (storeSheet f1 sheet ws3, none)

/-- The default height `GetRowHeight` starts from: the declared default of a
sheet that declares a custom height, else `defaultRowHeight`. -/
def sheetDefaultHeight (defaultRowHeight : Rat) (ws : xlsxWorksheet) : Rat :=
  match ws.SheetFormatPr with
  | some pr => if pr.CustomHeight then pr.DefaultRowHeight else defaultRowHeight
  | none => defaultRowHeight

/-- `GetRowHeight`: the document after the call, the returned height and the
returned error. `defaultRowHeightPixels` and `defaultRowHeight` are constants
that are not among the sources. -/
def GetRowHeight (hasValue : xlsxC → Bool) (defaultRowHeightPixels defaultRowHeight : Rat)
    (f : File) (sheet : String) (row : Int) : Option (File × Rat × Option Err) :=
  if row < 1 then some (f, defaultRowHeightPixels, some (.invalidRowNumber row))
  else
    match workSheetReader hasValue f sheet with
    | none => none
    | some (f1, _, some err) => some (f1, defaultRowHeight, some err)
    | some (_, none, none) => none
    | some (f1, some ws, none) =>
      if row > ws.SheetData.Row.length then some (f1, sheetDefaultHeight defaultRowHeight ws, none)
      else
        match ws.SheetData.Row.find? (fun v => decide (v.R = row) && decide (v.Ht ≠ 0)) with
        | some v => some (f1, v.Ht, none)
        | none => some (f1, sheetDefaultHeight defaultRowHeight ws, none)

/-- `SetRowVisible`. -/
def SetRowVisible (hasValue : xlsxC → Bool) (f : File) (sheet : String) (row : Int)
    (visible : Bool) : Option (File × Option Err) :=
  if row < 1 then some (f, some (.invalidRowNumber row))
  else
    match workSheetReader hasValue f sheet with
    | none => none
    | some (f1, _, some err) => some (f1, some err)
    | some (_, none, none) => none
    | some (f1, some ws, none) =>
      match prepareSheetXML ws 0 row with
      | none => none
      | some ws1 =>
        match setRowField ws1 (row - 1) (fun r => { r with Hidden := !visible }) with
        | none => none
        | some ws2 => some (storeSheet f1 sheet ws2, none)

/-- `SetRowOutlineLevel`; `level` is a `uint8`. -/
def SetRowOutlineLevel (hasValue : xlsxC → Bool) (f : File) (sheet : String) (row : Int)
    (level : Nat) : Option (File × Option Err) :=
  if row < 1 then some (f, some (.invalidRowNumber row))
  else if level > 7 ∨ level < 1 then some (f, some .outlineLevel)
  else
    match workSheetReader hasValue f sheet with
    | none => none
    | some (f1, _, some err) => some (f1, some err)
    | some (_, none, none) => none
    | some (f1, some ws, none) =>
      match prepareSheetXML ws 0 row with
      | none => none
      | some ws1 =>
        match setRowField ws1 (row - 1) (fun r => { r with OutlineLevel := level }) with
        | none => none
        | some ws2 => some (storeSheet f1 sheet ws2, none)

/-- `GetRowOutlineLevel`: the document after the call, the returned level and
the returned error. -/
def GetRowOutlineLevel (hasValue : xlsxC → Bool) (f : File) (sheet : String) (row : Int) :
    Option (File × Nat × Option Err) :=
  if row < 1 then some (f, 0, some (.invalidRowNumber row))
  else
    match workSheetReader hasValue f sheet with
    | none => none
    | some (f1, _, some err) => some (f1, 0, some err)
    | some (_, none, none) => none
    | some (f1, some ws, none) =>
      if row > ws.SheetData.Row.length then some (f1, 0, none)
      else
        match getI ws.SheetData.Row (row - 1) with
        | none => none
        | some r => some (f1, r.OutlineLevel, none)

/-! ## InsertRow, RemoveRow (rows.go) -/

/-- Modelled from the spec: `adjustHelper` (adjust.go is not among the
sources), for the direction `rows`: "shift every row index ... at or after
the affected index by ±1". The number of a row at or after `row` moves by
`offset`. -/
def adjustRowDimensions (rows : List xlsxRow) (row offset : Int) : List xlsxRow :=
  rows.map (fun r => if r.R ≥ row then { r with R := r.R + offset } else r)

/-- Modelled from the spec: `adjustHelper` (adjust.go is not among the
sources), for the direction `rows`. It loads the worksheet, shifts the row
numbers, and makes the rows dense again with `checkSheet`, which leaves the
"synthetic row" the specification speaks of where a row was inserted. The cell
references, formulas and merge regions it also shifts are not modelled; they
do not bear on the number of rows. -/
def adjustHelper (hasValue : xlsxC → Bool) (f : File) (sheet : String) (num offset : Int) :
    Option (File × Option Err) :=
  match workSheetReader hasValue f sheet with
  | none => none
  | some (f1, _, some err) => some (f1, some err)
  | some (_, none, none) => none
  | some (f1, some ws, none) =>
    match checkSheet hasValue { Row := adjustRowDimensions ws.SheetData.Row num offset } with
    | none => none
    | some sd => some (storeSheet f1 sheet (withRows ws sd.Row), none)

/-- `RemoveRow`: the rows numbered `row` are dropped from the slice, and
`adjustHelper` shifts the rows after them. -/
def RemoveRow (hasValue : xlsxC → Bool) (f : File) (sheet : String) (row : Int) :
    Option (File × Option Err) :=
  if row < 1 then some (f, some (.invalidRowNumber row))
  else
    match workSheetReader hasValue f sheet with
    | none => none
    | some (f1, _, some err) => some (f1, some err)
    | some (_, none, none) => none
    | some (f1, some ws, none) =>
      if row > ws.SheetData.Row.length then adjustHelper hasValue f1 sheet row (-1)
      else
        adjustHelper hasValue
          (storeSheet f1 sheet (withRows ws (ws.SheetData.Row.filter (fun v => v.R ≠ row))))
          sheet row (-1)

/-- `InsertRow`. -/
def InsertRow (hasValue : xlsxC → Bool) (f : File) (sheet : String) (row : Int) :
    Option (File × Option Err) :=
  if row < 1 then some (f, some (.invalidRowNumber row))
  else adjustHelper hasValue f sheet row 1

/-! ## Library functions (strconv, strings) -/

/-- The wrap-around of a 64-bit `int`. -/
def wrapInt64 (x : Int) : Int := (x + 2 ^ 63) % 2 ^ 64 - 2 ^ 63

/-- `strconv.Atoi`: the value and whether the error is nil. A string that is
not an optional sign followed by decimal digits gives 0 and an error; a value
out of the range of `int` gives the nearest bound and an error. -/
def strconvAtoi (s : String) : Int × Bool :=
  let ds :=
    match s.data with
    | '-' :: t => t
    | '+' :: t => t
    | l => l
  if ds = [] ∨ ds.all isDigit = false then (0, false)
  else
    let v : Int := if s.data.head? = some '-' then -(atoi ds : Int) else (atoi ds : Int)
    if v > 2 ^ 63 - 1 then (2 ^ 63 - 1, false)
    else if v < -(2 ^ 63) then (-(2 ^ 63), false)
    else (v, true)

/-- `strconv.Itoa`. -/
def strconvItoa (n : Int) : String :=
  if n < 0 then String.mk ('-' :: decimalDigits ((-n).toNat + 1) (-n).toNat)
  else String.mk (decimalDigits (n.toNat + 1) n.toNat)

/-- `strings.TrimPrefix`. -/
def trimPrefix (s pre : String) : String :=
  if pre.data.isPrefixOf s.data then String.mk (s.data.drop pre.data.length) else s

/-- Modelled from the spec: the message of the error that
`CellNameToCoordinates` returns for a malformed reference. The functions that
build it, `newCellNameToCoordinatesError` and `newInvalidCellNameError`, are
not among the sources (lib.go, errors.go); the text is the one that the test
`TestAddComments` of comment_test.go expects for the cell `A`, with the
reference in the place of `A`. -/
def cellNameErrorMessage (cell : String) : String :=
  "cannot convert cell \"" ++ cell ++ "\" to coordinates: invalid cell name \"" ++ cell ++ "\""

/-- The message `Error()` gives, for the errors whose text the sources give:
the `fmt.Errorf` calls of `workSheetReader` and the method of
`ErrSheetNotExist` in rows.go; for the invalid-cell-name error, whose text the
sources do not give, it is the modelled `cellNameErrorMessage`. -/
def Err.Error : Err → Option String
  | .sheetNotExist sheet => some ("sheet " ++ sheet ++ " is not exist")
  | .errSheetNotExist sheet => some ("sheet " ++ sheet ++ " is not exist")
  | .notWorksheet sheet => some ("sheet " ++ sheet ++ " is not a worksheet")
  | .xmlDecode msg => some ("xml decode error: " ++ msg)
  | .invalidCellName cell => some (cellNameErrorMessage cell)
  | _ => none

/-! ## Rows and GetRows (rows.go) -/

/-- The loop of `Rows` over the attributes of one `row` element: `attrs` holds
the values of the attributes named `r`, in order, and `row` is overwritten
with each; an error of `strconv.Atoi` ends `Rows`. -/
def rowsAttrs : List String → Int → Except Err Int
  | [], row => .ok row
  | v :: vs, _ =>
    match strconvAtoi v with
    | (n, true) => rowsAttrs vs n
    | (_, false) => .error (.strconvAtoi v)

/-- The token loop of `Rows`, over the `row` start elements the decoder yields
up to the end of `sheetData`: `row++`, then the attributes, then
`rows.totalRows = row`. -/
def rowsScan : List (List String) → Int → Rows → Rows × Option Err
  | [], _, rows => (rows, none)
  | attrs :: rest, row, rows =>
    match rowsAttrs attrs (row + 1) with
    | .error e => (rows, some e)
    | .ok row1 => rowsScan rest row1 { rows with totalRows := row1 }

/-- `(*File).Rows`: the document after the call, the iterator and the error.
A loaded worksheet is flushed to the package first; `elems` is what the
decoder then yields of the part, for each `row` start element the values of
its attributes named `r`. The part is taken to be in memory. -/
def File.Rows (f : File) (sheet : String) (elems : List (List String)) :
    File × Option Rows × Option Err :=
  match f.sheetMap.lookup (trimSheetName sheet) with
  | none => (f, none, some (.errSheetNotExist sheet))
  | some name =>
    let f1 : File :=
      match f.Sheet.lookup name with
      | some ws =>
        { f with Pkg := (name, { (f.Pkg.lookup name).getD {} with decoded := .ok ws }) :: f.Pkg }
      | none => f
    match rowsScan elems 0 {} with
    | (rows, err) => (f1, some rows, err)

/-- The loop `for rows.Next()` of `GetRows`, with the state `(results, cur,
max)`; `columns k` is what `rows.Columns` returns when the current row is `k`
(that function reads the decoder of the iterator and calls helpers that are
not among the sources). The loop makes at most `totalRows` steps, and `fuel`
bounds them. -/
def getRowsLoop (columns : Int → List String × Option Err) :
    Nat → Rows → List (List String) × Int × Int → List (List String) × Int
  | 0, _, (results, _, max) => (results, max)
  | fuel + 1, rows, (results, cur, max) =>
    if rows.Next.2 then
      match columns rows.Next.1.curRow with
      | (_, some _) => (results, max)
      | (row, none) =>
        getRowsLoop columns fuel rows.Next.1
          (results ++ [row], cur + 1, if row.length > 0 then cur + 1 else max)
    else (results, max)

/-- `GetRows`: the document after the call, the rows and the error; `close` is
what `rows.Close()` returns. -/
def GetRows (f : File) (sheet : String) (elems : List (List String))
    (columns : Int → List String × Option Err) (close : Option Err) :
    File × Option (List (List String)) × Option Err :=
  match File.Rows f sheet elems with
  | (f1, _, some err) => (f1, none, some err)
  | (f1, none, none) => (f1, none, none)
  | (f1, some rows, none) =>
    match getRowsLoop columns (rows.totalRows.toNat + 1) rows ([], 0, 0) with
    | (results, max) => (f1, some (results.take max.toNat), close)

/-! ## trimCell (sheet.go) -/

/-- `trimCell`: the slice itself when every cell has a value, else a new
slice with the cells that have one. -/
def trimCell (hasValue : xlsxC → Bool) (column : List xlsxC) : List xlsxC :=
  if column.foldl (fun rowFull c => hasValue c && rowFull) true then column
  else column.filter hasValue

/-! ## addRels (xlsx.go) -/

/-- Modelled from the spec: the constant `SourceRelationshipSharedStrings` is
not among the sources; it is the relationship type of the shared strings, the
one key of `uniqPart`. -/
def SourceRelationshipSharedStrings : String :=
  "http://schemas.openxmlformats.org/officeDocument/2006/relationships/sharedStrings"

/-- The loop of `addRels` from the index `idx` on: the final `rID`, and the
index of the relationship at which the function returns from inside the loop,
if it does. -/
def addRelsScan (relType : String) : List xlsxRelationship → Nat → Int → Int × Option Nat
  | [], _, rID => (rID, none)
  | rel :: rest, idx, rID =>
    if relType = rel.Typ ∧ rel.Typ = SourceRelationshipSharedStrings then
      (if (strconvAtoi (trimPrefix rel.ID "rId")).1 > rID
        then (strconvAtoi (trimPrefix rel.ID "rId")).1 else rID, some idx)
    else
      addRelsScan relType rest (idx + 1)
        (if (strconvAtoi (trimPrefix rel.ID "rId")).1 > rID
          then (strconvAtoi (trimPrefix rel.ID "rId")).1 else rID)

/-- `relsReader`: nil when the part has no relationships part. -/
def relsReader (f : File) (path : String) : Option (List xlsxRelationship) :=
  f.Relationships.lookup path

/-- `addRels`: the document after the call and the returned number. -/
def addRels (f : File) (relPath relType target targetMode : String) : File × Int :=
  match addRelsScan relType ((relsReader f relPath).getD []) 0 0 with
  | (rID, some idx) =>
    ({ f with Relationships :=
        (relPath, List.modify (fun r => { r with Target := "/xl/sharedStrings.xml" }) idx
          ((relsReader f relPath).getD [])) :: f.Relationships }, rID)
  | (rID, none) =>
    ({ f with Relationships :=
        (relPath, (relsReader f relPath).getD [] ++
          [{ ID := "rId" ++ strconvItoa (wrapInt64 (rID + 1)), Typ := relType, Target := target,
             TargetMode := targetMode }]) :: f.Relationships }, wrapInt64 (rID + 1))

/-! ## deleteSheetFromContentTypes (sheet.go) -/

/-- The statement `s = append(s[:k], s[k+1:]...)` on the slice of length `len`
over the backing array `arr`: the elements after `k` move down one place, the
array keeps what lies at the old last place and after it. `none` is the
panic of `s[k+1:]` when `k + 1` exceeds the length. -/
def deleteAt {α : Type} (arr : List α) (len k : Nat) : Option (List α × Nat) :=
  if k + 1 ≤ len then
    some (arr.take k ++ (arr.drop (k + 1)).take (len - (k + 1)) ++ arr.drop (len - 1), len - 1)
  else none

/-- The loop `for k, v := range s { if p(v) { s = append(s[:k], s[k+1:]...) } }`:
the range runs over the indexes of the slice as it was at the start and reads
the backing array, in which the deletions move the elements. -/
def rangeDelete {α : Type} (p : α → Bool) : List Nat → List α × Nat → Option (List α × Nat)
  | [], st => some st
  | k :: ks, (arr, len) =>
    match arr[k]? with
    | none => none
    | some v =>
      if p v then
        match deleteAt arr len k with
        | none => none
        | some st1 => rangeDelete p ks st1
      else rangeDelete p ks (arr, len)

/-- The loop of `deleteSheetFromContentTypes` on the slice
`content.Overrides`. -/
def deleteOverrides (overrides : List xlsxOverride) (target : String) :
    Option (List xlsxOverride) :=
  match rangeDelete (fun v => decide (v.PartName = target)) (List.range overrides.length)
      (overrides, overrides.length) with
  | none => none
  | some (arr, len) => some (arr.take len)

/-- `deleteSheetFromContentTypes`; `none` is a panic. -/
def deleteSheetFromContentTypes (f : File) (target : String) : Option File :=
  match deleteOverrides f.ContentTypes
      (if "/".data.isPrefixOf target.data then target else "/xl/" ++ target) with
  | none => none
  | some overrides => some { f with ContentTypes := overrides }

/-! ## SearchSheet (sheet.go) and AddComment (comment.go) -/

/-- `SearchSheet`: an unknown sheet is answered with `ErrSheetNotExist{sheet}`;
else the loaded worksheet is written back to its part and `searchSheet`, the
scan of the XML tokens of the part, given here as `search`, answers. `reg`
holds the optional arguments, of which the last one counts. -/
def SearchSheet (search : File → String → String → Bool → List String × Option Err)
    (f : File) (sheet value : String) (reg : List Bool) : File × List String × Option Err :=
  match f.sheetMap.lookup (trimSheetName sheet) with
  | none => (f, [], some (.errSheetNotExist sheet))
  | some name =>
    let f1 : File := match f.Sheet.lookup name with
      | some ws => { f with Pkg := (name, { (f.Pkg.lookup name).getD {} with decoded := .ok ws }) :: f.Pkg }
      | none => f
    match search f1 name value (reg.foldl (fun _ r => r) false) with
    | (result, err) => (f1, result, err)

/-- `addDrawingVML`: the cell name is converted first, and the error of
`CellNameToCoordinates` is returned; `draw` stands for the rest of the
function, which builds the shape at the coordinates and stores the drawing. -/
def addDrawingVML (draw : File → Int → Int → Int → File) (f : File) (commentID : Int)
    (cell : String) : File × Option Err :=
  match CellNameToCoordinates cell with
  | .error e => (f, some e)
  | .ok (col, row) => (draw f commentID col row, none)

/-- `AddComment`: the format is parsed (`parseFormat` is the error of
`json.Unmarshal` on it), the worksheet is read, the relationships of the
comment are registered, and `addDrawingVML`, `addComment` and
`addContentTypePart` follow. The statements between `workSheetReader` and
`addDrawingVML` return no error, and the helpers they call
(`getSheetRelationshipsTargetByID`, `addSheetNameSpace`,
`addSheetLegacyDrawing`) are not among the sources: `register` stands for
them and gives the document and the comment ID; `finish` stands for
`addComment` and `addContentTypePart`. `none` is a panic of
`workSheetReader`. -/
def AddComment (hasValue : xlsxC → Bool) (parseFormat : String → Option Err)
    (register : File → String → File × Int) (draw : File → Int → Int → Int → File)
    (finish : File → Int → String → String → File) (f : File) (sheet cell format : String) :
    Option (File × Option Err) :=
  match parseFormat format with
  | some err => some (f, some err)
  | none =>
    match workSheetReader hasValue f sheet with
    | none => none
    | some (f1, _, some err) => some (f1, some err)
    | some (f1, _, none) =>
      match addDrawingVML draw (register f1 sheet).1 (register f1 sheet).2 cell with
      | (f2, some err) => some (f2, some err)
      | (f2, none) => some (finish f2 (register f1 sheet).2 cell format, none)

/-! ## The workbook (sheet.go, calcchain.go) -/

/-- The functions of the Go library that the workbook functions call:
`strings.EqualFold`, and `Dir`, `Base`, `Clean` and `ToSlash` of the package
`path/filepath`. -/
structure Lib where
  EqualFold : String → String → Bool
  Dir : String → String
  Base : String → String
  Clean : String → String
  ToSlash : String → String

/-- Modelled from the spec: the constant `SourceRelationshipOfficeDocument` is
not among the sources; it is the relationship type of the workbook part. -/
def SourceRelationshipOfficeDocument : String :=
  "http://schemas.openxmlformats.org/officeDocument/2006/relationships/officeDocument"

/-- `getWorkbookPath`: the target of the first relationship of `_rels/.rels`
whose type is the office document, without a leading slash. -/
def getWorkbookPath (f : File) : String :=
  match relsReader f "_rels/.rels" with
  | none => ""
  | some rels =>
    match rels.find? (fun rel => decide (rel.Typ = SourceRelationshipOfficeDocument)) with
    | some rel => trimPrefix rel.Target "/"
    | none => ""

/-- `getWorkbookRelsPath`. -/
def getWorkbookRelsPath (lib : Lib) (f : File) : String :=
  if lib.Dir (getWorkbookPath f) = "." then "_rels/" ++ lib.Base (getWorkbookPath f) ++ ".rels"
  else trimPrefix
    (lib.Dir (getWorkbookPath f) ++ "/_rels/" ++ lib.Base (getWorkbookPath f) ++ ".rels") "/"

/-- The call `strings.Replace(s, "\\", "/", -1)`: every backslash becomes a slash. -/
def replaceBackslash (s : String) : String :=
  String.mk (s.data.map (fun c => if c.toNat = 92 then '/' else c))

/-- `getWorksheetPath`. -/
def getWorksheetPath (lib : Lib) (f : File) (relTarget : String) : String :=
  if "/".data.isPrefixOf relTarget.data then
    lib.ToSlash (trimPrefix (replaceBackslash (lib.Clean relTarget)) "/")
  else
    lib.ToSlash (trimPrefix (replaceBackslash
      (lib.Clean (lib.Dir (getWorkbookPath f) ++ "/" ++ relTarget))) "/")

/-- `GetSheetList`. -/
def GetSheetList (f : File) : List String :=
  f.WorkBook.Sheets.map (fun sheet => sheet.Name)

/-- `GetSheetName`: the name at the index, or the empty string. -/
def GetSheetName (f : File) (index : Int) : String :=
  (getI (GetSheetList f) index).getD ""

/-- The loop of `GetSheetIndex` over the sheet list from the index `index` on. -/
def sheetIndexFrom (lib : Lib) (name : String) : List String → Int → Int
  | [], _ => -1
  | sheet :: rest, index =>
    if lib.EqualFold sheet (trimSheetName name) then index
    else sheetIndexFrom lib name rest (index + 1)

/-- `GetSheetIndex`. -/
def GetSheetIndex (lib : Lib) (f : File) (name : String) : Int :=
  sheetIndexFrom lib name (GetSheetList f) 0

/-- The last return of `getActiveSheetID`: the ID of the first sheet, or 0. -/
def firstSheetID (f : File) : Int :=
  match f.WorkBook.Sheets with
  | sheet :: _ => sheet.SheetID
  | [] => 0

/-- `getActiveSheetID`; `none` is the panic of `wb.Sheets.Sheet[activeTab]`
at a negative `activeTab`. -/
def getActiveSheetID (f : File) : Option Int :=
  match f.WorkBook.BookViews with
  | some (activeTab :: _) =>
    if (f.WorkBook.Sheets.length : Int) > activeTab then
      match getI f.WorkBook.Sheets activeTab with
      | none => none
      | some sheet => if sheet.SheetID ≠ 0 then some sheet.SheetID else some (firstSheetID f)
    else some (firstSheetID f)
  | _ => some (firstSheetID f)

/-- The loop of `GetActiveSheetIndex` over the sheets from the index `idx` on. -/
def activeIndexFrom (sheetID : Int) : List xlsxSheet → Int → Int
  | [], _ => 0
  | sheet :: rest, idx => if sheet.SheetID = sheetID then idx else activeIndexFrom sheetID rest (idx + 1)

/-- `GetActiveSheetIndex`. -/
def GetActiveSheetIndex (f : File) : Option Int :=
  match getActiveSheetID f with
  | none => none
  | some sheetID => some (activeIndexFrom sheetID f.WorkBook.Sheets 0)

/-- The assignment of `wb.Sheets.Sheet`. -/
def withSheets (f : File) (sheets : List xlsxSheet) : File :=
  { f with WorkBook := { f.WorkBook with Sheets := sheets } }

/-- The assignment of `wb.DefinedNames`. -/
def withDefinedNames (f : File) (names : Option (List xlsxDefinedName)) : File :=
  { f with WorkBook := { f.WorkBook with DefinedNames := names } }

/-- The assignment of `wb.BookViews`. -/
def withBookViews (f : File) (views : Option (List Int)) : File :=
  { f with WorkBook := { f.WorkBook with BookViews := views } }

/-- The assignment of `ws.SheetViews`. -/
def withSheetViews (ws : xlsxWorksheet) (views : List xlsxSheetView) : xlsxWorksheet :=
  { ws with SheetViews := some views }

/-- The sheet views `SetActiveSheet` leaves in the worksheet at index `idx`:
a nil `SheetViews` becomes one view, the first view is deselected, and in the
sheet of the index `index` it is selected, or a selected view is appended. -/
def selectedViews (index idx : Int) (views : Option (List xlsxSheetView)) : List xlsxSheetView :=
  match views.getD [{ WorkbookViewID := 0 }] with
  | v :: vs => { v with TabSelected := decide (index = idx) } :: vs
  | [] => if index = idx then [{ TabSelected := true }] else []

/-- The second loop of `SetActiveSheet`, over the sheet list from the index
`idx` on; it ends at the first sheet whose worksheet does not load. -/
def setActiveLoop (hasValue : xlsxC → Bool) (index : Int) : List String → Int → File → Option File
  | [], _, f => some f
  | name :: rest, idx, f =>
    match workSheetReader hasValue f name with
    | none => none
    | some (f1, _, some _) => some f1
    | some (_, none, none) => none
    | some (f1, some ws, none) =>
      setActiveLoop hasValue index rest (idx + 1)
        (storeSheet f1 name (withSheetViews ws (selectedViews index idx ws.SheetViews)))

/-- The first loop of `SetActiveSheet`: when `index` is the index of a sheet,
the active tab of the first workbook view is set, or such a view is appended. -/
def setActiveTab (f : File) (index : Int) : File :=
  if 0 ≤ index ∧ index < f.WorkBook.Sheets.length then
    withBookViews f (some (match f.WorkBook.BookViews.getD [] with
      | _ :: views => index :: views
      | [] => [index]))
  else f

/-- `SetActiveSheet`; `none` is a panic of `workSheetReader`. -/
def SetActiveSheet (hasValue : xlsxC → Bool) (f : File) (index : Int) : Option File :=
  setActiveLoop hasValue (if index < 0 then 0 else index)
    (GetSheetList (setActiveTab f (if index < 0 then 0 else index))) 0
    (setActiveTab f (if index < 0 then 0 else index))

/-- The loop of `DeleteSheet` over the defined names: a name of the deleted
sheet is removed (and the index stays, `idx--`), a name of a later sheet gets
the local sheet ID before its own. -/
def deleteSheetDefinedNames (deleteLocalSheetID : Int) : List xlsxDefinedName → List xlsxDefinedName
  | [] => []
  | dn :: rest =>
    match dn.LocalSheetID with
    | some localSheetID =>
      if localSheetID = deleteLocalSheetID then deleteSheetDefinedNames deleteLocalSheetID rest
      else if localSheetID > deleteLocalSheetID then
        { dn with LocalSheetID := some (localSheetID - 1) } ::
          deleteSheetDefinedNames deleteLocalSheetID rest
      else dn :: deleteSheetDefinedNames deleteLocalSheetID rest
    | none => dn :: deleteSheetDefinedNames deleteLocalSheetID rest

/-- The loop of `deleteSheetFromWorkbookRels`: the list without the first
relationship of the ID, and the target of that relationship. -/
def removeRelationship (rID : String) : List xlsxRelationship → Option (List xlsxRelationship × String)
  | [] => none
  | v :: rest =>
    if v.ID = rID then some (rest, v.Target)
    else (removeRelationship rID rest).map (fun r => (v :: r.1, r.2))

/-- `deleteSheetFromWorkbookRels`: the document and the returned target;
`none` is the nil dereference of `content.Lock()` when the workbook has no
relationships part. -/
def deleteSheetFromWorkbookRels (lib : Lib) (f : File) (rID : String) : Option (File × String) :=
  match relsReader f (getWorkbookRelsPath lib f) with
  | none => none
  | some rels =>
    match removeRelationship rID rels with
    | some (rels1, target) =>
      some ({ f with Relationships := (getWorkbookRelsPath lib f, rels1) :: f.Relationships }, target)
    | none => some (f, "")

/-- `deleteCalcChain`; `none` is a panic of the loop that deletes the
override of `/xl/calcChain.xml` while it ranges over the overrides. -/
def deleteCalcChain (f : File) (index : Int) (axis : String) : Option File :=
  if (f.CalcChain.filter (fun c =>
      !((decide (c.I = index) && decide (c.R = axis)) ||
        (decide (c.I = index) && decide (axis = ""))))).length = 0 then
    match deleteOverrides f.ContentTypes "/xl/calcChain.xml" with
    | none => none
    | some overrides =>
      some { f with CalcChain := [], Pkg := f.Pkg.filter (fun p => p.1 ≠ "xl/calcChain.xml"),
                    ContentTypes := overrides }
  else
    some { f with CalcChain := f.CalcChain.filter (fun c =>
      !((decide (c.I = index) && decide (c.R = axis)) ||
        (decide (c.I = index) && decide (axis = "")))) }

/-- The variables `sheetXML` and `rels` of `DeleteSheet` after the loop over
the relationships of the workbook: the last relationship of the ID of the
sheet sets them. -/
def sheetParts (lib : Lib) (f : File) (sheetName : String) (sheet : xlsxSheet) : String × String :=
  match relsReader f (getWorkbookRelsPath lib f) with
  | none => ("", "")
  | some rels =>
    rels.foldl (fun acc rel =>
      if rel.ID = sheet.ID then
        (getWorksheetPath lib f rel.Target,
         "xl/worksheets/_rels/" ++
           trimPrefix ((f.sheetMap.lookup sheetName).getD "") "xl/worksheets/" ++ ".rels")
      else acc) ("", "")

/-- The deletions that end the body of the loop of `DeleteSheet`: the keys of
the maps, and `f.SheetCount--`. -/
def dropSheetParts (f : File) (name sheetXML rels : String) : File :=
  { f with sheetMap := f.sheetMap.filter (fun p => p.1 ≠ name),
           Pkg := f.Pkg.filter (fun p => p.1 ≠ sheetXML ∧ p.1 ≠ rels),
           Relationships := f.Relationships.filter (fun p => p.1 ≠ rels),
           Sheet := f.Sheet.filter (fun p => p.1 ≠ sheetXML),
           xmlAttr := f.xmlAttr.filter (fun p => p.1 ≠ sheetXML),
           SheetCount := wrapInt64 (f.SheetCount - 1) }

/-- The body of the loop of `DeleteSheet` for a sheet whose name matches, after
the sheet is taken out of the slice. The relationships of the workbook are
read where the body needs them: they are the ones `wbRels` points to as long
as the part is registered, and without it `deleteSheetFromWorkbookRels`
panics. -/
def deleteSheetBody (lib : Lib) (f : File) (sheetName : String) (sheet : xlsxSheet) : Option File :=
  match deleteSheetFromWorkbookRels lib f sheet.ID with
  | none => none
  | some (f1, target) =>
    match deleteSheetFromContentTypes f1 target with
    | none => none
    | some f2 =>
      match deleteCalcChain f2 sheet.SheetID "" with
      | none => none
      | some f3 =>
        some (dropSheetParts f3 sheet.Name (sheetParts lib f sheetName sheet).1
          (sheetParts lib f sheetName sheet).2)

/-- The loop of `DeleteSheet` over the sheets: the range runs over the indices
of the slice as it was, reads the sheet in the backing array `arr`, and a
matching sheet is deleted in place from the slice, which holds the first `len`
entries of `arr`; `none` is a panic. -/
def deleteSheetLoop (lib : Lib) (sheetName : String) :
    List Nat → File × List xlsxSheet × Nat → Option (File × List xlsxSheet × Nat)
  | [], st => some st
  | idx :: rest, (f, arr, len) =>
    match arr[idx]? with
    | none => none
    | some sheet =>
      if lib.EqualFold sheet.Name sheetName then
        match deleteAt arr len idx with
        | none => none
        | some (arr1, len1) =>
          match deleteSheetBody lib f sheetName sheet with
          | none => none
          | some f1 => deleteSheetLoop lib sheetName rest (f1, arr1, len1)
      else deleteSheetLoop lib sheetName rest (f, arr, len)

/-- `DeleteSheet`; `none` is a panic. The sheets are kept apart from the
document while the loop runs, no statement of its body reading them. -/
def DeleteSheet (hasValue : xlsxC → Bool) (lib : Lib) (f : File) (name : String) : Option File :=
  if f.SheetCount = 1 ∨ GetSheetIndex lib f name = -1 then some f
  else
    match GetActiveSheetIndex f with
    | none => none
    | some active =>
      match deleteSheetLoop lib (trimSheetName name) (List.range f.WorkBook.Sheets.length)
          (withDefinedNames f (f.WorkBook.DefinedNames.map
            (deleteSheetDefinedNames (GetSheetIndex lib f name))),
           f.WorkBook.Sheets, f.WorkBook.Sheets.length) with
      | none => none
      | some (f1, arr, len) =>
        SetActiveSheet hasValue (withSheets f1 (arr.take len))
          (GetSheetIndex lib (withSheets f1 (arr.take len)) (GetSheetName f active))

/-! ## Defined names (sheet.go) -/

/-- A defined name as the caller gives and reads it (`DefinedName`; its
declaration is not among the sources). -/
structure DefinedName where
  Name : String := ""
  Comment : String := ""
  RefersTo : String := ""
  Scope : String := ""
  deriving DecidableEq, Repr

/-- The variable `scope` of the loop of `SetDefinedName`. -/
def definedNameScope (f : File) (dn : xlsxDefinedName) : String :=
  match dn.LocalSheetID with
  | some localSheetID => GetSheetName f localSheetID
  | none => ""

/-- The entry `d` that `SetDefinedName` builds. -/
def newDefinedName (lib : Lib) (f : File) (definedName : DefinedName) : xlsxDefinedName :=
  { Name := definedName.Name, Comment := definedName.Comment, Data := definedName.RefersTo,
    LocalSheetID :=
      if definedName.Scope ≠ "" ∧ GetSheetIndex lib f definedName.Scope ≥ 0 then
        some (GetSheetIndex lib f definedName.Scope)
      else none }

/-- `SetDefinedName`: the document after the call and the returned error. -/
def SetDefinedName (lib : Lib) (f : File) (definedName : DefinedName) : File × Option Err :=
  match f.WorkBook.DefinedNames with
  | some names =>
    if names.any (fun dn =>
        decide (definedNameScope f dn = definedName.Scope) && decide (dn.Name = definedName.Name))
    then (f, some .definedNameDuplicate)
    else (withDefinedNames f (some (names ++ [newDefinedName lib f definedName])), none)
  | none => (withDefinedNames f (some [newDefinedName lib f definedName]), none)

/-- The scope `GetDefinedName` reports for an entry. -/
def reportedScope (f : File) (dn : xlsxDefinedName) : String :=
  match dn.LocalSheetID with
  | some localSheetID => if localSheetID ≥ 0 then GetSheetName f localSheetID else "Workbook"
  | none => "Workbook"

/-- `GetDefinedName`. -/
def GetDefinedName (f : File) : List DefinedName :=
  match f.WorkBook.DefinedNames with
  | some names => names.map (fun dn =>
      { Name := dn.Name, Comment := dn.Comment, RefersTo := dn.Data, Scope := reportedScope f dn })
  | none => []

/-! ## The options of OpenReader (xlsx.go) -/

/-- The options for opening a spreadsheet (`Options`); the limits are `int64`. -/
structure Options where
  Password : String := ""
  RawCellValue : Bool := false
  UnzipSizeLimit : Int := 0
  WorksheetUnzipMemLimit : Int := 0
  deriving DecidableEq, Repr

/-- `parseOptions`: the last of the options given, or the zero value. -/
def parseOptions (opts : List Options) : Options :=
  opts.foldl (fun _ o => o) {}

/-- The statements of `OpenReader` that resolve the two size limits of
`f.options`, up to the return of `ErrOptionsUnzipSizeLimit`; reading the
archive, which follows, is not modelled. `UnzipSizeLimit` and
`StreamChunkSize` are constants that are not among the sources. -/
def OpenReader (UnzipSizeLimit StreamChunkSize : Int) (opt : List Options) : Except Err Options :=
  let o := parseOptions opt
  let o1 : Options :=
    if o.UnzipSizeLimit = 0 then
      if o.WorksheetUnzipMemLimit > UnzipSizeLimit then
        { o with UnzipSizeLimit := o.WorksheetUnzipMemLimit }
      else { o with UnzipSizeLimit := UnzipSizeLimit }
    else o
  let o2 : Options :=
    if o1.WorksheetUnzipMemLimit = 0 then
      if o1.UnzipSizeLimit < StreamChunkSize then
        { o1 with WorksheetUnzipMemLimit := o1.UnzipSizeLimit }
      else { o1 with WorksheetUnzipMemLimit := StreamChunkSize }
    else o1
  if o2.WorksheetUnzipMemLimit > o2.UnzipSizeLimit then .error .optionsUnzipSizeLimit
  else .ok o2

/-! ## SetRowStyle (rows.go) -/

/-- The loop of `SetRowStyle` over the row indices: the style and the
custom-format flag of each row are written; `none` is an index out of range. -/
def setRowStyleLoop (styleID : Int) : List Int → xlsxWorksheet → Option xlsxWorksheet
  | [], ws => some ws
  | row :: rest, ws =>
    match setRowField ws row (fun r => { r with S := styleID, CustomFormat := true }) with
    | none => none
    | some ws1 => setRowStyleLoop styleID rest ws1

/-- `SetRowStyle`, with `finish` for its parameter `end`: the document after
the call and the returned error. `TotalRows` is a constant that is not among
the sources. -/
def SetRowStyle (hasValue : xlsxC → Bool) (TotalRows : Int) (f : File) (sheet : String)
    (start finish styleID : Int) : Option (File × Option Err) :=
  if (if finish < start then finish else start) < 1 then
    some (f, some (.invalidRowNumber (if finish < start then finish else start)))
  else if (if finish < start then start else finish) > TotalRows then some (f, some .maxRows)
  else if styleID < 0 then some (f, some (.invalidStyleID styleID))
  else
    match workSheetReader hasValue f sheet with
    | none => none
    | some (f1, _, some err) => some (f1, some err)
    | some (_, none, none) => none
    | some (f1, some ws, none) =>
      match prepareSheetXML ws 0 (if finish < start then start else finish) with
      | none => none
      | some ws1 =>
        match setRowStyleLoop styleID
            (intRange ((if finish < start then finish else start) - 1)
              ((if finish < start then start else finish) - 1)) ws1 with
        | none => none
        | some ws2 => some (storeSheet f1 sheet ws2, none)

/-! ## SetHeaderFooter (sheet.go) -/

/-- The settings of header and footer (`FormatHeaderFooter`). -/
structure FormatHeaderFooter where
  AlignWithMargins : Bool := false
  DifferentFirst : Bool := false
  DifferentOddEven : Bool := false
  ScaleWithDoc : Bool := false
  OddHeader : String := ""
  OddFooter : String := ""
  EvenHeader : String := ""
  EvenFooter : String := ""
  FirstFooter : String := ""
  FirstHeader : String := ""
  deriving DecidableEq, Repr

/-- The length `len(utf16.Encode([]rune(s)))`: a character beyond the basic
plane takes two code units. -/
def utf16Length (s : String) : Nat :=
  s.data.foldl (fun n c => n + (if c.toNat ≥ 65536 then 2 else 1)) 0

/-- What reflection gives for the fields of the settings, in the order of
the declaration: the name `v.Type().Field(i).Name` and the string
`v.Field(i).String()`, which for a field that is not a string is the name of
its type between angle brackets. -/
def settingsFields (settings : FormatHeaderFooter) : List (String × String) :=
  [("AlignWithMargins", "<bool Value>"), ("DifferentFirst", "<bool Value>"),
   ("DifferentOddEven", "<bool Value>"), ("ScaleWithDoc", "<bool Value>"),
   ("OddHeader", settings.OddHeader), ("OddFooter", settings.OddFooter),
   ("EvenHeader", settings.EvenHeader), ("EvenFooter", settings.EvenFooter),
   ("FirstFooter", settings.FirstFooter), ("FirstHeader", settings.FirstHeader)]

/-- The loop `for i := 4; i < v.NumField()-1; i++` of `SetHeaderFooter` over
the indices it visits: the error of the first field that is too long, if any;
`none` is an index out of range. `MaxFieldLength` is a constant that is not
among the sources. -/
def checkFieldLengths (MaxFieldLength : Int) (fields : List (String × String)) :
    List Int → Option (Option Err)
  | [] => some none
  | i :: rest =>
    match getI fields i with
    | none => none
    | some (name, value) =>
      if (utf16Length value : Int) > MaxFieldLength then some (some (.fieldLength name))
      else checkFieldLengths MaxFieldLength fields rest

/-- The element `SetHeaderFooter` stores for the settings. -/
def headerFooterOf (settings : FormatHeaderFooter) : xlsxHeaderFooter :=
  { AlignWithMargins := settings.AlignWithMargins, DifferentFirst := settings.DifferentFirst,
    DifferentOddEven := settings.DifferentOddEven, ScaleWithDoc := settings.ScaleWithDoc,
    OddHeader := settings.OddHeader, OddFooter := settings.OddFooter,
    EvenHeader := settings.EvenHeader, EvenFooter := settings.EvenFooter,
    FirstFooter := settings.FirstFooter, FirstHeader := settings.FirstHeader }

/-- The assignment of `ws.HeaderFooter`. -/
def withHeaderFooter (ws : xlsxWorksheet) (hf : Option xlsxHeaderFooter) : xlsxWorksheet :=
  { ws with HeaderFooter := hf }

/-- `SetHeaderFooter`; `settings` is a pointer, `none` when nil. -/
def SetHeaderFooter (hasValue : xlsxC → Bool) (MaxFieldLength : Int) (f : File) (sheet : String)
    (settings : Option FormatHeaderFooter) : Option (File × Option Err) :=
  match workSheetReader hasValue f sheet with
  | none => none
  | some (f1, _, some err) => some (f1, some err)
  | some (_, none, none) => none
  | some (f1, some ws, none) =>
    match settings with
    | none => some (storeSheet f1 sheet (withHeaderFooter ws none), none)
    | some s =>
      match checkFieldLengths MaxFieldLength (settingsFields s)
          (intRange 4 (((settingsFields s).length : Int) - 1 - 1)) with
      | none => none
      | some (some err) => some (f1, some err)
      | some none => some (storeSheet f1 sheet (withHeaderFooter ws (some (headerFooterOf s))), none)

/-! ## SetSheetVisible and GetSheetVisible (sheet.go) -/

/-- The second loop of `SetSheetVisible(name, false)`, over the sheets from
the index `k` on; `count` is the number of sheets whose state is not
`hidden`. `none` is a panic: of `workSheetReader`, or the nil dereference
`ws.SheetViews.SheetView` in a worksheet without sheet views. -/
def hideSheetLoop (hasValue : xlsxC → Bool) (name : String) (count : Nat) :
    List xlsxSheet → Nat → File → Option (File × Option Err)
  | [], _, f => some (f, none)
  | v :: rest, k, f =>
    match workSheetReader hasValue f v.Name with
    | none => none
    | some (f1, _, some err) => some (f1, some err)
    | some (_, none, none) => none
    | some (f1, some ws, none) =>
      match ws.SheetViews with
      | none => none
      | some views =>
        if v.Name = name ∧ count > 1 ∧
            (match views with
              | view :: _ => view.TabSelected
              | [] => false) = false then
          hideSheetLoop hasValue name count rest (k + 1)
            (withSheets f1 (List.modify (fun s => { s with State := "hidden" }) k
              f1.WorkBook.Sheets))
        else hideSheetLoop hasValue name count rest (k + 1) f1

/-- `SetSheetVisible`. -/
def SetSheetVisible (hasValue : xlsxC → Bool) (f : File) (name : String) (visible : Bool) :
    Option (File × Option Err) :=
  if visible then
    some (withSheets f (f.WorkBook.Sheets.map (fun v =>
      if v.Name = trimSheetName name then { v with State := "" } else v)), none)
  else
    hideSheetLoop hasValue (trimSheetName name)
      (f.WorkBook.Sheets.filter (fun v => decide (v.State ≠ "hidden"))).length
      f.WorkBook.Sheets 0 f

/-- `GetSheetVisible`. -/
def GetSheetVisible (f : File) (name : String) : Bool :=
  f.WorkBook.Sheets.foldl (fun visible v =>
    if v.Name = trimSheetName name ∧ (v.State = "" ∨ v.State = "visible") then true
    else visible) false

/-! ## addComment and GetComments (comment.go) -/

/-- The format of a comment (`formatComment`; its declaration is not among
the sources). -/
structure formatComment where
  Author : String := ""
  Text : String := ""
  deriving DecidableEq, Repr

/-- A comment as `GetComments` reports it (`Comment`; its declaration is not
among the sources). -/
structure Comment where
  Author : String := ""
  AuthorID : Int := 0
  Ref : String := ""
  Text : String := ""
  deriving DecidableEq, Repr

/-- Modelled from the spec: `inStrSlice` (lib.go is not among the sources)
gives the index of the first element of the slice equal to the string, or -1. -/
def inStrSlice (a : List String) (x : String) : Int :=
  match a.indexOf? x with
  | some i => (i : Int)
  | none => -1

/-- `commentsReader`: the comments part of the path, nil when there is none. -/
def commentsReader (f : File) (path : String) : Option xlsxComments :=
  f.Comments.lookup path

/-- The comments `addComment` has after its test of the author: the author
is appended when `inStrSlice` does not find it, and the second component is
`authorID`. -/
def withAuthor (comments : xlsxComments) (author : String) : xlsxComments × Int :=
  if inStrSlice comments.Authors author = -1 then
    ({ comments with Authors := comments.Authors ++ [author] },
      ((comments.Authors ++ [author]).length : Int) - 1)
  else (comments, 0)

/-- `addComment`. `truncate s n` stands for `if len(s) > n { s = s[:n] }`, a
cut at a number of bytes; `MaxFieldLength` is a constant that is not among
the sources. The two runs of the text carry the author and the text. -/
def addComment (truncate : String → Int → String) (MaxFieldLength : Int) (f : File)
    (commentsXML cell : String) (formatSet : formatComment) : File :=
  let comments := withAuthor
    ((commentsReader f commentsXML).getD { Authors := [formatSet.Author] }) formatSet.Author
  { f with Comments :=
      (commentsXML, { comments.1 with
        CommentList := comments.1.CommentList ++
          [{ Ref := cell, AuthorID := comments.2,
             R := [some (truncate formatSet.Author MaxFieldLength),
                   some (truncate formatSet.Text 32512)] }] }) :: f.Comments }

/-- The comment `GetComments` reports for a comment of the part `d`; `none`
is the panic of `d.Authors.Author[comment.AuthorID]` at a negative ID. -/
def sheetComment (d : xlsxComments) (comment : xlsxComment) : Option Comment :=
  if comment.AuthorID < d.Authors.length then
    match getI d.Authors comment.AuthorID with
    | none => none
    | some author =>
      some { Author := author, Ref := comment.Ref, AuthorID := comment.AuthorID,
             Text := comment.R.foldl (fun text t => text ++ t.getD "") (comment.T.getD "") }
  else
    some { Ref := comment.Ref, AuthorID := comment.AuthorID,
           Text := comment.R.foldl (fun text t => text ++ t.getD "") (comment.T.getD "") }

/-- The loop of `GetComments` over the comments of one part: the comments it
reports for the sheet of the part. -/
def sheetComments (d : xlsxComments) : Option (List Comment) :=
  d.CommentList.mapM (sheetComment d)

/-! ## Notions the properties are stated with -/

/-- Modelled from the spec: the method `(*xlsxC).hasValue` is not among the
sources, and the spec speaks of a cell that "does not already have a value".
Here a cell has a value when it carries a style, a value, a formula or a type;
the general theorems take `hasValue` as a parameter, and this instance serves
the concrete inputs. -/
def cellHasValue (c : xlsxC) : Bool :=
  c.S != 0 || c.V != "" || c.F.isSome || c.T != ""

/-- The rows of a decoded list that claim row number `n`, in document order. -/
def rowsAt (n : Int) (rows : List xlsxRow) : List xlsxRow :=
  rows.filter (fun r => r.R = n)

/-- The number of the last row of a decoded list, 0 for the empty list. -/
def lastRowNumber (rows : List xlsxRow) : Int :=
  rows.foldl (fun _ r => r.R) 0

/-- The column the specification gives each cell of a row, `prev` being the
column of the cell before: the column of its reference, or `prev + 1` for a
cell without reference; `none` when a reference does not parse. -/
def cellColumns : Int → List xlsxC → Option (List Int)
  | _, [] => some []
  | prev, c :: cs =>
    if c.R = "" then (cellColumns (prev + 1) cs).map (fun l => (prev + 1) :: l)
    else
      match CellNameToCoordinates c.R with
      | .error _ => none
      | .ok (col, _) => (cellColumns col cs).map (fun l => col :: l)

/-- A cell as `checkRow` leaves it in the row at index `rowIdx`: a cell
without reference takes the reference of its column, another is unchanged. -/
def withReference (rowIdx : Int) (col : Int) (c : xlsxC) : xlsxC :=
  if c.R = "" then { c with R := cellNameOrEmpty col (rowIdx + 1) } else c

/-- The cell list `cells` is the densified form of the cells `cs`, whose
columns are `cols`, in the row at index `rowIdx`: it has as many entries as
the last column, each cell of `cs` sits at index (column - 1), and every
other entry is an empty cell carrying the reference of its position. -/
def densified (rowIdx : Int) (cs : List xlsxC) (cols : List Int) (cells : List xlsxC) : Prop :=
  (cells.length : Int) = cols.getLastD 0 ∧
  (∀ (k : Nat) (c : xlsxC) (col : Int), cs[k]? = some c → cols[k]? = some col →
    getI cells (col - 1) = some (withReference rowIdx col c)) ∧
  (∀ j : Nat, j < cells.length → ((j : Int) + 1) ∉ cols →
    cells[j]? = some { R := cellNameOrEmpty ((j : Int) + 1) (rowIdx + 1) })

/-- The cell list is contiguous from column 1: the cell at position `j`
carries a reference whose column is `j + 1` (so the list has exactly as many
entries as the column of its last cell, without gap or duplicate). -/
def contiguousColumns (cells : List xlsxC) : Prop :=
  ∀ (j : Nat) (c : xlsxC), cells[j]? = some c →
    ∃ row, CellNameToCoordinates c.R = .ok ((j : Int) + 1, row)

/-- The decoded rows of the scenario of the specification: row 1 with `A1`,
row 3 with `C3`. -/
def scenarioRows : List xlsxRow :=
  [{ R := 1, C := [{ R := "A1", V := "x" }] }, { R := 3, C := [{ R := "C3", V := "y" }] }]

/-- The row of the documentation of `checkRow`: `A15`, `B15`, `F15`, `G15`. -/
def row15 : xlsxRow :=
  { R := 15, Spans := "1:22",
    C := [{ R := "A15", S := 2 }, { R := "B15", S := 2 }, { R := "F15", S := 1 },
          { R := "G15", S := 1 }] }

/-- A worksheet of fifteen rows whose last row is `row15`. -/
def sheet15 : xlsxSheetData :=
  { Row := (List.range 14).map (fun (i : Nat) => ({ R := (i : Int) + 1 } : xlsxRow)) ++ [row15] }

/-- Two adjacent decoded rows that claim row number 2. -/
def duplicateRows : List xlsxRow :=
  [{ R := 1, C := [{ R := "A1", V := "a" }] },
   { R := 2, C := [{ R := "A2", V := "b" }] },
   { R := 2, C := [{ R := "B2", V := "c" }] }]

/-- The cell stored at position `j` of the row at index `i`, if there is one. -/
def cellAt (rows : List xlsxRow) (i j : Nat) : Option xlsxC :=
  match rows[i]? with
  | none => none
  | some t => t.C[j]?

/-- The `(col, row)` a cell of the fallback row targets; `none` when its
reference does not parse. -/
def fallbackTarget (c : xlsxC) : Option (Int × Int) :=
  match CellNameToCoordinates c.R with
  | .ok p => some p
  | .error _ => none

/-- A decoded row list with a fallback row: its cell `A1` targets a slot that
has a value, its cell `B2` a slot that does not exist yet. -/
def fallbackRows : List xlsxRow :=
  [{ R := 0, C := [{ R := "A1", V := "f1" }, { R := "B2", V := "f2" }] },
   { R := 1, C := [{ R := "A1", V := "own" }] }]

/-- A document with the one sheet `Sheet1`, whose part decodes to the given
rows and is not loaded yet. -/
def fileWith (rows : List xlsxRow) : File :=
  { sheetMap := [("Sheet1", "xl/worksheets/sheet1.xml")],
    Pkg := [("xl/worksheets/sheet1.xml", { decoded := .ok { SheetData := { Row := rows } } })] }

/-- The grid has `cols` columns of `rows` entries each. -/
def matrixDims (m : Matrix) (cols rows : Nat) : Prop :=
  m.length = cols ∧ ∀ col ∈ m, col.length = rows

/-- Modelled from the spec: `isOverlap` (not among the sources), "two
rectangles overlap unless one is entirely to one side in either axis". -/
def isOverlap (rect1 rect2 : Rect) : Bool :=
  decide (rect1.x1 ≤ rect2.x2 ∧ rect2.x1 ≤ rect1.x2 ∧ rect1.y1 ≤ rect2.y2 ∧ rect2.y1 ≤ rect1.y2)

/-- The bounding rectangle of two rectangles. -/
def boundingRect (a b : Rect) : Rect :=
  { x1 := min a.x1 b.x1, y1 := min a.y1 b.y1, x2 := max a.x2 b.x2, y2 := max a.y2 b.y2 }

/-- The reference `topLeft:bottomRight` of a rectangle. -/
def rectRef (r : Rect) : String :=
  cellNameOrEmpty r.x1 r.y1 ++ ":" ++ cellNameOrEmpty r.x2 r.y2

/-- The cached rectangles of the merged cells of a list, in order. -/
def rectsOf (h : Heap) (cells : List Ptr) : List (Option Rect) :=
  cells.map (fun p =>
    match p with
    | none => none
    | some a =>
      match h.cells[a]? with
      | none => none
      | some c =>
        match c.rect with
        | none => none
        | some i => h.rects[i]?)

/-- The rectangle `mergeCell` leaves in its second argument: the larger of
the top-left and the smaller of the bottom-right coordinates. -/
def meetRect (a b : Rect) : Rect :=
  { x1 := max a.x1 b.x1, y1 := max a.y1 b.y1, x2 := min a.x2 b.x2, y2 := min a.y2 b.y2 }

/-- A merge list of exactly two regions with the references `a` and `b`:
as `MergeCell` appends them, each with its rectangle cached (`cached`), or as
decoded from the worksheet part, no rectangle cached. -/
def twoRegions (cached : Bool) (a b : String) (ra rb : Rect) : Heap × xlsxMergeCells :=
  if cached then
    ({ cells := [{ Ref := a, rect := some 0 }, { Ref := b, rect := some 1 }], rects := [ra, rb] },
     { Count := 2, Cells := [some 0, some 1] })
  else decodedMergeCells [a, b]

/-- The worksheet the document holds for a sheet name, if it holds one. -/
def loadedSheet (f : File) (sheet : String) : Option xlsxWorksheet :=
  match f.sheetMap.lookup (trimSheetName sheet) with
  | none => none
  | some name => f.Sheet.lookup name

/-- A document whose one sheet `Sheet1` is loaded, with the given worksheet. -/
def loadedFile (ws : xlsxWorksheet) : File :=
  { sheetMap := [("Sheet1", "xl/worksheets/sheet1.xml")],
    Sheet := [("xl/worksheets/sheet1.xml", ws)] }

/-- The dense-row invariant: the row at index `i` carries the number `i + 1`. -/
def denseRows (rows : List xlsxRow) : Prop :=
  ∀ (i : Nat) (r : xlsxRow), rows[i]? = some r → r.R = (i : Int) + 1

/-- What a row setter at row `row` that writes with `set` may change of the
worksheet `ws`: `ws1` has `max n row` rows, numbered densely; a row that
existed is unchanged, but for the row `row`, which is `set` of what it was; a
row that did not exist has no cell; the other parts of the worksheet are
unchanged. -/
def rowSetterFrame (ws ws1 : xlsxWorksheet) (row : Int) (set : xlsxRow → xlsxRow) : Prop :=
  ws1.MergeCells = ws.MergeCells ∧ ws1.SheetFormatPr = ws.SheetFormatPr ∧
  (ws1.SheetData.Row.length : Int) = max (ws.SheetData.Row.length : Int) row ∧
  denseRows ws1.SheetData.Row ∧
  (∀ (i : Nat) (r : xlsxRow), ws.SheetData.Row[i]? = some r →
    ws1.SheetData.Row[i]? = some (if (i : Int) = row - 1 then set r else r)) ∧
  (∀ (i : Nat) (r : xlsxRow), ws.SheetData.Row.length ≤ i → ws1.SheetData.Row[i]? = some r →
    r.C = [])

/-- A worksheet of one row, numbered 1, without cells. -/
def oneRowSheet : xlsxWorksheet := { SheetData := { Row := [{ R := 1 }] } }

/-- A worksheet of one row that declares the default row height 30. -/
def customHeightSheet : xlsxWorksheet :=
  { SheetData := { Row := [{ R := 1 }] },
    SheetFormatPr := some { DefaultRowHeight := 30, CustomHeight := true } }

/-! ## MergeCell, UnmergeCell (merge.go) and duplicateMergeCells (rows.go) -/

/-- Modelled from the spec: `sortCoordinates` (lib.go is not among the
sources) "normalizes a rectangle so x1≤x2, y1≤y2". -/
def sortCoordinates (r : Rect) : Rect :=
  { x1 := min r.x1 r.x2, y1 := min r.y1 r.y2, x2 := max r.x1 r.x2, y2 := max r.y1 r.y2 }

/-- The assignment `ws.MergeCells = mc`. -/
def withMergeCells (ws : xlsxWorksheet) (mc : Option xlsxMergeCells) : xlsxWorksheet :=
  { ws with MergeCells := mc }

/-- `MergeCell`: the heap and the document after the call, and the returned
error. The new object `&xlsxMergeCell{Ref: ref, rect: rect}` and the slice
`rect` take the next addresses of the heap. -/
def MergeCell (hasValue : xlsxC → Bool) (h : Heap) (f : File) (sheet hcell vcell : String) :
    Option (Heap × File × Option Err) :=
  match areaRefToCoordinates (hcell ++ ":" ++ vcell) with
  | .error e => some (h, f, some e)
  | .ok rect0 =>
    match workSheetReader hasValue f sheet with
    | none => none
    | some (f1, _, some err) => some (h, f1, some err)
    | some (_, none, none) => none
    | some (f1, some ws, none) =>
      let rect := sortCoordinates rect0
      let ref := cellNameOrEmpty rect.x1 rect.y1 ++ ":" ++ cellNameOrEmpty rect.x2 rect.y2
      let cells :=
        match ws.MergeCells with
        | some mc => mc.Cells ++ [some h.cells.length]
        | none => [some h.cells.length]
      some ({ cells := h.cells ++ [{ Ref := ref, rect := some h.rects.length }],
              rects := h.rects ++ [rect] },
            storeSheet f1 sheet (withMergeCells ws (some { Count := cells.length, Cells := cells })),
            none)

/-- The loop of `UnmergeCell` over `ws.MergeCells.Cells`: the cells it keeps.
A nil cell is skipped; a cell whose reference intersects `rect1` is dropped.
`none` when a reference does not parse, `isOverlap` then indexing the nil
slice the ignored error leaves, or when a pointer dangles. -/
def unmergeKeep (h : Heap) (rect1 : Rect) : List Ptr → Option (List Ptr)
  | [] => some []
  | mergeCell :: rest =>
    match mergeCell with
    | none => unmergeKeep h rect1 rest
    | some p =>
      match h.cells[p]? with
      | none => none
      | some c =>
        match areaRefToCoordinates c.Ref with
        | .error _ => none
        | .ok rect2 =>
          match unmergeKeep h rect1 rest with
          | none => none
          | some kept => if isOverlap rect1 rect2 then some kept else some (mergeCell :: kept)

/-- `UnmergeCell`: the heap and the document after the call, and the returned
error. -/
def UnmergeCell (hasValue : xlsxC → Bool) (h : Heap) (f : File) (sheet hcell vcell : String) :
    Option (Heap × File × Option Err) :=
  match workSheetReader hasValue f sheet with
  | none => none
  | some (f1, _, some err) => some (h, f1, some err)
  | some (_, none, none) => none
  | some (f1, some ws, none) =>
    match areaRefToCoordinates (hcell ++ ":" ++ vcell) with
    | .error e => some (h, f1, some e)
    | .ok rect0 =>
      match ws.MergeCells with
      | none => some (h, f1, none)
      | some mc =>
        match mergeOverlapCells h mc with
        | none => none
        | some (h1, _, some e) => some (h1, f1, some e)
        | some (h1, mc1, none) =>
          match unmergeKeep h1 (sortCoordinates rect0) mc1.Cells with
          | none => none
          | some kept =>
            if kept.length = 0 then some (h1, storeSheet f1 sheet (withMergeCells ws none), none)
            else
              some (h1, storeSheet f1 sheet
                (withMergeCells ws (some { Count := kept.length, Cells := kept })), none)

/-- The first loop of `duplicateMergeCells`: `.error r` when the function
returns `r` from inside the loop (an error of the parser, or nil when a region
starts above `row2` and ends below it), `.ok` when the loop ends; `none` when
a cell is nil. -/
def duplicateMergeCellsGuard (h : Heap) (row2 : Int) :
    List Ptr → Option (Except (Option Err) Unit)
  | [] => some (.ok ())
  | rng :: rest =>
    match rng with
    | none => none
    | some p =>
      match h.cells[p]? with
      | none => none
      | some c =>
        match areaRefToCoordinates c.Ref with
        | .error e => some (.error (some e))
        | .ok coordinates =>
          if coordinates.y1 < row2 ∧ row2 < coordinates.y2 then some (.error none)
          else duplicateMergeCellsGuard h row2 rest

/-- The second loop of `duplicateMergeCells`, `for i := 0; i <
len(ws.MergeCells.Cells); i++`, from index `i` on. The length is read anew at
each step, and `MergeCell` appends to the list the loop runs over, so the
loop is given `fuel` steps; `none` when the fuel runs out, or on a panic (a nil
cell, or a reference that does not parse). -/
def duplicateMergeCellsLoop (hasValue : xlsxC → Bool) (sheet : String) (row row2 : Int) :
    Nat → Nat → Heap → File → Option (Heap × File × Option Err)
  | 0, _, _, _ => none
  | fuel + 1, i, h, f =>
    match loadedSheet f sheet with
    | none => none
    | some ws =>
      match ws.MergeCells with
      | none => none
      | some mc =>
        if i < mc.Cells.length then
          match mc.Cells[i]? with
          | some (some p) =>
            match h.cells[p]? with
            | none => none
            | some areaData =>
              match areaRefToCoordinates areaData.Ref with
              | .error _ => none
              | .ok coordinates =>
                if coordinates.y1 = coordinates.y2 ∧ coordinates.y1 = row then
                  match MergeCell hasValue h f sheet (cellNameOrEmpty coordinates.x1 row2)
                      (cellNameOrEmpty coordinates.x2 row2) with
                  | none => none
                  | some (h1, f1, some err) => some (h1, f1, some err)
                  | some (h1, f1, none) =>
                    duplicateMergeCellsLoop hasValue sheet row row2 fuel (i + 1) h1 f1
                else duplicateMergeCellsLoop hasValue sheet row row2 fuel (i + 1) h f
          | _ => none
        else some (h, f, none)

/-- `duplicateMergeCells`, its argument `ws` being the worksheet the document
holds for the sheet (in `DuplicateRowTo`, the pointer `workSheetReader` has
returned). -/
def duplicateMergeCells (hasValue : xlsxC → Bool) (fuel : Nat) (h : Heap) (f : File)
    (sheet : String) (row row2 : Int) : Option (Heap × File × Option Err) :=
  match loadedSheet f sheet with
  | none => none
  | some ws =>
    match ws.MergeCells with
    | none => some (h, f, none)
    | some mc =>
      match duplicateMergeCellsGuard h row2 mc.Cells with
      | none => none
      | some (.error r) => some (h, f, r)
      | some (.ok _) =>
        duplicateMergeCellsLoop hasValue sheet (if row > row2 then row + 1 else row) row2 fuel 0 h f

/-- The rectangle the reference of a merged cell parses to. -/
def regionRect (h : Heap) (p : Ptr) : Option Rect :=
  match p with
  | none => none
  | some a =>
    match h.cells[a]? with
    | none => none
    | some c =>
      match areaRefToCoordinates c.Ref with
      | .ok r => some r
      | .error _ => none

/-- One region appended as `MergeCell` appends it: a new object with the
reference of `r` and the cached rectangle `r`. -/
def addRegion (st : Heap × xlsxMergeCells) (r : Rect) : Heap × xlsxMergeCells :=
  ({ cells := st.1.cells ++ [{ Ref := rectRef r, rect := some st.1.rects.length }],
     rects := st.1.rects ++ [r] },
   { Count := (st.2.Cells ++ [some st.1.cells.length]).length,
     Cells := st.2.Cells ++ [some st.1.cells.length] })

/-- A heap and a document whose one sheet `Sheet1` is loaded and carries the
merged cells decoded from the given references. -/
def mergedFile (refs : List String) : Heap × File :=
  ((decodedMergeCells refs).1, loadedFile { MergeCells := some (decodedMergeCells refs).2 })

/-- The references of the merged cells of the worksheet the document holds
for `Sheet1`, with the count. -/
def mergedRefs (h : Heap) (f : File) : Option (Int × List String) :=
  match loadedSheet f "Sheet1" with
  | none => none
  | some ws =>
    match ws.MergeCells with
    | none => none
    | some mc => some (mc.Count, refsOf h mc.Cells)

/-- The regions of a list that `UnmergeCell` keeps for the request `rect1`,
in their order: those whose reference parses to a rectangle that does not
intersect `rect1`. -/
def unmergeKept (h : Heap) (rect1 : Rect) (cells : List Ptr) : List Ptr :=
  cells.filter (fun p =>
    match regionRect h p with
    | some rect2 => !isOverlap rect1 rect2
    | none => false)

/-- The heap and the merge list overlap resolution leaves of the decoded
regions `A1:B2`, `D4:E5`, `B2:C3`: the regions `D4:E5` and `A1:C3`. -/
def resolvedRegions : Heap × xlsxMergeCells :=
  ({ cells := [{ Ref := "A1:B2", rect := some 0 }, { Ref := "D4:E5", rect := some 1 },
               { Ref := "B2:C3", rect := some 2 }, { Ref := "A1:C3", rect := some 2 }],
     rects := [⟨2, 2, 2, 2⟩, ⟨4, 4, 5, 5⟩, ⟨1, 1, 3, 3⟩] },
   { Count := 2, Cells := [some 1, some 3] })

/-- The regions appended one after the other, as `MergeCell` appends them. -/
def addRegions (st : Heap × xlsxMergeCells) (rs : List Rect) : Heap × xlsxMergeCells :=
  rs.foldl addRegion st

/-- The rectangles `duplicateMergeCells` merges for the regions of a list: for
each region that lies on the single row `row`, its column span on `row2`. -/
def duplicatedRects (h : Heap) (row row2 : Int) (cells : List Ptr) : List Rect :=
  cells.filterMap (fun p =>
    match regionRect h p with
    | some r =>
      if r.y1 = r.y2 ∧ r.y1 = row then some (sortCoordinates ⟨r.x1, row2, r.x2, row2⟩) else none
    | none => none)

/-- Some region of the list starts above `row2` and ends below it. -/
def spansStrictly (h : Heap) (row2 : Int) (cells : List Ptr) : Bool :=
  cells.any (fun p =>
    match regionRect h p with
    | some r => decide (r.y1 < row2 ∧ row2 < r.y2)
    | none => false)

/-- A worksheet of three rows, the first two with a cell. -/
def threeRowSheet : xlsxWorksheet :=
  { SheetData := { Row := [{ R := 1, C := [{ R := "A1", V := "a" }] },
                           { R := 2, C := [{ R := "A2", V := "b" }] }, { R := 3 }] } }

/-- The numbers and the cell counts of the rows the document holds for
`Sheet1`. -/
def rowNumbers (f : File) : Option (List (Int × Nat)) :=
  (loadedSheet f "Sheet1").map (fun ws => ws.SheetData.Row.map (fun r => (r.R, r.C.length)))

/-- The numbers of the `row` elements of a sequence, each given with its
row-number attribute if it has one: the attribute, or the number of the
element before plus 1 (`prev` for the first). -/
def rowNumbersFrom : Int → List (Option Int) → List Int
  | _, [] => []
  | prev, a :: rest => a.getD (prev + 1) :: rowNumbersFrom (a.getD (prev + 1)) rest

/-- The highest row number occurring in a sequence of `row` elements, 0 for
the empty sequence. -/
def highestRowNumber (elems : List (Option Int)) : Int :=
  (rowNumbersFrom 0 elems).foldl max 0

/-- What the decoder yields for a sequence of `row` elements: for each the
values of its attributes named `r`. -/
def rowElements (elems : List (Option Int)) : List (List String) :=
  elems.map (fun a =>
    match a with
    | some n => [strconvItoa n]
    | none => [])

/-- The numeric suffix of the ID of a relationship, as `addRels` reads it. -/
def relID (rel : xlsxRelationship) : Int := (strconvAtoi (trimPrefix rel.ID "rId")).1

/-- The largest numeric ID suffix among relationships, 0 when there is none. -/
def maxRelID (rels : List xlsxRelationship) : Int :=
  rels.foldl (fun m rel => max m (relID rel)) 0

/-- The relationships of a workbook part whose shared strings come second and
carry the ID 1, after a worksheet with the ID 3. -/
def singletonRels : List xlsxRelationship :=
  [{ ID := "rId3", Typ := "http://schemas.openxmlformats.org/officeDocument/2006/relationships/worksheet",
     Target := "worksheets/sheet1.xml" },
   { ID := "rId1", Typ := SourceRelationshipSharedStrings, Target := "sharedStrings.xml" }]

/-- The pattern of a cell reference: one or more letters followed by one or
more digits. -/
def cellPattern (cell : String) : Bool :=
  !(cell.data.takeWhile isLetter).isEmpty && !(cell.data.dropWhile isLetter).isEmpty &&
    (cell.data.dropWhile isLetter).all isDigit

/-- A document whose only sheet, `Chart1`, is a chart sheet. -/
def chartFile : File :=
  { sheetMap := [("Chart1", "xl/chartsheets/sheet1.xml")] }

/-- The letters `A` to `Z` folded to lower case, as code points. -/
def foldedChars (s : String) : List Nat :=
  s.data.map (fun c => if 65 ≤ c.toNat ∧ c.toNat ≤ 90 then c.toNat + 32 else c.toNat)

/-- The directory of a slash-separated path, as `filepath.Dir` gives it for a
path without empty, `.` or `..` element. -/
def slashDir (path : String) : String :=
  match path.data.reverse.dropWhile (fun c => c.toNat ≠ 47) with
  | [] => "."
  | [_] => "/"
  | _ :: rest => String.mk rest.reverse

/-- The last element of a slash-separated path, as `filepath.Base` gives it
for a path without trailing slash. -/
def slashBase (path : String) : String :=
  if path = "" then "."
  else String.mk (path.data.reverse.takeWhile (fun c => c.toNat ≠ 47)).reverse

/-- The library functions for the concrete inputs: the case folding of
`strings.EqualFold` on ASCII strings, and the functions of `path/filepath` on
clean slash-separated paths, which `Clean` and `ToSlash` leave as they are. -/
def goLib : Lib :=
  { EqualFold := fun s t => decide (foldedChars s = foldedChars t),
    Dir := slashDir,
    Base := slashBase,
    Clean := fun path => path,
    ToSlash := fun path => path }

/-- The sheets of a workbook with the worksheets `Sheet1` and `Sheet2`. -/
def twoSheets : List xlsxSheet :=
  [{ Name := "Sheet1", SheetID := 1, ID := "rId1" }, { Name := "Sheet2", SheetID := 2, ID := "rId2" }]

/-- A document with the worksheets `Sheet1` and `Sheet2`, both loaded, and
the defined names `names`. -/
def twoSheetBook (names : Option (List xlsxDefinedName)) : File :=
  { sheetMap := [("Sheet1", "xl/worksheets/sheet1.xml"), ("Sheet2", "xl/worksheets/sheet2.xml")],
    Sheet := [("xl/worksheets/sheet1.xml", {}), ("xl/worksheets/sheet2.xml", {})],
    SheetCount := 2,
    WorkBook := { Sheets := twoSheets, DefinedNames := names },
    ContentTypes := [{ PartName := "/xl/workbook.xml" }, { PartName := "/xl/worksheets/sheet1.xml" },
      { PartName := "/xl/worksheets/sheet2.xml" }],
    Relationships := [("_rels/.rels",
        [{ ID := "rId1", Typ := SourceRelationshipOfficeDocument, Target := "xl/workbook.xml" }]),
      ("xl/_rels/workbook.xml.rels",
        [{ ID := "rId1", Target := "worksheets/sheet1.xml" },
         { ID := "rId2", Target := "worksheets/sheet2.xml" }])] }

/-- One of the characters `: \ / ? * [ ]`, which a sheet name may not hold. -/
def invalidSheetNameChar (c : Char) : Bool :=
  decide (c.toNat = 58 ∨ c.toNat = 92 ∨ c.toNat = 47 ∨ c.toNat = 63 ∨ c.toNat = 42 ∨
    c.toNat = 91 ∨ c.toNat = 93)

/-- A workbook with the visible worksheet `Sheet1` and the worksheet
`Sheet2` in the state `veryHidden`, both loaded with one sheet view; the
selected tab is that of `Sheet2`. -/
def veryHiddenBook : File :=
  { sheetMap := [("Sheet1", "xl/worksheets/sheet1.xml"), ("Sheet2", "xl/worksheets/sheet2.xml")],
    Sheet := [("xl/worksheets/sheet1.xml", { SheetViews := some [{ TabSelected := false }] }),
      ("xl/worksheets/sheet2.xml", { SheetViews := some [{ TabSelected := true }] })],
    SheetCount := 2,
    WorkBook := xlsxWorkbook.mk
      [{ Name := "Sheet1", SheetID := 1, ID := "rId1" },
       { Name := "Sheet2", SheetID := 2, ID := "rId2", State := "veryHidden" }] none (some [1]) }

/-- A comments part with the authors `Alice` and `Bob` and one comment by
`Alice`. -/
def twoAuthors : xlsxComments :=
  { Authors := ["Alice", "Bob"],
    CommentList := [{ Ref := "A1", AuthorID := 0, R := [some "Alice", some "first"] }] }

/-- A header of 256 characters. -/
def longHeader : String := String.mk (List.replicate 256 'a')

/-- The number of regions of a list that lie on the single row `row`. -/
def singleRowRegions (h : Heap) (row : Int) (cells : List Ptr) : Nat :=
  (cells.filter (fun p =>
    match regionRect h p with
    | some r => decide (r.y1 = r.y2 ∧ r.y1 = row)
    | none => false)).length

/-- The object a pointer of a merge list refers to, if it refers to one. -/
def regionOf (h : Heap) (p : Ptr) : Option xlsxMergeCell :=
  p.bind (fun a => h.cells[a]?)

/-- What `GetDefinedName` reports of the defined names of the document that
are not scoped to the sheet of the index `index`, in their order. -/
def definedNamesWithout (f : File) (index : Int) : List DefinedName :=
  ((f.WorkBook.DefinedNames.getD []).filter
    (fun dn => decide (dn.LocalSheetID ≠ some index))).map (fun dn =>
      { Name := dn.Name, Comment := dn.Comment, RefersTo := dn.Data, Scope := reportedScope f dn })

/-- A workbook with the worksheets `Sheet1`, `Data`, `sheet1` and `Totals`,
all loaded, the name `Rate` scoped to `sheet1` and the name `Sum` scoped to
`Totals`. -/
def foldedBook : File :=
  { sheetMap := [("Sheet1", "xl/worksheets/sheet1.xml"), ("Data", "xl/worksheets/sheet2.xml"),
      ("sheet1", "xl/worksheets/sheet3.xml"), ("Totals", "xl/worksheets/sheet4.xml")],
    Sheet := [("xl/worksheets/sheet1.xml", {}), ("xl/worksheets/sheet2.xml", {}),
      ("xl/worksheets/sheet3.xml", {}), ("xl/worksheets/sheet4.xml", {})],
    SheetCount := 4,
    WorkBook := xlsxWorkbook.mk
      [{ Name := "Sheet1", SheetID := 1, ID := "rId1" }, { Name := "Data", SheetID := 2, ID := "rId2" },
       { Name := "sheet1", SheetID := 3, ID := "rId3" }, { Name := "Totals", SheetID := 4, ID := "rId4" }]
      (some [{ Name := "Rate", Data := "sheet1!$A$1", LocalSheetID := some 2 },
        { Name := "Sum", Data := "Totals!$A$1", LocalSheetID := some 3 }]) none,
    ContentTypes := [{ PartName := "/xl/workbook.xml" }, { PartName := "/xl/worksheets/sheet1.xml" },
      { PartName := "/xl/worksheets/sheet2.xml" }, { PartName := "/xl/worksheets/sheet3.xml" },
      { PartName := "/xl/worksheets/sheet4.xml" }],
    Relationships := [("_rels/.rels",
        [{ ID := "rId1", Typ := SourceRelationshipOfficeDocument, Target := "xl/workbook.xml" }]),
      ("xl/_rels/workbook.xml.rels",
        [{ ID := "rId1", Target := "worksheets/sheet1.xml" },
         { ID := "rId2", Target := "worksheets/sheet2.xml" },
         { ID := "rId3", Target := "worksheets/sheet3.xml" },
         { ID := "rId4", Target := "worksheets/sheet4.xml" }])] }

/-- The defined names of the witness workbook: `Tax` scoped to `Sheet1`,
`Rate` scoped to `Sheet2` and `Total` of the workbook. -/
def scopedNames : List xlsxDefinedName :=
  [{ Name := "Tax", Data := "Sheet1!$A$1", LocalSheetID := some 0 },
   { Name := "Rate", Data := "Sheet2!$A$1", LocalSheetID := some 1 },
   { Name := "Total", Data := "Sheet2!$B$1" }]

/-- The rectangle lies in the grid of `cols` columns and `rows` rows: each
of its coordinates is at least 1 and at most the size of its axis. -/
def rectWithin (cols rows : Int) (r : Rect) : Prop :=
  1 ≤ r.x1 ∧ r.x1 ≤ cols ∧ 1 ≤ r.x2 ∧ r.x2 ≤ cols ∧
  1 ≤ r.y1 ∧ r.y1 ≤ rows ∧ 1 ≤ r.y2 ∧ r.y2 ≤ rows

/-- Every merged cell of the heap has its rectangle cached, at an address
the heap holds. -/
def cachedHeap (h : Heap) : Prop :=
  ∀ (a : Nat) (c : xlsxMergeCell), h.cells[a]? = some c →
    ∃ r, c.rect = some r ∧ r < h.rects.length

/-- Every rectangle of the heap lies in the grid. -/
def boundedHeap (cols rows : Int) (h : Heap) : Prop :=
  ∀ (i : Nat) (r : Rect), h.rects[i]? = some r → rectWithin cols rows r

/-- The pointer is the address of a merged cell of the heap. -/
def validPtr (h : Heap) (p : Ptr) : Prop :=
  ∃ a, p = some a ∧ a < h.cells.length

/-- The reference parses: both sides are cell names. -/
def validRef (ref : String) : Bool :=
  match areaRefToCoordinates ref with
  | .ok _ => true
  | .error _ => false

/-- The state of overlap resolution is sound for a grid of `cols` columns and
`rows` rows: the rectangles are cached and lie in the grid, the grid has its
size, and the entries of the grid and of the merge list are nil or addresses
of merged cells. -/
def soundState (cols rows : Int) (st : MergeState) : Prop :=
  cachedHeap st.heap ∧ boundedHeap cols rows st.heap ∧
  matrixDims st.matrix cols.toNat rows.toNat ∧
  (∀ (x y : Int) (e : Ptr), mget st.matrix x y = some e → e = none ∨ validPtr st.heap e) ∧
  (∀ p ∈ st.cells, validPtr st.heap p)

/-! ## The codec inverts itself -/

theorem toNat_ofNat_letter : ∀ k, k < 26 → (Char.ofNat (65 + k)).toNat = 65 + k := by decide

theorem toNat_ofNat_digit : ∀ k, k < 10 → (Char.ofNat (48 + k)).toNat = 48 + k := by decide

theorem ColumnNameToNumber_snoc (cs : List Char) (c : Char) :
    ColumnNameToNumber (cs ++ [c]) = ColumnNameToNumber cs * 26 + letterVal c := by
  simp [ColumnNameToNumber, List.foldl_append]

theorem atoi_snoc (cs : List Char) (c : Char) :
    atoi (cs ++ [c]) = atoi cs * 10 + (c.toNat - 48) := by
  simp [atoi, List.foldl_append]

theorem columnLetters_value : ∀ fuel n, n ≤ fuel →
    ColumnNameToNumber (columnLetters fuel n) = n := by
  intro fuel
  induction fuel with
  | zero => intro n hn; have : n = 0 := by omega
            subst this; rfl
  | succ fuel ih =>
    intro n hn
    unfold columnLetters
    split
    · next h => subst h; rfl
    · next h =>
      have hlt : (n - 1) % 26 < 26 := Nat.mod_lt _ (by omega)
      have hdiv : (n - 1) / 26 ≤ fuel := by
        have := Nat.div_le_self (n - 1) 26
        omega
      rw [ColumnNameToNumber_snoc, ih _ hdiv]
      have hv : letterVal (Char.ofNat (65 + (n - 1) % 26)) = (n - 1) % 26 + 1 := by
        unfold letterVal
        rw [toNat_ofNat_letter _ hlt]
        split <;> omega
      rw [hv]
      have := Nat.div_add_mod (n - 1) 26
      omega

theorem columnLetters_letters : ∀ fuel n, ∀ c ∈ columnLetters fuel n, isLetter c = true := by
  intro fuel
  induction fuel with
  | zero => intro n c hc; simp [columnLetters] at hc
  | succ fuel ih =>
    intro n c hc
    unfold columnLetters at hc
    split at hc
    · simp at hc
    · next h =>
      have hlt : (n - 1) % 26 < 26 := Nat.mod_lt _ (by omega)
      rcases List.mem_append.1 hc with h1 | h1
      · exact ih _ c h1
      · have hc1 : c = Char.ofNat (65 + (n - 1) % 26) := by simpa using h1
        subst hc1
        unfold isLetter
        rw [toNat_ofNat_letter _ hlt]
        simp
        omega

theorem columnLetters_ne_nil (fuel n : Nat) (h1 : 1 ≤ n) (h2 : n ≤ fuel) :
    columnLetters fuel n ≠ [] := by
  cases fuel with
  | zero => omega
  | succ fuel =>
    unfold columnLetters
    have : n ≠ 0 := by omega
    simp [this]

theorem decimalDigits_value : ∀ fuel n, n < fuel → atoi (decimalDigits fuel n) = n := by
  intro fuel
  induction fuel with
  | zero => intro n hn; omega
  | succ fuel ih =>
    intro n hn
    unfold decimalDigits
    split
    · next h =>
      have := toNat_ofNat_digit n h
      simp [atoi, this]
    · next h =>
      have hlt : n % 10 < 10 := Nat.mod_lt _ (by omega)
      have hdiv : n / 10 < fuel := by
        have := Nat.div_lt_self (n := n) (k := 10) (by omega) (by omega)
        omega
      rw [atoi_snoc, ih _ hdiv, toNat_ofNat_digit _ hlt]
      have := Nat.div_add_mod n 10
      omega

theorem decimalDigits_digits : ∀ fuel n, ∀ c ∈ decimalDigits fuel n,
    isDigit c = true ∧ isLetter c = false := by
  intro fuel
  induction fuel with
  | zero => intro n c hc; simp [decimalDigits] at hc
  | succ fuel ih =>
    intro n c hc
    unfold decimalDigits at hc
    split at hc
    · next h =>
      have hc1 : c = Char.ofNat (48 + n) := by simpa using hc
      subst hc1
      unfold isDigit isLetter
      rw [toNat_ofNat_digit _ h]
      simp
      omega
    · next h =>
      have hlt : n % 10 < 10 := Nat.mod_lt _ (by omega)
      rcases List.mem_append.1 hc with h1 | h1
      · exact ih _ c h1
      · have hc1 : c = Char.ofNat (48 + n % 10) := by simpa using h1
        subst hc1
        unfold isDigit isLetter
        rw [toNat_ofNat_digit _ hlt]
        simp
        omega

theorem decimalDigits_ne_nil (fuel n : Nat) : decimalDigits (fuel + 1) n ≠ [] := by
  unfold decimalDigits
  split <;> simp

theorem takeWhile_letters (ls ds : List Char) (hl : ∀ c ∈ ls, isLetter c = true)
    (hd : ∀ c ∈ ds, isLetter c = false) :
    (ls ++ ds).takeWhile isLetter = ls ∧ (ls ++ ds).dropWhile isLetter = ds := by
  induction ls with
  | nil =>
    cases ds with
    | nil => simp
    | cons d ds => simp [List.takeWhile, List.dropWhile, hd d (by simp)]
  | cons l ls ih =>
    have h1 := hl l (by simp)
    have h2 := ih (fun c hc => hl c (by simp [hc]))
    simp [List.takeWhile, List.dropWhile, h1, h2.1, h2.2]

/-- The codec inverts itself: the name of valid coordinates parses back to them. -/
theorem CellNameToCoordinates_cellName (col row : Int) (hc : 1 ≤ col) (hr : 1 ≤ row) :
    ∃ s, CoordinatesToCellName col row = .ok s ∧ cellNameOrEmpty col row = s ∧
      s ≠ "" ∧ CellNameToCoordinates s = .ok (col, row) := by
  have hnot : ¬ (col < 1 ∨ row < 1) := by omega
  refine ⟨String.mk (columnLetters col.toNat col.toNat ++
    decimalDigits (row.toNat + 1) row.toNat), ?_, ?_, ?_, ?_⟩
  · simp [CoordinatesToCellName, hnot]
  · simp [cellNameOrEmpty, CoordinatesToCellName, hnot]
  · intro h
    have := congrArg String.data h
    simp at this
    exact decimalDigits_ne_nil _ _ this.2
  · have hls := columnLetters_letters col.toNat col.toNat
    have hds := decimalDigits_digits (row.toNat + 1) row.toNat
    have htd := takeWhile_letters _ _ hls (fun c hc => (hds c hc).2)
    have hcv := columnLetters_value col.toNat col.toNat (le_refl _)
    have hdv := decimalDigits_value (row.toNat + 1) row.toNat (by omega)
    have hne1 := columnLetters_ne_nil col.toNat col.toNat (by omega) (le_refl _)
    have hne2 := decimalDigits_ne_nil row.toNat row.toNat
    have hall : (decimalDigits (row.toNat + 1) row.toNat).all isDigit = true := by
      rw [List.all_eq_true]
      exact fun c hc => (hds c hc).1
    unfold CellNameToCoordinates
    simp only [htd.1, htd.2, hcv, hdv, hall]
    have h1 : col.toNat ≠ 0 := by omega
    have h2 : row.toNat ≠ 0 := by omega
    simp [hne1, hne2, h1, h2]
    omega

/-- A reference that parses has positive coordinates. -/
theorem CellNameToCoordinates_pos (s : String) (col row : Int)
    (h : CellNameToCoordinates s = .ok (col, row)) : 1 ≤ col ∧ 1 ≤ row := by
  unfold CellNameToCoordinates at h
  simp only at h
  split at h
  · simp at h
  · split at h
    · simp at h
    · next h1 =>
      simp only [Except.ok.injEq, Prod.mk.injEq] at h
      omega

/-! ## Slices and loops -/

theorem getI_nat {α : Type} (s : List α) (i : Int) (h : 0 ≤ i) : getI s i = s[i.toNat]? := by
  unfold getI
  simp [not_lt.2 h]

theorem setI_nat {α : Type} (s : List α) (i : Int) (v : α) (h : 0 ≤ i)
    (h2 : i.toNat < s.length) : setI s i v = some (s.set i.toNat v) := by
  unfold setI
  simp [not_lt.2 h, h2]

theorem intRange_nil (lo hi : Int) (h : hi < lo) : intRange lo hi = [] := by
  unfold intRange
  have : (hi + 1 - lo).toNat = 0 := by omega
  simp [this]

theorem intRange_cons (lo hi : Int) (h : lo ≤ hi) :
    intRange lo hi = lo :: intRange (lo + 1) hi := by
  unfold intRange
  have h1 : (hi + 1 - lo).toNat = (hi + 1 - (lo + 1)).toNat + 1 := by omega
  rw [h1, List.range_succ_eq_map]
  simp only [List.map_cons, List.map_map, Nat.cast_zero, add_zero]
  congr 1
  apply List.map_congr_left
  intro k _
  simp only [Function.comp, Nat.succ_eq_add_one]
  push_cast
  ring

theorem intRange_length (lo hi : Int) : (intRange lo hi).length = (hi + 1 - lo).toNat := by
  unfold intRange
  rw [List.length_map, List.length_range]

/-! ## checkSheet on rows in ascending order -/

theorem chain_le_mem (a : Int) (l : List Int) (h : List.Chain (· ≤ ·) a l) :
    ∀ x ∈ l, a ≤ x := by
  induction l generalizing a with
  | nil => intro x hx; simp at hx
  | cons b l ih =>
    intro x hx
    rw [List.chain_cons] at h
    rcases List.mem_cons.1 hx with h1 | h1
    · subst h1; exact h.1
    · exact le_trans h.1 (ih b h.2 x h1)

theorem le_foldl_last (a : Int) (rows : List xlsxRow)
    (h : List.Chain (· ≤ ·) a (rows.map (·.R))) :
    a ≤ rows.foldl (fun _ r => r.R) a ∧ ∀ r ∈ rows, r.R ≤ rows.foldl (fun _ r => r.R) a := by
  induction rows generalizing a with
  | nil => simp
  | cons b l ih =>
    simp only [List.map_cons, List.chain_cons] at h
    have := ih b.R h.2
    simp only [List.foldl_cons, List.mem_cons, forall_eq_or_imp]
    exact ⟨le_trans h.1 this.1, this.1, this.2⟩

theorem checkSheetScan_sorted (rows : List xlsxRow) (i : Nat) (row : Int) (r0 : xlsxRow)
    (ws : List xlsxRow) (h : List.Chain (· ≤ ·) row (rows.map (·.R)))
    (h1 : ∀ r ∈ rows, 1 ≤ r.R) :
    checkSheetScan i rows (row, r0, ws) = (rows.foldl (fun _ r => r.R) row, r0, ws) := by
  induction rows generalizing i row with
  | nil => rfl
  | cons r rs ih =>
    simp only [List.map_cons, List.chain_cons] at h
    have hr := h1 r (by simp)
    have hrs : ∀ x ∈ rs, 1 ≤ x.R := fun x hx => h1 x (by simp [hx])
    unfold checkSheetScan
    have c1 : ¬ (i = 0 ∧ r.R = 0) := by omega
    rw [if_neg c1]
    by_cases c2 : r.R > row
    · have : r.R ≠ 0 ∧ r.R > row := ⟨by omega, c2⟩
      rw [if_pos this]
      exact ih (i + 1) r.R h.2 hrs
    · have hne : ¬ (r.R ≠ 0 ∧ r.R > row) := fun hh => c2 hh.2
      have heq : r.R = row := by omega
      rw [if_neg hne, if_neg (by simpa using heq)]
      have := ih (i + 1) row (heq ▸ h.2) hrs
      rw [this, List.foldl_cons, heq]

theorem row_with_cells_self (r : xlsxRow) : { r with C := r.C ++ [] } = r := by
  cases r; simp

theorem checkSheetPlace_sorted (rows : List xlsxRow) :
    ∀ (sd : List xlsxRow) (row : Int), List.Chain (· ≤ ·) row (rows.map (·.R)) →
    (∀ r ∈ rows, 1 ≤ r.R ∧ r.R ≤ sd.length) →
    ∃ sd1, checkSheetPlace rows (sd, row) = some (sd1, rows.foldl (fun _ r => r.R) row) ∧
      sd1.length = sd.length ∧
      ∀ j : Nat, sd1[j]? =
        match rowsAt ((j : Int) + 1) rows with
        | [] => sd[j]?
        | f :: fs =>
          if (j : Int) + 1 = row then
            sd[j]?.map (fun t => { t with C := t.C ++ (f :: fs).flatMap (·.C) })
          else some { f with C := (f :: fs).flatMap (·.C) } := by
  induction rows with
  | nil =>
    intro sd row _ _
    exact ⟨sd, rfl, rfl, fun j => by simp [rowsAt]⟩
  | cons r rs ih =>
    intro sd row h hb
    simp only [List.map_cons, List.chain_cons] at h
    have hr := hb r (by simp)
    have hrs : ∀ x ∈ rs, 1 ≤ x.R ∧ x.R ≤ sd.length := fun x hx => hb x (by simp [hx])
    have hk0 : 0 ≤ r.R - 1 := by omega
    have hk : (r.R - 1).toNat < sd.length := by omega
    have hge := chain_le_mem _ _ h.2
    by_cases c : r.R = row
    · -- the row continues the row before it: its cells are appended
      have c1 : r.R = row ∧ row > 0 := ⟨c, by omega⟩
      obtain ⟨t, ht⟩ : ∃ t, sd[(r.R - 1).toNat]? = some t :=
        ⟨sd[(r.R - 1).toNat], List.getElem?_eq_getElem hk⟩
      obtain ⟨sd1, e1, l1, g1⟩ := ih (sd.set (r.R - 1).toNat { t with C := t.C ++ r.C }) row
        (c ▸ h.2) (by simpa using hrs)
      refine ⟨sd1, ?_, by simpa using l1, ?_⟩
      · unfold checkSheetPlace
        rw [if_pos c1, getI_nat _ _ hk0, ht]
        simp only
        rw [setI_nat _ _ _ hk0 hk]
        simp only [List.foldl_cons]
        rw [e1, c]
      · intro j
        rw [g1 j]
        by_cases cj : r.R = (j : Int) + 1
        · have hj : (r.R - 1).toNat = j := by omega
          have hjr : (j : Int) + 1 = row := by omega
          have hf : rowsAt ((j : Int) + 1) (r :: rs) = r :: rowsAt ((j : Int) + 1) rs := by
            simp [rowsAt, List.filter_cons, cj]
          rw [hf]
          rw [hj] at ht hk
          cases hrs2 : rowsAt ((j : Int) + 1) rs with
          | nil => simp [hjr, hj, ht, List.getElem?_set, hk]
          | cons f fs => simp [hjr, hj, ht, List.getElem?_set, hk, List.append_assoc]
        · have hj : (r.R - 1).toNat ≠ j := by omega
          have hf : rowsAt ((j : Int) + 1) (r :: rs) = rowsAt ((j : Int) + 1) rs := by
            simp [rowsAt, List.filter_cons, cj]
          rw [hf]
          cases hrs2 : rowsAt ((j : Int) + 1) rs with
          | nil => simp only []; rw [List.getElem?_set_ne hj]
          | cons f fs =>
            have : ¬ ((j : Int) + 1 = row) := by omega
            simp [this]
    · -- a larger number: the row is stored at its index
      have c1 : ¬ (r.R = row ∧ row > 0) := fun hh => c hh.1
      have c2 : r.R ≠ 0 := by omega
      obtain ⟨sd1, e1, l1, g1⟩ := ih (sd.set (r.R - 1).toNat r) r.R h.2 (by simpa using hrs)
      refine ⟨sd1, ?_, by simpa using l1, ?_⟩
      · unfold checkSheetPlace
        rw [if_neg c1, if_pos c2, setI_nat _ _ _ hk0 hk]
        simp only [List.foldl_cons]
        rw [e1]
      · intro j
        rw [g1 j]
        by_cases cj : r.R = (j : Int) + 1
        · have hj : (r.R - 1).toNat = j := by omega
          have hjr : ¬ ((j : Int) + 1 = row) := by omega
          have hf : rowsAt ((j : Int) + 1) (r :: rs) = r :: rowsAt ((j : Int) + 1) rs := by
            simp [rowsAt, List.filter_cons, cj]
          rw [hf]
          rw [hj] at hk
          cases hrs2 : rowsAt ((j : Int) + 1) rs with
          | nil => simp [hjr, hj, List.getElem?_set, hk, row_with_cells_self]
          | cons f fs => simp [hjr, hj, cj, List.getElem?_set, hk]
        · have hj : (r.R - 1).toNat ≠ j := by omega
          have hf : rowsAt ((j : Int) + 1) (r :: rs) = rowsAt ((j : Int) + 1) rs := by
            simp [rowsAt, List.filter_cons, cj]
          rw [hf]
          cases hrs2 : rowsAt ((j : Int) + 1) rs with
          | nil => simp only []; rw [List.getElem?_set_ne hj]
          | cons f fs =>
            have hfm : f ∈ rs ∧ f.R = (j : Int) + 1 := by
              have : f ∈ rowsAt ((j : Int) + 1) rs := by rw [hrs2]; simp
              simpa [rowsAt] using this
            have := hge f.R (List.mem_map_of_mem _ hfm.1)
            have h3 : ¬ ((j : Int) + 1 = row) := by omega
            have h4 : ¬ ((j : Int) + 1 = r.R) := by omega
            simp [h3, h4]

theorem checkSheetRenumber_range (n : Nat) :
    ∀ (lo hi : Int) (sd : List xlsxRow), 1 ≤ lo → hi ≤ sd.length → (hi + 1 - lo).toNat = n →
    ∃ sd1, checkSheetRenumber (intRange lo hi) sd = some sd1 ∧ sd1.length = sd.length ∧
      ∀ j : Nat, sd1[j]? =
        if lo - 1 ≤ (j : Int) ∧ (j : Int) < hi then sd[j]?.map (fun t => { t with R := (j : Int) + 1 })
        else sd[j]? := by
  induction n with
  | zero =>
    intro lo hi sd _ _ hn
    have hlt : hi < lo := by omega
    refine ⟨sd, by rw [intRange_nil _ _ hlt]; rfl, rfl, fun j => ?_⟩
    have : ¬ (lo - 1 ≤ (j : Int) ∧ (j : Int) < hi) := by omega
    rw [if_neg this]
  | succ n ih =>
    intro lo hi sd hlo hhi hn
    have hle : lo ≤ hi := by omega
    have hk0 : 0 ≤ lo - 1 := by omega
    have hk : (lo - 1).toNat < sd.length := by omega
    obtain ⟨t, ht⟩ : ∃ t, sd[(lo - 1).toNat]? = some t :=
      ⟨sd[(lo - 1).toNat], List.getElem?_eq_getElem hk⟩
    obtain ⟨sd1, e1, l1, g1⟩ := ih (lo + 1) hi (sd.set (lo - 1).toNat { t with R := lo })
      (by omega) (by simpa using hhi) (by omega)
    refine ⟨sd1, ?_, by simpa using l1, fun j => ?_⟩
    · rw [intRange_cons _ _ hle]
      unfold checkSheetRenumber
      rw [getI_nat _ _ hk0, ht]
      simp only
      rw [setI_nat _ _ _ hk0 hk]
      simp only [e1]
    · rw [g1 j]
      by_cases cj : (lo - 1).toNat = j
      · have h1 : ¬ (lo + 1 - 1 ≤ (j : Int) ∧ (j : Int) < hi) := by omega
        have h2 : lo - 1 ≤ (j : Int) ∧ (j : Int) < hi := by omega
        have h3 : lo = (j : Int) + 1 := by omega
        rw [cj] at ht hk
        rw [if_neg h1, if_pos h2, cj, List.getElem?_set_self hk, ht, h3]
        rfl
      · rw [List.getElem?_set_ne cj]
        by_cases c2 : lo - 1 ≤ (j : Int) ∧ (j : Int) < hi
        · have h1 : lo + 1 - 1 ≤ (j : Int) ∧ (j : Int) < hi := by omega
          rw [if_pos h1, if_pos c2]
        · have h1 : ¬ (lo + 1 - 1 ≤ (j : Int) ∧ (j : Int) < hi) := by omega
          rw [if_neg h1, if_neg c2]

/-- The dense rows `checkSheet` builds from rows with explicit numbers in
non-decreasing order: as many rows as the last number, the row at index `j`
numbered `j+1` and holding the first row that claims `j+1`, with the cells of
all the rows that claim it. -/
theorem checkSheetDense_sorted (rows : List xlsxRow)
    (h : List.Chain (· ≤ ·) 1 (rows.map (·.R))) :
    ∃ sd, checkSheetDense rows = some (sd, {}) ∧ (sd.length : Int) = lastRowNumber rows ∧
      ∀ j : Nat, j < sd.length → sd[j]? =
        match rowsAt ((j : Int) + 1) rows with
        | [] => some { R := (j : Int) + 1 }
        | f :: fs => some { f with C := (f :: fs).flatMap (·.C), R := (j : Int) + 1 } := by
  have hpos : ∀ r ∈ rows, 1 ≤ r.R := fun r hr =>
    chain_le_mem _ _ h r.R (List.mem_map_of_mem _ hr)
  have h0 : List.Chain (· ≤ ·) 0 (rows.map (·.R)) := by
    cases rows with
    | nil => exact List.Chain.nil
    | cons r rs =>
      simp only [List.map_cons, List.chain_cons] at h ⊢
      exact ⟨by omega, h.2⟩
  have hlast := le_foldl_last 0 rows h0
  have hscan := checkSheetScan_sorted rows 0 0 {} rows h0 hpos
  obtain ⟨sd1, e1, l1, g1⟩ := checkSheetPlace_sorted rows
    (List.replicate (lastRowNumber rows).toNat {}) 0 h0
    (fun r hr => ⟨hpos r hr, by
      have := hlast.2 r hr
      simp only [List.length_replicate]
      unfold lastRowNumber
      omega⟩)
  have hN : 0 ≤ lastRowNumber rows := hlast.1
  obtain ⟨sd2, e2, l2, g2⟩ := checkSheetRenumber_range (lastRowNumber rows).toNat 1
    (lastRowNumber rows) sd1 (le_refl _) (by rw [l1]; simp) (by omega)
  have hlen : sd2.length = (lastRowNumber rows).toNat := by rw [l2, l1]; simp
  refine ⟨sd2, ?_, by omega, fun j hj => ?_⟩
  · unfold checkSheetDense
    rw [hscan]
    simp only
    rw [if_neg (by unfold lastRowNumber at hN; omega)]
    unfold lastRowNumber at e1 e2
    rw [e1]
    simp only
    rw [e2]
  · have hc : 1 - 1 ≤ (j : Int) ∧ (j : Int) < lastRowNumber rows := by omega
    rw [g2 j, if_pos hc, g1 j]
    cases hr : rowsAt ((j : Int) + 1) rows with
    | nil =>
      simp only [List.getElem?_replicate]
      rw [if_pos (by omega)]
      rfl
    | cons f fs =>
      have : ¬ ((j : Int) + 1 = 0) := by omega
      simp only [this, if_false, Option.map_some']

theorem rowsAt_of_increasing (rows : List xlsxRow)
    (h : List.Pairwise (fun a b : xlsxRow => a.R < b.R) rows) :
    ∀ r ∈ rows, rowsAt r.R rows = [r] := by
  induction rows with
  | nil => intro r hr; simp at hr
  | cons a l ih =>
    intro r hr
    rw [List.pairwise_cons] at h
    rcases List.mem_cons.1 hr with h1 | h1
    · subst h1
      have : rowsAt r.R l = [] := by
        unfold rowsAt
        rw [List.filter_eq_nil_iff]
        intro b hb
        have := h.1 b hb
        simp
        omega
      unfold rowsAt at this ⊢
      simp [List.filter_cons, this]
    · have := h.1 r h1
      have hne : ¬ (a.R = r.R) := by omega
      have := ih h.2 r h1
      unfold rowsAt at this ⊢
      simp [List.filter_cons, hne, this]

theorem rowsAt_eq_nil (n : Int) (rows : List xlsxRow) (h : ∀ r ∈ rows, r.R ≠ n) :
    rowsAt n rows = [] := by
  unfold rowsAt
  rw [List.filter_eq_nil_iff]
  intro r hr
  simpa using h r hr

/-! ## C6: rows with strictly increasing numbers -/

/-- C6. For a decoded row list whose rows all carry explicit, strictly
increasing row numbers starting at 1 or more, `checkSheet` returns, and yields
exactly (last row number) rows: each input row sits at index (number - 1)
unchanged, and every other index holds an empty row carrying only its
number. -/
theorem checkSheet_increasing_rows (hasValue : xlsxC → Bool) (rows : List xlsxRow)
    (h : List.Chain (· < ·) 0 (rows.map (·.R))) :
    ∃ out, checkSheet hasValue { Row := rows } = some { Row := out } ∧
      (out.length : Int) = lastRowNumber rows ∧
      (∀ r ∈ rows, getI out (r.R - 1) = some r) ∧
      (∀ i : Nat, i < out.length → (∀ r ∈ rows, r.R ≠ (i : Int) + 1) →
        out[i]? = some { R := (i : Int) + 1 }) := by
  have hpw : List.Pairwise (fun a b : xlsxRow => a.R < b.R) rows := by
    have := (List.pairwise_cons.1 (List.chain_iff_pairwise.1 h)).2
    exact (List.pairwise_map.1 this)
  have h1 : List.Chain (· ≤ ·) 1 (rows.map (·.R)) := by
    cases hrows : rows.map (·.R) with
    | nil => exact List.Chain.nil
    | cons r rs =>
      rw [hrows] at h
      rw [List.chain_cons] at h ⊢
      exact ⟨by omega, h.2.imp (fun _ _ hab => le_of_lt hab)⟩
  obtain ⟨sd, e, l, g⟩ := checkSheetDense_sorted rows h1
  have hpos : ∀ r ∈ rows, 1 ≤ r.R := fun r hr =>
    chain_le_mem _ _ h1 r.R (List.mem_map_of_mem _ hr)
  have h0 : List.Chain (· ≤ ·) 0 (rows.map (·.R)) := h.imp (fun _ _ hab => le_of_lt hab)
  have hlast := le_foldl_last 0 rows h0
  refine ⟨sd, ?_, l, ?_, ?_⟩
  · unfold checkSheet
    simp only [e]
    rfl
  · intro r hr
    have hr1 := hpos r hr
    have hr2 : r.R ≤ lastRowNumber rows := hlast.2 r hr
    have hj : (r.R - 1).toNat < sd.length := by omega
    rw [getI_nat _ _ (by omega), g _ hj]
    have hc : (((r.R - 1).toNat : Nat) : Int) + 1 = r.R := by omega
    rw [hc, rowsAt_of_increasing rows hpw r hr]
    simp only [List.flatMap_cons, List.flatMap_nil, List.append_nil]
  · intro i hi hno
    rw [g i hi, rowsAt_eq_nil _ _ hno]

/-- C6, at the rows numbered 1 and 3 of the specification: three rows come
out, row 2 empty. -/
theorem checkSheet_increasing_rows_witness :
    ∃ out, checkSheet cellHasValue
        { Row := [{ R := 1, C := [{ R := "A1", V := "x" }] },
                  { R := 3, C := [{ R := "C3", V := "y" }] }] } = some { Row := out } ∧
      (out.length : Int) = lastRowNumber [{ R := 1, C := [{ R := "A1", V := "x" }] },
                  { R := 3, C := [{ R := "C3", V := "y" }] }] ∧
      (∀ r ∈ [({ R := 1, C := [{ R := "A1", V := "x" }] } : xlsxRow),
                  { R := 3, C := [{ R := "C3", V := "y" }] }], getI out (r.R - 1) = some r) ∧
      (∀ i : Nat, i < out.length →
        (∀ r ∈ [({ R := 1, C := [{ R := "A1", V := "x" }] } : xlsxRow),
                  { R := 3, C := [{ R := "C3", V := "y" }] }], r.R ≠ (i : Int) + 1) →
        out[i]? = some { R := (i : Int) + 1 }) :=
  checkSheet_increasing_rows cellHasValue _ (by simp)

/-! ## C8: rows that claim the same number -/

/-- Rows that claim the same number and are adjacent. For every decoded row
list whose rows carry explicit row numbers of 1 or more in non-decreasing
order (so that rows claiming the same number are adjacent), `checkSheet`
returns, and the normalized row at each claimed number holds the cells of all
the rows that claim it, in document order: no cell is dropped or
overwritten. -/
theorem checkSheet_adjacent_duplicates (hasValue : xlsxC → Bool) (rows : List xlsxRow)
    (h : List.Chain (· ≤ ·) 1 (rows.map (·.R))) :
    ∃ out, checkSheet hasValue { Row := rows } = some { Row := out } ∧
      ∀ r ∈ rows, ∃ t, getI out (r.R - 1) = some t ∧
        t.C = (rowsAt r.R rows).flatMap (·.C) := by
  obtain ⟨sd, e, l, g⟩ := checkSheetDense_sorted rows h
  have hpos : ∀ r ∈ rows, 1 ≤ r.R := fun r hr =>
    chain_le_mem _ _ h r.R (List.mem_map_of_mem _ hr)
  have h0 : List.Chain (· ≤ ·) 0 (rows.map (·.R)) := by
    cases hrows : rows.map (·.R) with
    | nil => exact List.Chain.nil
    | cons r rs =>
      rw [hrows] at h
      rw [List.chain_cons] at h ⊢
      exact ⟨by omega, h.2⟩
  have hlast := le_foldl_last 0 rows h0
  refine ⟨sd, ?_, ?_⟩
  · unfold checkSheet
    simp only [e]
    rfl
  · intro r hr
    have hr1 := hpos r hr
    have hr2 : r.R ≤ lastRowNumber rows := hlast.2 r hr
    have hj : (r.R - 1).toNat < sd.length := by omega
    have hc : (((r.R - 1).toNat : Nat) : Int) + 1 = r.R := by omega
    have hg := g _ hj
    rw [hc] at hg
    rw [getI_nat _ _ (by omega), hg]
    cases hra : rowsAt r.R rows with
    | nil =>
      have : r ∈ rowsAt r.R rows := by simp [rowsAt, hr]
      rw [hra] at this
      simp at this
    | cons f fs => exact ⟨_, rfl, rfl⟩

/-! ## checkRow on cells in ascending columns -/

theorem option_map_eq_some_cons {a : Int} {o : Option (List Int)} {cols : List Int}
    (h : o.map (fun l => a :: l) = some cols) : ∃ tl, o = some tl ∧ cols = a :: tl := by
  cases o with
  | none => simp at h
  | some tl => exact ⟨tl, rfl, by simpa using h.symm⟩

theorem checkRowFill_ascending (rowIdx : Int) (hrow : 0 ≤ rowIdx) :
    ∀ (cs : List xlsxC) (prev : Int) (cols : List Int),
    cellColumns prev cs = some cols → List.Chain (· < ·) prev cols → 0 ≤ prev →
    checkRowFill rowIdx cs prev = (List.zipWith (withReference rowIdx) cols cs, none) ∧
    cols.length = cs.length ∧
    List.Forall₂ (fun c col => ∃ row, CellNameToCoordinates c.R = .ok (col, row))
      (List.zipWith (withReference rowIdx) cols cs) cols := by
  intro cs
  induction cs with
  | nil =>
    intro prev cols h _ _
    simp only [cellColumns, Option.some.injEq] at h
    subst h
    exact ⟨rfl, rfl, List.Forall₂.nil⟩
  | cons c cs ih =>
    intro prev cols h hch hprev
    unfold cellColumns at h
    by_cases hR : c.R = ""
    · rw [if_pos hR] at h
      obtain ⟨tl, htl, hcols⟩ := option_map_eq_some_cons h
      subst hcols
      rw [List.chain_cons] at hch
      obtain ⟨e, l, f⟩ := ih (prev + 1) tl htl hch.2 (by omega)
      obtain ⟨s, _, hs2, _, hs4⟩ := CellNameToCoordinates_cellName (prev + 1) (rowIdx + 1)
        (by omega) (by omega)
      refine ⟨?_, by simp [l], ?_⟩
      · unfold checkRowFill
        rw [if_neg (by simpa using hR)]
        simp only [e, List.zipWith_cons_cons, withReference, if_pos hR]
      · simp only [List.zipWith_cons_cons]
        refine List.Forall₂.cons ?_ f
        simp only [withReference, if_pos hR, hs2]
        exact ⟨_, hs4⟩
    · rw [if_neg hR] at h
      cases hp : CellNameToCoordinates c.R with
      | error e => rw [hp] at h; simp at h
      | ok v =>
        obtain ⟨col, row⟩ := v
        rw [hp] at h
        simp only at h
        obtain ⟨tl, htl, hcols⟩ := option_map_eq_some_cons h
        subst hcols
        rw [List.chain_cons] at hch
        obtain ⟨e, l, f⟩ := ih col tl htl hch.2 (by omega)
        refine ⟨?_, by simp [l], ?_⟩
        · unfold checkRowFill
          rw [if_pos (by simpa using hR), hp]
          simp only
          have : (if col > prev + 1 then col else prev + 1) = col := by
            split <;> omega
          rw [this, e]
          simp only [List.zipWith_cons_cons, withReference, if_neg hR]
        · simp only [List.zipWith_cons_cons]
          refine List.Forall₂.cons ?_ f
          simp only [withReference, if_neg hR]
          exact ⟨_, hp⟩

theorem checkRowNew_range (rowIdx : Int) (hrow : 0 ≤ rowIdx) :
    ∀ l : List Int, (∀ x ∈ l, 0 ≤ x) →
    checkRowNew rowIdx l =
      .ok (l.map (fun j => ({ R := cellNameOrEmpty (j + 1) (rowIdx + 1) } : xlsxC))) := by
  intro l
  induction l with
  | nil => intro _; rfl
  | cons x xs ih =>
    intro h
    obtain ⟨s, hs1, hs2, _, _⟩ := CellNameToCoordinates_cellName (x + 1) (rowIdx + 1)
      (by have := h x (by simp); omega) (by omega)
    unfold checkRowNew
    rw [hs1, ih (fun y hy => h y (by simp [hy]))]
    simp only [List.map_cons, hs2]

theorem mem_intRange (lo hi x : Int) (h : x ∈ intRange lo hi) : lo ≤ x ∧ x ≤ hi := by
  unfold intRange at h
  rw [List.mem_map] at h
  obtain ⟨k, hk, rfl⟩ := h
  rw [List.mem_range] at hk
  omega

theorem getElem?_intRange (lo hi : Int) (j : Nat) (h : (j : Int) < hi + 1 - lo) :
    (intRange lo hi)[j]? = some (lo + j) := by
  unfold intRange
  rw [List.getElem?_map, List.getElem?_range (by omega)]
  rfl

theorem checkRowPut_ascending :
    ∀ (cs cells : List xlsxC) (cols : List Int) (prev : Int),
    List.Forall₂ (fun (c : xlsxC) col => ∃ row, CellNameToCoordinates c.R = .ok (col, row)) cs cols →
    List.Chain (· < ·) prev cols → 0 ≤ prev → (∀ col ∈ cols, col ≤ cells.length) →
    ∃ out, checkRowPut cs cells = some (out, none) ∧ out.length = cells.length ∧
      (∀ (k : Nat) (c : xlsxC) (col : Int), cs[k]? = some c → cols[k]? = some col →
        out[(col - 1).toNat]? = some c) ∧
      (∀ j : Nat, ((j : Int) + 1) ∉ cols → out[j]? = cells[j]?) := by
  intro cs
  induction cs with
  | nil =>
    intro cells cols prev hf _ _ _
    cases hf
    exact ⟨cells, rfl, rfl, fun k c col hk => by simp at hk, fun j _ => rfl⟩
  | cons c cs ih =>
    intro cells cols prev hf hch hprev hb
    cases hf with
    | cons hhead htail =>
      rename_i col tl
      obtain ⟨row, hp⟩ := hhead
      rw [List.chain_cons] at hch
      have hcol := hb col (by simp)
      have hk0 : 0 ≤ col - 1 := by omega
      have hk : (col - 1).toNat < cells.length := by omega
      obtain ⟨out, e, l, g1, g2⟩ := ih (cells.set (col - 1).toNat c) tl col htail hch.2
        (by omega) (fun x hx => by simpa using hb x (by simp [hx]))
      have hnot : ((((col - 1).toNat : Nat) : Int) + 1) ∉ tl := by
        intro hm
        have h1 := (List.pairwise_cons.1 (List.chain_iff_pairwise.1 hch.2)).1 _ hm
        omega
      refine ⟨out, ?_, by simpa using l, ?_, ?_⟩
      · unfold checkRowPut
        rw [hp]
        simp only
        rw [setI_nat _ _ _ hk0 hk]
        simp only [e]
      · intro k c1 col1 hc1 hcol1
        cases k with
        | zero =>
          simp only [List.getElem?_cons_zero, Option.some.injEq] at hc1 hcol1
          subst hc1 hcol1
          rw [g2 _ hnot, List.getElem?_set_self hk]
        | succ k =>
          simp only [List.getElem?_cons_succ] at hc1 hcol1
          exact g1 k c1 col1 hc1 hcol1
      · intro j hj
        simp only [List.mem_cons, not_or] at hj
        rw [g2 j hj.2, List.getElem?_set_ne (by omega)]

theorem chain_lt_lower (cols : List Int) :
    ∀ (prev : Int), List.Chain (· < ·) prev cols →
    ∀ (k : Nat) (c : Int), cols[k]? = some c → prev + (k : Int) + 1 ≤ c := by
  induction cols with
  | nil => intro prev _ k c h; simp at h
  | cons a l ih =>
    intro prev h k c hk
    rw [List.chain_cons] at h
    cases k with
    | zero =>
      simp only [List.getElem?_cons_zero, Option.some.injEq] at hk
      subst hk
      push_cast
      omega
    | succ k =>
      simp only [List.getElem?_cons_succ] at hk
      have := ih a h.2 k c hk
      push_cast
      omega

theorem chain_lt_upper (cols : List Int) :
    ∀ (prev : Int), List.Chain (· < ·) prev cols →
    ∀ (k : Nat) (c : Int), cols[k]? = some c →
      c + ((cols.length : Int) - 1 - (k : Int)) ≤ cols.getLastD prev := by
  induction cols with
  | nil => intro prev _ k c h; simp at h
  | cons a l ih =>
    intro prev h k c hk
    rw [List.chain_cons] at h
    have hlast : (a :: l).getLastD prev = l.getLastD a := by
      cases l <;> simp [List.getLastD]
    rw [hlast]
    cases k with
    | zero =>
      simp only [List.getElem?_cons_zero, Option.some.injEq] at hk
      subst hk
      cases l with
      | nil => simp
      | cons b l2 =>
        have h1 := ih a h.2 0 b (by simp)
        rw [List.chain_cons] at h
        simp only [List.length_cons] at h1 ⊢
        push_cast at h1 ⊢
        omega
    | succ k =>
      simp only [List.getElem?_cons_succ] at hk
      have := ih a h.2 k c hk
      simp only [List.length_cons]
      push_cast
      omega

theorem forall₂_getElem? {α β : Type} {R : α → β → Prop} {l1 : List α} {l2 : List β}
    (h : List.Forall₂ R l1 l2) :
    ∀ (k : Nat) (a : α) (b : β), l1[k]? = some a → l2[k]? = some b → R a b := by
  induction h with
  | nil => intro k a b h1; simp at h1
  | cons hab _ ih =>
    intro k a b h1 h2
    cases k with
    | zero =>
      simp only [List.getElem?_cons_zero, Option.some.injEq] at h1 h2
      subst h1 h2
      exact hab
    | succ k =>
      simp only [List.getElem?_cons_succ] at h1 h2
      exact ih k a b h1 h2

theorem exists_getElem? {α : Type} (l : List α) (k : Nat) (h : k < l.length) :
    ∃ x, l[k]? = some x := ⟨l[k], List.getElem?_eq_getElem h⟩

theorem row_with_same_cells (r : xlsxRow) : { r with C := r.C } = r := by
  cases r; rfl

/-- One row of `checkRow`: when the columns of its cells increase strictly,
the body of the loop returns without error, with the densified cell list. -/
theorem checkRowAt_ascending (rowIdx : Int) (hrow : 0 ≤ rowIdx) (r : xlsxRow)
    (cols : List Int) (hc : cellColumns 0 r.C = some cols)
    (hch : List.Chain (· < ·) 0 cols) :
    ∃ cells, checkRowAt rowIdx r = some ({ r with C := cells }, none) ∧
      densified rowIdx r.C cols cells := by
  obtain ⟨e, l, f⟩ := checkRowFill_ascending rowIdx hrow r.C 0 cols hc hch (le_refl _)
  by_cases hnil : r.C = []
  · refine ⟨r.C, ?_, ?_⟩
    · unfold checkRowAt
      simp [hnil, row_with_same_cells]
      cases r
      simp_all
    · rw [hnil] at l ⊢
      have : cols = [] := List.length_eq_zero.1 l
      subst this
      refine ⟨rfl, fun k c col hk => by simp at hk, fun j hj => by simp at hj⟩
  · have hn : 0 < r.C.length := List.length_pos.2 hnil
    have hlen : (List.zipWith (withReference rowIdx) cols r.C).length = r.C.length := by
      rw [List.length_zipWith, l]; simp
    -- the last cell and its column
    obtain ⟨lastCol, hlastCol⟩ := exists_getElem? cols (r.C.length - 1) (by omega)
    obtain ⟨lastC, hlastC⟩ := exists_getElem? r.C (r.C.length - 1) (by omega)
    have hz : ∀ (k : Nat) (c : xlsxC) (col : Int), r.C[k]? = some c → cols[k]? = some col →
        (List.zipWith (withReference rowIdx) cols r.C)[k]? = some (withReference rowIdx col c) := by
      intro k c col h1 h2
      rw [List.getElem?_zipWith, h1, h2]
    have hlastZ := hz _ _ _ hlastC hlastCol
    obtain ⟨lrow, hparse⟩ := forall₂_getElem? f _ _ _ hlastZ hlastCol
    have hgetLast : cols.getLastD 0 = lastCol := by
      rw [List.getLastD_eq_getLast?, List.getLast?_eq_getElem?, l, hlastCol]
      rfl
    have hlow := chain_lt_lower cols 0 hch
    have hup := chain_lt_upper cols 0 hch
    have hlastLow := hlow _ _ hlastCol
    have hcc : ((r.C.length : Int) = 0) = False := by
      simp only [eq_iff_iff, iff_false]; omega
    have hidx : ((r.C.length : Int) - 1).toNat = r.C.length - 1 := by omega
    have hcolle : ∀ col ∈ cols, col ≤ lastCol := by
      intro col hcol
      obtain ⟨k, hk⟩ := List.mem_iff_getElem?.1 hcol
      have h1 := hup k col hk
      have h2 : k < cols.length := by
        rcases List.getElem?_eq_some.1 hk with ⟨h, _⟩
        exact h
      rw [hgetLast] at h1
      omega
    by_cases hexp : (r.C.length : Int) < lastCol
    · -- the row is expanded
      have hnew := checkRowNew_range rowIdx hrow (intRange 0 (lastCol - 1))
        (fun x hx => (mem_intRange _ _ _ hx).1)
      have hblen : ((intRange 0 (lastCol - 1)).map
          (fun j => ({ R := cellNameOrEmpty (j + 1) (rowIdx + 1) } : xlsxC))).length
          = lastCol.toNat := by
        rw [List.length_map, intRange_length]
        congr 1
        omega
      obtain ⟨out, e2, l2, g1, g2⟩ := checkRowPut_ascending
        (List.zipWith (withReference rowIdx) cols r.C)
        ((intRange 0 (lastCol - 1)).map
          (fun j => ({ R := cellNameOrEmpty (j + 1) (rowIdx + 1) } : xlsxC)))
        cols 0 f hch (le_refl _)
        (fun col hcol => by rw [hblen]; have := hcolle col hcol; omega)
      refine ⟨out, ?_, ?_, ?_, ?_⟩
      · unfold checkRowAt
        simp only [hcc, if_false, e]
        rw [getI_nat _ _ (by omega), hidx, hlastZ]
        simp only [hparse, if_pos hexp, hnew, e2]
      · rw [l2, hblen, hgetLast]
        omega
      · intro k c col h1 h2
        have h3 := hlow k col h2
        rw [getI_nat _ _ (by omega)]
        exact g1 k _ col (hz k c col h1 h2) h2
      · intro j hj hnot
        rw [l2, hblen] at hj
        rw [g2 j hnot, List.getElem?_map, getElem?_intRange _ _ _ (by omega)]
        simp
    · -- the row is full already
      have hlastEq : lastCol = r.C.length := by omega
      have hcolk : ∀ (k : Nat) (col : Int), cols[k]? = some col → col = (k : Int) + 1 := by
        intro k col hk
        have h1 := hlow k col hk
        have h2 := hup k col hk
        have h3 : k < cols.length := by
          rcases List.getElem?_eq_some.1 hk with ⟨h, _⟩
          exact h
        rw [hgetLast] at h2
        omega
      refine ⟨List.zipWith (withReference rowIdx) cols r.C, ?_, ?_, ?_, ?_⟩
      · unfold checkRowAt
        simp only [hcc, if_false, e]
        rw [getI_nat _ _ (by omega), hidx, hlastZ]
        simp only [hparse, if_neg hexp]
      · rw [hlen, hgetLast, hlastEq]
      · intro k c col h1 h2
        have h3 := hcolk k col h2
        rw [getI_nat _ _ (by omega)]
        have : (col - 1).toNat = k := by omega
        rw [this]
        exact hz k c col h1 h2
      · intro j hj hnot
        exfalso
        rw [hlen] at hj
        obtain ⟨col, hcol⟩ := exists_getElem? cols j (by omega)
        have := hcolk j col hcol
        apply hnot
        rw [← this]
        exact List.mem_iff_getElem?.2 ⟨j, hcol⟩

theorem checkRowLoop_ascending :
    ∀ (rows : List xlsxRow) (rowIdx : Int), 0 ≤ rowIdx →
    (∀ r ∈ rows, ∃ cols, cellColumns 0 r.C = some cols ∧ List.Chain (· < ·) 0 cols) →
    ∃ out, checkRowLoop rowIdx rows = some (out, none) ∧ out.length = rows.length ∧
      ∀ (i : Nat) (r : xlsxRow) (cols : List Int), rows[i]? = some r →
        cellColumns 0 r.C = some cols →
        ∃ cells, out[i]? = some { r with C := cells } ∧
          densified (rowIdx + (i : Int)) r.C cols cells := by
  intro rows
  induction rows with
  | nil =>
    intro rowIdx _ _
    exact ⟨[], rfl, rfl, fun i r cols h => by simp at h⟩
  | cons a rs ih =>
    intro rowIdx hrow h
    obtain ⟨cols, hc, hch⟩ := h a (by simp)
    obtain ⟨cells, e, d⟩ := checkRowAt_ascending rowIdx hrow a cols hc hch
    obtain ⟨out, e2, l2, g2⟩ := ih (rowIdx + 1) (by omega) (fun r hr => h r (by simp [hr]))
    refine ⟨{ a with C := cells } :: out, ?_, by simp [l2], ?_⟩
    · unfold checkRowLoop
      simp only [e, e2]
    · intro i r cols1 hi hc1
      cases i with
      | zero =>
        simp only [List.getElem?_cons_zero, Option.some.injEq] at hi
        subst hi
        rw [hc] at hc1
        simp only [Option.some.injEq] at hc1
        subst hc1
        exact ⟨cells, by simp, by simpa using d⟩
      | succ i =>
        simp only [List.getElem?_cons_succ] at hi
        obtain ⟨cells1, h1, h2⟩ := g2 i r cols1 hi hc1
        refine ⟨cells1, by simpa using h1, ?_⟩
        have : rowIdx + 1 + (i : Int) = rowIdx + ((i + 1 : Nat) : Int) := by push_cast; ring
        rw [← this]
        exact h2

theorem checkRowLoop_ok :
    ∀ (rows : List xlsxRow) (rowIdx : Int) (out : List xlsxRow),
    checkRowLoop rowIdx rows = some (out, none) →
    ∀ (i : Nat) (r : xlsxRow), rows[i]? = some r →
      ∃ r1, checkRowAt (rowIdx + (i : Int)) r = some (r1, none) ∧ out[i]? = some r1 := by
  intro rows
  induction rows with
  | nil => intro rowIdx out _ i r h; simp at h
  | cons a rs ih =>
    intro rowIdx out h i r hi
    unfold checkRowLoop at h
    cases ha : checkRowAt rowIdx a with
    | none => rw [ha] at h; simp at h
    | some v =>
      obtain ⟨a1, err⟩ := v
      cases err with
      | some e => rw [ha] at h; simp at h
      | none =>
        rw [ha] at h
        simp only at h
        cases hl : checkRowLoop (rowIdx + 1) rs with
        | none => rw [hl] at h; simp at h
        | some w =>
          obtain ⟨rs1, e⟩ := w
          rw [hl] at h
          simp only [Option.some.injEq, Prod.mk.injEq] at h
          obtain ⟨h1, h2⟩ := h
          subst h1 h2
          cases i with
          | zero =>
            simp only [List.getElem?_cons_zero, Option.some.injEq] at hi
            subst hi
            exact ⟨a1, by simpa using ha, by simp⟩
          | succ i =>
            simp only [List.getElem?_cons_succ] at hi
            obtain ⟨r1, h3, h4⟩ := ih (rowIdx + 1) rs1 hl i r hi
            refine ⟨r1, ?_, by simpa using h4⟩
            have : rowIdx + 1 + (i : Int) = rowIdx + ((i + 1 : Nat) : Int) := by push_cast; ring
            rw [← this]
            exact h3

theorem contiguous_of_densified (rowIdx : Int) (hrow : 0 ≤ rowIdx) (cs : List xlsxC)
    (cols : List Int) (hc : cellColumns 0 cs = some cols) (hch : List.Chain (· < ·) 0 cols)
    (cells : List xlsxC) (d : densified rowIdx cs cols cells) : contiguousColumns cells := by
  obtain ⟨_, l, f⟩ := checkRowFill_ascending rowIdx hrow cs 0 cols hc hch (le_refl _)
  obtain ⟨_, d2, d3⟩ := d
  intro j c hj
  have hjlt : j < cells.length := by
    rcases List.getElem?_eq_some.1 hj with ⟨h, _⟩
    exact h
  by_cases hm : ((j : Int) + 1) ∈ cols
  · obtain ⟨k, hk⟩ := List.mem_iff_getElem?.1 hm
    have hklt : k < cols.length := by
      rcases List.getElem?_eq_some.1 hk with ⟨h, _⟩
      exact h
    obtain ⟨c0, hc0⟩ := exists_getElem? cs k (by omega)
    have h1 := d2 k c0 _ hc0 hk
    rw [getI_nat _ _ (by omega)] at h1
    have h2 : ((j : Int) + 1 - 1).toNat = j := by omega
    rw [h2, hj] at h1
    simp only [Option.some.injEq] at h1
    subst h1
    have hz : (List.zipWith (withReference rowIdx) cols cs)[k]? =
        some (withReference rowIdx ((j : Int) + 1) c0) := by
      rw [List.getElem?_zipWith, hc0, hk]
    exact forall₂_getElem? f k _ _ hz hk
  · have h1 := d3 j hjlt hm
    rw [hj] at h1
    simp only [Option.some.injEq] at h1
    subst h1
    obtain ⟨s, _, hs2, _, hs4⟩ := CellNameToCoordinates_cellName ((j : Int) + 1) (rowIdx + 1)
      (by omega) (by omega)
    simp only [hs2]
    exact ⟨_, hs4⟩

/-! ## C7: a row whose columns increase -/

/-- C7. In a worksheet whose rows all have cells in strictly increasing
columns (every reference valid, a cell without reference taking the column
after the cell before it), `checkRow` returns no error, and the cell list of
each row is the densified one: as many entries as the column of the last
cell, each original cell at index (column - 1), unchanged but for the
reference it lacked, and every other entry an empty cell carrying only the
reference of its position. -/
theorem checkRow_ascending_cells (sheetData : xlsxSheetData)
    (h : ∀ r ∈ sheetData.Row, ∃ cols, cellColumns 0 r.C = some cols ∧
      List.Chain (· < ·) 0 cols) :
    ∃ out, checkRow sheetData = some ({ Row := out }, none) ∧
      out.length = sheetData.Row.length ∧
      ∀ (i : Nat) (r : xlsxRow) (cols : List Int), sheetData.Row[i]? = some r →
        cellColumns 0 r.C = some cols →
        ∃ cells, out[i]? = some { r with C := cells } ∧ densified (i : Int) r.C cols cells := by
  obtain ⟨out, e, l, g⟩ := checkRowLoop_ascending sheetData.Row 0 (le_refl _) h
  refine ⟨out, ?_, l, ?_⟩
  · unfold checkRow
    simp only [e]
  · intro i r cols h1 h2
    obtain ⟨cells, h3, h4⟩ := g i r cols h1 h2
    exact ⟨cells, h3, by simpa using h4⟩

theorem sheet15_ascending : ∀ r ∈ sheet15.Row, ∃ cols, cellColumns 0 r.C = some cols ∧
    List.Chain (· < ·) 0 cols := by
  intro r hr
  simp only [sheet15, List.mem_append, List.mem_map, List.mem_singleton] at hr
  rcases hr with ⟨i, _, rfl⟩ | rfl
  · exact ⟨[], rfl, List.Chain.nil⟩
  · exact ⟨[1, 2, 6, 7], by decide, by simp⟩

/-- C7, at the row of the documentation of `checkRow`: `A15`, `B15`, `F15`,
`G15` become the seven cells `A15` to `G15`. -/
theorem checkRow_ascending_cells_witness :
    (∃ out, checkRow sheet15 = some ({ Row := out }, none) ∧
      out.length = sheet15.Row.length ∧
      ∀ (i : Nat) (r : xlsxRow) (cols : List Int), sheet15.Row[i]? = some r →
        cellColumns 0 r.C = some cols →
        ∃ cells, out[i]? = some { r with C := cells } ∧ densified (i : Int) r.C cols cells) ∧
    (checkRow sheet15).map (fun res => (getI res.1.Row 14).map (fun r => r.C)) =
      some (some [{ R := "A15", S := 2 }, { R := "B15", S := 2 }, { R := "C15" },
        { R := "D15" }, { R := "E15" }, { R := "F15", S := 1 }, { R := "G15", S := 1 }]) :=
  ⟨checkRow_ascending_cells sheet15 sheet15_ascending, by decide⟩

/-! ## C2: the cells of a row after normalization -/

/-- C2 fails as stated: a row whose two cells both carry the reference `A1`
goes through `checkSheet` and `checkRow` without error and unchanged, so the
second cell sits at position 1 with column 1. -/
theorem checkRow_keeps_duplicate_column :
    checkSheet cellHasValue
        { Row := [{ R := 1, C := [{ R := "A1", V := "x" }, { R := "A1", V := "y" }] }] } =
      some { Row := [{ R := 1, C := [{ R := "A1", V := "x" }, { R := "A1", V := "y" }] }] } ∧
    checkRow { Row := [{ R := 1, C := [{ R := "A1", V := "x" }, { R := "A1", V := "y" }] }] } =
      some ({ Row := [{ R := 1, C := [{ R := "A1", V := "x" }, { R := "A1", V := "y" }] }] }, none) ∧
    ¬ contiguousColumns [{ R := "A1", V := "x" }, { R := "A1", V := "y" }] := by
  refine ⟨by decide, by decide, ?_⟩
  intro h
  obtain ⟨row, hrow⟩ := h 1 { R := "A1", V := "y" } rfl
  have h1 : CellNameToCoordinates "A1" = .ok (1, 1) := by decide
  rw [h1] at hrow
  simp only [Except.ok.injEq, Prod.mk.injEq] at hrow
  omega

/-- C2, as amended. After normalization succeeds (`checkSheet`, then
`checkRow` without error), every row whose cells, as `checkSheet` leaves
them, have strictly increasing columns (a cell without reference taking the
column after the cell before it) has exactly as many cells as the column of
its last cell, and the cell at position `j` carries a reference of column
`j + 1`. -/
theorem checkRow_contiguous_of_ascending (hasValue : xlsxC → Bool)
    (decoded ws out : xlsxSheetData) (_h1 : checkSheet hasValue decoded = some ws)
    (h2 : checkRow ws = some (out, none)) (i : Nat) (r : xlsxRow) (cols : List Int)
    (hr : ws.Row[i]? = some r) (hc : cellColumns 0 r.C = some cols)
    (hch : List.Chain (· < ·) 0 cols) :
    ∃ cells, out.Row[i]? = some { r with C := cells } ∧
      (cells.length : Int) = cols.getLastD 0 ∧ contiguousColumns cells := by
  have hloop : checkRowLoop 0 ws.Row = some (out.Row, none) := by
    unfold checkRow at h2
    cases hl : checkRowLoop 0 ws.Row with
    | none => rw [hl] at h2; simp at h2
    | some v =>
      obtain ⟨rs, e⟩ := v
      rw [hl] at h2
      simp only [Option.some.injEq, Prod.mk.injEq] at h2
      obtain ⟨h3, h4⟩ := h2
      subst h3 h4
      rfl
  obtain ⟨r1, e1, g1⟩ := checkRowLoop_ok ws.Row 0 out.Row hloop i r hr
  have hi : (0 : Int) ≤ 0 + (i : Int) := by omega
  obtain ⟨cells, e2, d⟩ := checkRowAt_ascending (0 + (i : Int)) hi r cols hc hch
  rw [e2] at e1
  simp only [Option.some.injEq, Prod.mk.injEq, and_true] at e1
  subst e1
  exact ⟨cells, g1, d.1, contiguous_of_densified _ hi r.C cols hc hch cells d⟩

/-- C2, as amended, at the scenario of the specification: row 3, decoded with
the single cell `C3`, comes out with the cells of columns 1, 2, 3. -/
theorem checkRow_contiguous_of_ascending_witness :
    ∃ cells, ([{ R := 1, C := [{ R := "A1", V := "x" }] }, { R := 2 },
        { R := 3, C := [{ R := "A3" }, { R := "B3" }, { R := "C3", V := "y" }] }] :
          List xlsxRow)[2]? =
        some { ({ R := 3, C := [{ R := "C3", V := "y" }] } : xlsxRow) with C := cells } ∧
      (cells.length : Int) = [(3 : Int)].getLastD 0 ∧ contiguousColumns cells :=
  checkRow_contiguous_of_ascending cellHasValue { Row := scenarioRows }
    { Row := [{ R := 1, C := [{ R := "A1", V := "x" }] }, { R := 2 },
        { R := 3, C := [{ R := "C3", V := "y" }] }] }
    { Row := [{ R := 1, C := [{ R := "A1", V := "x" }] }, { R := 2 },
        { R := 3, C := [{ R := "A3" }, { R := "B3" }, { R := "C3", V := "y" }] }] }
    (by decide) (by decide) 2 { R := 3, C := [{ R := "C3", V := "y" }] } [3]
    (by decide) (by decide) (by simp)

/-! ## C1: the rows after checkSheet -/

/-- C1 fails on the code: for the decoded rows numbered 3 and 1, in this
order, `checkSheet` allocates four rows and renumbers only the first, so the
rows at index 1 and 3 keep number 0. -/
theorem checkSheet_unsorted_rows :
    checkSheet cellHasValue { Row := [{ R := 3 }, { R := 1 }] } =
      some { Row := [{ R := 1 }, { R := 0 }, { R := 3 }, { R := 0 }] } := by
  decide

/-- On two rows without number, `checkSheet` allocates no row and then
indexes the first: it panics. -/
theorem checkSheet_two_unnumbered_rows :
    checkSheet cellHasValue { Row := [{ R := 0 }, { R := 0 }] } = none := by
  decide

/-! ## C8: rows that claim the same number, continued -/

/-- C8 fails on the code: when the rows that claim number 1 are not adjacent
(the rows 1, 2, 1), `checkSheet` assigns the later row to the slot of row 1
instead of appending its cells: the row at number 1 holds the cells of the
later row only, the cell of the first-seen row is dropped, and the third slot
keeps the number 0. -/
theorem checkSheet_nonadjacent_duplicate :
    checkSheet cellHasValue
        { Row := [{ R := 1, C := [{ R := "A1", V := "a" }] }, { R := 2 },
                  { R := 1, C := [{ R := "B1", V := "b" }] }] } =
      some { Row := [{ R := 1, C := [{ R := "B1", V := "b" }] }, { R := 2 }, { R := 0 }] } := by
  decide

/-- At two adjacent rows that claim number 2: the normalized row 2 holds the
cells of both. -/
theorem checkSheet_adjacent_duplicates_witness :
    (∃ out, checkSheet cellHasValue { Row := duplicateRows } = some { Row := out } ∧
      ∀ r ∈ duplicateRows, ∃ t, getI out (r.R - 1) = some t ∧
        t.C = (rowsAt r.R duplicateRows).flatMap (·.C)) ∧
    checkSheet cellHasValue { Row := duplicateRows } =
      some { Row := [{ R := 1, C := [{ R := "A1", V := "a" }] },
                     { R := 2, C := [{ R := "A2", V := "b" }, { R := "B2", V := "c" }] }] } :=
  ⟨checkSheet_adjacent_duplicates cellHasValue duplicateRows (by simp [duplicateRows]),
   by decide⟩

/-! ## checkSheetR0: the fallback row -/

theorem getElem?_append_intRange {α : Type} (l : List α) (hi : Int) (g : Int → α) (j : Nat) :
    (l ++ (intRange l.length hi).map g)[j]? =
      if j < l.length then l[j]? else if (j : Int) ≤ hi then some (g j) else none := by
  by_cases h1 : j < l.length
  · rw [if_pos h1, List.getElem?_append_left h1]
  · rw [if_neg h1, List.getElem?_append_right (by omega), List.getElem?_map]
    by_cases h2 : (j : Int) ≤ hi
    · rw [if_pos h2, getElem?_intRange _ _ _ (by omega)]
      simp only [Option.map_some']
      congr 2
      omega
    · rw [if_neg h2, List.getElem?_eq_none (by rw [intRange_length]; omega)]
      rfl

theorem length_append_intRange {α : Type} (l : List α) (hi : Int) (g : Int → α) :
    ((l ++ (intRange l.length hi).map g).length : Int) = max (l.length : Int) (hi + 1) := by
  rw [List.length_append, List.length_map, intRange_length]
  omega

/-- One cell of the fallback row with a valid reference: its target slot
takes the cell unless the slot holds a cell with a value; any other slot keeps
its cell, or is a new blank cell. -/
theorem checkSheetR0Cell_slot (hasValue : xlsxC → Bool) (hblank : hasValue {} = false)
    (sd : List xlsxRow) (cell : xlsxC) (col row : Int)
    (hp : CellNameToCoordinates cell.R = .ok (col, row)) :
    ∃ sd1, checkSheetR0Cell hasValue sd cell = some sd1 ∧
      cellAt sd1 (row - 1).toNat (col - 1).toNat =
        some (match cellAt sd (row - 1).toNat (col - 1).toNat with
          | some old => if hasValue old then old else cell
          | none => cell) ∧
      ∀ i j : Nat, ¬ (i = (row - 1).toNat ∧ j = (col - 1).toNat) →
        cellAt sd1 i j = cellAt sd i j ∨ (cellAt sd i j = none ∧ cellAt sd1 i j = some {}) := by
  obtain ⟨hcol, hrow⟩ := CellNameToCoordinates_pos _ _ _ hp
  -- the rows, grown to reach the target row
  have hrows := getElem?_append_intRange sd (row - 1) (fun r => ({ R := r + 1 } : xlsxRow))
  have hrlen := length_append_intRange sd (row - 1) (fun r => ({ R := r + 1 } : xlsxRow))
  have hcell1 : ∀ i j : Nat,
      cellAt (sd ++ (intRange sd.length (row - 1)).map (fun r => ({ R := r + 1 } : xlsxRow))) i j
        = cellAt sd i j := by
    intro i j
    unfold cellAt
    rw [hrows i]
    by_cases h1 : i < sd.length
    · rw [if_pos h1]
    · rw [if_neg h1, List.getElem?_eq_none (by omega)]
      by_cases h2 : (i : Int) ≤ row - 1
      · rw [if_pos h2]; rfl
      · rw [if_neg h2]
  obtain ⟨t, ht⟩ := exists_getElem? _ (row - 1).toNat
    (show (row - 1).toNat <
      (sd ++ (intRange sd.length (row - 1)).map (fun r => ({ R := r + 1 } : xlsxRow))).length
      by omega)
  have htC : ∀ j : Nat, t.C[j]? = cellAt sd (row - 1).toNat j := by
    intro j
    rw [← hcell1]
    unfold cellAt
    rw [ht]
  -- the cells of the target row, grown to reach the target column
  have hcs := getElem?_append_intRange t.C (col - 1) (fun _ => ({} : xlsxC))
  have hclen := length_append_intRange t.C (col - 1) (fun _ => ({} : xlsxC))
  obtain ⟨old, hold⟩ := exists_getElem? _ (col - 1).toNat
    (show (col - 1).toNat < (t.C ++ (intRange t.C.length (col - 1)).map
      (fun _ => ({} : xlsxC))).length by omega)
  have holdv : (match cellAt sd (row - 1).toNat (col - 1).toNat with
      | some o => if hasValue o then o else cell
      | none => cell) = if hasValue old then old else cell := by
    rw [← htC]
    rw [hcs] at hold
    by_cases h1 : (col - 1).toNat < t.C.length
    · rw [if_pos h1] at hold
      rw [hold]
    · rw [if_neg h1, if_pos (by omega)] at hold
      simp only [Option.some.injEq] at hold
      subst hold
      rw [List.getElem?_eq_none (by omega)]
      simp [hblank]
  have hi0 : (row - 1).toNat <
      (sd ++ (intRange sd.length (row - 1)).map (fun r => ({ R := r + 1 } : xlsxRow))).length := by
    omega
  have hj0 : (col - 1).toNat <
      (t.C ++ (intRange t.C.length (col - 1)).map (fun _ => ({} : xlsxC))).length := by omega
  have hother : ∀ j : Nat, j ≠ (col - 1).toNat →
      (t.C ++ (intRange t.C.length (col - 1)).map (fun _ => ({} : xlsxC)))[j]? =
          cellAt sd (row - 1).toNat j ∨
        (cellAt sd (row - 1).toNat j = none ∧
          (t.C ++ (intRange t.C.length (col - 1)).map (fun _ => ({} : xlsxC)))[j]? = some {}) := by
    intro j _
    rw [hcs, ← htC]
    by_cases h1 : j < t.C.length
    · left; rw [if_pos h1]
    · rw [if_neg h1, List.getElem?_eq_none (by omega)]
      by_cases h2 : (j : Int) ≤ col - 1
      · right; rw [if_pos h2]; exact ⟨rfl, rfl⟩
      · left; rw [if_neg h2]
  by_cases hv : hasValue old = true
  · -- the slot has a value: it is kept
    refine ⟨(sd ++ (intRange sd.length (row - 1)).map (fun r => ({ R := r + 1 } : xlsxRow))).set (row - 1).toNat
      { t with C := (t.C ++ (intRange t.C.length (col - 1)).map (fun _ => ({} : xlsxC))) }, ?_, ?_, ?_⟩
    · unfold checkSheetR0Cell
      rw [hp]
      simp only
      rw [getI_nat _ _ (by omega), ht]
      simp only
      rw [getI_nat _ _ (by omega), hold]
      simp only [hv, Bool.not_true, Bool.false_eq_true, if_false]
      rw [setI_nat _ _ _ (by omega) hi0]
    · rw [holdv, if_pos hv]
      unfold cellAt
      rw [List.getElem?_set_self hi0]
      simp only [hold]
    · intro i j hij
      by_cases hi : i = (row - 1).toNat
      · subst hi
        have hj : j ≠ (col - 1).toNat := fun h => hij ⟨rfl, h⟩
        unfold cellAt
        rw [List.getElem?_set_self hi0]
        simp only
        have := hother j hj
        unfold cellAt at this
        exact this
      · have := hcell1 i j
        unfold cellAt at this ⊢
        rw [List.getElem?_set_ne (fun h => hi h.symm)]
        left
        exact this
  · -- the slot has no value: it takes the fallback cell
    refine ⟨(sd ++ (intRange sd.length (row - 1)).map (fun r => ({ R := r + 1 } : xlsxRow))).set (row - 1).toNat
      { t with C := (t.C ++ (intRange t.C.length (col - 1)).map (fun _ => ({} : xlsxC))).set (col - 1).toNat cell }, ?_, ?_, ?_⟩
    · unfold checkSheetR0Cell
      rw [hp]
      simp only
      rw [getI_nat _ _ (by omega), ht]
      simp only
      rw [getI_nat _ _ (by omega), hold]
      simp only [hv, Bool.not_false, if_true]
      rw [setI_nat _ _ _ (by omega) hj0]
      simp only
      rw [setI_nat _ _ _ (by omega) hi0]
    · rw [holdv, if_neg hv]
      unfold cellAt
      rw [List.getElem?_set_self hi0]
      simp only
      rw [List.getElem?_set_self hj0]
    · intro i j hij
      by_cases hi : i = (row - 1).toNat
      · subst hi
        have hj : j ≠ (col - 1).toNat := fun h => hij ⟨rfl, h⟩
        unfold cellAt
        rw [List.getElem?_set_self hi0]
        simp only
        rw [List.getElem?_set_ne (fun h => hj h.symm)]
        have := hother j hj
        unfold cellAt at this
        exact this
      · have := hcell1 i j
        unfold cellAt at this ⊢
        rw [List.getElem?_set_ne (fun h => hi h.symm)]
        left
        exact this

theorem checkSheetR0_slots (hasValue : xlsxC → Bool) (hblank : hasValue {} = false) :
    ∀ (cells : List xlsxC) (sd : List xlsxRow), (cells.filterMap fallbackTarget).Nodup →
    ∃ out, checkSheetR0 hasValue sd cells = some out ∧
      ∀ i j : Nat,
        (∀ c ∈ cells, CellNameToCoordinates c.R = .ok ((j : Int) + 1, (i : Int) + 1) →
          cellAt out i j = some (match cellAt sd i j with
            | some old => if hasValue old then old else c
            | none => c)) ∧
        ((∀ c ∈ cells, CellNameToCoordinates c.R ≠ .ok ((j : Int) + 1, (i : Int) + 1)) →
          cellAt out i j = cellAt sd i j ∨ (cellAt sd i j = none ∧ cellAt out i j = some {})) := by
  intro cells
  induction cells with
  | nil =>
    intro sd _
    exact ⟨sd, rfl, fun i j => ⟨fun c hc => by simp at hc, fun _ => Or.inl rfl⟩⟩
  | cons c rest ih =>
    intro sd hnd
    cases hp : CellNameToCoordinates c.R with
    | error e =>
      have hft : fallbackTarget c = none := by simp [fallbackTarget, hp]
      rw [List.filterMap_cons, hft] at hnd
      obtain ⟨out, e1, g⟩ := ih sd hnd
      refine ⟨out, ?_, fun i j => ⟨?_, ?_⟩⟩
      · unfold checkSheetR0 checkSheetR0Cell
        rw [hp]
        exact e1
      · intro c1 hc1 hp1
        rcases List.mem_cons.1 hc1 with h1 | h1
        · subst h1; rw [hp] at hp1; simp at hp1
        · exact (g i j).1 c1 h1 hp1
      · intro hno
        exact (g i j).2 (fun c1 hc1 => hno c1 (by simp [hc1]))
    | ok v =>
      obtain ⟨col, row⟩ := v
      have hft : fallbackTarget c = some (col, row) := by simp [fallbackTarget, hp]
      rw [List.filterMap_cons, hft, List.nodup_cons] at hnd
      obtain ⟨hcol, hrow⟩ := CellNameToCoordinates_pos _ _ _ hp
      obtain ⟨sd1, e0, s1, s2⟩ := checkSheetR0Cell_slot hasValue hblank sd c col row hp
      obtain ⟨out, e1, g⟩ := ih sd1 hnd.2
      have hrest : ∀ c1 ∈ rest, CellNameToCoordinates c1.R ≠ .ok (col, row) := by
        intro c1 hc1 hp1
        apply hnd.1
        rw [List.mem_filterMap]
        exact ⟨c1, hc1, by simp [fallbackTarget, hp1]⟩
      refine ⟨out, ?_, fun i j => ⟨?_, ?_⟩⟩
      · unfold checkSheetR0
        rw [e0]
        exact e1
      · intro c1 hc1 hp1
        rcases List.mem_cons.1 hc1 with h1 | h1
        · subst h1
          rw [hp] at hp1
          simp only [Except.ok.injEq, Prod.mk.injEq] at hp1
          obtain ⟨h2, h3⟩ := hp1
          subst h2 h3
          have hi : ((i : Int) + 1 - 1).toNat = i := by omega
          have hj : ((j : Int) + 1 - 1).toNat = j := by omega
          rw [hi, hj] at s1
          rcases (g i j).2 hrest with h4 | h4
          · rw [h4, s1]
          · rw [s1] at h4; simp at h4
        · have hne : ¬ (i = (row - 1).toNat ∧ j = (col - 1).toNat) := by
            intro hh
            apply hrest c1 h1
            rw [hp1]
            congr 2 <;> omega
          have h5 := (g i j).1 c1 h1 hp1
          rcases s2 i j hne with h4 | h4
          · rw [h5, h4]
          · rw [h5, h4.1, h4.2]
            simp [hblank]
      · intro hno
        have hne : ¬ (i = (row - 1).toNat ∧ j = (col - 1).toNat) := by
          intro hh
          apply hno c (by simp)
          rw [hp]
          congr 2 <;> omega
        rcases (g i j).2 (fun c1 hc1 => hno c1 (by simp [hc1])) with h4 | h4
        · rcases s2 i j hne with h5 | h5
          · left; rw [h4, h5]
          · right; exact ⟨h5.1, by rw [h4, h5.2]⟩
        · rcases s2 i j hne with h5 | h5
          · right; exact ⟨by rw [← h5, h4.1], h4.2⟩
          · rw [h5.2] at h4; simp at h4

theorem checkSheetScan_keeps (rows : List xlsxRow) :
    ∀ (i : Nat) (row : Int) (r0 : xlsxRow) (ws : List xlsxRow), i ≠ 0 →
    ∃ row1, checkSheetScan i rows (row, r0, ws) = (row1, r0, ws) := by
  induction rows with
  | nil => intro i row r0 ws _; exact ⟨row, rfl⟩
  | cons r rs ih =>
    intro i row r0 ws hi
    unfold checkSheetScan
    have c1 : ¬ (i = 0 ∧ r.R = 0) := fun h => hi h.1
    rw [if_neg c1]
    split
    · exact ih (i + 1) _ r0 ws (by omega)
    · split
      · exact ih (i + 1) _ r0 ws (by omega)
      · exact ih (i + 1) _ r0 ws (by omega)

theorem checkSheetDense_fallback (f : xlsxRow) (rest : List xlsxRow) (hf : f.R = 0)
    (sd : List xlsxRow) (r0 : xlsxRow) (hd : checkSheetDense (f :: rest) = some (sd, r0)) :
    r0 = f := by
  unfold checkSheetDense at hd
  have h1 : checkSheetScan 0 (f :: rest) (0, {}, f :: rest) =
      checkSheetScan 1 rest (0, f, rest) := by
    conv => lhs; unfold checkSheetScan
    simp [hf]
  obtain ⟨row1, h2⟩ := checkSheetScan_keeps rest 1 0 f rest (by omega)
  rw [h1, h2] at hd
  simp only at hd
  split at hd
  · simp at hd
  · split at hd
    · simp at hd
    · split at hd
      · simp at hd
      · simp only [Option.some.injEq, Prod.mk.injEq] at hd
        exact hd.2.symm

/-! ## C9: the fallback row never overwrites -/

/-- Of two fallback cells that target `A1` in a worksheet without value at
`A1`, only the first is used; `A1` does not hold the second cell. -/
theorem checkSheet_fallback_same_target :
    checkSheet cellHasValue
        { Row := [{ R := 0, C := [{ R := "A1", V := "f1" }, { R := "A1", V := "f2" }] }] } =
      some { Row := [{ R := 1, C := [{ R := "A1", V := "f1" }] }] } ∧
    cellAt [{ R := 1, C := [{ R := "A1", V := "f1" }] }] 0 0 ≠ some { R := "A1", V := "f2" } := by
  decide

/-- The fallback row, slot by slot. When the first decoded row has no row
number and no two of its cells target the same position, then for each of its
cells with a valid
reference `(col, row)`: after `checkSheet` the slot at position `col - 1` of
the row at index `row - 1` holds the cell that was there if that cell had a
value, and the fallback cell otherwise (also when the slot did not exist); and
every slot that held a cell with a value still holds it. `sd` is the dense row
list `checkSheet` has built when it applies the fallback row. -/
theorem checkSheet_fallback_row (hasValue : xlsxC → Bool) (hblank : hasValue {} = false)
    (f : xlsxRow) (rest : List xlsxRow) (hf : f.R = 0) (sd : List xlsxRow) (r0 : xlsxRow)
    (hd : checkSheetDense (f :: rest) = some (sd, r0))
    (hdistinct : (f.C.filterMap fallbackTarget).Nodup) :
    r0 = f ∧ ∃ out, checkSheet hasValue { Row := f :: rest } = some { Row := out } ∧
      (∀ c ∈ f.C, ∀ col row : Int, CellNameToCoordinates c.R = .ok (col, row) →
        cellAt out (row - 1).toNat (col - 1).toNat =
          some (match cellAt sd (row - 1).toNat (col - 1).toNat with
            | some old => if hasValue old then old else c
            | none => c)) ∧
      (∀ (i j : Nat) (old : xlsxC), cellAt sd i j = some old → hasValue old = true →
        cellAt out i j = some old) := by
  have hr0 := checkSheetDense_fallback f rest hf sd r0 hd
  subst hr0
  obtain ⟨out, e, g⟩ := checkSheetR0_slots hasValue hblank r0.C sd hdistinct
  refine ⟨rfl, out, ?_, ?_, ?_⟩
  · unfold checkSheet
    simp only [hd, e]
  · intro c hc col row hp
    obtain ⟨hcol, hrow⟩ := CellNameToCoordinates_pos _ _ _ hp
    have h1 : ((((row - 1).toNat : Nat) : Int) + 1) = row := by omega
    have h2 : ((((col - 1).toNat : Nat) : Int) + 1) = col := by omega
    exact (g (row - 1).toNat (col - 1).toNat).1 c hc (by rw [h1, h2]; exact hp)
  · intro i j old hold hv
    by_cases hex : ∃ c ∈ r0.C, CellNameToCoordinates c.R = .ok ((j : Int) + 1, (i : Int) + 1)
    · obtain ⟨c, hc, hp⟩ := hex
      have := (g i j).1 c hc hp
      rw [this, hold]
      simp [hv]
    · have hno : ∀ c ∈ r0.C, CellNameToCoordinates c.R ≠ .ok ((j : Int) + 1, (i : Int) + 1) :=
        fun c hc hp => hex ⟨c, hc, hp⟩
      rcases (g i j).2 hno with h4 | h4
      · rw [h4, hold]
      · rw [hold] at h4; simp at h4

/-- At a fallback row whose cell `A1` meets a value and whose cell `B2`
meets no slot: `A1` keeps its own value, `B2` takes the
fallback cell. -/
theorem checkSheet_fallback_row_witness :
    (({ R := 0, C := [{ R := "A1", V := "f1" }, { R := "B2", V := "f2" }] } : xlsxRow) =
        { R := 0, C := [{ R := "A1", V := "f1" }, { R := "B2", V := "f2" }] } ∧
      ∃ out, checkSheet cellHasValue { Row := fallbackRows } = some { Row := out } ∧
        (∀ c ∈ [({ R := "A1", V := "f1" } : xlsxC), { R := "B2", V := "f2" }],
          ∀ col row : Int, CellNameToCoordinates c.R = .ok (col, row) →
          cellAt out (row - 1).toNat (col - 1).toNat =
            some (match cellAt [{ R := 1, C := [{ R := "A1", V := "own" }] }]
                (row - 1).toNat (col - 1).toNat with
              | some old => if cellHasValue old then old else c
              | none => c)) ∧
        (∀ (i j : Nat) (old : xlsxC),
          cellAt [{ R := 1, C := [{ R := "A1", V := "own" }] }] i j = some old →
          cellHasValue old = true → cellAt out i j = some old)) ∧
    checkSheet cellHasValue { Row := fallbackRows } =
      some { Row := [{ R := 1, C := [{ R := "A1", V := "own" }] },
                     { R := 2, C := [{}, { R := "B2", V := "f2" }] }] } :=
  ⟨checkSheet_fallback_row cellHasValue (by decide)
      { R := 0, C := [{ R := "A1", V := "f1" }, { R := "B2", V := "f2" }] }
      [{ R := 1, C := [{ R := "A1", V := "own" }] }] rfl
      [{ R := 1, C := [{ R := "A1", V := "own" }] }]
      { R := 0, C := [{ R := "A1", V := "f1" }, { R := "B2", V := "f2" }] }
      (by decide) (by decide),
   by decide⟩

/-! ## C10: malformed cell references -/

theorem checkRowFill_malformed (rowIdx : Int) :
    ∀ (cs : List xlsxC) (n : Int) (c : xlsxC), c ∈ cs → c.R ≠ "" →
    (∃ e, CellNameToCoordinates c.R = .error e) →
    ∃ cs1 e, checkRowFill rowIdx cs n = (cs1, some e) := by
  intro cs
  induction cs with
  | nil => intro n c hc; simp at hc
  | cons a rest ih =>
    intro n c hc hne hbad
    unfold checkRowFill
    by_cases ha : a.R = ""
    · have hca : c ∈ rest := by
        rcases List.mem_cons.1 hc with h1 | h1
        · subst h1; exact absurd ha hne
        · exact h1
      obtain ⟨cs1, e, h2⟩ := ih (n + 1) c hca hne hbad
      rw [if_neg (by simpa using ha)]
      simp only [h2]
      exact ⟨_, _, rfl⟩
    · rw [if_pos (by simpa using ha)]
      cases hp : CellNameToCoordinates a.R with
      | error e => exact ⟨_, _, rfl⟩
      | ok v =>
        obtain ⟨lastR, x⟩ := v
        have hca : c ∈ rest := by
          rcases List.mem_cons.1 hc with h1 | h1
          · subst h1
            obtain ⟨e, he⟩ := hbad
            rw [hp] at he
            simp at he
          · exact h1
        obtain ⟨cs1, e, h2⟩ := ih (if lastR > n + 1 then lastR else n + 1) c hca hne hbad
        simp only [h2]
        exact ⟨_, _, rfl⟩

theorem checkRowAt_malformed (rowIdx : Int) (r : xlsxRow) (c : xlsxC) (hc : c ∈ r.C)
    (hne : c.R ≠ "") (hbad : ∃ e, CellNameToCoordinates c.R = .error e) :
    ∃ r1 e, checkRowAt rowIdx r = some (r1, some e) := by
  obtain ⟨cs1, e, h⟩ := checkRowFill_malformed rowIdx r.C 0 c hc hne hbad
  have hlen : ((r.C.length : Int) = 0) = False := by
    simp only [eq_iff_iff, iff_false]
    have : 0 < r.C.length := List.length_pos.2 (List.ne_nil_of_mem hc)
    omega
  unfold checkRowAt
  simp only [hlen, if_false, h]
  exact ⟨_, _, rfl⟩

theorem checkRowLoop_append :
    ∀ (pre : List xlsxRow) (rowIdx : Int) (pre1 rest : List xlsxRow),
    checkRowLoop rowIdx pre = some (pre1, none) →
    checkRowLoop rowIdx (pre ++ rest) =
      match checkRowLoop (rowIdx + (pre.length : Int)) rest with
      | none => none
      | some (rs, e) => some (pre1 ++ rs, e) := by
  intro pre
  induction pre with
  | nil =>
    intro rowIdx pre1 rest h
    simp only [checkRowLoop, Option.some.injEq, Prod.mk.injEq, and_true] at h
    subst h
    simp only [List.nil_append, List.length_nil, Nat.cast_zero, add_zero]
    cases checkRowLoop rowIdx rest with
    | none => rfl
    | some v => rfl
  | cons a rs ih =>
    intro rowIdx pre1 rest h
    unfold checkRowLoop at h
    have hlen : rowIdx + 1 + (rs.length : Int) = rowIdx + ((a :: rs).length : Int) := by
      simp only [List.length_cons]; push_cast; ring
    rw [← hlen]
    simp only [List.cons_append]
    conv => lhs; unfold checkRowLoop
    cases ha : checkRowAt rowIdx a with
    | none => rw [ha] at h; simp at h
    | some v =>
      obtain ⟨a1, err⟩ := v
      cases err with
      | some e => rw [ha] at h; simp at h
      | none =>
        rw [ha] at h
        simp only at h ⊢
        cases hl : checkRowLoop (rowIdx + 1) rs with
        | none => rw [hl] at h; simp at h
        | some w =>
          obtain ⟨rs1, e⟩ := w
          rw [hl] at h
          simp only [Option.some.injEq, Prod.mk.injEq] at h
          obtain ⟨h1, h2⟩ := h
          subst h1 h2
          rw [ih (rowIdx + 1) rs1 rest hl]
          generalize checkRowLoop (rowIdx + 1 + (rs.length : Int)) rest = x
          cases x with
          | none => rfl
          | some v => rfl

/-- C10 fails as stated: a malformed reference in the row-0 fallback row is
skipped by `checkSheetR0`; `workSheetReader` returns no error and caches the
worksheet. -/
theorem workSheetReader_fallback_reference_skipped :
    (workSheetReader cellHasValue
        (fileWith [{ R := 0, C := [{ R := "1A", V := "x" }] },
                   { R := 1, C := [{ R := "A1", V := "y" }] }]) "Sheet1").map
        (fun res => (res.2.2, res.1.Sheet.lookup "xl/worksheets/sheet1.xml")) =
      some (none, some { SheetData := { Row := [{ R := 1, C := [{ R := "A1", V := "y" }] }] } }) := by
  decide

/-- C10, as amended. When a cell of a row that `checkSheet` has built (a
normal row, or a fallback cell with a valid reference placed in one) carries a
reference that is present and malformed, and the rows before that row
normalize, `workSheetReader` returns an error to its caller, does not cache
the worksheet and does not mark the part as checked. -/
theorem workSheetReader_malformed_reference (hasValue : xlsxC → Bool) (f : File)
    (sheet name : String) (part : Part) (ws : xlsxWorksheet) (sd : xlsxSheetData)
    (pre post pre1 : List xlsxRow) (r : xlsxRow) (c : xlsxC)
    (hmap : f.sheetMap.lookup (trimSheetName sheet) = some name)
    (hload : f.Sheet.lookup name = none)
    (hkind : ("xl/chartsheets".data.isPrefixOf name.data ||
      "xl/macrosheet".data.isPrefixOf name.data) = false)
    (hpkg : f.Pkg.lookup name = some part) (hdec : part.decoded = .ok ws)
    (hchk : (f.checked.lookup name).getD false = false)
    (hsd : checkSheet hasValue ws.SheetData = some sd)
    (hrows : sd.Row = pre ++ r :: post) (hpre : checkRowLoop 0 pre = some (pre1, none))
    (hc : c ∈ r.C) (hne : c.R ≠ "") (hbad : ∃ e, CellNameToCoordinates c.R = .error e) :
    ∃ f1 ws1 e, workSheetReader hasValue f sheet = some (f1, ws1, some e) ∧
      f1.Sheet = f.Sheet ∧ f1.checked = f.checked := by
  obtain ⟨r1, e, hr⟩ := checkRowAt_malformed (0 + (pre.length : Int)) r c hc hne hbad
  have hrow : checkRow sd = some ({ Row := pre1 ++ r1 :: post }, some e) := by
    unfold checkRow
    rw [hrows, checkRowLoop_append pre 0 pre1 (r :: post) hpre]
    conv => lhs; unfold checkRowLoop
    simp only [hr]
  by_cases hx : (f.xmlAttr.lookup name).isSome = true
  · refine ⟨f, some { ws with SheetData := { Row := pre1 ++ r1 :: post } }, e, ?_, rfl, rfl⟩
    unfold workSheetReader
    simp only [hmap, hload, hkind, hpkg, hx, hdec, hchk, hsd, hrow, Option.getD_some,
      if_true, Bool.false_eq_true, if_false]
  · refine ⟨{ f with xmlAttr := (name, part.rootAttr) :: f.xmlAttr },
      some { ws with SheetData := { Row := pre1 ++ r1 :: post } }, e, ?_, rfl, rfl⟩
    unfold workSheetReader
    simp only [hmap, hload, hkind, hpkg, hx, hdec, hchk, hsd, hrow, Option.getD_some,
      Bool.false_eq_true, if_false]

/-- C10, as amended, at a worksheet whose row 1 holds the malformed reference
`1B`. -/
theorem workSheetReader_malformed_reference_witness :
    ∃ f1 ws1 e, workSheetReader cellHasValue
        (fileWith [{ R := 1, C := [{ R := "A1" }, { R := "1B", V := "x" }] }]) "Sheet1" =
          some (f1, ws1, some e) ∧
      f1.Sheet = (fileWith [{ R := 1, C := [{ R := "A1" }, { R := "1B", V := "x" }] }]).Sheet ∧
      f1.checked =
        (fileWith [{ R := 1, C := [{ R := "A1" }, { R := "1B", V := "x" }] }]).checked :=
  workSheetReader_malformed_reference cellHasValue
    (fileWith [{ R := 1, C := [{ R := "A1" }, { R := "1B", V := "x" }] }]) "Sheet1"
    "xl/worksheets/sheet1.xml"
    { decoded := .ok { SheetData :=
        { Row := [{ R := 1, C := [{ R := "A1" }, { R := "1B", V := "x" }] }] } } }
    { SheetData := { Row := [{ R := 1, C := [{ R := "A1" }, { R := "1B", V := "x" }] }] } }
    { Row := [{ R := 1, C := [{ R := "A1" }, { R := "1B", V := "x" }] }] }
    [] [] [] { R := 1, C := [{ R := "A1" }, { R := "1B", V := "x" }] } { R := "1B", V := "x" }
    (by decide) (by decide) (by decide) (by decide) rfl (by decide) (by decide) rfl rfl
    (by decide) (by decide) ⟨.invalidCellName "1B", by decide⟩

/-! ## The occupancy grid -/

theorem mset_spec (m : Matrix) (cols rows : Nat) (hm : matrixDims m cols rows) (x y : Int)
    (v : Ptr) (hx0 : 0 ≤ x) (hx : x < cols) (hy0 : 0 ≤ y) (hy : y < rows) :
    ∃ m1, mset m x y v = some m1 ∧ matrixDims m1 cols rows ∧
      ∀ x1 y1 : Int, mget m1 x1 y1 =
        if x1 = x ∧ y1 = y then some v else mget m x1 y1 := by
  obtain ⟨hlen, hcols⟩ := hm
  have hxl : x.toNat < m.length := by omega
  obtain ⟨col, hcol⟩ := exists_getElem? m x.toNat hxl
  have hcolmem : col ∈ m := List.mem_iff_getElem?.2 ⟨_, hcol⟩
  have hcl := hcols col hcolmem
  have hyl : y.toNat < col.length := by omega
  refine ⟨m.set x.toNat (col.set y.toNat v), ?_, ⟨by simpa using hlen, ?_⟩, ?_⟩
  · unfold mset
    rw [getI_nat _ _ hx0, hcol]
    simp only
    rw [setI_nat _ _ _ hy0 hyl]
    simp only
    rw [setI_nat _ _ _ hx0 hxl]
  · intro c hc
    rcases List.mem_or_eq_of_mem_set hc with h1 | h1
    · exact hcols c h1
    · subst h1; simpa using hcl
  · intro x1 y1
    unfold mget getI
    by_cases hx1 : x1 < 0
    · have : ¬ (x1 = x ∧ y1 = y) := by omega
      simp only [hx1, if_true, this, if_false]
    · simp only [hx1, if_false]
      by_cases hxe : x1 = x
      · subst hxe
        rw [List.getElem?_set_self hxl, hcol]
        simp only [true_and]
        by_cases hy1 : y1 < 0
        · have : ¬ (y1 = y) := by omega
          simp only [hy1, if_true, this, if_false]
        · simp only [hy1, if_false]
          by_cases hye : y1 = y
          · subst hye
            rw [List.getElem?_set_self hyl]
            simp
          · rw [if_neg hye, List.getElem?_set_ne (by omega)]
      · have : ¬ (x1 = x ∧ y1 = y) := fun h => hxe h.1
        rw [if_neg this, List.getElem?_set_ne (by omega)]

theorem mget_inside (m : Matrix) (cols rows : Nat) (hm : matrixDims m cols rows) (x y : Int)
    (hx0 : 0 ≤ x) (hx : x < cols) (hy0 : 0 ≤ y) (hy : y < rows) :
    ∃ e, mget m x y = some e := by
  obtain ⟨hlen, hcols⟩ := hm
  obtain ⟨col, hcol⟩ := exists_getElem? m x.toNat (by omega)
  have hcl := hcols col (List.mem_iff_getElem?.2 ⟨_, hcol⟩)
  obtain ⟨e, he⟩ := exists_getElem? col y.toNat (by omega)
  refine ⟨e, ?_⟩
  unfold mget
  rw [getI_nat _ _ hx0, hcol]
  simp only
  rw [getI_nat _ _ hy0, he]

theorem fillColumn_spec (cols rows : Nat) (v : Ptr) (x : Int) (hx0 : 0 ≤ x) (hx : x < cols) :
    ∀ (ys : List Int) (m : Matrix), matrixDims m cols rows →
    (∀ y ∈ ys, 0 ≤ y ∧ y < rows) →
    ∃ m1, fillColumn v x ys m = some m1 ∧ matrixDims m1 cols rows ∧
      ∀ x1 y1 : Int, mget m1 x1 y1 =
        if x1 = x ∧ y1 ∈ ys then some v else mget m x1 y1 := by
  intro ys
  induction ys with
  | nil =>
    intro m hm _
    exact ⟨m, rfl, hm, fun x1 y1 => by simp⟩
  | cons y ys ih =>
    intro m hm hys
    have hy := hys y (by simp)
    obtain ⟨m1, e1, d1, g1⟩ := mset_spec m cols rows hm x y v hx0 hx hy.1 hy.2
    obtain ⟨m2, e2, d2, g2⟩ := ih m1 d1 (fun z hz => hys z (by simp [hz]))
    refine ⟨m2, ?_, d2, ?_⟩
    · unfold fillColumn
      rw [e1]
      exact e2
    · intro x1 y1
      rw [g2, g1]
      by_cases h1 : x1 = x ∧ y1 ∈ ys
      · have : x1 = x ∧ y1 ∈ y :: ys := ⟨h1.1, by simp [h1.2]⟩
        rw [if_pos h1, if_pos this]
      · rw [if_neg h1]
        by_cases h2 : x1 = x ∧ y1 = y
        · have : x1 = x ∧ y1 ∈ y :: ys := ⟨h2.1, by simp [h2.2]⟩
          rw [if_pos h2, if_pos this]
        · have : ¬ (x1 = x ∧ y1 ∈ y :: ys) := by
            intro h
            rcases List.mem_cons.1 h.2 with h3 | h3
            · exact h2 ⟨h.1, h3⟩
            · exact h1 ⟨h.1, h3⟩
          rw [if_neg h2, if_neg this]

theorem fill_spec (cols rows : Nat) (v : Ptr) (ys : List Int)
    (hys : ∀ y ∈ ys, 0 ≤ y ∧ y < rows) :
    ∀ (xs : List Int) (m : Matrix), matrixDims m cols rows →
    (∀ x ∈ xs, 0 ≤ x ∧ x < cols) →
    ∃ m1, fill v ys xs m = some m1 ∧ matrixDims m1 cols rows ∧
      ∀ x1 y1 : Int, mget m1 x1 y1 =
        if x1 ∈ xs ∧ y1 ∈ ys then some v else mget m x1 y1 := by
  intro xs
  induction xs with
  | nil =>
    intro m hm _
    exact ⟨m, rfl, hm, fun x1 y1 => by simp⟩
  | cons x xs ih =>
    intro m hm hxs
    have hx := hxs x (by simp)
    obtain ⟨m1, e1, d1, g1⟩ := fillColumn_spec cols rows v x hx.1 hx.2 ys m hm hys
    obtain ⟨m2, e2, d2, g2⟩ := ih m1 d1 (fun z hz => hxs z (by simp [hz]))
    refine ⟨m2, ?_, d2, ?_⟩
    · unfold fill
      rw [e1]
      exact e2
    · intro x1 y1
      rw [g2, g1]
      by_cases h1 : x1 ∈ xs ∧ y1 ∈ ys
      · have : x1 ∈ x :: xs ∧ y1 ∈ ys := ⟨by simp [h1.1], h1.2⟩
        rw [if_pos h1, if_pos this]
      · rw [if_neg h1]
        by_cases h2 : x1 = x ∧ y1 ∈ ys
        · have : x1 ∈ x :: xs ∧ y1 ∈ ys := ⟨by simp [h2.1], h2.2⟩
          rw [if_pos h2, if_pos this]
        · have : ¬ (x1 ∈ x :: xs ∧ y1 ∈ ys) := by
            intro h
            rcases List.mem_cons.1 h.1 with h3 | h3
            · exact h2 ⟨h3, h.2⟩
            · exact h1 ⟨h3, h.2⟩
          rw [if_neg h2, if_neg this]

theorem paintColumn_spec (cols rows : Nat) (cell : Ptr) (x : Int) (hx0 : 0 ≤ x)
    (hx : x < cols) :
    ∀ (ys : List Int) (m : Matrix) (ov : List Ptr), matrixDims m cols rows →
    (∀ y ∈ ys, 0 ≤ y ∧ y < rows) → ys.Nodup →
    ∃ m1 ov1, paintColumn cell x ys (m, ov) = some (m1, ov1) ∧ matrixDims m1 cols rows ∧
      (∀ x1 y1 : Int, mget m1 x1 y1 =
        if x1 = x ∧ y1 ∈ ys then some cell else mget m x1 y1) ∧
      (∀ e, e ∈ ov1 ↔ e ∈ ov ∨ (e ≠ none ∧ ∃ y ∈ ys, mget m x y = some e)) := by
  intro ys
  induction ys with
  | nil =>
    intro m ov hm _ _
    exact ⟨m, ov, rfl, hm, fun x1 y1 => by simp, fun e => by simp⟩
  | cons y ys ih =>
    intro m ov hm hys hnd
    rw [List.nodup_cons] at hnd
    have hy := hys y (by simp)
    obtain ⟨e0, he0⟩ := mget_inside m cols rows hm x y hx0 hx hy.1 hy.2
    obtain ⟨m1, e1, d1, g1⟩ := mset_spec m cols rows hm x y cell hx0 hx hy.1 hy.2
    obtain ⟨m2, ov2, e2, d2, g2, o2⟩ := ih m1 (if e0 ≠ none then ov ++ [e0] else ov) d1
      (fun z hz => hys z (by simp [hz])) hnd.2
    refine ⟨m2, ov2, ?_, d2, ?_, ?_⟩
    · unfold paintColumn
      rw [he0]
      simp only
      rw [e1]
      exact e2
    · intro x1 y1
      rw [g2, g1]
      by_cases h1 : x1 = x ∧ y1 ∈ ys
      · have : x1 = x ∧ y1 ∈ y :: ys := ⟨h1.1, by simp [h1.2]⟩
        rw [if_pos h1, if_pos this]
      · rw [if_neg h1]
        by_cases h2 : x1 = x ∧ y1 = y
        · have : x1 = x ∧ y1 ∈ y :: ys := ⟨h2.1, by simp [h2.2]⟩
          rw [if_pos h2, if_pos this]
        · have : ¬ (x1 = x ∧ y1 ∈ y :: ys) := by
            intro h
            rcases List.mem_cons.1 h.2 with h3 | h3
            · exact h2 ⟨h.1, h3⟩
            · exact h1 ⟨h.1, h3⟩
          rw [if_neg h2, if_neg this]
    · intro e
      rw [o2]
      have hsame : ∀ z ∈ ys, mget m1 x z = mget m x z := by
        intro z hz
        rw [g1]
        have : ¬ (x = x ∧ z = y) := fun h => hnd.1 (h.2 ▸ hz)
        rw [if_neg this]
      constructor
      · rintro (h | ⟨hne, z, hz, hz2⟩)
        · by_cases hc : e0 ≠ none
          · rw [if_pos hc] at h
            rcases List.mem_append.1 h with h3 | h3
            · exact Or.inl h3
            · have : e = e0 := by simpa using h3
              subst this
              exact Or.inr ⟨hc, y, by simp, he0⟩
          · rw [if_neg hc] at h
            exact Or.inl h
        · rw [hsame z hz] at hz2
          exact Or.inr ⟨hne, z, by simp [hz], hz2⟩
      · rintro (h | ⟨hne, z, hz, hz2⟩)
        · left
          by_cases hc : e0 ≠ none
          · rw [if_pos hc]; exact List.mem_append.2 (Or.inl h)
          · rw [if_neg hc]; exact h
        · rcases List.mem_cons.1 hz with h3 | h3
          · subst h3
            rw [he0] at hz2
            simp only [Option.some.injEq] at hz2
            subst hz2
            left
            rw [if_pos hne]
            simp
          · right
            exact ⟨hne, z, h3, by rw [hsame z h3]; exact hz2⟩

theorem paint_spec (cols rows : Nat) (cell : Ptr) (ys : List Int)
    (hys : ∀ y ∈ ys, 0 ≤ y ∧ y < rows) (hynd : ys.Nodup) :
    ∀ (xs : List Int) (m : Matrix) (ov : List Ptr), matrixDims m cols rows →
    (∀ x ∈ xs, 0 ≤ x ∧ x < cols) → xs.Nodup →
    ∃ m1 ov1, paint cell ys xs (m, ov) = some (m1, ov1) ∧ matrixDims m1 cols rows ∧
      (∀ x1 y1 : Int, mget m1 x1 y1 =
        if x1 ∈ xs ∧ y1 ∈ ys then some cell else mget m x1 y1) ∧
      (∀ e, e ∈ ov1 ↔ e ∈ ov ∨ (e ≠ none ∧ ∃ x ∈ xs, ∃ y ∈ ys, mget m x y = some e)) := by
  intro xs
  induction xs with
  | nil =>
    intro m ov hm _ _
    exact ⟨m, ov, rfl, hm, fun x1 y1 => by simp, fun e => by simp⟩
  | cons x xs ih =>
    intro m ov hm hxs hnd
    rw [List.nodup_cons] at hnd
    have hx := hxs x (by simp)
    obtain ⟨m1, ov1, e1, d1, g1, o1⟩ :=
      paintColumn_spec cols rows cell x hx.1 hx.2 ys m ov hm hys hynd
    obtain ⟨m2, ov2, e2, d2, g2, o2⟩ := ih m1 ov1 d1
      (fun z hz => hxs z (by simp [hz])) hnd.2
    refine ⟨m2, ov2, ?_, d2, ?_, ?_⟩
    · unfold paint
      rw [e1]
      exact e2
    · intro x1 y1
      rw [g2, g1]
      by_cases h1 : x1 ∈ xs ∧ y1 ∈ ys
      · have : x1 ∈ x :: xs ∧ y1 ∈ ys := ⟨by simp [h1.1], h1.2⟩
        rw [if_pos h1, if_pos this]
      · rw [if_neg h1]
        by_cases h2 : x1 = x ∧ y1 ∈ ys
        · have : x1 ∈ x :: xs ∧ y1 ∈ ys := ⟨by simp [h2.1], h2.2⟩
          rw [if_pos h2, if_pos this]
        · have : ¬ (x1 ∈ x :: xs ∧ y1 ∈ ys) := by
            intro h
            rcases List.mem_cons.1 h.1 with h3 | h3
            · exact h2 ⟨h3, h.2⟩
            · exact h1 ⟨h3, h.2⟩
          rw [if_neg h2, if_neg this]
    · intro e
      rw [o2, o1]
      have hsame : ∀ z ∈ xs, ∀ y1, mget m1 z y1 = mget m z y1 := by
        intro z hz y1
        rw [g1]
        have : ¬ (z = x ∧ y1 ∈ ys) := fun h => hnd.1 (h.1 ▸ hz)
        rw [if_neg this]
      constructor
      · rintro ((h | ⟨hne, y, hy, hy2⟩) | ⟨hne, z, hz, y, hy, hy2⟩)
        · exact Or.inl h
        · exact Or.inr ⟨hne, x, by simp, y, hy, hy2⟩
        · rw [hsame z hz] at hy2
          exact Or.inr ⟨hne, z, by simp [hz], y, hy, hy2⟩
      · rintro (h | ⟨hne, z, hz, y, hy, hy2⟩)
        · exact Or.inl (Or.inl h)
        · rcases List.mem_cons.1 hz with h3 | h3
          · subst h3
            exact Or.inl (Or.inr ⟨hne, y, hy, hy2⟩)
          · exact Or.inr ⟨hne, z, h3, y, hy, by rw [hsame z h3]; exact hy2⟩

theorem intRange_nodup (lo hi : Int) : (intRange lo hi).Nodup := by
  unfold intRange
  apply List.Nodup.map _ (List.nodup_range _)
  intro a b h
  simp only at h
  omega

theorem mem_intRange_iff (lo hi x : Int) : x ∈ intRange lo hi ↔ lo ≤ x ∧ x ≤ hi := by
  constructor
  · exact mem_intRange lo hi x
  · intro h
    unfold intRange
    rw [List.mem_map]
    exact ⟨(x - lo).toNat, by rw [List.mem_range]; omega, by omega⟩

/-! ## mergeCell on two cells with cached rectangles -/

theorem swapCoordinate_gt (get : Rect → Int) (set : Rect → Int → Rect)
    (hlens : ∀ r, set r (get r) = r) (r0 r1 : Rect) :
    swapCoordinate get set true 1 0 [r0, r1] =
      some [set r0 (max (get r1) (get r0)), set r1 (min (get r1) (get r0))] := by
  unfold swapCoordinate
  simp only [List.getElem?_cons_zero, List.getElem?_cons_succ, if_true]
  split
  · next h => simp [List.modify, max_eq_left (le_of_lt h), min_eq_right (le_of_lt h)]
  · next h =>
    have h1 : get r1 ≤ get r0 := by omega
    rw [max_eq_right h1, min_eq_left h1, hlens, hlens]

theorem swapCoordinate_lt (get : Rect → Int) (set : Rect → Int → Rect)
    (hlens : ∀ r, set r (get r) = r) (r0 r1 : Rect) :
    swapCoordinate get set false 1 0 [r0, r1] =
      some [set r0 (min (get r1) (get r0)), set r1 (max (get r1) (get r0))] := by
  unfold swapCoordinate
  simp only [List.getElem?_cons_zero, List.getElem?_cons_succ, Bool.false_eq_true, if_false]
  split
  · next h => simp [List.modify, max_eq_right (le_of_lt h), min_eq_left (le_of_lt h)]
  · next h =>
    have h1 : get r0 ≤ get r1 := by omega
    rw [max_eq_left h1, min_eq_right h1, hlens, hlens]

theorem mergeCell_spec (ca cb : xlsxMergeCell) (extra : List xlsxMergeCell) (r0 r1 : Rect)
    (ha : ca.rect = some 0) (hb : cb.rect = some 1) :
    mergeCell { cells := ca :: cb :: extra, rects := [r0, r1] } (some 1) (some 0) =
      some ({ cells := ca :: cb :: extra ++
                [{ Ref := rectRef (boundingRect r1 r0), rect := some 1 }],
              rects := [meetRect r1 r0, boundingRect r1 r0] },
            some (extra.length + 2)) := by
  unfold mergeCell xlsxMergeCell.Rect
  simp only [List.getElem?_cons_zero, List.getElem?_cons_succ, ha, hb]
  rw [swapCoordinate_gt _ _ (fun r => rfl)]
  simp only
  rw [swapCoordinate_lt _ _ (fun r => rfl)]
  simp only
  rw [swapCoordinate_gt _ _ (fun r => rfl)]
  simp only
  rw [swapCoordinate_lt _ _ (fun r => rfl)]
  simp only [List.getElem?_cons_zero, List.getElem?_cons_succ, List.length_cons,
    List.cons_append]
  rfl

theorem boundingRect_fixed (r1 r0 : Rect) :
    boundingRect (boundingRect r1 r0) (meetRect r1 r0) = boundingRect r1 r0 ∧
    meetRect (boundingRect r1 r0) (meetRect r1 r0) = meetRect r1 r0 := by
  unfold boundingRect meetRect
  simp only [Rect.mk.injEq]
  omega

theorem mergeAll_fixed (ca cb : xlsxMergeCell) (ha : ca.rect = some 0) (hb : cb.rect = some 1)
    (rA rB : Rect) (hB : boundingRect rB rA = rB) (hA : meetRect rB rA = rA) :
    ∀ (ov : List Ptr), (∀ e ∈ ov, e = some 0) →
    ∀ (extra : List xlsxMergeCell) (p : Ptr),
    mergeAll (some 1) ov ({ cells := ca :: cb :: extra, rects := [rA, rB] }, p) =
      some ({ cells := ca :: cb :: (extra ++
                List.replicate ov.length { Ref := rectRef rB, rect := some 1 }),
              rects := [rA, rB] },
            if ov = [] then p else some (extra.length + ov.length + 1)) := by
  intro ov
  induction ov with
  | nil => intro _ extra p; simp [mergeAll]
  | cons e rest ih =>
    intro hall extra p
    have he : e = some 0 := hall e (by simp)
    subst he
    unfold mergeAll
    rw [mergeCell_spec ca cb extra rA rB ha hb, hB, hA]
    simp only [List.cons_append]
    rw [ih (fun x hx => hall x (by simp [hx]))
      (extra ++ [({ Ref := rectRef rB, rect := some 1 } : xlsxMergeCell)])
      (some (extra.length + 2))]
    simp only [List.length_append, List.length_cons, List.length_nil, List.append_assoc,
      List.singleton_append, List.replicate_succ, reduceCtorEq, if_false]
    congr 2
    split
    · next h => subst h; simp
    · congr 1; omega

theorem mergeAll_spec (ca cb : xlsxMergeCell) (ha : ca.rect = some 0) (hb : cb.rect = some 1)
    (r0 r1 : Rect) (ov : List Ptr) (hall : ∀ e ∈ ov, e = some 0) (hne : ov ≠ []) (p : Ptr) :
    mergeAll (some 1) ov ({ cells := [ca, cb], rects := [r0, r1] }, p) =
      some ({ cells := ca :: cb ::
                List.replicate ov.length { Ref := rectRef (boundingRect r1 r0), rect := some 1 },
              rects := [meetRect r1 r0, boundingRect r1 r0] },
            some (ov.length + 1)) := by
  cases ov with
  | nil => exact absurd rfl hne
  | cons e rest =>
    have he : e = some 0 := hall e (by simp)
    subst he
    unfold mergeAll
    rw [mergeCell_spec ca cb [] r0 r1 ha hb]
    simp only
    have hf := boundingRect_fixed r1 r0
    simp only [List.nil_append, List.cons_append, List.length_nil, Nat.zero_add]
    rw [mergeAll_fixed ca cb ha hb (meetRect r1 r0) (boundingRect r1 r0) hf.1 hf.2 rest
      (fun x hx => hall x (by simp [hx]))
      [({ Ref := rectRef (boundingRect r1 r0), rect := some 1 } : xlsxMergeCell)] (some 2)]
    simp only [List.length_cons, List.length_nil, List.replicate_succ, List.singleton_append]
    congr 2
    split
    · next h => subst h; simp
    · congr 1; omega

/-! ## Overlap resolution of two regions -/

theorem mget_replicate (cols rows : Nat) (x y : Int) (e : Ptr)
    (h : mget (List.replicate cols (List.replicate rows none)) x y = some e) : e = none := by
  unfold mget getI at h
  split at h
  · simp at h
  · next col hcol =>
    split at hcol
    · simp at hcol
    · rw [List.getElem?_replicate] at hcol
      split at hcol
      · simp only [Option.some.injEq] at hcol
        subst hcol
        split at h
        · simp at h
        · rw [List.getElem?_replicate] at h
          split at h
          · simpa using h.symm
          · simp at h
      · simp at hcol

theorem matrixDims_replicate (cols rows : Nat) :
    matrixDims (List.replicate cols (List.replicate rows none)) cols rows := by
  refine ⟨List.length_replicate _ _, fun col hc => ?_⟩
  rw [List.eq_of_mem_replicate hc]
  exact List.length_replicate _ _

theorem getElem?_cons_cons_replicate {α : Type} (a b c : α) (k : Nat) :
    (a :: b :: List.replicate (k + 1) c)[k + 2]? = some c := by
  simp only [List.getElem?_cons_succ, List.getElem?_replicate]
  rw [if_pos (by omega)]

/-- Overlap resolution of two regions whose rectangles are cached, are
written top-left corner first and intersect: one region is left, a new object
whose reference and rectangle are the bounding rectangle. -/
theorem mergeOverlapCells_cached_pair (a b : String) (ra rb : Rect) (n : Int)
    (hva : 1 ≤ ra.x1 ∧ ra.x1 ≤ ra.x2 ∧ 1 ≤ ra.y1 ∧ ra.y1 ≤ ra.y2)
    (hvb : 1 ≤ rb.x1 ∧ rb.x1 ≤ rb.x2 ∧ 1 ≤ rb.y1 ∧ rb.y1 ≤ rb.y2)
    (hov : isOverlap ra rb = true) :
    ∃ k : Nat, mergeOverlapCells
        { cells := [{ Ref := a, rect := some 0 }, { Ref := b, rect := some 1 }],
          rects := [ra, rb] }
        { Count := n, Cells := [some 0, some 1] } =
      some ({ cells := { Ref := a, rect := some 0 } :: { Ref := b, rect := some 1 } ::
                List.replicate (k + 1) { Ref := rectRef (boundingRect rb ra), rect := some 1 },
              rects := [meetRect rb ra, boundingRect rb ra] },
            { Count := 1, Cells := [some (k + 2)] }, none) := by
  obtain ⟨ha1, ha2, ha3, ha4⟩ := hva
  obtain ⟨hb1, hb2, hb3, hb4⟩ := hvb
  have hov1 : ra.x1 ≤ rb.x2 ∧ rb.x1 ≤ ra.x2 ∧ ra.y1 ≤ rb.y2 ∧ rb.y1 ≤ ra.y2 := by
    simpa [isOverlap] using hov
  obtain ⟨hov1, hov2, hov3, hov4⟩ := hov1
  obtain ⟨cols, hcols⟩ : ∃ c : Nat, (c : Int) = max ra.x2 rb.x2 :=
    ⟨(max ra.x2 rb.x2).toNat, by omega⟩
  obtain ⟨rows, hrows⟩ : ∃ c : Nat, (c : Int) = max ra.y2 rb.y2 :=
    ⟨(max ra.y2 rb.y2).toNat, by omega⟩
  have hrange : overlapRange
      { cells := [{ Ref := a, rect := some 0 }, { Ref := b, rect := some 1 }], rects := [ra, rb] }
      [some 0, some 1] (0, 0) =
      some ({ cells := [{ Ref := a, rect := some 0 }, { Ref := b, rect := some 1 }],
              rects := [ra, rb] }, (rows : Int), (cols : Int), none) := by
    simp only [overlapRange, xlsxMergeCell.Rect, List.getElem?_cons_zero,
      List.getElem?_cons_succ, reduceCtorEq, if_false]
    rw [hrows, hcols]
    congr 3
    · split_ifs <;> omega
    · congr 1
      split_ifs <;> omega
  -- the first region is painted on the empty grid
  have hxa : ∀ x ∈ intRange (ra.x1 - 1) (ra.x2 - 1), 0 ≤ x ∧ x < (cols : Int) := by
    intro x hx
    have := mem_intRange _ _ _ hx
    omega
  have hya : ∀ y ∈ intRange (ra.y1 - 1) (ra.y2 - 1), 0 ≤ y ∧ y < (rows : Int) := by
    intro y hy
    have := mem_intRange _ _ _ hy
    omega
  have hxb : ∀ x ∈ intRange (rb.x1 - 1) (rb.x2 - 1), 0 ≤ x ∧ x < (cols : Int) := by
    intro x hx
    have := mem_intRange _ _ _ hx
    omega
  have hyb : ∀ y ∈ intRange (rb.y1 - 1) (rb.y2 - 1), 0 ≤ y ∧ y < (rows : Int) := by
    intro y hy
    have := mem_intRange _ _ _ hy
    omega
  obtain ⟨m1, ov1, p1, d1, g1, o1⟩ := paint_spec cols rows (some 0)
    (intRange (ra.y1 - 1) (ra.y2 - 1)) hya (intRange_nodup _ _)
    (intRange (ra.x1 - 1) (ra.x2 - 1)) (List.replicate cols (List.replicate rows none)) []
    (matrixDims_replicate cols rows) hxa (intRange_nodup _ _)
  have hov1nil : ov1 = [] := by
    rw [List.eq_nil_iff_forall_not_mem]
    intro e he
    rcases (o1 e).1 he with h | ⟨hne, x, _, y, _, hxy⟩
    · simp at h
    · exact hne (mget_replicate _ _ _ _ _ hxy)
  subst hov1nil
  -- the second region is painted over it
  obtain ⟨m2, ov2, p2, d2, g2, o2⟩ := paint_spec cols rows (some 1)
    (intRange (rb.y1 - 1) (rb.y2 - 1)) hyb (intRange_nodup _ _)
    (intRange (rb.x1 - 1) (rb.x2 - 1)) m1 [] d1 hxb (intRange_nodup _ _)
  have hm1 : ∀ (x y : Int) (e : Ptr), mget m1 x y = some e → e ≠ none → e = some 0 := by
    intro x y e h hne
    rw [g1] at h
    split at h
    · simpa using h.symm
    · exact absurd (mget_replicate _ _ _ _ _ h) hne
  have hov2all : ∀ e ∈ ov2, e = some 0 := by
    intro e he
    rcases (o2 e).1 he with h | ⟨hne, x, _, y, _, hxy⟩
    · simp at h
    · exact hm1 x y e hxy hne
  have hov2ne : ov2 ≠ [] := by
    have hmem : (some 0 : Ptr) ∈ ov2 := by
      rw [o2]
      right
      refine ⟨by simp, max ra.x1 rb.x1 - 1, ?_, max ra.y1 rb.y1 - 1, ?_, ?_⟩
      · rw [mem_intRange_iff]; omega
      · rw [mem_intRange_iff]; omega
      · rw [g1, if_pos]
        constructor
        · rw [mem_intRange_iff]; omega
        · rw [mem_intRange_iff]; omega
    exact List.ne_nil_of_mem hmem
  obtain ⟨k, hk⟩ : ∃ k, ov2.length = k + 1 :=
    ⟨ov2.length - 1, by have := List.length_pos.2 hov2ne; omega⟩
  have hmerge := mergeAll_spec { Ref := a, rect := some 0 } { Ref := b, rect := some 1 } rfl rfl
    ra rb ov2 hov2all hov2ne (some 1)
  rw [hk] at hmerge
  -- the bounding rectangle is repainted with the new cell
  have hxB : ∀ x ∈ intRange ((boundingRect rb ra).x1 - 1) ((boundingRect rb ra).x2 - 1),
      0 ≤ x ∧ x < (cols : Int) := by
    intro x hx
    have := mem_intRange _ _ _ hx
    simp only [boundingRect] at this
    omega
  have hyB : ∀ y ∈ intRange ((boundingRect rb ra).y1 - 1) ((boundingRect rb ra).y2 - 1),
      0 ≤ y ∧ y < (rows : Int) := by
    intro y hy
    have := mem_intRange _ _ _ hy
    simp only [boundingRect] at this
    omega
  obtain ⟨m3, p3, d3, g3⟩ := fill_spec cols rows (some (k + 2))
    (intRange ((boundingRect rb ra).y1 - 1) ((boundingRect rb ra).y2 - 1)) hyB
    (intRange ((boundingRect rb ra).x1 - 1) ((boundingRect rb ra).x2 - 1)) m2 d2 hxB
  obtain ⟨m4, p4, d4, g4⟩ := fill_spec cols rows none
    (intRange ((boundingRect rb ra).y1 - 1) ((boundingRect rb ra).y2 - 1)) hyB
    (intRange ((boundingRect rb ra).x1 - 1) ((boundingRect rb ra).x2 - 1)) m3 d3 hxB
  have hflat : flatMergedCells 0 [some 0, some 1]
      { heap := { cells := [{ Ref := a, rect := some 0 }, { Ref := b, rect := some 1 }],
                  rects := [ra, rb] },
        cells := [some 0, some 1],
        matrix := List.replicate cols (List.replicate rows none) } =
      some (MergeState.mk
              (Heap.mk ({ Ref := a, rect := some 0 } :: { Ref := b, rect := some 1 } ::
                  List.replicate (k + 1) { Ref := rectRef (boundingRect rb ra), rect := some 1 })
                [meetRect rb ra, boundingRect rb ra])
              [some 0, some (k + 2)] m3, none) := by
    simp only [flatMergedCells, flatMergedCell, xlsxMergeCell.Rect, List.getElem?_cons_zero,
      List.getElem?_cons_succ, p1, List.length_nil, ne_eq, not_true_eq_false, if_false, p2, hk,
      hmerge, Nat.add_assoc, Nat.reduceAdd, getElem?_cons_cons_replicate, rectAt, p3]
    simp
    rw [p3]
  have hmeet : mget m3 ((meetRect rb ra).x1 - 1) ((meetRect rb ra).y1 - 1) =
      some (some (k + 2)) := by
    rw [g3, if_pos]
    simp only [meetRect, boundingRect]
    constructor
    · rw [mem_intRange_iff]; omega
    · rw [mem_intRange_iff]; omega
  have hbound : mget m3 ((boundingRect rb ra).x1 - 1) ((boundingRect rb ra).y1 - 1) =
      some (some (k + 2)) := by
    rw [g3, if_pos]
    simp only [boundingRect]
    constructor
    · rw [mem_intRange_iff]; omega
    · rw [mem_intRange_iff]; omega
  have hkeep : keepOwners [some 0, some (k + 2)]
      ({ cells := { Ref := a, rect := some 0 } :: { Ref := b, rect := some 1 } ::
            List.replicate (k + 1) { Ref := rectRef (boundingRect rb ra), rect := some 1 },
          rects := [meetRect rb ra, boundingRect rb ra] }, m3, []) =
      some (Heap.mk ({ Ref := a, rect := some 0 } :: { Ref := b, rect := some 1 } ::
            List.replicate (k + 1) { Ref := rectRef (boundingRect rb ra), rect := some 1 })
          [meetRect rb ra, boundingRect rb ra], m4, [some (k + 2)]) := by
    simp only [keepOwners, xlsxMergeCell.Rect, List.getElem?_cons_zero,
      List.getElem?_cons_succ, getElem?_cons_cons_replicate, rectAt, hmeet, hbound, p4]
    simp
    rw [hbound]
    simp [p4]
  refine ⟨k, ?_⟩
  unfold mergeOverlapCells
  rw [hrange]
  simp only
  rw [if_neg (by omega), if_neg (by omega)]
  simp only [Int.toNat_ofNat, hflat, hkeep]
  rfl

theorem cellName_chars (col row : Int) (hc : 1 ≤ col) (hr : 1 ≤ row) :
    ∀ c ∈ (cellNameOrEmpty col row).data, (c != ':') = true := by
  have hnot : ¬ (col < 1 ∨ row < 1) := by omega
  intro c hcm
  simp only [cellNameOrEmpty, CoordinatesToCellName, hnot, if_false, List.mem_append] at hcm
  have h58 : c.toNat ≠ 58 := by
    rcases hcm with h | h
    · have := columnLetters_letters _ _ c h
      simp only [isLetter, Bool.or_eq_true, Bool.and_eq_true, decide_eq_true_eq] at this
      omega
    · have := (decimalDigits_digits _ _ c h).1
      simp only [isDigit, Bool.and_eq_true, decide_eq_true_eq] at this
      omega
  simp only [bne_iff_ne, ne_eq]
  intro h
  subst h
  exact h58 (by decide)

theorem takeWhile_append_stop {α : Type} (p : α → Bool) (l r : List α) (d : α)
    (hl : ∀ c ∈ l, p c = true) (hd : p d = false) :
    (l ++ d :: r).takeWhile p = l ∧ (l ++ d :: r).dropWhile p = d :: r := by
  induction l with
  | nil => simp [List.takeWhile, List.dropWhile, hd]
  | cons a l ih =>
    have h1 := hl a (by simp)
    have h2 := ih (fun c hc => hl c (by simp [hc]))
    simp [List.takeWhile, List.dropWhile, h1, h2.1, h2.2]

/-- The reference of a rectangle with positive coordinates parses back to it. -/
theorem areaRefToCoordinates_rectRef (r : Rect) (h1 : 1 ≤ r.x1) (h2 : 1 ≤ r.y1)
    (h3 : 1 ≤ r.x2) (h4 : 1 ≤ r.y2) : areaRefToCoordinates (rectRef r) = .ok r := by
  obtain ⟨s1, _, e1, _, p1⟩ := CellNameToCoordinates_cellName r.x1 r.y1 h1 h2
  obtain ⟨s2, _, e2, _, p2⟩ := CellNameToCoordinates_cellName r.x2 r.y2 h3 h4
  have hc := cellName_chars r.x1 r.y1 h1 h2
  rw [e1] at hc
  have hsplit := takeWhile_append_stop (fun c => c != ':') s1.data s2.data ':' hc (by decide)
  have hdata : (rectRef r).data = s1.data ++ ':' :: s2.data := by
    simp only [rectRef, e1, e2, String.data_append]
    simp
  unfold areaRefToCoordinates
  simp only [hdata, hsplit.1, hsplit.2, p1, p2]

theorem areaRefToCoordinates_pos (ref : String) (r : Rect)
    (h : areaRefToCoordinates ref = .ok r) :
    1 ≤ r.x1 ∧ 1 ≤ r.y1 ∧ 1 ≤ r.x2 ∧ 1 ≤ r.y2 := by
  unfold areaRefToCoordinates at h
  simp only at h
  split at h
  · simp at h
  · split at h
    · next x1 y1 x2 y2 hp1 hp2 =>
      simp only [Except.ok.injEq] at h
      subst h
      have := CellNameToCoordinates_pos _ _ _ hp1
      have := CellNameToCoordinates_pos _ _ _ hp2
      simp only
      omega
    · simp at h
    · simp at h

theorem boundingRect_comm (a b : Rect) : boundingRect a b = boundingRect b a := by
  unfold boundingRect
  simp only [Rect.mk.injEq]
  omega

/-! ## C4: two intersecting regions -/

/-- C4 fails as stated: a region decoded with the reference `C1:A2`, written
bottom-right corner first, covers `A1:C2` and intersects `A2:C3`, but paints no
grid cell; overlap resolution leaves the single region `A2:C3`, not the
bounding rectangle `A1:C3`. -/
theorem mergeOverlapCells_unsorted_reference :
    areaRefToCoordinates "C1:A2" = .ok ⟨3, 1, 1, 2⟩ ∧
    areaRefToCoordinates "A2:C3" = .ok ⟨1, 2, 3, 3⟩ ∧
    resolveTimes 1 (decodedMergeCells ["C1:A2", "A2:C3"]) = some ["A2:C3"] := by
  decide

/-- C4, as amended. For a merge list of exactly two regions (decoded, or
appended by `MergeCell`), in either order, whose references are valid and
written top-left corner first and whose rectangles intersect, overlap
resolution returns without error and leaves exactly one region, whose
reference and rectangle are the bounding rectangle of the two. -/
theorem mergeOverlapCells_two_regions (cached : Bool) (a b : String) (ra rb : Rect)
    (ha : areaRefToCoordinates a = .ok ra) (hb : areaRefToCoordinates b = .ok rb)
    (hsa : ra.x1 ≤ ra.x2 ∧ ra.y1 ≤ ra.y2) (hsb : rb.x1 ≤ rb.x2 ∧ rb.y1 ≤ rb.y2)
    (hov : isOverlap ra rb = true) :
    ∃ h1 mc1, mergeOverlapCells (twoRegions cached a b ra rb).1 (twoRegions cached a b ra rb).2 =
        some (h1, mc1, none) ∧
      mc1.Count = 1 ∧
      refsOf h1 mc1.Cells = [rectRef (boundingRect ra rb)] ∧
      rectsOf h1 mc1.Cells = [some (boundingRect ra rb)] ∧
      areaRefToCoordinates (rectRef (boundingRect ra rb)) = .ok (boundingRect ra rb) := by
  obtain ⟨pa1, pa2, pa3, pa4⟩ := areaRefToCoordinates_pos a ra ha
  obtain ⟨pb1, pb2, pb3, pb4⟩ := areaRefToCoordinates_pos b rb hb
  obtain ⟨k, hk⟩ := mergeOverlapCells_cached_pair a b ra rb 2
    ⟨pa1, hsa.1, pa2, hsa.2⟩ ⟨pb1, hsb.1, pb2, hsb.2⟩ hov
  have hround : areaRefToCoordinates (rectRef (boundingRect ra rb)) = .ok (boundingRect ra rb) := by
    apply areaRefToCoordinates_rectRef <;> simp only [boundingRect] <;> omega
  have hrefs : refsOf
      (Heap.mk ({ Ref := a, rect := some 0 } :: { Ref := b, rect := some 1 } ::
          List.replicate (k + 1) { Ref := rectRef (boundingRect rb ra), rect := some 1 })
        [meetRect rb ra, boundingRect rb ra]) [some (k + 2)] =
      [rectRef (boundingRect ra rb)] := by
    simp only [refsOf, List.map_cons, List.map_nil, getElem?_cons_cons_replicate,
      boundingRect_comm rb ra]
  have hrects : rectsOf
      (Heap.mk ({ Ref := a, rect := some 0 } :: { Ref := b, rect := some 1 } ::
          List.replicate (k + 1) { Ref := rectRef (boundingRect rb ra), rect := some 1 })
        [meetRect rb ra, boundingRect rb ra]) [some (k + 2)] =
      [some (boundingRect ra rb)] := by
    simp [rectsOf, boundingRect_comm rb ra]
  cases cached with
  | true =>
    refine ⟨_, _, hk, rfl, hrefs, hrects, hround⟩
  | false =>
    have hdec : mergeOverlapCells (decodedMergeCells [a, b]).1 (decodedMergeCells [a, b]).2 =
        mergeOverlapCells
          { cells := [{ Ref := a, rect := some 0 }, { Ref := b, rect := some 1 }],
            rects := [ra, rb] }
          { Count := 2, Cells := [some 0, some 1] } := by
      have hmc : (decodedMergeCells [a, b]).2 = { Count := 2, Cells := [some 0, some 1] } := rfl
      have hor : overlapRange (decodedMergeCells [a, b]).1 [some 0, some 1] (0, 0) =
          overlapRange
            { cells := [{ Ref := a, rect := some 0 }, { Ref := b, rect := some 1 }],
              rects := [ra, rb] } [some 0, some 1] (0, 0) := by
        simp [decodedMergeCells, overlapRange, xlsxMergeCell.Rect, ha, hb]
      unfold mergeOverlapCells
      rw [hmc]
      simp only [hor]
    refine ⟨_, _, hdec.trans hk, rfl, hrefs, hrects, hround⟩

/-- C4, as amended, at the scenario of the specification: `B1:C1` followed by
`B1:D2` leaves the single region `B1:D2`; and `B1:D5` with `A4:C8`, in either
order, leaves `A1:D8`. -/
theorem mergeOverlapCells_two_regions_witness :
    (∃ h1 mc1, mergeOverlapCells (twoRegions false "B1:C1" "B1:D2" ⟨2, 1, 3, 1⟩ ⟨2, 1, 4, 2⟩).1
          (twoRegions false "B1:C1" "B1:D2" ⟨2, 1, 3, 1⟩ ⟨2, 1, 4, 2⟩).2 = some (h1, mc1, none) ∧
      mc1.Count = 1 ∧
      refsOf h1 mc1.Cells = [rectRef (boundingRect ⟨2, 1, 3, 1⟩ ⟨2, 1, 4, 2⟩)] ∧
      rectsOf h1 mc1.Cells = [some (boundingRect ⟨2, 1, 3, 1⟩ ⟨2, 1, 4, 2⟩)] ∧
      areaRefToCoordinates (rectRef (boundingRect ⟨2, 1, 3, 1⟩ ⟨2, 1, 4, 2⟩)) =
        .ok (boundingRect ⟨2, 1, 3, 1⟩ ⟨2, 1, 4, 2⟩)) ∧
    rectRef (boundingRect ⟨2, 1, 3, 1⟩ ⟨2, 1, 4, 2⟩) = "B1:D2" ∧
    resolveTimes 1 (decodedMergeCells ["B1:C1", "B1:D2"]) = some ["B1:D2"] ∧
    resolveTimes 1 (decodedMergeCells ["B1:D5", "A4:C8"]) = some ["A1:D8"] ∧
    resolveTimes 1 (decodedMergeCells ["A4:C8", "B1:D5"]) = some ["A1:D8"] :=
  ⟨mergeOverlapCells_two_regions false "B1:C1" "B1:D2" ⟨2, 1, 3, 1⟩ ⟨2, 1, 4, 2⟩
      (by decide) (by decide) (by decide) (by decide) (by decide),
   by decide, by decide, by decide, by decide⟩

/-! ## C3, C5: three regions -/

/-- C3 fails on the code: of the regions `A3:C3`, `B5:E5`, `E2:E5` (valid,
written top-left corner first), the last two intersect and are replaced by
their bounding rectangle `B2:E5`; this rectangle covers `B3` and `C3` of the
first region, which is not recorded as absorbed and survives: the two regions
left intersect. -/
theorem mergeOverlapCells_leaves_overlap :
    resolveTimes 1 (decodedMergeCells ["A3:C3", "B5:E5", "E2:E5"]) = some ["A3:C3", "B2:E5"] ∧
    areaRefToCoordinates "A3:C3" = .ok ⟨1, 3, 3, 3⟩ ∧
    areaRefToCoordinates "B2:E5" = .ok ⟨2, 2, 5, 5⟩ ∧
    isOverlap ⟨1, 3, 3, 3⟩ ⟨2, 2, 5, 5⟩ = true := by
  decide

/-- C5 fails on the code: on the regions `A3:C3`, `B5:E5`, `E2:E5` a second
run of overlap resolution merges the two regions the first run has left, so
two runs do not give the list of one run. -/
theorem mergeOverlapCells_not_idempotent :
    resolveTimes 2 (decodedMergeCells ["A3:C3", "B5:E5", "E2:E5"]) = some ["A2:E5"] ∧
    resolveTimes 2 (decodedMergeCells ["A3:C3", "B5:E5", "E2:E5"]) ≠
      resolveTimes 1 (decodedMergeCells ["A3:C3", "B5:E5", "E2:E5"]) := by
  decide

/-! ## The worksheet a sheet name gives -/

theorem lookup_cons_self {β : Type} (name : String) (v : β) (l : List (String × β)) :
    List.lookup name ((name, v) :: l) = some v := by
  simp [List.lookup]

/-- A worksheet that is loaded is returned as it is. -/
theorem workSheetReader_loaded (hasValue : xlsxC → Bool) (f : File) (sheet name : String)
    (ws : xlsxWorksheet) (hmap : f.sheetMap.lookup (trimSheetName sheet) = some name)
    (hws : f.Sheet.lookup name = some ws) :
    workSheetReader hasValue f sheet = some (f, some ws, none) := by
  unfold workSheetReader
  simp only [hmap, hws]

/-- The worksheet `workSheetReader` returns without error is the one the
document then holds under the part name of the sheet. -/
theorem workSheetReader_ok (hasValue : xlsxC → Bool) (f f1 : File) (sheet : String)
    (ws : xlsxWorksheet) (h : workSheetReader hasValue f sheet = some (f1, some ws, none)) :
    ∃ name, f.sheetMap.lookup (trimSheetName sheet) = some name ∧ f1.sheetMap = f.sheetMap ∧
      f1.Sheet.lookup name = some ws := by
  unfold workSheetReader at h
  cases hmap : f.sheetMap.lookup (trimSheetName sheet) with
  | none => simp [hmap] at h
  | some name =>
    refine ⟨name, rfl, ?_⟩
    simp only [hmap] at h
    cases hws : f.Sheet.lookup name with
    | some w =>
      simp only [hws, Option.some.injEq, Prod.mk.injEq] at h
      obtain ⟨rfl, rfl, -⟩ := h
      exact ⟨rfl, hws⟩
    | none =>
      simp only [hws] at h
      repeat' split at h
      all_goals first
        | (simp at h; done)
        | (simp only [Option.some.injEq, Prod.mk.injEq] at h
           obtain ⟨rfl, rfl, -⟩ := h
           exact ⟨rfl, lookup_cons_self _ _ _⟩)

/-- After a write through the worksheet pointer the sheet name gives the
written worksheet. -/
theorem workSheetReader_storeSheet (hasValue : xlsxC → Bool) (f : File) (sheet name : String)
    (ws : xlsxWorksheet) (hmap : f.sheetMap.lookup (trimSheetName sheet) = some name) :
    workSheetReader hasValue (storeSheet f sheet ws) sheet =
      some (storeSheet f sheet ws, some ws, none) := by
  have e : storeSheet f sheet ws = { f with Sheet := (name, ws) :: f.Sheet } := by
    simp only [storeSheet, hmap]
  rw [e]
  exact workSheetReader_loaded hasValue _ sheet name ws hmap (lookup_cons_self _ _ _)

/-! ## prepareSheetXML and the row setters -/

theorem withRows_rows (ws : xlsxWorksheet) (rows : List xlsxRow) :
    (withRows ws rows).SheetData.Row = rows := rfl

theorem withRows_withRows (ws : xlsxWorksheet) (a b : List xlsxRow) :
    withRows (withRows ws a) b = withRows ws b := rfl

theorem withRows_MergeCells (ws : xlsxWorksheet) (rows : List xlsxRow) :
    (withRows ws rows).MergeCells = ws.MergeCells := rfl

theorem withRows_SheetFormatPr (ws : xlsxWorksheet) (rows : List xlsxRow) :
    (withRows ws rows).SheetFormatPr = ws.SheetFormatPr := rfl

theorem backfillRows_length (ws : xlsxWorksheet) (rows : List xlsxRow) (row : Int) :
    ((rows ++ backfillRows ws rows.length row).length : Int) = max (rows.length : Int) row := by
  unfold backfillRows
  rw [length_append_intRange]
  omega

theorem set_getElem?_self {α : Type} (l : List α) (i : Nat) (r : α) (h : l[i]? = some r) :
    l.set i r = l := by
  induction l generalizing i with
  | nil => rfl
  | cons a l ih =>
    cases i with
    | zero =>
      simp only [List.getElem?_cons_zero, Option.some.injEq] at h
      rw [List.set_cons_zero, h]
    | succ i =>
      simp only [List.getElem?_cons_succ] at h
      rw [List.set_cons_succ, ih i h]

theorem fillColumns_zero (rowData : xlsxRow) (row : Int) : fillColumns rowData 0 row = rowData := by
  unfold fillColumns
  rw [intRange_nil _ _ (by omega)]
  simp

/-- `prepareSheetXML(ws, 0, row)` with `row >= 1` returns, and only appends
the rows `backfillRows` lists. -/
theorem prepareSheetXML_rows (ws : xlsxWorksheet) (row : Int) (h : 1 ≤ row) :
    prepareSheetXML ws 0 row = some (withRows ws
      (ws.SheetData.Row ++ backfillRows ws ws.SheetData.Row.length row)) := by
  have hl := backfillRows_length ws ws.SheetData.Row row
  have hlt : (row - 1).toNat < (ws.SheetData.Row ++ backfillRows ws ws.SheetData.Row.length row).length := by
    omega
  obtain ⟨r, hr⟩ := exists_getElem? _ _ hlt
  unfold prepareSheetXML
  simp only [getI_nat _ _ (show (0 : Int) ≤ row - 1 by omega), hr, fillColumns_zero,
    setI_nat _ _ _ (show (0 : Int) ≤ row - 1 by omega) hlt]
  rw [set_getElem?_self _ _ _ hr]

theorem setRowField_eq (ws : xlsxWorksheet) (idx : Int) (set : xlsxRow → xlsxRow) (h : 0 ≤ idx)
    (hlt : idx.toNat < ws.SheetData.Row.length) :
    setRowField ws idx set =
      some (withRows ws (List.modify set idx.toNat ws.SheetData.Row)) := by
  obtain ⟨r, hr⟩ := exists_getElem? _ _ hlt
  unfold setRowField
  simp only [getI_nat _ _ h, hr, setI_nat _ _ _ h hlt]
  rw [List.modify_eq_set_get? set idx.toNat ws.SheetData.Row]
  simp [hr]

/-- The two steps of a row setter, `prepareSheetXML(ws, 0, row)` and the
assignment to a field of `ws.SheetData.Row[row-1]`, return for `row >= 1`. -/
theorem prepare_setRowField (ws : xlsxWorksheet) (row : Int) (set : xlsxRow → xlsxRow)
    (h : 1 ≤ row) :
    (prepareSheetXML ws 0 row).bind (fun ws1 => setRowField ws1 (row - 1) set) =
      some (withRows ws (List.modify set (row - 1).toNat
        (ws.SheetData.Row ++ backfillRows ws ws.SheetData.Row.length row))) := by
  have hl := backfillRows_length ws ws.SheetData.Row row
  rw [prepareSheetXML_rows ws row h, Option.some_bind, setRowField_eq _ _ _ (by omega)]
  · rfl
  · rw [withRows_rows]
    omega

theorem SetRowHeight_ok (hasValue : xlsxC → Bool) (MaxRowHeight : Rat) (f f1 : File)
    (sheet : String) (ws : xlsxWorksheet) (row : Int) (height : Rat) (hrow : 1 ≤ row)
    (hh : height ≤ MaxRowHeight)
    (hws : workSheetReader hasValue f sheet = some (f1, some ws, none)) :
    SetRowHeight hasValue MaxRowHeight f sheet row height =
      some (storeSheet f1 sheet (withRows ws
        (List.modify (fun r => { r with Ht := height, CustomHeight := true }) (row - 1).toNat
          (ws.SheetData.Row ++ backfillRows ws ws.SheetData.Row.length row))), none) := by
  have hl := backfillRows_length ws ws.SheetData.Row row
  unfold SetRowHeight
  rw [if_neg (by omega), if_neg (not_lt.2 hh)]
  simp only [hws, prepareSheetXML_rows ws row hrow]
  rw [setRowField_eq _ _ _ (by omega) (by rw [withRows_rows]; omega)]
  simp only [withRows_rows, withRows_withRows]
  rw [setRowField_eq _ _ _ (by omega) (by rw [withRows_rows, List.length_modify]; omega)]
  simp only [withRows_rows, withRows_withRows, List.modify_modify_eq]
  rfl

theorem SetRowVisible_ok (hasValue : xlsxC → Bool) (f f1 : File)
    (sheet : String) (ws : xlsxWorksheet) (row : Int) (visible : Bool) (hrow : 1 ≤ row)
    (hws : workSheetReader hasValue f sheet = some (f1, some ws, none)) :
    SetRowVisible hasValue f sheet row visible =
      some (storeSheet f1 sheet (withRows ws
        (List.modify (fun r => { r with Hidden := !visible }) (row - 1).toNat
          (ws.SheetData.Row ++ backfillRows ws ws.SheetData.Row.length row))), none) := by
  have hl := backfillRows_length ws ws.SheetData.Row row
  unfold SetRowVisible
  rw [if_neg (by omega)]
  simp only [hws, prepareSheetXML_rows ws row hrow]
  rw [setRowField_eq _ _ _ (by omega) (by rw [withRows_rows]; omega)]
  rfl

theorem SetRowOutlineLevel_ok (hasValue : xlsxC → Bool) (f f1 : File)
    (sheet : String) (ws : xlsxWorksheet) (row : Int) (level : Nat) (hrow : 1 ≤ row)
    (hlevel : 1 ≤ level ∧ level ≤ 7)
    (hws : workSheetReader hasValue f sheet = some (f1, some ws, none)) :
    SetRowOutlineLevel hasValue f sheet row level =
      some (storeSheet f1 sheet (withRows ws
        (List.modify (fun r => { r with OutlineLevel := level }) (row - 1).toNat
          (ws.SheetData.Row ++ backfillRows ws ws.SheetData.Row.length row))), none) := by
  have hl := backfillRows_length ws ws.SheetData.Row row
  unfold SetRowOutlineLevel
  rw [if_neg (by omega), if_neg (by omega)]
  simp only [hws, prepareSheetXML_rows ws row hrow]
  rw [setRowField_eq _ _ _ (by omega) (by rw [withRows_rows]; omega)]
  rfl

theorem getElem?_backfilled (ws : xlsxWorksheet) (row : Int) (i : Nat) (r : xlsxRow)
    (hi : ws.SheetData.Row.length ≤ i)
    (h : (ws.SheetData.Row ++ backfillRows ws ws.SheetData.Row.length row)[i]? = some r) :
    r.R = (i : Int) + 1 ∧ r.C = [] := by
  unfold backfillRows at h
  rw [getElem?_append_intRange, if_neg (by omega)] at h
  split at h
  · simp only [Option.some.injEq] at h
    subst h
    split
    · split <;> exact ⟨rfl, rfl⟩
    · exact ⟨rfl, rfl⟩
  · simp at h

/-- The frame of a row setter: backfilling and a write to one row that keeps
the number and the cells of the row. -/
theorem rowSetterFrame_modify (ws : xlsxWorksheet) (row : Int) (set : xlsxRow → xlsxRow)
    (hrow : 1 ≤ row) (hdense : denseRows ws.SheetData.Row)
    (hset : ∀ r, (set r).R = r.R ∧ (set r).C = r.C) :
    rowSetterFrame ws (withRows ws
        (List.modify set (row - 1).toNat
          (ws.SheetData.Row ++ backfillRows ws ws.SheetData.Row.length row))) row set := by
  have hl := backfillRows_length ws ws.SheetData.Row row
  have hget : ∀ (i : Nat) (r : xlsxRow),
      (List.modify set (row - 1).toNat
        (ws.SheetData.Row ++ backfillRows ws ws.SheetData.Row.length row))[i]? = some r →
      ∃ r0, (ws.SheetData.Row ++ backfillRows ws ws.SheetData.Row.length row)[i]? = some r0 ∧
        r.R = r0.R ∧ r.C = r0.C := by
    intro i r h
    rw [List.getElem?_modify] at h
    cases h0 : (ws.SheetData.Row ++ backfillRows ws ws.SheetData.Row.length row)[i]? with
    | none => simp [h0] at h
    | some r0 =>
      simp only [h0, Option.map_eq_map, Option.map_some', Option.some.injEq] at h
      refine ⟨r0, rfl, ?_⟩
      subst h
      split
      · exact hset r0
      · exact ⟨rfl, rfl⟩
  refine ⟨rfl, rfl, ?_, ?_, ?_, ?_⟩
  · rw [withRows_rows, List.length_modify]
    exact hl
  · intro i r h
    rw [withRows_rows] at h
    obtain ⟨r0, h0, e1, _⟩ := hget i r h
    rw [e1]
    by_cases hi : i < ws.SheetData.Row.length
    · rw [List.getElem?_append_left hi] at h0
      exact hdense i r0 h0
    · exact (getElem?_backfilled ws row i r0 (by omega) h0).1
  · intro i r h
    have hi : i < ws.SheetData.Row.length := by
      by_contra hc
      rw [List.getElem?_eq_none (by omega)] at h
      simp at h
    simp only [withRows_rows, List.getElem?_modify, List.getElem?_append_left hi, h, Option.map_eq_map,
      Option.map_some', Option.some.injEq]
    by_cases hc : (i : Int) = row - 1
    · rw [if_pos hc, if_pos (by omega)]
    · rw [if_neg hc, if_neg (by omega)]
  · intro i r hi h
    rw [withRows_rows] at h
    obtain ⟨r0, h0, _, e2⟩ := hget i r h
    rw [e2]
    exact (getElem?_backfilled ws row i r0 hi h0).2

/-! ## C20: the rows iterator -/

theorem nextTimes_spec (rows : Rows) (k : Nat) :
    (nextTimes k rows).curRow = rows.curRow + k ∧ (nextTimes k rows).totalRows = rows.totalRows ∧
      (nextTimes k rows).stashRow = rows.stashRow := by
  induction k with
  | zero => simp [nextTimes]
  | succ k ih =>
    obtain ⟨h1, h2, h3⟩ := ih
    refine ⟨?_, h2, h3⟩
    show (nextTimes k rows).curRow + 1 = rows.curRow + ((k + 1 : Nat) : Int)
    rw [h1]
    push_cast
    omega

/-- C20. On the iterator `Rows` returns for a sheet of `N` rows, the call
number `k + 1` of `Next` returns true exactly when `k + 1 <= N`; after `k`
calls `CurrentRow()` is `k` and `TotalRows()` is `N`; and the call number
`k + 1` returns true exactly when `1 <= CurrentRow() <= TotalRows()` holds
after it. -/
theorem Rows_Next_bounded (N : Int) (k : Nat) :
    ((nextTimes k (newRows N)).Next.2 = true ↔ (k : Int) + 1 ≤ N) ∧
    (nextTimes k (newRows N)).CurrentRow = k ∧
    (nextTimes k (newRows N)).TotalRows = N ∧
    (nextTimes (k + 1) (newRows N)).CurrentRow = (k : Int) + 1 ∧
    ((nextTimes k (newRows N)).Next.2 = true ↔
      1 ≤ (nextTimes (k + 1) (newRows N)).CurrentRow ∧
      (nextTimes (k + 1) (newRows N)).CurrentRow ≤ (nextTimes (k + 1) (newRows N)).TotalRows) := by
  obtain ⟨h1, h2, _⟩ := nextTimes_spec (newRows N) k
  obtain ⟨h3, h4, _⟩ := nextTimes_spec (newRows N) (k + 1)
  have e1 : (newRows N).curRow = 0 := rfl
  have e2 : (newRows N).totalRows = N := rfl
  rw [e1] at h1 h3
  rw [e2] at h2 h4
  simp only [Rows.Next, Rows.CurrentRow, Rows.TotalRows, decide_eq_true_eq]
  rw [h1, h2, h3, h4]
  push_cast
  refine ⟨?_, ?_, ?_, ?_, ?_⟩ <;> omega

/-! ## C13: the errors of SetRowHeight -/

/-- C13 fails as stated: with a valid row and height and a known sheet,
`SetRowHeight` still fails when the worksheet does not load, here for the
malformed cell reference `1B`. -/
theorem SetRowHeight_sheet_not_loading :
    ¬ ((1 : Int) < 1) ∧ ¬ ((10 : Rat) > 409) ∧
    (fileWith [{ R := 1, C := [{ R := "A1" }, { R := "1B", V := "x" }] }]).sheetMap.lookup
      (trimSheetName "Sheet1") = some "xl/worksheets/sheet1.xml" ∧
    (SetRowHeight cellHasValue 409
      (fileWith [{ R := 1, C := [{ R := "A1" }, { R := "1B", V := "x" }] }]) "Sheet1" 1 10).map
      (fun res => res.2) = some (some (.invalidCellName "1B")) := by
  refine ⟨by decide, by decide, by decide, ?_⟩
  decide

/-- C13, as amended. `SetRowHeight` fails with the invalid-row-number error
when `row < 1`, with `ErrMaxRowHeight` when `row >= 1` and the height exceeds
`MaxRowHeight`, and with the sheet-not-found error when row and height are
valid and the sheet is unknown, each time leaving the document as it was; when
row and height are valid and loading the worksheet returns an error, it
returns that error; and when the worksheet loads it succeeds. -/
theorem SetRowHeight_errors (hasValue : xlsxC → Bool) (MaxRowHeight : Rat) (f : File)
    (sheet : String) (row : Int) (height : Rat) :
    (row < 1 → SetRowHeight hasValue MaxRowHeight f sheet row height =
      some (f, some (.invalidRowNumber row))) ∧
    (1 ≤ row → height > MaxRowHeight →
      SetRowHeight hasValue MaxRowHeight f sheet row height = some (f, some .maxRowHeight)) ∧
    (1 ≤ row → height ≤ MaxRowHeight → f.sheetMap.lookup (trimSheetName sheet) = none →
      SetRowHeight hasValue MaxRowHeight f sheet row height =
        some (f, some (.sheetNotExist sheet))) ∧
    (∀ f1 ws e, 1 ≤ row → height ≤ MaxRowHeight →
      workSheetReader hasValue f sheet = some (f1, ws, some e) →
      SetRowHeight hasValue MaxRowHeight f sheet row height = some (f1, some e)) ∧
    (∀ f1 ws, 1 ≤ row → height ≤ MaxRowHeight →
      workSheetReader hasValue f sheet = some (f1, some ws, none) →
      ∃ ws1, SetRowHeight hasValue MaxRowHeight f sheet row height =
        some (storeSheet f1 sheet ws1, none)) := by
  refine ⟨?_, ?_, ?_, ?_, ?_⟩
  · intro h
    unfold SetRowHeight
    rw [if_pos h]
  · intro h1 h2
    unfold SetRowHeight
    rw [if_neg (by omega), if_pos h2]
  · intro h1 h2 h3
    unfold SetRowHeight workSheetReader
    rw [if_neg (by omega), if_neg (not_lt.2 h2)]
    simp only [h3]
  · intro f1 ws e h1 h2 h3
    unfold SetRowHeight
    rw [if_neg (by omega), if_neg (not_lt.2 h2)]
    simp only [h3]
  · intro f1 ws h1 h2 h3
    exact ⟨_, SetRowHeight_ok hasValue MaxRowHeight f f1 sheet ws row height h1 h2 h3⟩

/-- C13, as amended, on documents with the sheet `Sheet1`: row 0, the height
410 above the maximum 409, the unknown sheet `Sheet2`, a worksheet with the
malformed reference `1B`, and a call that succeeds. -/
theorem SetRowHeight_errors_witness :
    SetRowHeight cellHasValue 409 (loadedFile {}) "Sheet1" 0 10 =
      some (loadedFile {}, some (.invalidRowNumber 0)) ∧
    SetRowHeight cellHasValue 409 (loadedFile {}) "Sheet1" 1 410 =
      some (loadedFile {}, some .maxRowHeight) ∧
    SetRowHeight cellHasValue 409 (loadedFile {}) "Sheet2" 1 10 =
      some (loadedFile {}, some (.sheetNotExist "Sheet2")) ∧
    SetRowHeight cellHasValue 409 (fileWith [{ R := 1, C := [{ R := "1B", V := "x" }] }])
      "Sheet1" 1 10 =
      some ({ fileWith [{ R := 1, C := [{ R := "1B", V := "x" }] }] with
              xmlAttr := [("xl/worksheets/sheet1.xml", [])] }, some (.invalidCellName "1B")) ∧
    (∃ ws1, SetRowHeight cellHasValue 409 (loadedFile {}) "Sheet1" 1 10 =
      some (storeSheet (loadedFile {}) "Sheet1" ws1, none)) :=
  ⟨(SetRowHeight_errors cellHasValue 409 (loadedFile {}) "Sheet1" 0 10).1 (by decide),
   (SetRowHeight_errors cellHasValue 409 (loadedFile {}) "Sheet1" 1 410).2.1 (by decide)
     (by decide),
   (SetRowHeight_errors cellHasValue 409 (loadedFile {}) "Sheet2" 1 10).2.2.1 (by decide)
     (by decide) (by decide),
   (SetRowHeight_errors cellHasValue 409
     (fileWith [{ R := 1, C := [{ R := "1B", V := "x" }] }]) "Sheet1" 1 10).2.2.2.1
     { fileWith [{ R := 1, C := [{ R := "1B", V := "x" }] }] with
       xmlAttr := [("xl/worksheets/sheet1.xml", [])] }
     (some { SheetData := { Row := [{ R := 1, C := [{ R := "1B", V := "x" }] }] } })
     (.invalidCellName "1B") (by decide) (by decide) (by decide),
   (SetRowHeight_errors cellHasValue 409 (loadedFile {}) "Sheet1" 1 10).2.2.2.2
     (loadedFile {}) {} (by decide) (by decide) (by decide)⟩

/-! ## C14, C15: GetRowHeight -/

theorem find?_first {α : Type} (p : α → Bool) (l : List α) (k : Nat) (b : α)
    (hk : l[k]? = some b) (hp : p b = true)
    (hbefore : ∀ (j : Nat) (a : α), j < k → l[j]? = some a → p a = false) :
    l.find? p = some b := by
  induction l generalizing k with
  | nil => simp at hk
  | cons a l ih =>
    cases k with
    | zero =>
      simp only [List.getElem?_cons_zero, Option.some.injEq] at hk
      subst hk
      simp [List.find?_cons, hp]
    | succ k =>
      have ha : p a = false := hbefore 0 a (by omega) (by simp)
      simp only [List.find?_cons, ha]
      exact ih k (by simpa using hk) (fun j a1 hj h1 => hbefore (j + 1) a1 (by omega) (by simpa using h1))

/-- C14 fails as stated: the height 0 does not exceed `MaxRowHeight`, and
after `SetRowHeight` has stored it in row 1, `GetRowHeight` skips the row,
whose height is the zero value, and returns the default height 15. -/
theorem GetRowHeight_after_zero_height :
    (SetRowHeight cellHasValue 409 (loadedFile oneRowSheet)
      "Sheet1" 1 0).map (fun res => res.2) = some none ∧
    ((SetRowHeight cellHasValue 409 (loadedFile oneRowSheet)
      "Sheet1" 1 0).bind (fun res => GetRowHeight cellHasValue 20 15 res.1 "Sheet1" 1)).map
      (fun res => res.2) = some (15, none) := by
  decide

/-- C14, as amended. On a worksheet with dense rows, for `row >= 1` and a
height that does not exceed `MaxRowHeight` and is not 0, `SetRowHeight`
succeeds and `GetRowHeight` then returns that height and no error. -/
theorem GetRowHeight_SetRowHeight (hasValue : xlsxC → Bool)
    (MaxRowHeight defaultRowHeightPixels defaultRowHeight : Rat) (f f1 : File) (sheet : String)
    (ws : xlsxWorksheet) (row : Int) (height : Rat)
    (hws : workSheetReader hasValue f sheet = some (f1, some ws, none))
    (hdense : denseRows ws.SheetData.Row) (hrow : 1 ≤ row) (hh : height ≤ MaxRowHeight)
    (hne : height ≠ 0) :
    ∃ f2, SetRowHeight hasValue MaxRowHeight f sheet row height = some (f2, none) ∧
      GetRowHeight hasValue defaultRowHeightPixels defaultRowHeight f2 sheet row =
        some (f2, height, none) := by
  obtain ⟨name, hmap, hmap1, _⟩ := workSheetReader_ok hasValue f f1 sheet ws hws
  refine ⟨_, SetRowHeight_ok hasValue MaxRowHeight f f1 sheet ws row height hrow hh hws, ?_⟩
  obtain ⟨_, _, hlen, hd, _, _⟩ := rowSetterFrame_modify ws row
    (fun r => { r with Ht := height, CustomHeight := true }) hrow hdense (fun _ => ⟨rfl, rfl⟩)
  have hl := backfillRows_length ws ws.SheetData.Row row
  obtain ⟨r0, h0⟩ := exists_getElem?
    (ws.SheetData.Row ++ backfillRows ws ws.SheetData.Row.length row) (row - 1).toNat (by omega)
  obtain ⟨L, hL⟩ : ∃ L, L = List.modify (fun r => { r with Ht := height, CustomHeight := true })
    (row - 1).toNat (ws.SheetData.Row ++ backfillRows ws ws.SheetData.Row.length row) := ⟨_, rfl⟩
  rw [← hL] at hlen hd ⊢
  rw [withRows_rows] at hlen hd
  have hb : L[(row - 1).toNat]? = some { r0 with Ht := height, CustomHeight := true } := by
    rw [hL, List.getElem?_modify_eq, h0]
    rfl
  have hfind : L.find? (fun v => decide (v.R = row) && decide (v.Ht ≠ 0)) =
      some { r0 with Ht := height, CustomHeight := true } := by
    apply find?_first _ _ (row - 1).toNat _ hb
    · have hR := hd (row - 1).toNat _ hb
      change r0.R = (((row - 1).toNat : Nat) : Int) + 1 at hR
      simp only [Bool.and_eq_true, decide_eq_true_eq]
      exact ⟨by omega, hne⟩
    · intro j a hj ha
      have := hd _ _ ha
      simp only [Bool.and_eq_false_imp, decide_eq_true_eq, decide_eq_false_iff_not]
      intro hc
      omega
  unfold GetRowHeight
  rw [if_neg (by omega),
    workSheetReader_storeSheet hasValue f1 sheet name _ (by rw [hmap1]; exact hmap)]
  simp only [withRows_rows]
  rw [if_neg (by omega), hfind]

theorem denseRows_oneRowSheet : denseRows oneRowSheet.SheetData.Row := by
  intro i r h
  cases i with
  | zero =>
    simp only [oneRowSheet, List.getElem?_cons_zero, Option.some.injEq] at h
    subst h
    rfl
  | succ i => simp [oneRowSheet] at h

/-- C14, as amended, on a worksheet of one row: the height 20 set for row 3
is the height read back. -/
theorem GetRowHeight_SetRowHeight_witness :
    ∃ f2, SetRowHeight cellHasValue 409 (loadedFile oneRowSheet)
        "Sheet1" 3 20 = some (f2, none) ∧
      GetRowHeight cellHasValue 20 15 f2 "Sheet1" 3 = some (f2, 20, none) :=
  GetRowHeight_SetRowHeight cellHasValue 409 20 15
    (loadedFile oneRowSheet)
    (loadedFile oneRowSheet) "Sheet1"
    oneRowSheet 3 20 (by decide)
    denseRows_oneRowSheet
    (by decide) (by decide) (by decide)

/-- C15. When the worksheet of the sheet loads and `row` is greater than its
number of rows, `GetRowHeight` returns the default height of the sheet (the
declared default row height of a sheet that declares a custom height, else
`defaultRowHeight`) and no error, and the document holds the worksheet as
loading has left it: no row is added. -/
theorem GetRowHeight_beyond_rows (hasValue : xlsxC → Bool)
    (defaultRowHeightPixels defaultRowHeight : Rat) (f f1 : File) (sheet : String)
    (ws : xlsxWorksheet) (row : Int)
    (hws : workSheetReader hasValue f sheet = some (f1, some ws, none))
    (hrow : (ws.SheetData.Row.length : Int) < row) :
    GetRowHeight hasValue defaultRowHeightPixels defaultRowHeight f sheet row =
      some (f1, sheetDefaultHeight defaultRowHeight ws, none) ∧
    sheetDefaultHeight defaultRowHeight ws =
      (match ws.SheetFormatPr with
       | some pr => if pr.CustomHeight = true then pr.DefaultRowHeight else defaultRowHeight
       | none => defaultRowHeight) ∧
    loadedSheet f1 sheet = some ws := by
  obtain ⟨name, hmap, hmap1, hsheet⟩ := workSheetReader_ok hasValue f f1 sheet ws hws
  refine ⟨?_, rfl, ?_⟩
  · unfold GetRowHeight
    rw [if_neg (by omega)]
    simp only [hws]
    rw [if_pos (by omega)]
  · unfold loadedSheet
    rw [hmap1, hmap]
    exact hsheet

/-- C15 on a worksheet of one row that declares the default height 30: row 5
has the height 30, and the worksheet keeps its one row. -/
theorem GetRowHeight_beyond_rows_witness :
    GetRowHeight cellHasValue 20 15 (loadedFile customHeightSheet) "Sheet1" 5 =
      some (loadedFile customHeightSheet, sheetDefaultHeight 15 customHeightSheet, none) ∧
    sheetDefaultHeight 15 customHeightSheet =
      (match customHeightSheet.SheetFormatPr with
       | some pr => if pr.CustomHeight = true then pr.DefaultRowHeight else 15
       | none => 15) ∧
    loadedSheet (loadedFile customHeightSheet) "Sheet1" = some customHeightSheet :=
  GetRowHeight_beyond_rows cellHasValue 20 15 (loadedFile customHeightSheet)
    (loadedFile customHeightSheet) "Sheet1" customHeightSheet 5 (by decide) (by decide)

/-! ## C16: the outline level -/

/-- C16. When the worksheet of the sheet loads and `row >= 1`,
`SetRowOutlineLevel` returns `ErrOutlineLevel` exactly when the level is
outside 1..7, and then leaves the document as it was; for a level in 1..7 it
succeeds, and `GetRowOutlineLevel` then returns the level and no error. -/
theorem SetRowOutlineLevel_level (hasValue : xlsxC → Bool) (f f1 : File) (sheet : String)
    (ws : xlsxWorksheet) (row : Int) (level : Nat) (hrow : 1 ≤ row)
    (hws : workSheetReader hasValue f sheet = some (f1, some ws, none)) :
    ((SetRowOutlineLevel hasValue f sheet row level).map (fun res => res.2) =
      some (some .outlineLevel) ↔ (level < 1 ∨ 7 < level)) ∧
    ((level < 1 ∨ 7 < level) →
      SetRowOutlineLevel hasValue f sheet row level = some (f, some .outlineLevel)) ∧
    (1 ≤ level ∧ level ≤ 7 →
      ∃ f2, SetRowOutlineLevel hasValue f sheet row level = some (f2, none) ∧
        GetRowOutlineLevel hasValue f2 sheet row = some (f2, level, none)) := by
  have hout : (level < 1 ∨ 7 < level) →
      SetRowOutlineLevel hasValue f sheet row level = some (f, some .outlineLevel) := by
    intro h
    unfold SetRowOutlineLevel
    rw [if_neg (by omega), if_pos (by omega)]
  have hin : 1 ≤ level ∧ level ≤ 7 →
      ∃ f2, SetRowOutlineLevel hasValue f sheet row level = some (f2, none) ∧
        GetRowOutlineLevel hasValue f2 sheet row = some (f2, level, none) := by
    intro hlevel
    obtain ⟨name, hmap, hmap1, _⟩ := workSheetReader_ok hasValue f f1 sheet ws hws
    refine ⟨_, SetRowOutlineLevel_ok hasValue f f1 sheet ws row level hrow hlevel hws, ?_⟩
    have hl := backfillRows_length ws ws.SheetData.Row row
    obtain ⟨r0, h0⟩ := exists_getElem?
      (ws.SheetData.Row ++ backfillRows ws ws.SheetData.Row.length row) (row - 1).toNat (by omega)
    unfold GetRowOutlineLevel
    rw [if_neg (by omega),
      workSheetReader_storeSheet hasValue f1 sheet name _ (by rw [hmap1]; exact hmap)]
    simp only [withRows_rows, List.length_modify]
    rw [if_neg (by omega), getI_nat _ _ (by omega), List.getElem?_modify_eq, h0]
    rfl
  refine ⟨⟨?_, ?_⟩, hout, hin⟩
  · intro h
    by_contra hc
    obtain ⟨f2, e, _⟩ := hin (by omega)
    rw [e] at h
    simp at h
  · intro h
    rw [hout h]
    rfl

/-- C16 on a worksheet of one row: the levels 0 and 8 are refused, and the
level 3 set for row 2 is read back. -/
theorem SetRowOutlineLevel_level_witness :
    SetRowOutlineLevel cellHasValue (loadedFile oneRowSheet) "Sheet1" 2 0 =
      some (loadedFile oneRowSheet, some .outlineLevel) ∧
    SetRowOutlineLevel cellHasValue (loadedFile oneRowSheet) "Sheet1" 2 8 =
      some (loadedFile oneRowSheet, some .outlineLevel) ∧
    (∃ f2, SetRowOutlineLevel cellHasValue (loadedFile oneRowSheet) "Sheet1" 2 3 =
        some (f2, none) ∧
      GetRowOutlineLevel cellHasValue f2 "Sheet1" 2 = some (f2, 3, none)) :=
  ⟨(SetRowOutlineLevel_level cellHasValue (loadedFile oneRowSheet) (loadedFile oneRowSheet)
      "Sheet1" oneRowSheet 2 0 (by decide) (by decide)).2.1 (by decide),
   (SetRowOutlineLevel_level cellHasValue (loadedFile oneRowSheet) (loadedFile oneRowSheet)
      "Sheet1" oneRowSheet 2 8 (by decide) (by decide)).2.1 (by decide),
   (SetRowOutlineLevel_level cellHasValue (loadedFile oneRowSheet) (loadedFile oneRowSheet)
      "Sheet1" oneRowSheet 2 3 (by decide) (by decide)).2.2 (by decide)⟩

/-! ## C17: what a row setter changes -/

/-- C17 fails as stated: `SetRowHeight` on row 1 of a worksheet of one row
writes the height and also sets the custom-height flag of the row, which was
not set. -/
theorem SetRowHeight_sets_custom_height :
    oneRowSheet.SheetData.Row.map (fun r => (r.Ht, r.CustomHeight)) = [(0, false)] ∧
    (SetRowHeight cellHasValue 409 (loadedFile oneRowSheet) "Sheet1" 1 20).map
      (fun res => (res.2, (loadedSheet res.1 "Sheet1").map
        (fun ws => ws.SheetData.Row.map (fun r => (r.Ht, r.CustomHeight))))) =
      some (none, some [(20, true)]) := by
  decide

/-- C17, as amended. On a worksheet with dense rows, a successful
`SetRowHeight`, `SetRowVisible` or `SetRowOutlineLevel` at `row` leaves a
worksheet of `max n row` rows with dense numbers; the rows it has added have
no cell; a row that existed is unchanged, but for the row `row`, of which the
height and the custom-height flag, the hidden flag, or the outline level is
written; and the other parts of the worksheet are unchanged. -/
theorem row_setters_frame (hasValue : xlsxC → Bool) (MaxRowHeight : Rat) (f f1 : File)
    (sheet : String) (ws : xlsxWorksheet) (row : Int) (height : Rat) (visible : Bool)
    (level : Nat) (hws : workSheetReader hasValue f sheet = some (f1, some ws, none))
    (hdense : denseRows ws.SheetData.Row) (hrow : 1 ≤ row) (hh : height ≤ MaxRowHeight)
    (hlevel : 1 ≤ level ∧ level ≤ 7) :
    (∃ ws1, SetRowHeight hasValue MaxRowHeight f sheet row height =
        some (storeSheet f1 sheet ws1, none) ∧
      rowSetterFrame ws ws1 row (fun r => { r with Ht := height, CustomHeight := true })) ∧
    (∃ ws1, SetRowVisible hasValue f sheet row visible = some (storeSheet f1 sheet ws1, none) ∧
      rowSetterFrame ws ws1 row (fun r => { r with Hidden := !visible })) ∧
    (∃ ws1, SetRowOutlineLevel hasValue f sheet row level =
        some (storeSheet f1 sheet ws1, none) ∧
      rowSetterFrame ws ws1 row (fun r => { r with OutlineLevel := level })) :=
  ⟨⟨_, SetRowHeight_ok hasValue MaxRowHeight f f1 sheet ws row height hrow hh hws,
      rowSetterFrame_modify ws row _ hrow hdense (fun _ => ⟨rfl, rfl⟩)⟩,
   ⟨_, SetRowVisible_ok hasValue f f1 sheet ws row visible hrow hws,
      rowSetterFrame_modify ws row _ hrow hdense (fun _ => ⟨rfl, rfl⟩)⟩,
   ⟨_, SetRowOutlineLevel_ok hasValue f f1 sheet ws row level hrow hlevel hws,
      rowSetterFrame_modify ws row _ hrow hdense (fun _ => ⟨rfl, rfl⟩)⟩⟩

/-- C17, as amended, on a worksheet of one row and the row 3. -/
theorem row_setters_frame_witness :
    (∃ ws1, SetRowHeight cellHasValue 409 (loadedFile oneRowSheet) "Sheet1" 3 20 =
        some (storeSheet (loadedFile oneRowSheet) "Sheet1" ws1, none) ∧
      rowSetterFrame oneRowSheet ws1 3 (fun r => { r with Ht := 20, CustomHeight := true })) ∧
    (∃ ws1, SetRowVisible cellHasValue (loadedFile oneRowSheet) "Sheet1" 3 false =
        some (storeSheet (loadedFile oneRowSheet) "Sheet1" ws1, none) ∧
      rowSetterFrame oneRowSheet ws1 3 (fun r => { r with Hidden := !false })) ∧
    (∃ ws1, SetRowOutlineLevel cellHasValue (loadedFile oneRowSheet) "Sheet1" 3 2 =
        some (storeSheet (loadedFile oneRowSheet) "Sheet1" ws1, none) ∧
      rowSetterFrame oneRowSheet ws1 3 (fun r => { r with OutlineLevel := 2 })) :=
  row_setters_frame cellHasValue 409 (loadedFile oneRowSheet) (loadedFile oneRowSheet) "Sheet1"
    oneRowSheet 3 20 false 2 (by decide) denseRows_oneRowSheet (by decide) (by decide)
    (by decide)

/-! ## C11: MergeCell -/

/-- A valid cell reference holds no colon. -/
theorem cellRef_chars (s : String) (col row : Int)
    (h : CellNameToCoordinates s = .ok (col, row)) : ∀ c ∈ s.data, (c != ':') = true := by
  unfold CellNameToCoordinates at h
  simp only at h
  split at h
  · simp at h
  next hpat =>
    simp only [not_or] at hpat
    obtain ⟨_, _, hd⟩ := hpat
    intro c hc
    rw [← List.takeWhile_append_dropWhile isLetter s.data, List.mem_append] at hc
    have h58 : c.toNat ≠ 58 := by
      rcases hc with hc | hc
      · have := List.mem_takeWhile_imp hc
        simp only [isLetter, Bool.or_eq_true, Bool.and_eq_true, decide_eq_true_eq] at this
        omega
      · have hall : (List.dropWhile isLetter s.data).all isDigit = true := by
          simpa using hd
        have := List.all_eq_true.1 hall c hc
        simp only [isDigit, Bool.and_eq_true, decide_eq_true_eq] at this
        omega
    simp only [bne_iff_ne, ne_eq]
    intro hcc
    subst hcc
    exact h58 (by decide)

/-- The area reference `a:b` of two valid cell references parses to their
coordinates, in the order given. -/
theorem areaRefToCoordinates_pair (a b : String) (xa ya xb yb : Int)
    (ha : CellNameToCoordinates a = .ok (xa, ya)) (hb : CellNameToCoordinates b = .ok (xb, yb)) :
    areaRefToCoordinates (a ++ ":" ++ b) = .ok ⟨xa, ya, xb, yb⟩ := by
  have hsplit := takeWhile_append_stop (fun c => c != ':') a.data b.data ':'
    (cellRef_chars a xa ya ha) (by decide)
  have hdata : (a ++ ":" ++ b).data = a.data ++ ':' :: b.data := by
    simp only [String.data_append]
    simp
  unfold areaRefToCoordinates
  simp only [hdata, hsplit.1, hsplit.2, ha, hb]

theorem sortCoordinates_swap (xa ya xb yb : Int) :
    sortCoordinates ⟨xb, yb, xa, ya⟩ = sortCoordinates ⟨xa, ya, xb, yb⟩ := by
  simp only [sortCoordinates, min_comm, max_comm]

theorem sortCoordinates_sorted (r : Rect) :
    (sortCoordinates r).x1 ≤ (sortCoordinates r).x2 ∧
      (sortCoordinates r).y1 ≤ (sortCoordinates r).y2 := by
  simp only [sortCoordinates]
  omega

/-- `MergeCell` on two valid references, when the worksheet loads: one
region is appended. -/
theorem MergeCell_ok (hasValue : xlsxC → Bool) (h : Heap) (f f1 : File) (sheet a b : String)
    (ws : xlsxWorksheet) (xa ya xb yb : Int)
    (ha : CellNameToCoordinates a = .ok (xa, ya)) (hb : CellNameToCoordinates b = .ok (xb, yb))
    (hws : workSheetReader hasValue f sheet = some (f1, some ws, none)) :
    MergeCell hasValue h f sheet a b =
      some ((addRegion (h, ws.MergeCells.getD {}) (sortCoordinates ⟨xa, ya, xb, yb⟩)).1,
        storeSheet f1 sheet (withMergeCells ws
          (some (addRegion (h, ws.MergeCells.getD {}) (sortCoordinates ⟨xa, ya, xb, yb⟩)).2)),
        none) := by
  unfold MergeCell
  simp only [areaRefToCoordinates_pair a b xa ya xb yb ha hb, hws]
  cases hmc : ws.MergeCells with
  | none => rfl
  | some mc => rfl

/-- C11. For valid cell references `a` and `b` and a sheet whose worksheet
loads, `MergeCell(sheet, a, b)` and `MergeCell(sheet, b, a)` return no error
and leave the same heap and document: the regions that existed are unchanged
and in order, followed by one new region, whose reference is that of the
sorted rectangle, top-left corner first, and parses back to it; `Count` is the
number of regions. No region that existed is read. -/
theorem MergeCell_either_corner_first (hasValue : xlsxC → Bool) (h : Heap) (f f1 : File)
    (sheet a b : String) (ws : xlsxWorksheet) (xa ya xb yb : Int)
    (ha : CellNameToCoordinates a = .ok (xa, ya)) (hb : CellNameToCoordinates b = .ok (xb, yb))
    (hws : workSheetReader hasValue f sheet = some (f1, some ws, none)) :
    MergeCell hasValue h f sheet a b = MergeCell hasValue h f sheet b a ∧
    ∃ h1 ws1 mc1, MergeCell hasValue h f sheet a b = some (h1, storeSheet f1 sheet ws1, none) ∧
      ws1 = withMergeCells ws (some mc1) ∧
      mc1.Cells = (ws.MergeCells.getD {}).Cells ++ [some h.cells.length] ∧
      mc1.Count = mc1.Cells.length ∧
      h1.cells = h.cells ++ [{ Ref := rectRef (sortCoordinates ⟨xa, ya, xb, yb⟩),
                               rect := some h.rects.length }] ∧
      h1.rects = h.rects ++ [sortCoordinates ⟨xa, ya, xb, yb⟩] ∧
      areaRefToCoordinates (rectRef (sortCoordinates ⟨xa, ya, xb, yb⟩)) =
        .ok (sortCoordinates ⟨xa, ya, xb, yb⟩) := by
  obtain ⟨pa1, pa2⟩ := CellNameToCoordinates_pos a xa ya ha
  obtain ⟨pb1, pb2⟩ := CellNameToCoordinates_pos b xb yb hb
  have e1 := MergeCell_ok hasValue h f f1 sheet a b ws xa ya xb yb ha hb hws
  have e2 := MergeCell_ok hasValue h f f1 sheet b a ws xb yb xa ya hb ha hws
  rw [sortCoordinates_swap] at e2
  refine ⟨e1.trans e2.symm, _, _, _, e1, rfl, rfl, rfl, rfl, rfl, ?_⟩
  apply areaRefToCoordinates_rectRef <;> simp only [sortCoordinates] <;> omega

/-- C11 on a sheet with three regions: `G9`, `F7` and `F7`, `G9` both append
the region `F7:G9`. -/
theorem MergeCell_either_corner_first_witness :
    (MergeCell cellHasValue (mergedFile ["A1:B2", "D4:E5", "B2:C3"]).1
        (mergedFile ["A1:B2", "D4:E5", "B2:C3"]).2 "Sheet1" "G9" "F7" =
      MergeCell cellHasValue (mergedFile ["A1:B2", "D4:E5", "B2:C3"]).1
        (mergedFile ["A1:B2", "D4:E5", "B2:C3"]).2 "Sheet1" "F7" "G9" ∧
    ∃ h1 ws1 mc1, MergeCell cellHasValue (mergedFile ["A1:B2", "D4:E5", "B2:C3"]).1
        (mergedFile ["A1:B2", "D4:E5", "B2:C3"]).2 "Sheet1" "G9" "F7" =
        some (h1, storeSheet (mergedFile ["A1:B2", "D4:E5", "B2:C3"]).2 "Sheet1" ws1, none) ∧
      ws1 = withMergeCells { MergeCells := some (decodedMergeCells ["A1:B2", "D4:E5", "B2:C3"]).2 }
        (some mc1) ∧
      mc1.Cells = ((some (decodedMergeCells ["A1:B2", "D4:E5", "B2:C3"]).2).getD {}).Cells ++
        [some (mergedFile ["A1:B2", "D4:E5", "B2:C3"]).1.cells.length] ∧
      mc1.Count = mc1.Cells.length ∧
      h1.cells = (mergedFile ["A1:B2", "D4:E5", "B2:C3"]).1.cells ++
        [{ Ref := rectRef (sortCoordinates ⟨7, 9, 6, 7⟩),
           rect := some (mergedFile ["A1:B2", "D4:E5", "B2:C3"]).1.rects.length }] ∧
      h1.rects = (mergedFile ["A1:B2", "D4:E5", "B2:C3"]).1.rects ++
        [sortCoordinates ⟨7, 9, 6, 7⟩] ∧
      areaRefToCoordinates (rectRef (sortCoordinates ⟨7, 9, 6, 7⟩)) =
        .ok (sortCoordinates ⟨7, 9, 6, 7⟩)) ∧
    rectRef (sortCoordinates ⟨7, 9, 6, 7⟩) = "F7:G9" ∧
    (MergeCell cellHasValue (mergedFile ["A1:B2", "D4:E5", "B2:C3"]).1
        (mergedFile ["A1:B2", "D4:E5", "B2:C3"]).2 "Sheet1" "G9" "F7").map
      (fun res => (mergedRefs res.1 res.2.1, res.2.2)) =
      some (some (4, ["A1:B2", "D4:E5", "B2:C3", "F7:G9"]), none) :=
  ⟨MergeCell_either_corner_first cellHasValue (mergedFile ["A1:B2", "D4:E5", "B2:C3"]).1
      (mergedFile ["A1:B2", "D4:E5", "B2:C3"]).2 (mergedFile ["A1:B2", "D4:E5", "B2:C3"]).2
      "Sheet1" "G9" "F7" { MergeCells := some (decodedMergeCells ["A1:B2", "D4:E5", "B2:C3"]).2 }
      7 9 6 7 (by decide) (by decide) (by decide),
   by decide, by decide⟩

/-! ## C12: UnmergeCell -/

theorem unmergeKeep_eq (h : Heap) (rect1 : Rect) (cells : List Ptr)
    (hp : ∀ p ∈ cells, p ≠ none → (regionRect h p).isSome = true) :
    unmergeKeep h rect1 cells = some (unmergeKept h rect1 cells) := by
  induction cells with
  | nil => rfl
  | cons p rest ih =>
    have ih1 := ih (fun q hq => hp q (List.mem_cons_of_mem _ hq))
    cases p with
    | none =>
      simp only [unmergeKeep, ih1, unmergeKept, List.filter_cons, regionRect]
      rfl
    | some a =>
      have h1 := hp (some a) (List.mem_cons_self _ _) (by simp)
      unfold regionRect at h1
      simp only at h1
      cases hc : h.cells[a]? with
      | none => simp [hc] at h1
      | some c =>
        simp only [hc] at h1
        cases hr : areaRefToCoordinates c.Ref with
        | error e => simp [hr] at h1
        | ok rect2 =>
          simp only [unmergeKeep, hc, hr, ih1, unmergeKept, List.filter_cons, regionRect]
          cases isOverlap rect1 rect2 <;> rfl

/-- C12. For valid cell references `a` and `b` and a sheet whose worksheet
loads: without a merge list `UnmergeCell` changes nothing; with one, it runs
overlap resolution and then removes exactly the regions whose rectangle (the
one their reference parses to) intersects the sorted rectangle of `a:b`, and
keeps the others in their order; `Count` is the number of regions left, and
the merge list is absent when none is left. -/
theorem UnmergeCell_removes_intersecting (hasValue : xlsxC → Bool) (h : Heap) (f f1 : File)
    (sheet a b : String) (ws : xlsxWorksheet) (xa ya xb yb : Int)
    (ha : CellNameToCoordinates a = .ok (xa, ya)) (hb : CellNameToCoordinates b = .ok (xb, yb))
    (hws : workSheetReader hasValue f sheet = some (f1, some ws, none)) :
    (ws.MergeCells = none → UnmergeCell hasValue h f sheet a b = some (h, f1, none)) ∧
    (∀ mc h1 mc1, ws.MergeCells = some mc → mergeOverlapCells h mc = some (h1, mc1, none) →
      (∀ p ∈ mc1.Cells, p ≠ none → (regionRect h1 p).isSome = true) →
      UnmergeCell hasValue h f sheet a b =
        some (h1, storeSheet f1 sheet (withMergeCells ws
          (if unmergeKept h1 (sortCoordinates ⟨xa, ya, xb, yb⟩) mc1.Cells = [] then none
           else some
            { Count := (unmergeKept h1 (sortCoordinates ⟨xa, ya, xb, yb⟩) mc1.Cells).length,
              Cells := unmergeKept h1 (sortCoordinates ⟨xa, ya, xb, yb⟩) mc1.Cells })), none)) := by
  constructor
  · intro hmc
    unfold UnmergeCell
    simp only [hws, areaRefToCoordinates_pair a b xa ya xb yb ha hb, hmc]
  · intro mc h1 mc1 hmc hres hp
    unfold UnmergeCell
    simp only [hws, areaRefToCoordinates_pair a b xa ya xb yb ha hb, hmc, hres,
      unmergeKeep_eq h1 _ mc1.Cells hp, List.length_eq_zero]
    split <;> rfl

/-- C12 on the regions `A1:B2`, `D4:E5`, `B2:C3`: overlap resolution leaves
`D4:E5` and `A1:C3`; unmerging `E5` removes `D4:E5` and keeps `A1:C3`, and
unmerging `A1:E5` removes both and the merge list. -/
theorem UnmergeCell_removes_intersecting_witness :
    UnmergeCell cellHasValue (mergedFile ["A1:B2", "D4:E5", "B2:C3"]).1
        (mergedFile ["A1:B2", "D4:E5", "B2:C3"]).2 "Sheet1" "E5" "E5" =
      some (resolvedRegions.1, storeSheet (mergedFile ["A1:B2", "D4:E5", "B2:C3"]).2 "Sheet1"
        (withMergeCells { MergeCells := some (decodedMergeCells ["A1:B2", "D4:E5", "B2:C3"]).2 }
          (if unmergeKept resolvedRegions.1 (sortCoordinates ⟨5, 5, 5, 5⟩)
              resolvedRegions.2.Cells = [] then none
           else some
            { Count := (unmergeKept resolvedRegions.1 (sortCoordinates ⟨5, 5, 5, 5⟩)
                resolvedRegions.2.Cells).length,
              Cells := unmergeKept resolvedRegions.1 (sortCoordinates ⟨5, 5, 5, 5⟩)
                resolvedRegions.2.Cells })), none) ∧
    (UnmergeCell cellHasValue (mergedFile ["A1:B2", "D4:E5", "B2:C3"]).1
        (mergedFile ["A1:B2", "D4:E5", "B2:C3"]).2 "Sheet1" "E5" "E5").map
      (fun res => (mergedRefs res.1 res.2.1, res.2.2)) = some (some (1, ["A1:C3"]), none) ∧
    (UnmergeCell cellHasValue (mergedFile ["A1:B2", "D4:E5", "B2:C3"]).1
        (mergedFile ["A1:B2", "D4:E5", "B2:C3"]).2 "Sheet1" "E5" "A1").map
      (fun res => ((loadedSheet res.2.1 "Sheet1").map (fun ws => ws.MergeCells), res.2.2)) =
      some (some none, none) :=
  ⟨(UnmergeCell_removes_intersecting cellHasValue (mergedFile ["A1:B2", "D4:E5", "B2:C3"]).1
      (mergedFile ["A1:B2", "D4:E5", "B2:C3"]).2 (mergedFile ["A1:B2", "D4:E5", "B2:C3"]).2
      "Sheet1" "E5" "E5" { MergeCells := some (decodedMergeCells ["A1:B2", "D4:E5", "B2:C3"]).2 }
      5 5 5 5 (by decide) (by decide) (by decide)).2
      (decodedMergeCells ["A1:B2", "D4:E5", "B2:C3"]).2 resolvedRegions.1 resolvedRegions.2
      (by decide) (by decide) (by decide),
   by decide, by decide⟩

/-! ## C19: duplicateMergeCells -/

theorem withMergeCells_self (ws : xlsxWorksheet) (mc : Option xlsxMergeCells)
    (h : ws.MergeCells = mc) : withMergeCells ws mc = ws := by
  subst h
  cases ws
  rfl

theorem loadedSheet_name (f : File) (sheet : String) (ws : xlsxWorksheet)
    (h : loadedSheet f sheet = some ws) :
    ∃ name, f.sheetMap.lookup (trimSheetName sheet) = some name ∧
      f.Sheet.lookup name = some ws := by
  unfold loadedSheet at h
  cases hmap : f.sheetMap.lookup (trimSheetName sheet) with
  | none => simp [hmap] at h
  | some name => exact ⟨name, rfl, by simpa [hmap] using h⟩

theorem loadedSheet_storeSheet (f : File) (sheet name : String) (ws : xlsxWorksheet)
    (hmap : f.sheetMap.lookup (trimSheetName sheet) = some name) :
    loadedSheet (storeSheet f sheet ws) sheet = some ws ∧
      (storeSheet f sheet ws).sheetMap = f.sheetMap := by
  have e : storeSheet f sheet ws = { f with Sheet := (name, ws) :: f.Sheet } := by
    simp only [storeSheet, hmap]
  rw [e]
  refine ⟨?_, rfl⟩
  unfold loadedSheet
  simp only [hmap]
  exact lookup_cons_self _ _ _

theorem regionRect_extend (h : Heap) (p : Ptr) (r : Rect) (cs : List xlsxMergeCell)
    (rs : List Rect) (hr : regionRect h p = some r) :
    regionRect { cells := h.cells ++ cs, rects := rs } p = some r := by
  unfold regionRect at hr ⊢
  cases p with
  | none => simp at hr
  | some a =>
    simp only at hr ⊢
    cases hc : h.cells[a]? with
    | none => simp [hc] at hr
    | some c =>
      have hlt : a < h.cells.length := by
        by_contra hcon
        rw [List.getElem?_eq_none (by omega)] at hc
        simp at hc
      rw [List.getElem?_append_left hlt, hc]
      simpa [hc] using hr

theorem duplicatedRects_extend (h : Heap) (row row2 : Int) (cells : List Ptr)
    (cs : List xlsxMergeCell) (rs : List Rect)
    (hp : ∀ p ∈ cells, (regionRect h p).isSome = true) :
    duplicatedRects { cells := h.cells ++ cs, rects := rs } row row2 cells =
      duplicatedRects h row row2 cells := by
  induction cells with
  | nil => rfl
  | cons p rest ih =>
    have h1 := hp p (List.mem_cons_self _ _)
    obtain ⟨r, hr⟩ := Option.isSome_iff_exists.1 h1
    have ih1 := ih (fun q hq => hp q (List.mem_cons_of_mem _ hq))
    unfold duplicatedRects at ih1 ⊢
    simp only [List.filterMap_cons, regionRect_extend h p r cs rs hr, hr, ih1]

/-- The loop of `duplicateMergeCells` over regions that do not lie on the
single row `row`: it ends and changes nothing. -/
theorem duplicateMergeCellsLoop_skip (hasValue : xlsxC → Bool) (sheet : String)
    (row row2 : Int) (h : Heap) (f : File) (ws : xlsxWorksheet) (mc : xlsxMergeCells)
    (hws : loadedSheet f sheet = some ws) (hmc : ws.MergeCells = some mc) (n : Nat) :
    ∀ (i fuel : Nat), i + n = mc.Cells.length → n + 1 ≤ fuel →
      (∀ (j : Nat) (p : Ptr), i ≤ j → mc.Cells[j]? = some p →
        ∃ r, regionRect h p = some r ∧ ¬ (r.y1 = r.y2 ∧ r.y1 = row)) →
      duplicateMergeCellsLoop hasValue sheet row row2 fuel i h f = some (h, f, none) := by
  induction n with
  | zero =>
    intro i fuel hi hfuel _
    obtain ⟨fuel1, rfl⟩ : ∃ k, fuel = k + 1 := ⟨fuel - 1, by omega⟩
    unfold duplicateMergeCellsLoop
    simp only [hws, hmc]
    rw [if_neg (by omega)]
  | succ n ih =>
    intro i fuel hi hfuel hskip
    obtain ⟨fuel1, rfl⟩ : ∃ k, fuel = k + 1 := ⟨fuel - 1, by omega⟩
    obtain ⟨p, hp⟩ := exists_getElem? mc.Cells i (by omega)
    obtain ⟨r, hr, hnot⟩ := hskip i p (le_refl _) hp
    unfold regionRect at hr
    cases p with
    | none => simp at hr
    | some a =>
      simp only at hr
      cases hc : h.cells[a]? with
      | none => simp [hc] at hr
      | some c =>
        simp only [hc] at hr
        cases hparse : areaRefToCoordinates c.Ref with
        | error e => simp [hparse] at hr
        | ok r1 =>
          simp only [hparse, Option.some.injEq] at hr
          subst hr
          unfold duplicateMergeCellsLoop
          simp only [hws, hmc, hp, hc, hparse]
          rw [if_pos (by omega), if_neg hnot]
          exact ih (i + 1) fuel1 (by omega) (by omega)
            (fun j q hj hq => hskip j q (by omega) hq)

theorem duplicateMergeCellsGuard_eq (h : Heap) (row2 : Int) (cells : List Ptr)
    (hp : ∀ p ∈ cells, (regionRect h p).isSome = true) :
    duplicateMergeCellsGuard h row2 cells =
      some (if spansStrictly h row2 cells = true then .error none else .ok ()) := by
  induction cells with
  | nil => rfl
  | cons p rest ih =>
    have ih1 := ih (fun q hq => hp q (List.mem_cons_of_mem _ hq))
    have h1 := hp p (List.mem_cons_self _ _)
    unfold regionRect at h1
    cases p with
    | none => simp at h1
    | some a =>
      simp only at h1
      cases hc : h.cells[a]? with
      | none => simp [hc] at h1
      | some c =>
        cases hparse : areaRefToCoordinates c.Ref with
        | error e => simp [hc, hparse] at h1
        | ok r =>
          simp only [duplicateMergeCellsGuard, hc, hparse, spansStrictly, List.any_cons,
            regionRect, ih1]
          by_cases hspan : r.y1 < row2 ∧ row2 < r.y2
          · simp [hspan]
          · simp [hspan]

/-- The second loop of `duplicateMergeCells` from the index `pre.length` on,
when the list holds the regions `todo` still to visit and then regions
`extra` that lie on the row `row2`: one region is appended for each region of
`todo` on the single row `row`, and the loop ends. -/
theorem duplicateMergeCellsLoop_spec (hasValue : xlsxC → Bool) (sheet : String)
    (row row2 : Int) (hne : row ≠ row2) (hrow2 : 1 ≤ row2) (todo : List Ptr) :
    ∀ (pre extra : List Ptr) (h : Heap) (f : File) (ws : xlsxWorksheet) (mc : xlsxMergeCells)
      (fuel : Nat),
      loadedSheet f sheet = some ws → ws.MergeCells = some mc →
      mc.Cells = pre ++ todo ++ extra →
      (∀ p ∈ todo, (regionRect h p).isSome = true) →
      (∀ p ∈ extra, ∃ r, regionRect h p = some r ∧ r.y1 = row2) →
      2 * todo.length + extra.length + 1 ≤ fuel →
      ∃ f1, duplicateMergeCellsLoop hasValue sheet row row2 fuel pre.length h f =
          some ((addRegions (h, mc) (duplicatedRects h row row2 todo)).1, f1, none) ∧
        loadedSheet f1 sheet = some (withMergeCells ws
          (some (addRegions (h, mc) (duplicatedRects h row row2 todo)).2)) ∧
        f1.sheetMap = f.sheetMap := by
  induction todo with
  | nil =>
    intro pre extra h f ws mc fuel hws hmc hcells _ hextra hfuel
    refine ⟨f, ?_, ?_, rfl⟩
    · apply duplicateMergeCellsLoop_skip hasValue sheet row row2 h f ws mc hws hmc extra.length
      · rw [hcells]
        simp
      · omega
      · intro j p hj hjp
        rw [hcells, List.append_nil, List.getElem?_append_right hj] at hjp
        obtain ⟨r, hr, hy⟩ := hextra p (List.getElem?_mem hjp)
        exact ⟨r, hr, by omega⟩
    · simp only [duplicatedRects, List.filterMap_nil, addRegions, List.foldl_nil]
      rw [withMergeCells_self ws _ hmc]
      exact hws
  | cons p rest ih =>
    intro pre extra h f ws mc fuel hws hmc hcells htodo hextra hfuel
    obtain ⟨fuel1, rfl⟩ : ∃ k, fuel = k + 1 := ⟨fuel - 1, by omega⟩
    simp only [List.length_cons] at hfuel
    have hp : mc.Cells[pre.length]? = some p := by
      rw [hcells, List.append_assoc, List.getElem?_append_right (le_refl _)]
      simp
    have hlen : pre.length < mc.Cells.length := by
      rw [hcells]
      simp
    have hrest : ∀ q ∈ rest, (regionRect h q).isSome = true :=
      fun q hq => htodo q (List.mem_cons_of_mem _ hq)
    have hcells1 : mc.Cells = (pre ++ [p]) ++ rest ++ extra := by
      rw [hcells]
      simp
    have h1 := htodo p (List.mem_cons_self _ _)
    obtain ⟨r, hr⟩ := Option.isSome_iff_exists.1 h1
    have hr0 := hr
    unfold regionRect at hr
    cases p with
    | none => simp at hr
    | some a =>
      simp only at hr
      cases hc : h.cells[a]? with
      | none => simp [hc] at hr
      | some c =>
        simp only [hc] at hr
        cases hparse : areaRefToCoordinates c.Ref with
        | error e => simp [hparse] at hr
        | ok r1 =>
          simp only [hparse, Option.some.injEq] at hr
          subst hr
          obtain ⟨px1, _, px2, _⟩ := areaRefToCoordinates_pos c.Ref r1 hparse
          unfold duplicateMergeCellsLoop
          simp only [hws, hmc, hp, hc, hparse]
          rw [if_pos hlen]
          by_cases hon : r1.y1 = r1.y2 ∧ r1.y1 = row
          · rw [if_pos hon]
            obtain ⟨name, hmap, hsheet⟩ := loadedSheet_name f sheet ws hws
            obtain ⟨s1, _, e1, _, p1⟩ := CellNameToCoordinates_cellName r1.x1 row2 px1 hrow2
            obtain ⟨s2, _, e2, _, p2⟩ := CellNameToCoordinates_cellName r1.x2 row2 px2 hrow2
            rw [← e1] at p1
            rw [← e2] at p2
            rw [MergeCell_ok hasValue h f f sheet _ _ ws r1.x1 row2 r1.x2 row2 p1 p2
              (workSheetReader_loaded hasValue f sheet name ws hmap hsheet)]
            simp only [hmc, Option.getD_some]
            obtain ⟨hl1, hl2⟩ := loadedSheet_storeSheet f sheet name
              (withMergeCells ws (some (addRegion (h, mc)
                (sortCoordinates ⟨r1.x1, row2, r1.x2, row2⟩)).2)) hmap
            have hsorted : 1 ≤ (sortCoordinates ⟨r1.x1, row2, r1.x2, row2⟩).x1 ∧
                1 ≤ (sortCoordinates ⟨r1.x1, row2, r1.x2, row2⟩).y1 ∧
                1 ≤ (sortCoordinates ⟨r1.x1, row2, r1.x2, row2⟩).x2 ∧
                1 ≤ (sortCoordinates ⟨r1.x1, row2, r1.x2, row2⟩).y2 ∧
                (sortCoordinates ⟨r1.x1, row2, r1.x2, row2⟩).y1 = row2 := by
              simp only [sortCoordinates]
              omega
            obtain ⟨f1, hloop, hf1, hmap1⟩ := ih (pre ++ [some a])
              (extra ++ [some h.cells.length])
              (addRegion (h, mc) (sortCoordinates ⟨r1.x1, row2, r1.x2, row2⟩)).1
              (storeSheet f sheet (withMergeCells ws (some (addRegion (h, mc)
                (sortCoordinates ⟨r1.x1, row2, r1.x2, row2⟩)).2)))
              (withMergeCells ws (some (addRegion (h, mc)
                (sortCoordinates ⟨r1.x1, row2, r1.x2, row2⟩)).2))
              (addRegion (h, mc) (sortCoordinates ⟨r1.x1, row2, r1.x2, row2⟩)).2 fuel1
              hl1 rfl
              (by
                simp only [addRegion]
                rw [hcells]
                simp)
              (fun q hq => by
                obtain ⟨rq, hrq⟩ := Option.isSome_iff_exists.1 (hrest q hq)
                simp only [addRegion]
                rw [regionRect_extend h q rq _ _ hrq]
                rfl)
              (fun q hq => by
                rw [List.mem_append] at hq
                rcases hq with hq | hq
                · obtain ⟨rq, hrq, hy⟩ := hextra q hq
                  exact ⟨rq, by simp only [addRegion]; exact regionRect_extend h q rq _ _ hrq, hy⟩
                · simp only [List.mem_singleton] at hq
                  subst hq
                  refine ⟨sortCoordinates ⟨r1.x1, row2, r1.x2, row2⟩, ?_, hsorted.2.2.2.2⟩
                  simp only [regionRect, addRegion, List.getElem?_concat_length,
                    areaRefToCoordinates_rectRef _ hsorted.1 hsorted.2.1 hsorted.2.2.1
                      hsorted.2.2.2.1])
              (by simp only [List.length_append, List.length_singleton]; omega)
            rw [List.length_append, List.length_singleton] at hloop
            have hdup : duplicatedRects
                (addRegion (h, mc) (sortCoordinates ⟨r1.x1, row2, r1.x2, row2⟩)).1 row row2 rest =
                duplicatedRects h row row2 rest :=
              duplicatedRects_extend h row row2 rest _ _ hrest
            have hall : addRegions (h, mc) (duplicatedRects h row row2 (some a :: rest)) =
                addRegions (addRegion (h, mc) (sortCoordinates ⟨r1.x1, row2, r1.x2, row2⟩))
                  (duplicatedRects h row row2 rest) := by
              simp only [duplicatedRects, List.filterMap_cons, hr0, if_pos hon, addRegions,
                List.foldl_cons]
            rw [hdup] at hloop hf1
            refine ⟨f1, ?_, ?_, hmap1.trans hl2⟩
            · rw [hall]
              exact hloop
            · rw [hall]
              exact hf1
          · rw [if_neg hon]
            obtain ⟨f1, hloop, hf1, hmap1⟩ := ih (pre ++ [some a]) extra h f ws mc fuel1 hws hmc
              hcells1 hrest hextra (by omega)
            rw [List.length_append, List.length_singleton] at hloop
            have hall : duplicatedRects h row row2 (some a :: rest) =
                duplicatedRects h row row2 rest := by
              simp only [duplicatedRects, List.filterMap_cons, hr0, if_neg hon]
            rw [hall]
            exact ⟨f1, hloop, hf1, hmap1⟩

theorem addRegions_spec (rs : List Rect) :
    ∀ (st : Heap × xlsxMergeCells),
      (addRegions st rs).2.Cells =
        st.2.Cells ++ (List.range rs.length).map (fun k => some (st.1.cells.length + k)) ∧
      ∃ extra, (addRegions st rs).1.cells = st.1.cells ++ extra ∧
        extra.map (fun c => c.Ref) = rs.map rectRef := by
  induction rs with
  | nil =>
    intro st
    exact ⟨by simp [addRegions], [], by simp [addRegions], rfl⟩
  | cons r rs ih =>
    intro st
    obtain ⟨h1, extra, h2, h3⟩ := ih (addRegion st r)
    have e : addRegions st (r :: rs) = addRegions (addRegion st r) rs := rfl
    rw [e]
    refine ⟨?_, { Ref := rectRef r, rect := some st.1.rects.length } :: extra, ?_, ?_⟩
    · have ea : (addRegion st r).2.Cells = st.2.Cells ++ [some st.1.cells.length] := rfl
      have eb : (addRegion st r).1.cells.length = st.1.cells.length + 1 := by
        simp [addRegion]
      rw [h1, ea, eb, List.length_cons, List.range_succ_eq_map, List.map_cons, List.map_map,
        List.append_assoc]
      congr 1
      simp only [List.singleton_append, Nat.add_zero]
      congr 1
      apply List.map_congr_left
      intro k _
      simp only [Function.comp, Option.some.injEq]
      omega
    · rw [h2]
      simp [addRegion]
    · simp [h3]

/-- C19. When `DuplicateRowTo` calls `duplicateMergeCells` (so `row ≠ row2`
and `row2 >= 1`) on a merge list whose references parse: if some region
starts above `row2` and ends below it, nothing is changed and no error is
returned; otherwise one region is appended for each region that lies on the
single row `row` (`row + 1` when `row > row2`, its place after the insertion),
in their order, with the same columns on `row2`, and no error is returned.
The regions that existed are unchanged. -/
theorem duplicateMergeCells_single_row_regions (hasValue : xlsxC → Bool) (h : Heap) (f : File)
    (sheet : String) (ws : xlsxWorksheet) (mc : xlsxMergeCells) (row row2 : Int) (fuel : Nat)
    (hws : loadedSheet f sheet = some ws) (hmc : ws.MergeCells = some mc)
    (hp : ∀ p ∈ mc.Cells, (regionRect h p).isSome = true)
    (hne : row ≠ row2) (hrow2 : 1 ≤ row2) (hfuel : 2 * mc.Cells.length + 1 ≤ fuel) :
    (spansStrictly h row2 mc.Cells = true →
      duplicateMergeCells hasValue fuel h f sheet row row2 = some (h, f, none)) ∧
    (spansStrictly h row2 mc.Cells = false →
      ∃ h1 f1 mc1 extra,
        duplicateMergeCells hasValue fuel h f sheet row row2 = some (h1, f1, none) ∧
        loadedSheet f1 sheet = some (withMergeCells ws (some mc1)) ∧
        mc1.Cells = mc.Cells ++
          (List.range extra.length).map (fun k => some (h.cells.length + k)) ∧
        h1.cells = h.cells ++ extra ∧
        extra.map (fun c => c.Ref) =
          (duplicatedRects h (if row > row2 then row + 1 else row) row2 mc.Cells).map rectRef) := by
  constructor
  · intro hspan
    unfold duplicateMergeCells
    simp only [hws, hmc, duplicateMergeCellsGuard_eq h row2 mc.Cells hp, hspan, if_true]
  · intro hspan
    have hne1 : (if row > row2 then row + 1 else row) ≠ row2 := by
      split <;> omega
    obtain ⟨f1, hloop, hf1, _⟩ := duplicateMergeCellsLoop_spec hasValue sheet
      (if row > row2 then row + 1 else row) row2 hne1 hrow2 mc.Cells [] [] h f ws mc fuel hws hmc
      (by simp) hp (by simp) (by simp only [List.length_nil]; omega)
    obtain ⟨hcells, extra, hheap, hrefs⟩ := addRegions_spec
      (duplicatedRects h (if row > row2 then row + 1 else row) row2 mc.Cells) (h, mc)
    have hlen : extra.length =
        (duplicatedRects h (if row > row2 then row + 1 else row) row2 mc.Cells).length := by
      have := congrArg List.length hrefs
      simpa using this
    refine ⟨_, f1, _, extra, ?_, hf1, ?_, hheap, hrefs⟩
    · unfold duplicateMergeCells
      simp only [hws, hmc, duplicateMergeCellsGuard_eq h row2 mc.Cells hp, hspan]
      exact hloop
    · rw [hcells, hlen]

/-- C19 on the regions `A2:C2`, `D4:E5`, `E2:F2`, `B1:B1`: duplicating row 2
to row 7 appends `A7:C7` and `E7:F7`; and on the regions `A2:C2`, `D3:E6`,
where `D3:E6` starts above row 5 and ends below it, duplicating row 2 to row 5
appends nothing. -/
theorem duplicateMergeCells_single_row_regions_witness :
    (∃ h1 f1 mc1 extra,
      duplicateMergeCells cellHasValue 9 (mergedFile ["A2:C2", "D4:E5", "E2:F2", "B1:B1"]).1
        (mergedFile ["A2:C2", "D4:E5", "E2:F2", "B1:B1"]).2 "Sheet1" 2 7 = some (h1, f1, none) ∧
      loadedSheet f1 "Sheet1" = some (withMergeCells
        { MergeCells := some (decodedMergeCells ["A2:C2", "D4:E5", "E2:F2", "B1:B1"]).2 }
        (some mc1)) ∧
      mc1.Cells = (decodedMergeCells ["A2:C2", "D4:E5", "E2:F2", "B1:B1"]).2.Cells ++
        (List.range extra.length).map (fun k =>
          some ((mergedFile ["A2:C2", "D4:E5", "E2:F2", "B1:B1"]).1.cells.length + k)) ∧
      h1.cells = (mergedFile ["A2:C2", "D4:E5", "E2:F2", "B1:B1"]).1.cells ++ extra ∧
      extra.map (fun c => c.Ref) =
        (duplicatedRects (mergedFile ["A2:C2", "D4:E5", "E2:F2", "B1:B1"]).1
          (if (2 : Int) > 7 then 2 + 1 else 2) 7
          (decodedMergeCells ["A2:C2", "D4:E5", "E2:F2", "B1:B1"]).2.Cells).map rectRef) ∧
    (duplicateMergeCells cellHasValue 9 (mergedFile ["A2:C2", "D4:E5", "E2:F2", "B1:B1"]).1
        (mergedFile ["A2:C2", "D4:E5", "E2:F2", "B1:B1"]).2 "Sheet1" 2 7).map
      (fun res => (mergedRefs res.1 res.2.1, res.2.2)) =
      some (some (6, ["A2:C2", "D4:E5", "E2:F2", "B1:B1", "A7:C7", "E7:F7"]), none) ∧
    duplicateMergeCells cellHasValue 5 (mergedFile ["A2:C2", "D3:E6"]).1
        (mergedFile ["A2:C2", "D3:E6"]).2 "Sheet1" 2 5 =
      some ((mergedFile ["A2:C2", "D3:E6"]).1, (mergedFile ["A2:C2", "D3:E6"]).2, none) :=
  ⟨(duplicateMergeCells_single_row_regions cellHasValue
      (mergedFile ["A2:C2", "D4:E5", "E2:F2", "B1:B1"]).1
      (mergedFile ["A2:C2", "D4:E5", "E2:F2", "B1:B1"]).2 "Sheet1"
      { MergeCells := some (decodedMergeCells ["A2:C2", "D4:E5", "E2:F2", "B1:B1"]).2 }
      (decodedMergeCells ["A2:C2", "D4:E5", "E2:F2", "B1:B1"]).2 2 7 9
      (by decide) (by decide) (by decide) (by decide) (by decide) (by decide)).2 (by decide),
   by decide,
   (duplicateMergeCells_single_row_regions cellHasValue (mergedFile ["A2:C2", "D3:E6"]).1
      (mergedFile ["A2:C2", "D3:E6"]).2 "Sheet1"
      { MergeCells := some (decodedMergeCells ["A2:C2", "D3:E6"]).2 }
      (decodedMergeCells ["A2:C2", "D3:E6"]).2 2 5 5
      (by decide) (by decide) (by decide) (by decide) (by decide) (by decide)).1 (by decide)⟩

/-! ## C18: InsertRow and RemoveRow -/

/-- Rows in ascending order from 1 on come out of `checkSheet` dense, as many
as the last row number. -/
theorem checkSheet_sorted_dense (hasValue : xlsxC → Bool) (rows : List xlsxRow)
    (h : List.Chain (· ≤ ·) 1 (rows.map (·.R))) :
    ∃ out, checkSheet hasValue { Row := rows } = some { Row := out } ∧
      (out.length : Int) = lastRowNumber rows ∧ denseRows out := by
  obtain ⟨sd, e, l, g⟩ := checkSheetDense_sorted rows h
  refine ⟨sd, ?_, l, ?_⟩
  · unfold checkSheet
    simp only [e]
    rfl
  · intro i r hr
    have hi : i < sd.length := by
      by_contra hc
      rw [List.getElem?_eq_none (by omega)] at hr
      simp at hr
    rw [g i hi] at hr
    split at hr
    · simp only [Option.some.injEq] at hr
      rw [← hr]
    · simp only [Option.some.injEq] at hr
      rw [← hr]

theorem foldl_last_mem (a : Int) (rows : List xlsxRow) :
    (rows = [] ∧ rows.foldl (fun _ r => r.R) a = a) ∨
      ∃ r ∈ rows, rows.foldl (fun _ r => r.R) a = r.R := by
  induction rows generalizing a with
  | nil => exact Or.inl ⟨rfl, rfl⟩
  | cons b l ih =>
    right
    rcases ih b.R with ⟨hl, e⟩ | ⟨r, hr, e⟩
    · exact ⟨b, by simp, by simp only [List.foldl_cons]; exact e⟩
    · exact ⟨r, by simp [hr], by simp only [List.foldl_cons]; exact e⟩

theorem chain_of_pairwise (rows : List xlsxRow) (hpos : ∀ r ∈ rows, 1 ≤ r.R)
    (hpw : List.Pairwise (fun a b : xlsxRow => a.R < b.R) rows) :
    List.Chain (· ≤ ·) 1 (rows.map (·.R)) := by
  rw [List.chain_iff_pairwise, List.pairwise_cons]
  constructor
  · intro x hx
    obtain ⟨r, hr, rfl⟩ := List.mem_map.1 hx
    exact hpos r hr
  · rw [List.pairwise_map]
    exact hpw.imp (fun hab => le_of_lt hab)

/-- The last row number of rows in ascending order is their largest number. -/
theorem lastRowNumber_eq (rows : List xlsxRow) (N : Int)
    (h : List.Chain (· ≤ ·) 1 (rows.map (·.R))) (hle : ∀ r ∈ rows, r.R ≤ N)
    (hmem : (rows = [] ∧ N = 0) ∨ ∃ r ∈ rows, r.R = N) : lastRowNumber rows = N := by
  have h0 : List.Chain (· ≤ ·) 0 (rows.map (·.R)) := by
    cases rows with
    | nil => exact List.Chain.nil
    | cons r rs =>
      simp only [List.map_cons, List.chain_cons] at h ⊢
      exact ⟨by omega, h.2⟩
  have hlast := le_foldl_last 0 rows h0
  unfold lastRowNumber
  rcases hmem with ⟨hnil, hN⟩ | ⟨r, hr, hrN⟩
  · subst hnil
    simp [hN]
  · have h1 := hlast.2 r hr
    rcases foldl_last_mem 0 rows with ⟨hnil, _⟩ | ⟨r1, hr1, e⟩
    · subst hnil
      simp at hr
    · have := hle r1 hr1
      omega

theorem denseRows_mem (rows : List xlsxRow) (h : denseRows rows) :
    (∀ r ∈ rows, 1 ≤ r.R ∧ r.R ≤ rows.length) ∧
    (∀ x : Int, 1 ≤ x → x ≤ rows.length → ∃ r ∈ rows, r.R = x) ∧
    List.Pairwise (fun a b : xlsxRow => a.R < b.R) rows := by
  refine ⟨?_, ?_, ?_⟩
  · intro r hr
    obtain ⟨i, hi⟩ := List.mem_iff_getElem?.1 hr
    have := h i r hi
    have hlt : i < rows.length := by
      by_contra hc
      rw [List.getElem?_eq_none (by omega)] at hi
      simp at hi
    omega
  · intro x h1 h2
    obtain ⟨r, hr⟩ := exists_getElem? rows (x - 1).toNat (by omega)
    exact ⟨r, List.getElem?_mem hr, by have := h _ r hr; omega⟩
  · rw [List.pairwise_iff_getElem]
    intro i j hi hj hij
    have e1 := h i rows[i] (List.getElem?_eq_getElem hi)
    have e2 := h j rows[j] (List.getElem?_eq_getElem hj)
    omega

theorem mem_adjustRowDimensions (rows : List xlsxRow) (row offset : Int) (r1 : xlsxRow)
    (h : r1 ∈ adjustRowDimensions rows row offset) :
    ∃ r ∈ rows, r1.R = if r.R ≥ row then r.R + offset else r.R := by
  unfold adjustRowDimensions at h
  obtain ⟨r, hr, rfl⟩ := List.mem_map.1 h
  refine ⟨r, hr, ?_⟩
  split <;> rfl

theorem adjustRowDimensions_mem (rows : List xlsxRow) (row offset : Int) (r : xlsxRow)
    (h : r ∈ rows) :
    ∃ r1 ∈ adjustRowDimensions rows row offset, r1.R = if r.R ≥ row then r.R + offset else r.R := by
  refine ⟨_, List.mem_map_of_mem _ h, ?_⟩
  split <;> rfl

theorem adjustRowDimensions_pairwise (rows : List xlsxRow) (row offset : Int)
    (hpw : List.Pairwise (fun a b : xlsxRow => a.R < b.R) rows)
    (hmono : ∀ a ∈ rows, ∀ b ∈ rows, a.R < b.R →
      (if a.R ≥ row then a.R + offset else a.R) < (if b.R ≥ row then b.R + offset else b.R)) :
    List.Pairwise (fun a b : xlsxRow => a.R < b.R) (adjustRowDimensions rows row offset) := by
  unfold adjustRowDimensions
  rw [List.pairwise_map]
  refine hpw.imp_of_mem ?_
  intro a b ha hb hab
  have := hmono a ha b hb hab
  have ea : (if a.R ≥ row then { a with R := a.R + offset } else a).R =
      if a.R ≥ row then a.R + offset else a.R := by split <;> rfl
  have eb : (if b.R ≥ row then { b with R := b.R + offset } else b).R =
      if b.R ≥ row then b.R + offset else b.R := by split <;> rfl
  rw [ea, eb]
  exact this

/-- `adjustHelper` on rows that stay in ascending order from 1 on: the
worksheet then has as many rows as the largest shifted number, dense. -/
theorem adjustHelper_ok (hasValue : xlsxC → Bool) (f f1 : File) (sheet : String)
    (ws : xlsxWorksheet) (num offset N : Int)
    (hws : workSheetReader hasValue f sheet = some (f1, some ws, none))
    (hpos : ∀ r ∈ adjustRowDimensions ws.SheetData.Row num offset, 1 ≤ r.R ∧ r.R ≤ N)
    (hpw : List.Pairwise (fun a b : xlsxRow => a.R < b.R)
      (adjustRowDimensions ws.SheetData.Row num offset))
    (hmem : (adjustRowDimensions ws.SheetData.Row num offset = [] ∧ N = 0) ∨
      ∃ r ∈ adjustRowDimensions ws.SheetData.Row num offset, r.R = N) :
    ∃ out, adjustHelper hasValue f sheet num offset =
        some (storeSheet f1 sheet (withRows ws out), none) ∧
      (out.length : Int) = N ∧ denseRows out := by
  have hch := chain_of_pairwise _ (fun r hr => (hpos r hr).1) hpw
  obtain ⟨out, e, l, d⟩ := checkSheet_sorted_dense hasValue _ hch
  refine ⟨out, ?_, ?_, d⟩
  · unfold adjustHelper
    simp only [hws, e]
  · rw [l]
    exact lastRowNumber_eq _ N hch (fun r hr => (hpos r hr).2) hmem

/-- On a worksheet with dense rows and for `k >= 1`, `InsertRow(sheet,
k)` succeeds and leaves one row more when `k` is at most the number of rows
(the same rows otherwise), and `RemoveRow(sheet, k)` then succeeds and leaves
as many rows as there were before the insertion. -/
theorem InsertRow_RemoveRow_row_count (hasValue : xlsxC → Bool) (f f1 : File) (sheet : String)
    (ws : xlsxWorksheet) (k : Int)
    (hws : workSheetReader hasValue f sheet = some (f1, some ws, none))
    (hdense : denseRows ws.SheetData.Row) (hk : 1 ≤ k) :
    ∃ f2 ws2 f3 ws3, InsertRow hasValue f sheet k = some (f2, none) ∧
      loadedSheet f2 sheet = some ws2 ∧
      (ws2.SheetData.Row.length : Int) =
        (if k ≤ ws.SheetData.Row.length then (ws.SheetData.Row.length : Int) + 1
         else ws.SheetData.Row.length) ∧
      RemoveRow hasValue f2 sheet k = some (f3, none) ∧
      loadedSheet f3 sheet = some ws3 ∧
      ws3.SheetData.Row.length = ws.SheetData.Row.length := by
  obtain ⟨name, hmap, hmap1, _⟩ := workSheetReader_ok hasValue f f1 sheet ws hws
  have hmapf1 : f1.sheetMap.lookup (trimSheetName sheet) = some name := by rw [hmap1]; exact hmap
  obtain ⟨hd1, hd2, hd3⟩ := denseRows_mem ws.SheetData.Row hdense
  -- the insertion
  obtain ⟨out1, e1, l1, d1⟩ := adjustHelper_ok hasValue f f1 sheet ws k 1
    (if k ≤ ws.SheetData.Row.length then (ws.SheetData.Row.length : Int) + 1
     else ws.SheetData.Row.length) hws
    (by
      intro r1 hr1
      obtain ⟨r, hr, e⟩ := mem_adjustRowDimensions _ _ _ _ hr1
      have := hd1 r hr
      rw [e]
      split <;> split <;> omega)
    (adjustRowDimensions_pairwise _ _ _ hd3 (by
      intro a _ b _ hab
      split <;> split <;> omega))
    (by
      by_cases hn : ws.SheetData.Row.length = 0
      · left
        have hnil : ws.SheetData.Row = [] := List.length_eq_zero.1 hn
        rw [hnil]
        refine ⟨rfl, ?_⟩
        simp only [List.length_nil, Nat.cast_zero]
        split <;> omega
      · right
        obtain ⟨r, hr, e⟩ := hd2 ws.SheetData.Row.length (by omega) (le_refl _)
        obtain ⟨r1, hr1, e1⟩ := adjustRowDimensions_mem ws.SheetData.Row k 1 r hr
        refine ⟨r1, hr1, ?_⟩
        rw [e1, e])
  obtain ⟨hl2, hm2⟩ := loadedSheet_storeSheet f1 sheet name (withRows ws out1) hmapf1
  have hmapf2 : (storeSheet f1 sheet (withRows ws out1)).sheetMap.lookup (trimSheetName sheet) =
      some name := by rw [hm2]; exact hmapf1
  have hins : InsertRow hasValue f sheet k =
      some (storeSheet f1 sheet (withRows ws out1), none) := by
    unfold InsertRow
    rw [if_neg (by omega)]
    exact e1
  obtain ⟨o1, o2, o3⟩ := denseRows_mem out1 d1
  -- the removal
  have hrd := workSheetReader_storeSheet hasValue f1 sheet name (withRows ws out1) hmapf1
  by_cases hkn : k ≤ ws.SheetData.Row.length
  · rw [if_pos hkn] at l1
    obtain ⟨hl3, hm3⟩ := loadedSheet_storeSheet (storeSheet f1 sheet (withRows ws out1)) sheet name
      (withRows (withRows ws out1) (out1.filter (fun v => v.R ≠ k))) hmapf2
    have hrd3 := workSheetReader_storeSheet hasValue (storeSheet f1 sheet (withRows ws out1))
      sheet name (withRows (withRows ws out1) (out1.filter (fun v => v.R ≠ k))) hmapf2
    have hfil : ∀ r, r ∈ out1.filter (fun v => v.R ≠ k) ↔ r ∈ out1 ∧ r.R ≠ k := by
      intro r
      rw [List.mem_filter]
      simp
    obtain ⟨out3, e3, l3, _⟩ := adjustHelper_ok hasValue _ _ sheet _ k (-1)
      (ws.SheetData.Row.length : Int) hrd3
      (by
        intro r1 hr1
        obtain ⟨r, hr, e⟩ := mem_adjustRowDimensions _ _ _ _ hr1
        rw [withRows_rows, hfil] at hr
        have := o1 r hr.1
        have := hr.2
        rw [e]
        split <;> omega)
      (by
        rw [withRows_rows]
        refine adjustRowDimensions_pairwise _ _ _ (o3.filter _) ?_
        intro a ha b hb hab
        have := ((hfil a).1 ha).2
        have := ((hfil b).1 hb).2
        split <;> split <;> omega)
      (by
        right
        obtain ⟨r, hr, e⟩ := o2 ((ws.SheetData.Row.length : Int) + 1) (by omega) (by omega)
        obtain ⟨r1, hr1, e1⟩ := adjustRowDimensions_mem (out1.filter (fun v => v.R ≠ k)) k (-1) r
          ((hfil r).2 ⟨hr, by omega⟩)
        refine ⟨r1, by rw [withRows_rows]; exact hr1, ?_⟩
        rw [e1, e]
        split <;> omega)
    obtain ⟨hl4, _⟩ := loadedSheet_storeSheet _ sheet name
      (withRows (withRows (withRows ws out1) (out1.filter (fun v => v.R ≠ k))) out3)
      (by rw [hm3]; exact hmapf2)
    refine ⟨_, _, _, _, hins, hl2, ?_, ?_, hl4, ?_⟩
    · rw [withRows_rows, if_pos hkn]
      exact l1
    · unfold RemoveRow
      rw [if_neg (by omega)]
      simp only [hrd, withRows_rows]
      rw [if_neg (by omega)]
      exact e3
    · rw [withRows_rows]
      omega
  · rw [if_neg hkn] at l1
    obtain ⟨out3, e3, l3, _⟩ := adjustHelper_ok hasValue _ _ sheet _ k (-1)
      (ws.SheetData.Row.length : Int) hrd
      (by
        intro r1 hr1
        obtain ⟨r, hr, e⟩ := mem_adjustRowDimensions _ _ _ _ hr1
        rw [withRows_rows] at hr
        have := o1 r hr
        rw [e]
        split <;> omega)
      (by
        rw [withRows_rows]
        refine adjustRowDimensions_pairwise _ _ _ o3 ?_
        intro a ha b hb hab
        have := o1 a ha
        have := o1 b hb
        split <;> split <;> omega)
      (by
        rw [withRows_rows]
        by_cases hn : out1.length = 0
        · left
          have hnil : out1 = [] := List.length_eq_zero.1 hn
          rw [hnil]
          refine ⟨rfl, ?_⟩
          omega
        · right
          obtain ⟨r, hr, e⟩ := o2 out1.length (by omega) (le_refl _)
          obtain ⟨r1, hr1, e1⟩ := adjustRowDimensions_mem out1 k (-1) r hr
          refine ⟨r1, hr1, ?_⟩
          rw [e1, e]
          split <;> omega)
    obtain ⟨hl4, _⟩ := loadedSheet_storeSheet _ sheet name
      (withRows (withRows ws out1) out3) hmapf2
    refine ⟨_, _, _, _, hins, hl2, ?_, ?_, hl4, ?_⟩
    · rw [withRows_rows, if_neg hkn]
      exact l1
    · unfold RemoveRow
      rw [if_neg (by omega)]
      simp only [hrd, withRows_rows]
      rw [if_pos (by omega)]
      exact e3
    · rw [withRows_rows]
      omega

theorem denseRows_of_numbers (rows : List xlsxRow)
    (h : rows.map (fun r => r.R) = (List.range rows.length).map (fun (i : Nat) => (i : Int) + 1)) :
    denseRows rows := by
  intro i r hr
  have h1 : (rows.map (fun r => r.R))[i]? = some r.R := by
    rw [List.getElem?_map, hr]
    rfl
  rw [h, List.getElem?_map] at h1
  have hi : i < rows.length := by
    by_contra hc
    rw [List.getElem?_eq_none (by omega)] at hr
    simp at hr
  rw [List.getElem?_range hi] at h1
  simp only [Option.map_some', Option.some.injEq] at h1
  exact h1.symm

/-- On a worksheet of three rows, dense: inserting at row 2 leaves four rows,
the second without cells, and removing row 2 leaves the three rows. -/
theorem InsertRow_RemoveRow_row_count_witness :
    (∃ f2 ws2 f3 ws3, InsertRow cellHasValue (loadedFile threeRowSheet) "Sheet1" 2 =
        some (f2, none) ∧
      loadedSheet f2 "Sheet1" = some ws2 ∧
      (ws2.SheetData.Row.length : Int) =
        (if (2 : Int) ≤ threeRowSheet.SheetData.Row.length then
          (threeRowSheet.SheetData.Row.length : Int) + 1
         else threeRowSheet.SheetData.Row.length) ∧
      RemoveRow cellHasValue f2 "Sheet1" 2 = some (f3, none) ∧
      loadedSheet f3 "Sheet1" = some ws3 ∧
      ws3.SheetData.Row.length = threeRowSheet.SheetData.Row.length) ∧
    (InsertRow cellHasValue (loadedFile threeRowSheet) "Sheet1" 2).map
      (fun res => (rowNumbers res.1, res.2)) = some (some [(1, 1), (2, 0), (3, 1), (4, 0)], none) ∧
    ((InsertRow cellHasValue (loadedFile threeRowSheet) "Sheet1" 2).bind
      (fun res => RemoveRow cellHasValue res.1 "Sheet1" 2)).map
      (fun res => (rowNumbers res.1, res.2)) = some (some [(1, 1), (2, 1), (3, 0)], none) :=
  ⟨InsertRow_RemoveRow_row_count cellHasValue (loadedFile threeRowSheet)
      (loadedFile threeRowSheet) "Sheet1" threeRowSheet 2 (by decide)
      (denseRows_of_numbers _ (by decide)) (by decide),
   by decide, by decide⟩

/-! ## C21: the total of the rows iterator -/

/-- C21 fails on the code: for the `row` elements numbered 5 and 2, in this
order, the highest row number is 5, and `Rows` returns an iterator whose
`TotalRows()` is 2, the number of the last element. -/
theorem Rows_TotalRows_last_row :
    rowNumbersFrom 0 [some 5, some 2] = [5, 2] ∧
    highestRowNumber [some 5, some 2] = 5 ∧
    rowElements [some 5, some 2] = [["5"], ["2"]] ∧
    (File.Rows (fileWith [{ R := 5 }, { R := 2 }]) "Sheet1" (rowElements [some 5, some 2])).2.2 =
      none ∧
    (File.Rows (fileWith [{ R := 5 }, { R := 2 }]) "Sheet1"
      (rowElements [some 5, some 2])).2.1.map Rows.TotalRows = some 2 := by
  decide

/-! ## C27: deleteSheetFromContentTypes -/

/-- C27 fails on the code: with two overrides for the part
`/xl/worksheets/sheet2.xml`, the loop of `deleteSheetFromContentTypes` removes
the first, then reads the second at index 1 of the backing array and slices
`content.Overrides[2:]` on a slice of length 1, which panics; and with a third
override after the two, the second one is left in the list. -/
theorem deleteSheetFromContentTypes_repeated_override :
    deleteSheetFromContentTypes
      { ContentTypes := [{ PartName := "/xl/worksheets/sheet2.xml" },
                         { PartName := "/xl/worksheets/sheet2.xml" }] }
      "worksheets/sheet2.xml" = none ∧
    deleteSheetFromContentTypes
      { ContentTypes := [{ PartName := "/xl/worksheets/sheet2.xml" },
                         { PartName := "/xl/worksheets/sheet2.xml" },
                         { PartName := "/xl/styles.xml" }] }
      "worksheets/sheet2.xml" =
      some { ContentTypes := [{ PartName := "/xl/worksheets/sheet2.xml" },
                              { PartName := "/xl/styles.xml" }] } := by
  decide

/-! ## C25: addRels on a singleton type -/

/-- C25 fails on the code: in the list with the relationships `rId3` (a
worksheet) and `rId1` (the shared strings), `addRels` called with the type of
the shared strings adds no entry and rewrites the target of `rId1`, but it
returns 3, the largest number read so far, and not the number 1 of that
entry. -/
theorem addRels_singleton_returns_running_maximum :
    singletonRels.map relID = [3, 1] ∧
    (addRels { Relationships := [("xl/_rels/workbook.xml.rels", singletonRels)] }
      "xl/_rels/workbook.xml.rels" SourceRelationshipSharedStrings "/xl/sharedStrings.xml" "").2 =
      3 ∧
    (relsReader (addRels { Relationships := [("xl/_rels/workbook.xml.rels", singletonRels)] }
      "xl/_rels/workbook.xml.rels" SourceRelationshipSharedStrings "/xl/sharedStrings.xml" "").1
      "xl/_rels/workbook.xml.rels").map (fun rels => rels.map (fun rel => (rel.ID, rel.Target))) =
      some [("rId3", "worksheets/sheet1.xml"), ("rId1", "/xl/sharedStrings.xml")] := by
  decide

/-! ## C22: GetRows -/

theorem rowsScan_curRow (elems : List (List String)) :
    ∀ (row : Int) (rows : Rows), (rowsScan elems row rows).1.curRow = rows.curRow := by
  induction elems with
  | nil => intro row rows; rfl
  | cons a rest ih =>
    intro row rows
    unfold rowsScan
    split
    · rfl
    · rw [ih]

theorem File_Rows_curRow (f f1 : File) (sheet : String) (elems : List (List String)) (rows : Rows)
    (err : Option Err) (h : File.Rows f sheet elems = (f1, some rows, err)) : rows.curRow = 0 := by
  unfold File.Rows at h
  split at h
  · simp at h
  · simp only [Prod.mk.injEq, Option.some.injEq] at h
    rw [← h.2.1]
    exact rowsScan_curRow elems 0 {}

/-- The loop of `GetRows` from row `k + 1` on, when `rows.Columns` returns the
column lists `cols` without error: it ends with all the lists and with `max`
the number of the last list that is not empty. -/
theorem getRowsLoop_spec (columns : Int → List String × Option Err) (cols : List (List String))
    (hcols : ∀ (k : Nat) (row : List String), cols[k]? = some row →
      columns ((k : Int) + 1) = (row, none)) (n : Nat) :
    ∀ (k fuel : Nat) (rows : Rows) (max : Int), k + n = cols.length → n + 1 ≤ fuel →
      rows.curRow = k → rows.totalRows = cols.length → 0 ≤ max → max ≤ k →
      (∀ (j : Nat) (row : List String), max ≤ j → j < k → cols[j]? = some row → row = []) →
      (max = 0 ∨ ∃ row, cols[max.toNat - 1]? = some row ∧ row ≠ []) →
      ∃ m : Nat, getRowsLoop columns fuel rows (cols.take k, (k : Int), max) = (cols, (m : Int)) ∧
        m ≤ cols.length ∧
        (∀ (j : Nat) (row : List String), m ≤ j → cols[j]? = some row → row = []) ∧
        (m = 0 ∨ ∃ row, cols[m - 1]? = some row ∧ row ≠ []) := by
  induction n with
  | zero =>
    intro k fuel rows max hk hfuel hcur htot h0 hmax hempty hlast
    obtain ⟨fuel1, rfl⟩ : ∃ x, fuel = x + 1 := ⟨fuel - 1, by omega⟩
    refine ⟨max.toNat, ?_, by omega, ?_, ?_⟩
    · unfold getRowsLoop
      have hnext : rows.Next.2 = false := by
        simp only [Rows.Next, hcur, htot, decide_eq_false_iff_not]
        omega
      rw [hnext]
      simp only [Bool.false_eq_true, if_false]
      rw [show k = cols.length by omega, List.take_length]
      congr 1
      omega
    · intro j row hj hrow
      have hlt : j < cols.length := by
        by_contra hc
        rw [List.getElem?_eq_none (by omega)] at hrow
        simp at hrow
      exact hempty j row (by omega) (by omega) hrow
    · rcases hlast with h | h
      · left; omega
      · right; exact h
  | succ n ih =>
    intro k fuel rows max hk hfuel hcur htot h0 hmax hempty hlast
    obtain ⟨fuel1, rfl⟩ : ∃ x, fuel = x + 1 := ⟨fuel - 1, by omega⟩
    obtain ⟨row, hrow⟩ := exists_getElem? cols k (by omega)
    have hnext : rows.Next.2 = true := by
      simp only [Rows.Next, hcur, htot, decide_eq_true_eq]
      omega
    have hcurn : rows.Next.1.curRow = (k : Int) + 1 := by
      simp only [Rows.Next, hcur]
    have htotn : rows.Next.1.totalRows = cols.length := htot
    have htake : cols.take k ++ [row] = cols.take (k + 1) := by
      rw [List.take_succ, hrow]
      rfl
    unfold getRowsLoop
    rw [hnext]
    simp only [if_true, hcurn, hcols k row hrow, htake]
    have hk1 : ((k : Int) + 1) = ((k + 1 : Nat) : Int) := by push_cast; rfl
    rw [hk1]
    by_cases hne : row.length > 0
    · rw [if_pos hne]
      apply ih (k + 1) fuel1 rows.Next.1 _ (by omega) (by omega) (by rw [hcurn]; exact hk1) htotn
        (by omega) (le_refl _)
      · intro j r hj1 hj2 _
        omega
      · right
        refine ⟨row, ?_, ?_⟩
        · have : ((k + 1 : Nat) : Int).toNat - 1 = k := by omega
          rw [this]
          exact hrow
        · intro hc
          rw [hc] at hne
          simp at hne
    · rw [if_neg hne]
      apply ih (k + 1) fuel1 rows.Next.1 max (by omega) (by omega) (by rw [hcurn]; exact hk1) htotn
        h0 (by omega)
      · intro j r hj1 hj2 hr
        by_cases hjk : j = k
        · subst hjk
          rw [hrow] at hr
          simp only [Option.some.injEq] at hr
          subst hr
          exact List.length_eq_zero.1 (by omega)
        · exact hempty j r hj1 (by omega) hr
      · exact hlast

/-- When `Rows` returns an iterator over `N` rows and `rows.Columns`
returns the column lists of the rows 1..N without error, `GetRows` returns the
lists of the rows 1..m, in order, where m is the number of the last row whose
list is not empty (0 when there is none): every row after m is empty, and the
row m is not. -/
theorem GetRows_drops_trailing_empty (f f1 : File) (sheet : String)
    (elems : List (List String)) (columns : Int → List String × Option Err)
    (close : Option Err) (rows : Rows) (cols : List (List String))
    (hrows : File.Rows f sheet elems = (f1, some rows, none))
    (htotal : rows.totalRows = cols.length)
    (hcols : ∀ (k : Nat) (row : List String), cols[k]? = some row →
      columns ((k : Int) + 1) = (row, none)) :
    ∃ m : Nat, GetRows f sheet elems columns close = (f1, some (cols.take m), close) ∧
      m ≤ cols.length ∧
      (∀ (j : Nat) (row : List String), m ≤ j → cols[j]? = some row → row = []) ∧
      (m = 0 ∨ ∃ row, cols[m - 1]? = some row ∧ row ≠ []) := by
  have hcur := File_Rows_curRow f f1 sheet elems rows none hrows
  obtain ⟨m, hloop, h1, h2, h3⟩ := getRowsLoop_spec columns cols hcols cols.length 0
    (rows.totalRows.toNat + 1) rows 0 (by omega) (by omega) (by rw [hcur]; rfl) htotal
    (le_refl _) (le_refl _) (fun j row _ hj => by omega) (Or.inl rfl)
  refine ⟨m, ?_, h1, h2, h3⟩
  unfold GetRows
  rw [hrows]
  simp only [List.take_zero, Nat.cast_zero] at hloop
  simp only [hloop, Int.toNat_ofNat]

/-- On four rows of which only the second has a column: `GetRows` returns
the first two rows. -/
theorem GetRows_drops_trailing_empty_witness :
    (∃ m : Nat, GetRows (fileWith []) "Sheet1" [[], [], [], []]
        (fun k => (if k = 2 then ["x"] else [], none)) none =
        (fileWith [], some ([[], ["x"], [], []].take m), none) ∧
      m ≤ [([] : List String), ["x"], [], []].length ∧
      (∀ (j : Nat) (row : List String), m ≤ j → [[], ["x"], [], []][j]? = some row → row = []) ∧
      (m = 0 ∨ ∃ row, [([] : List String), ["x"], [], []][m - 1]? = some row ∧ row ≠ [])) ∧
    GetRows (fileWith []) "Sheet1" [[], [], [], []]
        (fun k => (if k = 2 then ["x"] else [], none)) none =
      (fileWith [], some [[], ["x"]], none) :=
  ⟨GetRows_drops_trailing_empty (fileWith []) (fileWith []) "Sheet1" [[], [], [], []]
      (fun k => (if k = 2 then ["x"] else [], none)) none { totalRows := 4 }
      [[], ["x"], [], []] (by decide) (by decide)
      (by
        intro k row h
        match k, h with
        | 0, h => simp at h; subst h; rfl
        | 1, h => simp at h; subst h; rfl
        | 2, h => simp at h; subst h; rfl
        | 3, h => simp at h; subst h; rfl
        | k + 4, h => simp at h),
   by decide⟩

/-! ## C26: addRels appends -/

theorem trimPrefix_rId (s : String) : trimPrefix ("rId" ++ s) "rId" = s := by
  unfold trimPrefix
  have h : ("rId" ++ s).data = 'r' :: 'I' :: 'd' :: s.data := by
    simp only [String.data_append]
    rfl
  have hp : "rId".data = ['r', 'I', 'd'] := rfl
  simp [h, hp, List.isPrefixOf]

theorem strconvAtoi_digits (ds : List Char) (hne : ds ≠ []) (hd : ∀ c ∈ ds, isDigit c = true)
    (hv : (atoi ds : Int) < 2 ^ 63) : strconvAtoi (String.mk ds) = ((atoi ds : Int), true) := by
  unfold strconvAtoi
  have hall : ds.all isDigit = true := List.all_eq_true.2 hd
  cases ds with
  | nil => exact absurd rfl hne
  | cons c t =>
    have hc := hd c (by simp)
    have hminus : c ≠ '-' := by
      intro h
      subst h
      simp [isDigit] at hc
    have hplus : c ≠ '+' := by
      intro h
      subst h
      simp [isDigit] at hc
    have hds : (match (String.mk (c :: t)).data with
        | '-' :: t => t
        | '+' :: t => t
        | l => l) = c :: t := by
      split
      · next heq =>
        simp only [List.cons.injEq] at heq
        exact absurd heq.1 hminus
      · next heq =>
        simp only [List.cons.injEq] at heq
        exact absurd heq.1 hplus
      · rfl
    simp only [hds, hall]
    have hhead : ((String.mk (c :: t)).data.head? = some '-') = False := by
      simp only [List.head?_cons, Option.some.injEq, eq_iff_iff, iff_false]
      exact hminus
    simp only [hhead, if_false]
    have hnn : (0 : Int) ≤ (atoi (c :: t) : Int) := Int.ofNat_nonneg _
    rw [if_neg (by simp), if_neg (by omega), if_neg (by omega)]

theorem strconvAtoi_Itoa (n : Int) (h0 : 0 ≤ n) (h1 : n < 2 ^ 63) :
    strconvAtoi (strconvItoa n) = (n, true) := by
  unfold strconvItoa
  rw [if_neg (by omega)]
  have hv := decimalDigits_value (n.toNat + 1) n.toNat (by omega)
  rw [strconvAtoi_digits _ (decimalDigits_ne_nil _ _)
    (fun c hc => (decimalDigits_digits _ _ c hc).1) (by rw [hv]; omega), hv]
  congr 1
  omega

theorem wrapInt64_id (x : Int) (h0 : -(2 ^ 63) ≤ x) (h1 : x < 2 ^ 63) : wrapInt64 x = x := by
  unfold wrapInt64
  omega

theorem addRelsScan_no_match (relType : String) (rels : List xlsxRelationship)
    (hno : ∀ rel ∈ rels, ¬ (relType = rel.Typ ∧ rel.Typ = SourceRelationshipSharedStrings)) :
    ∀ (idx : Nat) (rID : Int), addRelsScan relType rels idx rID =
      (rels.foldl (fun m rel => max m (relID rel)) rID, none) := by
  induction rels with
  | nil => intro idx rID; rfl
  | cons rel rest ih =>
    intro idx rID
    unfold addRelsScan
    rw [if_neg (hno rel (by simp)), ih (fun r hr => hno r (by simp [hr]))]
    simp only [List.foldl_cons]
    congr 2
    unfold relID
    split <;> omega

theorem foldl_max_relID (rels : List xlsxRelationship) :
    ∀ (m : Int), m ≤ rels.foldl (fun m rel => max m (relID rel)) m ∧
      (∀ rel ∈ rels, relID rel ≤ rels.foldl (fun m rel => max m (relID rel)) m) ∧
      (∀ B : Int, m < B → (∀ rel ∈ rels, relID rel < B) →
        rels.foldl (fun m rel => max m (relID rel)) m < B) := by
  induction rels with
  | nil =>
    intro m
    exact ⟨le_refl _, fun rel h => by simp at h, fun B h _ => h⟩
  | cons rel rest ih =>
    intro m
    obtain ⟨h1, h2, h3⟩ := ih (max m (relID rel))
    simp only [List.foldl_cons]
    refine ⟨by omega, ?_, ?_⟩
    · intro r hr
      rcases List.mem_cons.1 hr with h | h
      · subst h
        omega
      · exact h2 r h
    · intro B hm hB
      exact h3 B (by have := hB rel (by simp); omega) (fun r hr => hB r (by simp [hr]))

/-- C26 fails as stated: after the relationship `rId9223372036854775807`,
whose number is the largest `int`, the increment wraps around and `addRels`
appends the ID `rId-9223372036854775808` and returns that negative number. -/
theorem addRels_wraps_around :
    maxRelID [{ ID := "rId9223372036854775807", Typ := "worksheet" }] = 9223372036854775807 ∧
    addRels { Relationships := [("xl/_rels/workbook.xml.rels",
        [{ ID := "rId9223372036854775807", Typ := "worksheet" }])] }
      "xl/_rels/workbook.xml.rels" "worksheet" "worksheets/sheet2.xml" "" =
      ({ Relationships := [("xl/_rels/workbook.xml.rels",
          [{ ID := "rId9223372036854775807", Typ := "worksheet" },
           { ID := "rId-9223372036854775808", Typ := "worksheet",
             Target := "worksheets/sheet2.xml" }]),
          ("xl/_rels/workbook.xml.rels",
            [{ ID := "rId9223372036854775807", Typ := "worksheet" }])] },
       -9223372036854775808) := by
  decide

/-- C26, as amended. When no relationship of the list has the given type and
a singleton type, and every numeric ID suffix is below the largest `int`,
`addRels` appends one relationship with the given type, target and target
mode and the ID `rId` followed by m+1, m being the largest numeric ID suffix
of the list (0 when there is none), returns m+1 and leaves the relationships
of the list as they were; and IDs that were pairwise distinct stay so. -/
theorem addRels_appends (f : File) (relPath relType target targetMode : String)
    (hno : ∀ rel ∈ (relsReader f relPath).getD [],
      ¬ (relType = rel.Typ ∧ rel.Typ = SourceRelationshipSharedStrings))
    (hbound : ∀ rel ∈ (relsReader f relPath).getD [], relID rel < 2 ^ 63 - 1) :
    addRels f relPath relType target targetMode =
      ({ f with Relationships :=
          (relPath, (relsReader f relPath).getD [] ++
            [({ ID := "rId" ++ strconvItoa (maxRelID ((relsReader f relPath).getD []) + 1),
                Typ := relType, Target := target, TargetMode := targetMode } :
                xlsxRelationship)]) ::
          f.Relationships },
       maxRelID ((relsReader f relPath).getD []) + 1) ∧
    ((((relsReader f relPath).getD []).map (fun rel => rel.ID)).Nodup →
      (((relsReader f relPath).getD [] ++
        [({ ID := "rId" ++ strconvItoa (maxRelID ((relsReader f relPath).getD []) + 1),
            Typ := relType, Target := target, TargetMode := targetMode } :
            xlsxRelationship)]).map
        (fun rel => rel.ID)).Nodup) := by
  obtain ⟨h1, h2, h3⟩ := foldl_max_relID ((relsReader f relPath).getD []) 0
  have hlt := h3 (2 ^ 63 - 1) (by norm_num) hbound
  have hwrap : wrapInt64 (maxRelID ((relsReader f relPath).getD []) + 1) =
      maxRelID ((relsReader f relPath).getD []) + 1 := by
    apply wrapInt64_id
    · unfold maxRelID; omega
    · unfold maxRelID; omega
  constructor
  · unfold addRels
    rw [addRelsScan_no_match relType _ hno 0 0]
    simp only []
    rw [show List.foldl (fun m rel => max m (relID rel)) 0 ((relsReader f relPath).getD []) =
      maxRelID ((relsReader f relPath).getD []) from rfl, hwrap]
  · intro hnd
    rw [List.map_append, List.nodup_append]
    refine ⟨hnd, by simp, ?_⟩
    intro a ha hb
    simp only [List.map_cons, List.map_nil, List.mem_singleton] at hb
    obtain ⟨rel, hrel, hid⟩ := List.mem_map.1 ha
    have hle := h2 rel hrel
    have hval : relID rel = maxRelID ((relsReader f relPath).getD []) + 1 := by
      unfold relID
      rw [hid, hb, trimPrefix_rId, strconvAtoi_Itoa _ (by unfold maxRelID; omega)
        (by unfold maxRelID; omega)]
    unfold maxRelID at hval
    omega

/-- C26, as amended, on the relationships `rId3` and `rId1`: a worksheet
relationship is appended as `rId4`, and 4 is returned. -/
theorem addRels_appends_witness :
    addRels { Relationships := [("xl/_rels/workbook.xml.rels", singletonRels)] }
        "xl/_rels/workbook.xml.rels" "worksheet" "worksheets/sheet2.xml" "" =
      ({ ({ Relationships := [("xl/_rels/workbook.xml.rels", singletonRels)] } : File) with
          Relationships :=
          ("xl/_rels/workbook.xml.rels",
            (relsReader { Relationships := [("xl/_rels/workbook.xml.rels", singletonRels)] }
              "xl/_rels/workbook.xml.rels").getD [] ++
            [({ ID := "rId" ++ strconvItoa (maxRelID ((relsReader
                  { Relationships := [("xl/_rels/workbook.xml.rels", singletonRels)] }
                  "xl/_rels/workbook.xml.rels").getD []) + 1),
                Typ := "worksheet", Target := "worksheets/sheet2.xml", TargetMode := "" } :
                xlsxRelationship)]) ::
          ({ Relationships := [("xl/_rels/workbook.xml.rels", singletonRels)] } : File).Relationships },
       maxRelID ((relsReader { Relationships := [("xl/_rels/workbook.xml.rels", singletonRels)] }
         "xl/_rels/workbook.xml.rels").getD []) + 1) ∧
    "rId" ++ strconvItoa (maxRelID singletonRels + 1) = "rId4" :=
  ⟨(addRels_appends { Relationships := [("xl/_rels/workbook.xml.rels", singletonRels)] }
      "xl/_rels/workbook.xml.rels" "worksheet" "worksheets/sheet2.xml" ""
      (by decide) (by decide)).1, by decide⟩

/-! ## C30: trimCell reverses densification -/

theorem foldl_hasValue (hasValue : xlsxC → Bool) (column : List xlsxC) :
    ∀ b : Bool, column.foldl (fun rowFull c => hasValue c && rowFull) b =
      (b && column.all hasValue) := by
  induction column with
  | nil => intro b; simp
  | cons c cs ih =>
    intro b
    simp only [List.foldl_cons, ih, List.all_cons]
    cases b <;> cases hasValue c <;> simp

theorem trimCell_eq_filter (hasValue : xlsxC → Bool) (column : List xlsxC) :
    trimCell hasValue column = column.filter hasValue := by
  unfold trimCell
  rw [foldl_hasValue]
  simp only [Bool.true_and]
  split
  · next h =>
    symm
    rw [List.filter_eq_self]
    exact List.all_eq_true.1 h
  · rfl

theorem chain_lower_bound : ∀ (cols : List Int) (base : Int), List.Chain (· < ·) base cols →
    (∀ col ∈ cols, base < col) ∧ base ≤ cols.getLastD base := by
  intro cols
  induction cols with
  | nil => intro base _; exact ⟨fun col h => by simp at h, le_refl _⟩
  | cons a rest ih =>
    intro base h
    obtain ⟨h1, h2⟩ := List.chain_cons.1 h
    obtain ⟨h3, h4⟩ := ih a h2
    refine ⟨?_, ?_⟩
    · intro col hc
      rcases List.mem_cons.1 hc with h | h
      · subst h; exact h1
      · have := h3 col h
        omega
    · have e : (a :: rest).getLastD base = rest.getLastD a := by
        cases rest <;> rfl
      rw [e]
      omega

theorem filter_densified (hasValue : xlsxC → Bool) :
    ∀ (cols : List Int) (cs cells : List xlsxC) (base : Int),
    List.Chain (· < ·) base cols → cols.length = cs.length →
    (cells.length : Int) = cols.getLastD base - base →
    (∀ (k : Nat) (c : xlsxC) (col : Int), cs[k]? = some c → cols[k]? = some col →
      getI cells (col - 1 - base) = some c) →
    (∀ j : Nat, j < cells.length → ((j : Int) + 1 + base) ∉ cols →
      ∃ c, cells[j]? = some c ∧ hasValue c = false) →
    (∀ c ∈ cs, hasValue c = true) →
    cells.filter hasValue = cs := by
  intro cols
  induction cols with
  | nil =>
    intro cs cells base _ hl hlen _ _ _
    have h1 : cs = [] := List.length_eq_zero.1 hl.symm
    have h2 : cells = [] := by
      apply List.length_eq_zero.1
      simp only [List.getLastD_nil, sub_self] at hlen
      omega
    subst h1 h2
    rfl
  | cons col rest ih =>
    intro cs cells base hch hl hlen hput hblank hval
    obtain ⟨hlt, hch2⟩ := List.chain_cons.1 hch
    obtain ⟨hge, hlast⟩ := chain_lower_bound rest col hch2
    cases cs with
    | nil => simp at hl
    | cons c cs1 =>
      have e : (col :: rest).getLastD base = rest.getLastD col := by
        cases rest <;> rfl
      rw [e] at hlen
      have hd0 : 0 ≤ col - 1 - base := by omega
      have hc := hput 0 c col (by simp) (by simp)
      rw [getI_nat _ _ hd0] at hc
      have hdlt : (col - 1 - base).toNat < cells.length := by omega
      have hsplit : cells = cells.take (col - 1 - base).toNat ++
          c :: cells.drop ((col - 1 - base).toNat + 1) := by
        have h1 := (List.take_append_drop (col - 1 - base).toNat cells).symm
        rw [List.drop_eq_getElem_cons hdlt] at h1
        have h2 : cells[(col - 1 - base).toNat] = c := by
          rw [List.getElem?_eq_getElem hdlt] at hc
          exact Option.some.inj hc
        rw [h2] at h1
        exact h1
      have hpre : (cells.take (col - 1 - base).toNat).filter hasValue = [] := by
        rw [List.filter_eq_nil_iff]
        intro a ha
        obtain ⟨j, hj, rfl⟩ := List.getElem_of_mem ha
        have hj1 : j < (col - 1 - base).toNat := by
          rw [List.length_take] at hj
          omega
        have hnot : ((j : Int) + 1 + base) ∉ col :: rest := by
          intro hm
          rcases List.mem_cons.1 hm with h | h
          · omega
          · have := hge _ h
            omega
        obtain ⟨b, hb1, hb2⟩ := hblank j (by omega) hnot
        rw [List.getElem_take]
        rw [List.getElem?_eq_getElem (by omega)] at hb1
        rw [Option.some.inj hb1, hb2]
        simp
      have hrest : (cells.drop ((col - 1 - base).toNat + 1)).filter hasValue = cs1 := by
        apply ih cs1 _ col hch2 (by simpa using hl)
        · rw [List.length_drop]
          omega
        · intro k c1 col1 hk1 hk2
          have hcol1 := hge col1 (List.getElem?_mem hk2)
          have h3 := hput (k + 1) c1 col1 (by simpa using hk1) (by simpa using hk2)
          rw [getI_nat _ _ (by omega)] at h3 ⊢
          rw [List.getElem?_drop]
          rw [← h3]
          congr 1
          omega
        · intro j hj hnot
          rw [List.length_drop] at hj
          have hnot2 : (((col - 1 - base).toNat + 1 + j : Nat) : Int) + 1 + base ∉ col :: rest := by
            intro hm
            rcases List.mem_cons.1 hm with h | h
            · omega
            · apply hnot
              have e2 : (((col - 1 - base).toNat + 1 + j : Nat) : Int) + 1 + base =
                  (j : Int) + 1 + col := by omega
              rw [← e2]
              exact h
          obtain ⟨b, hb1, hb2⟩ := hblank ((col - 1 - base).toNat + 1 + j) (by omega) hnot2
          exact ⟨b, by rw [List.getElem?_drop]; exact hb1, hb2⟩
        · intro c1 hc1
          exact hval c1 (by simp [hc1])
      rw [hsplit, List.filter_append, hpre, List.filter_cons, hval c (by simp), if_pos rfl,
        hrest, List.nil_append]

/-- C30. `trimCell` returns the cells of its input that have a value, in
their order. And when a cell that carries nothing but a reference has no
value, in a worksheet whose rows have cells that all have a value and all
carry a reference, with strictly increasing columns, `checkRow` returns
without error and `trimCell` on the cells of each row it leaves gives back
the cells the row had. -/
theorem trimCell_reverses_checkRow (hasValue : xlsxC → Bool)
    (hblank : ∀ s : String, hasValue { R := s } = false) (sheetData : xlsxSheetData)
    (h : ∀ r ∈ sheetData.Row, (∀ c ∈ r.C, hasValue c = true ∧ c.R ≠ "") ∧
      ∃ cols, cellColumns 0 r.C = some cols ∧ List.Chain (· < ·) 0 cols) :
    (∀ column : List xlsxC, trimCell hasValue column = column.filter hasValue) ∧
    ∃ out, checkRow sheetData = some ({ Row := out }, none) ∧
      out.length = sheetData.Row.length ∧
      ∀ (i : Nat) (r : xlsxRow), sheetData.Row[i]? = some r →
        ∃ r1, out[i]? = some r1 ∧ trimCell hasValue r1.C = r.C := by
  refine ⟨trimCell_eq_filter hasValue, ?_⟩
  obtain ⟨out, e, l, g⟩ := checkRowLoop_ascending sheetData.Row 0 (le_refl _)
    (fun r hr => (h r hr).2)
  refine ⟨out, ?_, l, ?_⟩
  · unfold checkRow
    simp only [e]
  · intro i r hi
    obtain ⟨hcs, cols, hc, hch⟩ := h r (List.getElem?_mem hi)
    obtain ⟨cells, h1, d1, d2, d3⟩ := g i r cols hi hc
    obtain ⟨_, hl, _⟩ := checkRowFill_ascending (0 + (i : Int)) (by omega) r.C 0 cols hc hch
      (le_refl _)
    refine ⟨{ r with C := cells }, h1, ?_⟩
    rw [trimCell_eq_filter]
    apply filter_densified hasValue cols r.C cells 0 hch hl
    · simpa using d1
    · intro k c col hk1 hk2
      have := d2 k c col hk1 hk2
      have hR := (hcs c (List.getElem?_mem hk1)).2
      unfold withReference at this
      rw [if_neg hR] at this
      simpa using this
    · intro j hj hnot
      exact ⟨_, d3 j hj (by simpa using hnot), hblank _⟩
    · intro c hc1
      exact (hcs c hc1).1

/-- C30, at the row of the documentation of `checkRow`, with a value in
each cell: the seven cells `A15` to `G15` that `checkRow` leaves are trimmed
back to `A15`, `B15`, `F15`, `G15`. -/
theorem trimCell_reverses_checkRow_witness :
    ((∀ column : List xlsxC, trimCell cellHasValue column = column.filter cellHasValue) ∧
      ∃ out, checkRow { Row := [{ R := 1, C := [{ R := "A1", S := 2 }, { R := "B1", S := 2 },
          { R := "F1", S := 1 }, { R := "G1", S := 1 }] }] } = some ({ Row := out }, none) ∧
        out.length = ([{ R := 1, C := [{ R := "A1", S := 2 }, { R := "B1", S := 2 },
          { R := "F1", S := 1 }, { R := "G1", S := 1 }] }] : List xlsxRow).length ∧
        ∀ (i : Nat) (r : xlsxRow),
          ([{ R := 1, C := [{ R := "A1", S := 2 }, { R := "B1", S := 2 },
            { R := "F1", S := 1 }, { R := "G1", S := 1 }] }] : List xlsxRow)[i]? = some r →
          ∃ r1, out[i]? = some r1 ∧ trimCell cellHasValue r1.C = r.C) ∧
    (checkRow { Row := [{ R := 1, C := [{ R := "A1", S := 2 }, { R := "B1", S := 2 },
        { R := "F1", S := 1 }, { R := "G1", S := 1 }] }] }).map
      (fun res => res.1.Row.map (fun r => (r.C.length, trimCell cellHasValue r.C))) =
      some [(7, [{ R := "A1", S := 2 }, { R := "B1", S := 2 }, { R := "F1", S := 1 },
        { R := "G1", S := 1 }])] :=
  ⟨trimCell_reverses_checkRow cellHasValue (by intro s; rfl)
      { Row := [{ R := 1, C := [{ R := "A1", S := 2 }, { R := "B1", S := 2 },
          { R := "F1", S := 1 }, { R := "G1", S := 1 }] }] }
      (by
        intro r hr
        simp only [List.mem_singleton] at hr
        subst hr
        exact ⟨by decide, [1, 2, 6, 7], by decide, by simp⟩),
   by decide⟩

/-! ## C23: an unknown sheet -/

/-- C23 fails on the code: on a document without the sheet `SheetN`, the
seven operations that read the worksheet with `workSheetReader` return the
value of `fmt.Errorf`, not the typed `ErrSheetNotExist` that `Rows` and
`SearchSheet` return; the message is the same, the name is the one passed,
and the document is unchanged. -/
theorem unknown_sheet_error_untyped :
    SetRowHeight cellHasValue 409 (loadedFile {}) "SheetN" 1 10 =
      some (loadedFile {}, some (.sheetNotExist "SheetN")) ∧
    GetRowHeight cellHasValue 20 15 (loadedFile {}) "SheetN" 1 =
      some (loadedFile {}, 15, some (.sheetNotExist "SheetN")) ∧
    SetRowVisible cellHasValue (loadedFile {}) "SheetN" 1 true =
      some (loadedFile {}, some (.sheetNotExist "SheetN")) ∧
    SetRowOutlineLevel cellHasValue (loadedFile {}) "SheetN" 1 1 =
      some (loadedFile {}, some (.sheetNotExist "SheetN")) ∧
    MergeCell cellHasValue {} (loadedFile {}) "SheetN" "A1" "B2" =
      some ({}, loadedFile {}, some (.sheetNotExist "SheetN")) ∧
    UnmergeCell cellHasValue {} (loadedFile {}) "SheetN" "A1" "B2" =
      some ({}, loadedFile {}, some (.sheetNotExist "SheetN")) ∧
    AddComment cellHasValue (fun _ => none) (fun g _ => (g, 1)) (fun g _ _ _ => g)
        (fun g _ _ _ => g) (loadedFile {}) "SheetN" "B7" "\x7b\x7d" =
      some (loadedFile {}, some (.sheetNotExist "SheetN")) ∧
    File.Rows (loadedFile {}) "SheetN" [] =
      (loadedFile {}, none, some (.errSheetNotExist "SheetN")) ∧
    SearchSheet (fun _ _ _ _ => ([], none)) (loadedFile {}) "SheetN" "x" [] =
      (loadedFile {}, [], some (.errSheetNotExist "SheetN")) ∧
    Err.sheetNotExist "SheetN" ≠ Err.errSheetNotExist "SheetN" ∧
    Err.Error (.sheetNotExist "SheetN") = some "sheet SheetN is not exist" ∧
    Err.Error (.errSheetNotExist "SheetN") = some "sheet SheetN is not exist" := by
  decide

/-! ## C24: AddComment on a malformed cell reference -/

/-- A call of `AddComment` that ends before the cell reference is converted
returns the error of that step: on the chart sheet `Chart1` the error for the
cell `A` is that the sheet is not a worksheet, and with a format that
`json.Unmarshal` rejects (the empty input, "unexpected end of JSON input") it
is the error of the format. -/
theorem AddComment_earlier_errors :
    cellPattern "A" = false ∧
    AddComment cellHasValue (fun _ => none) (fun g _ => (g, 1)) (fun g _ _ _ => g)
        (fun g _ _ _ => g) chartFile "Chart1" "A" "\x7b\x7d" =
      some (chartFile, some (.notWorksheet "Chart1")) ∧
    AddComment cellHasValue
        (fun s => if s = "" then some (.jsonUnmarshal "unexpected end of JSON input") else none)
        (fun g _ => (g, 1)) (fun g _ _ _ => g) (fun g _ _ _ => g) (loadedFile {}) "Sheet1" "A" "" =
      some (loadedFile {}, some (.jsonUnmarshal "unexpected end of JSON input")) := by
  decide

theorem CellNameToCoordinates_not_pattern (cell : String) (h : cellPattern cell = false) :
    CellNameToCoordinates cell = .error (.invalidCellName cell) := by
  unfold CellNameToCoordinates
  simp only
  rw [if_pos]
  unfold cellPattern at h
  by_contra hc
  simp only [not_or] at hc
  obtain ⟨h1, h2, h3⟩ := hc
  have e1 : (List.takeWhile isLetter cell.data).isEmpty = false := by
    cases hh : List.takeWhile isLetter cell.data with
    | nil => exact absurd hh h1
    | cons a l => rfl
  have e2 : (List.dropWhile isLetter cell.data).isEmpty = false := by
    cases hh : List.dropWhile isLetter cell.data with
    | nil => exact absurd hh h2
    | cons a l => rfl
  have e3 : (List.dropWhile isLetter cell.data).all isDigit = true := by
    cases hh : (List.dropWhile isLetter cell.data).all isDigit with
    | false => exact absurd hh h3
    | true => rfl
  rw [e1, e2, e3] at h
  simp at h

/-- C24. On an existing sheet, one whose worksheet loads, and with a format
that parses, `AddComment` with a cell reference that is not one or more
letters followed by one or more digits returns the invalid-cell-name error,
whose message is: cannot convert cell "ref" to coordinates: invalid cell name
"ref". -/
theorem AddComment_invalid_cell (hasValue : xlsxC → Bool) (parseFormat : String → Option Err)
    (register : File → String → File × Int) (draw : File → Int → Int → Int → File)
    (finish : File → Int → String → String → File) (f f1 : File) (ws : Option xlsxWorksheet)
    (sheet cell format : String)
    (hformat : parseFormat format = none)
    (hload : workSheetReader hasValue f sheet = some (f1, ws, none))
    (hcell : cellPattern cell = false) :
    AddComment hasValue parseFormat register draw finish f sheet cell format =
      some ((register f1 sheet).1, some (.invalidCellName cell)) ∧
    Err.Error (.invalidCellName cell) =
      some ("cannot convert cell \"" ++ cell ++ "\" to coordinates: invalid cell name \"" ++
        cell ++ "\"") := by
  refine ⟨?_, rfl⟩
  unfold AddComment addDrawingVML
  rw [hformat, hload]
  simp only [CellNameToCoordinates_not_pattern cell hcell]

/-- C24 at the cell of the test: the cell `A` on `Sheet1`. -/
theorem AddComment_invalid_cell_witness :
    AddComment cellHasValue (fun _ => none) (fun g _ => (g, 1)) (fun g _ _ _ => g)
        (fun g _ _ _ => g) (loadedFile {}) "Sheet1" "A" "\x7b\x7d" =
      some (((fun (g : File) (_ : String) => (g, (1 : Int))) (loadedFile {}) "Sheet1").1,
        some (.invalidCellName "A")) ∧
    Err.Error (.invalidCellName "A") =
      some ("cannot convert cell \"" ++ "A" ++ "\" to coordinates: invalid cell name \"" ++
        "A" ++ "\"") :=
  AddComment_invalid_cell cellHasValue (fun _ => none) (fun g _ => (g, 1)) (fun g _ _ _ => g)
    (fun g _ _ _ => g) (loadedFile {}) (loadedFile {}) (some {}) "Sheet1" "A" "\x7b\x7d"
    rfl (by decide) (by decide)

/-! ## C29: duplicate defined names -/

/-- C29 fails on the code: in a workbook with the sheet `Sheet1` and the name
`Amount` in the scope `Sheet1`, `SetDefinedName` rejects `Amount` with the
scope `Sheet1` but accepts it with the scope `sheet1`, which it resolves to
the same sheet; `GetDefinedName` then reports `Amount` twice in the scope
`Sheet1`. A scope that is the name of no sheet gives a second `Amount` of the
workbook in the same way. -/
theorem SetDefinedName_accepts_duplicate :
    SetDefinedName goLib (twoSheetBook none) { Name := "Amount", RefersTo := "Sheet1!$A$1", Scope := "Sheet1" } =
      (twoSheetBook (some [{ Name := "Amount", Data := "Sheet1!$A$1", LocalSheetID := some 0 }]), none) ∧
    SetDefinedName goLib
        (twoSheetBook (some [{ Name := "Amount", Data := "Sheet1!$A$1", LocalSheetID := some 0 }]))
        { Name := "Amount", RefersTo := "Sheet1!$A$2", Scope := "Sheet1" } =
      (twoSheetBook (some [{ Name := "Amount", Data := "Sheet1!$A$1", LocalSheetID := some 0 }]),
        some .definedNameDuplicate) ∧
    SetDefinedName goLib
        (twoSheetBook (some [{ Name := "Amount", Data := "Sheet1!$A$1", LocalSheetID := some 0 }]))
        { Name := "Amount", RefersTo := "Sheet1!$A$2", Scope := "sheet1" } =
      (twoSheetBook (some [{ Name := "Amount", Data := "Sheet1!$A$1", LocalSheetID := some 0 },
        { Name := "Amount", Data := "Sheet1!$A$2", LocalSheetID := some 0 }]), none) ∧
    GetDefinedName
        (twoSheetBook (some [{ Name := "Amount", Data := "Sheet1!$A$1", LocalSheetID := some 0 },
          { Name := "Amount", Data := "Sheet1!$A$2", LocalSheetID := some 0 }])) =
      [{ Name := "Amount", RefersTo := "Sheet1!$A$1", Scope := "Sheet1" },
       { Name := "Amount", RefersTo := "Sheet1!$A$2", Scope := "Sheet1" }] ∧
    (SetDefinedName goLib (twoSheetBook (some [{ Name := "Amount", Data := "Sheet1!$A$1" }]))
        { Name := "Amount", RefersTo := "Sheet1!$A$2", Scope := "Sheet3" }).2 = none ∧
    GetDefinedName (SetDefinedName goLib
        (twoSheetBook (some [{ Name := "Amount", Data := "Sheet1!$A$1" }]))
        { Name := "Amount", RefersTo := "Sheet1!$A$2", Scope := "Sheet3" }).1 =
      [{ Name := "Amount", RefersTo := "Sheet1!$A$1", Scope := "Workbook" },
       { Name := "Amount", RefersTo := "Sheet1!$A$2", Scope := "Workbook" }] := by
  decide

/-! ## C28: DeleteSheet without effect -/

theorem sheetIndexFrom_no_match (lib : Lib) (name : String) (list : List String)
    (h : ∀ sheet ∈ list, lib.EqualFold sheet (trimSheetName name) = false) :
    ∀ index : Int, sheetIndexFrom lib name list index = -1 := by
  induction list with
  | nil => intro index; rfl
  | cons sheet rest ih =>
    intro index
    unfold sheetIndexFrom
    rw [h sheet (by simp)]
    simp only [Bool.false_eq_true, if_false]
    exact ih (fun s hs => h s (by simp [hs])) (index + 1)

/-- C28. `DeleteSheet` on a document whose sheet count is 1, or with a name
that no sheet of the list matches (no name of the list equals the trimmed
name under case folding), returns the document as it was: the sheet list, the
map from the sheets to the parts, the relationships, the content types, the
defined names and the active sheet are those of before. -/
theorem DeleteSheet_last_or_unknown (hasValue : xlsxC → Bool) (lib : Lib) (f : File)
    (name : String)
    (h : f.SheetCount = 1 ∨
      ∀ sheet ∈ GetSheetList f, lib.EqualFold sheet (trimSheetName name) = false) :
    DeleteSheet hasValue lib f name = some f := by
  unfold DeleteSheet
  rw [if_pos]
  rcases h with h | h
  · exact Or.inl h
  · exact Or.inr (sheetIndexFrom_no_match lib name _ h 0)

/-- C28, on a workbook with `Sheet1` and `Sheet2`: deleting `Sheet3` changes
nothing, while deleting `Sheet2` leaves the one sheet `Sheet1`, and then
deleting `Sheet1` changes nothing. -/
theorem DeleteSheet_last_or_unknown_witness :
    DeleteSheet cellHasValue goLib (twoSheetBook none) "Sheet3" = some (twoSheetBook none) ∧
    (DeleteSheet cellHasValue goLib (twoSheetBook none) "sheet2").map
        (fun g => (GetSheetList g, g.SheetCount, g.sheetMap)) =
      some (["Sheet1"], 1, [("Sheet1", "xl/worksheets/sheet1.xml")]) ∧
    (DeleteSheet cellHasValue goLib (twoSheetBook none) "sheet2").map
        (fun g => (g.ContentTypes, relsReader g "xl/_rels/workbook.xml.rels")) =
      some ([{ PartName := "/xl/workbook.xml" }, { PartName := "/xl/worksheets/sheet1.xml" }],
        some [{ ID := "rId1", Target := "worksheets/sheet1.xml" }]) ∧
    ((DeleteSheet cellHasValue goLib (twoSheetBook none) "sheet2").bind
        (fun g => (DeleteSheet cellHasValue goLib g "Sheet1").map (fun g1 => decide (g1 = g)))) =
      some true :=
  ⟨DeleteSheet_last_or_unknown cellHasValue goLib (twoSheetBook none) "Sheet3"
      (Or.inr (by decide)),
   by decide, by decide, by decide⟩

/-! ## C32: the size limits of OpenReader -/

/-- The resolution of the limits, stated on what `parseOptions` returns.
`OpenReader` returns `ErrOptionsUnzipSizeLimit` exactly when both limits of
the options are given non-zero and `WorksheetUnzipMemLimit` exceeds
`UnzipSizeLimit`. In every other case the options are resolved: a zero
`UnzipSizeLimit` becomes its default, or the worksheet limit when that is
larger; a zero `WorksheetUnzipMemLimit` becomes its default, or the resolved
`UnzipSizeLimit` when that is smaller; a limit that is given is kept; and the
resolved limits satisfy `WorksheetUnzipMemLimit <= UnzipSizeLimit`. -/
theorem OpenReader_limits_parsed (UnzipSizeLimit StreamChunkSize : Int) (opt : List Options) :
    (OpenReader UnzipSizeLimit StreamChunkSize opt = .error .optionsUnzipSizeLimit ↔
      ((parseOptions opt).UnzipSizeLimit ≠ 0 ∧ (parseOptions opt).WorksheetUnzipMemLimit ≠ 0 ∧
        (parseOptions opt).WorksheetUnzipMemLimit > (parseOptions opt).UnzipSizeLimit)) ∧
    (¬ ((parseOptions opt).UnzipSizeLimit ≠ 0 ∧ (parseOptions opt).WorksheetUnzipMemLimit ≠ 0 ∧
        (parseOptions opt).WorksheetUnzipMemLimit > (parseOptions opt).UnzipSizeLimit) →
      ∃ r, OpenReader UnzipSizeLimit StreamChunkSize opt = .ok r ∧
        r.UnzipSizeLimit = (if (parseOptions opt).UnzipSizeLimit = 0 then
          max UnzipSizeLimit (parseOptions opt).WorksheetUnzipMemLimit
          else (parseOptions opt).UnzipSizeLimit) ∧
        r.WorksheetUnzipMemLimit = (if (parseOptions opt).WorksheetUnzipMemLimit = 0 then
          min StreamChunkSize r.UnzipSizeLimit
          else (parseOptions opt).WorksheetUnzipMemLimit) ∧
        r.WorksheetUnzipMemLimit ≤ r.UnzipSizeLimit ∧
        r.Password = (parseOptions opt).Password ∧
        r.RawCellValue = (parseOptions opt).RawCellValue) := by
  unfold OpenReader
  generalize parseOptions opt = o
  obtain ⟨pw, raw, u, w⟩ := o
  simp only []
  refine ⟨⟨?_, ?_⟩, ?_⟩
  · intro h
    split_ifs at h <;> simp_all
  · rintro ⟨hu, hw, hgt⟩
    rw [if_neg hu, if_neg hw, if_pos hgt]
  · intro hn
    split_ifs <;> simp_all <;> omega

/-! ## C33: the lengths of the header and footer strings -/

set_option maxRecDepth 20000 in
/-- C33 fails on the code: a `FirstHeader` of 256 characters is accepted by
`SetHeaderFooter` and stored in the worksheet, the loop over the six strings
ending before the last one; an `OddHeader` of the same length is rejected
with the error that names the field, the worksheet left as it was. -/
theorem SetHeaderFooter_accepts_long_FirstHeader :
    utf16Length longHeader = 256 ∧
    SetHeaderFooter cellHasValue 255 (loadedFile {}) "Sheet1" (some { FirstHeader := longHeader }) =
      some (storeSheet (loadedFile {}) "Sheet1" { HeaderFooter := some { FirstHeader := longHeader } },
        none) ∧
    SetHeaderFooter cellHasValue 255 (loadedFile {}) "Sheet1" (some { OddHeader := longHeader }) =
      some (loadedFile {}, some (.fieldLength "OddHeader")) := by
  decide

/-! ## C34: trimSheetName -/

theorem trimSheetNameLoop_eq : ∀ (vs r : List Char), r.length < 31 →
    trimSheetNameLoop vs r =
      (r ++ vs.filter (fun c => !invalidSheetNameChar c)).take 31 := by
  intro vs
  induction vs with
  | nil =>
    intro r hr
    simp only [trimSheetNameLoop, List.filter_nil, List.append_nil]
    rw [List.take_of_length_le (by omega)]
  | cons v vs ih =>
    intro r hr
    unfold trimSheetNameLoop
    by_cases hbad : v.toNat = 58 ∨ v.toNat = 92 ∨ v.toNat = 47 ∨ v.toNat = 63 ∨ v.toNat = 42 ∨
        v.toNat = 91 ∨ v.toNat = 93
    · rw [if_pos hbad, ih r hr]
      have e : (!invalidSheetNameChar v) = false := by
        simp only [invalidSheetNameChar, hbad, decide_True, Bool.not_true]
      rw [List.filter_cons, e]
      simp
    · rw [if_neg hbad]
      have e : (!invalidSheetNameChar v) = true := by
        simp only [invalidSheetNameChar, hbad, decide_False, Bool.not_false]
      rw [List.filter_cons, e, if_pos rfl]
      by_cases h31 : (r ++ [v]).length = 31
      · rw [if_pos h31]
        have e2 : r ++ v :: List.filter (fun c => !invalidSheetNameChar c) vs =
            (r ++ [v]) ++ List.filter (fun c => !invalidSheetNameChar c) vs := by simp
        rw [e2, List.take_append_of_le_length (by omega), List.take_of_length_le (by omega)]
      · rw [if_neg h31, ih (r ++ [v]) (by simp at h31 ⊢; omega)]
        simp

/-- C34. `trimSheetName(name)` is the first 31 characters of what is left
of the name when every character `: \ / ? * [ ]` is removed; so it has at
most 31 characters, holds none of these characters, and `trimSheetName`
leaves it as it is. -/
theorem trimSheetName_spec (name : String) :
    trimSheetName name =
      String.mk ((name.data.filter (fun c => !invalidSheetNameChar c)).take 31) ∧
    (trimSheetName name).data.length ≤ 31 ∧
    (∀ c ∈ (trimSheetName name).data, invalidSheetNameChar c = false) ∧
    trimSheetName (trimSheetName name) = trimSheetName name := by
  have key : ∀ n : String, trimSheetName n =
      String.mk ((n.data.filter (fun c => !invalidSheetNameChar c)).take 31) := by
    intro n
    unfold trimSheetName
    split
    · rw [trimSheetNameLoop_eq _ [] (by simp)]
      simp
    · next h =>
      simp only [not_or, not_lt, gt_iff_lt] at h
      obtain ⟨h1, h2⟩ := h
      have hall : n.data.filter (fun c => !invalidSheetNameChar c) = n.data := by
        rw [List.filter_eq_self]
        intro c hc
        have : ¬ (c.toNat = 58 ∨ c.toNat = 92 ∨ c.toNat = 47 ∨ c.toNat = 63 ∨ c.toNat = 42 ∨
            c.toNat = 91 ∨ c.toNat = 93) := by
          intro hb
          apply h1
          rw [List.any_eq_true]
          exact ⟨c, hc, by simpa using hb⟩
        simp only [invalidSheetNameChar, this, decide_False, Bool.not_false]
      rw [hall, List.take_of_length_le h2]
  have hgood : ∀ c ∈ (name.data.filter (fun c => !invalidSheetNameChar c)).take 31,
      invalidSheetNameChar c = false := by
    intro c hc
    have := List.mem_filter.1 (List.mem_of_mem_take hc)
    simpa using this.2
  refine ⟨key name, ?_, ?_, ?_⟩
  · rw [key name]
    simp
  · rw [key name]
    exact hgood
  · rw [key (trimSheetName name), key name]
    congr 1
    have hf : ((name.data.filter (fun c => !invalidSheetNameChar c)).take 31).filter
        (fun c => !invalidSheetNameChar c) =
        (name.data.filter (fun c => !invalidSheetNameChar c)).take 31 := by
      rw [List.filter_eq_self]
      intro c hc
      simp [hgood c hc]
    show List.take 31 (List.filter _ (List.take 31 _)) = _
    rw [hf, List.take_take]
    simp

/-! ## C35: the last visible sheet -/

/-- C35 fails on the code: in a workbook with the visible sheet `Sheet1` and
the sheet `Sheet2` in the state `veryHidden`, whose tab is the selected one,
`SetSheetVisible("Sheet1", false)` counts two sheets that are not `hidden`
and hides `Sheet1`; no sheet is visible afterwards. -/
theorem SetSheetVisible_hides_last_visible :
    GetSheetVisible veryHiddenBook "Sheet1" = true ∧
    GetSheetVisible veryHiddenBook "Sheet2" = false ∧
    (SetSheetVisible cellHasValue veryHiddenBook "Sheet1" false).map
        (fun res => (res.2, res.1.WorkBook.Sheets.map (fun v => (v.Name, v.State)))) =
      some (none, [("Sheet1", "hidden"), ("Sheet2", "veryHidden")]) ∧
    (SetSheetVisible cellHasValue veryHiddenBook "Sheet1" false).map
        (fun res => (GetSheetVisible res.1 "Sheet1", GetSheetVisible res.1 "Sheet2")) =
      some (false, false) := by
  decide

/-! ## C36: normalization and the bounds of the slices -/

/-- C36 fails on the code: on a row whose cells are `E1` and then `C1`,
`checkRow` allocates three cells, the column of the last one, and writes the
cell `E1` at index 4: it panics, and so does `workSheetReader` on the part.
And on two rows without number `checkSheet` panics. -/
theorem normalization_out_of_range :
    checkSheet cellHasValue { Row := [{ R := 1, C := [{ R := "E1" }, { R := "C1" }] }] } =
      some { Row := [{ R := 1, C := [{ R := "E1" }, { R := "C1" }] }] } ∧
    checkRow { Row := [{ R := 1, C := [{ R := "E1" }, { R := "C1" }] }] } = none ∧
    workSheetReader cellHasValue (fileWith [{ R := 1, C := [{ R := "E1" }, { R := "C1" }] }])
      "Sheet1" = none ∧
    workSheetReader cellHasValue (fileWith [{ R := 0 }, { R := 0 }]) "Sheet1" = none := by
  decide

/-! ## C40: the author of a comment -/

/-- C40 fails on the code: in a comments part whose authors are `Alice` and
`Bob`, `addComment` for the author `Bob` finds the author in the list, leaves
`authorID` at 0 and stores the comment with the author ID 0, at which the
list holds `Alice`; `GetComments` reports `Alice` as the author. -/
theorem addComment_existing_author :
    inStrSlice twoAuthors.Authors "Bob" = 1 ∧
    commentsReader (addComment (fun s _ => s) 255 { Comments := [("xl/comments1.xml", twoAuthors)] }
        "xl/comments1.xml" "B2" { Author := "Bob", Text := "second" }) "xl/comments1.xml" =
      some { Authors := ["Alice", "Bob"],
             CommentList := [{ Ref := "A1", AuthorID := 0, R := [some "Alice", some "first"] },
               { Ref := "B2", AuthorID := 0, R := [some "Bob", some "second"] }] } ∧
    (commentsReader (addComment (fun s _ => s) 255
        { Comments := [("xl/comments1.xml", twoAuthors)] }
        "xl/comments1.xml" "B2" { Author := "Bob", Text := "second" }) "xl/comments1.xml").bind
        sheetComments =
      some [{ Author := "Alice", AuthorID := 0, Ref := "A1", Text := "Alicefirst" },
        { Author := "Alice", AuthorID := 0, Ref := "B2", Text := "Bobsecond" }] := by
  decide

/-! ## C31: SetRowStyle -/

theorem withRows_self (ws : xlsxWorksheet) : withRows ws ws.SheetData.Row = ws := by
  cases ws
  rfl

theorem setRowStyleLoop_spec (styleID : Int) : ∀ (idxs : List Int) (ws : xlsxWorksheet),
    (∀ i ∈ idxs, 0 ≤ i ∧ i < ws.SheetData.Row.length) →
    ∃ rows, setRowStyleLoop styleID idxs ws = some (withRows ws rows) ∧
      rows.length = ws.SheetData.Row.length ∧
      ∀ (i : Nat) (r : xlsxRow), ws.SheetData.Row[i]? = some r →
        rows[i]? = some (if (i : Int) ∈ idxs then
          { r with S := styleID, CustomFormat := true } else r) := by
  intro idxs
  induction idxs with
  | nil =>
    intro ws _
    refine ⟨ws.SheetData.Row, ?_, rfl, ?_⟩
    · rw [withRows_self]
      rfl
    · intro i r hr
      simpa using hr
  | cons idx rest ih =>
    intro ws h
    obtain ⟨h0, hlt⟩ := h idx (by simp)
    have hlt1 : idx.toNat < ws.SheetData.Row.length := by omega
    obtain ⟨rows, e, l, g⟩ := ih (withRows ws (List.modify
      (fun r => { r with S := styleID, CustomFormat := true }) idx.toNat ws.SheetData.Row))
      (by
        intro i hi
        rw [withRows_rows, List.length_modify]
        exact h i (by simp [hi]))
    refine ⟨rows, ?_, ?_, ?_⟩
    · unfold setRowStyleLoop
      rw [setRowField_eq ws idx _ h0 hlt1]
      simp only [e, withRows_withRows]
    · rw [l, withRows_rows, List.length_modify]
    · intro i r hr
      have h1 : (withRows ws (List.modify
          (fun r => { r with S := styleID, CustomFormat := true }) idx.toNat
          ws.SheetData.Row)).SheetData.Row[i]? =
          some (if idx.toNat = i then { r with S := styleID, CustomFormat := true } else r) := by
        rw [withRows_rows, List.getElem?_modify, hr]
        split <;> rfl
      rw [g i _ h1]
      by_cases hi : idx.toNat = i
      · have hm : (i : Int) ∈ idx :: rest := by
          have : (i : Int) = idx := by omega
          simp [this]
        rw [if_pos hi, if_pos hm]
        split <;> rfl
      · rw [if_neg hi]
        have hm : (i : Int) ∈ idx :: rest ↔ (i : Int) ∈ rest := by
          have : (i : Int) ≠ idx := by omega
          simp [this]
        simp only [hm]

/-- C31. When the worksheet of the sheet loads, the style ID is 0 or more
and the row numbers `a` and `b` lie between 1 and the maximum row number,
`SetRowStyle(sheet, a, b, id)` and `SetRowStyle(sheet, b, a, id)` return the
same document and no error: the worksheet has its rows, backfilled up to
`max(a, b)`; every row from `min(a, b)` to `max(a, b)` has the style `id` and
the custom-format flag, and is otherwise as it was; every other row is as it
was. -/
theorem SetRowStyle_range (hasValue : xlsxC → Bool) (TotalRows : Int) (f f1 : File)
    (sheet : String) (ws : xlsxWorksheet) (a b styleID : Int)
    (hws : workSheetReader hasValue f sheet = some (f1, some ws, none))
    (hmin : 1 ≤ min a b) (hmax : max a b ≤ TotalRows) (hid : 0 ≤ styleID) :
    SetRowStyle hasValue TotalRows f sheet a b styleID =
      SetRowStyle hasValue TotalRows f sheet b a styleID ∧
    ∃ rows, SetRowStyle hasValue TotalRows f sheet a b styleID =
        some (storeSheet f1 sheet (withRows ws rows), none) ∧
      (rows.length : Int) = max (ws.SheetData.Row.length : Int) (max a b) ∧
      ∀ (i : Nat) (r : xlsxRow),
        (ws.SheetData.Row ++ backfillRows ws ws.SheetData.Row.length (max a b))[i]? = some r →
        rows[i]? = some (if min a b ≤ (i : Int) + 1 ∧ (i : Int) + 1 ≤ max a b then
          { r with S := styleID, CustomFormat := true } else r) := by
  have hl := backfillRows_length ws ws.SheetData.Row (max a b)
  obtain ⟨rows, e, l, g⟩ := setRowStyleLoop_spec styleID (intRange (min a b - 1) (max a b - 1))
    (withRows ws (ws.SheetData.Row ++ backfillRows ws ws.SheetData.Row.length (max a b)))
    (by
      intro i hi
      have := mem_intRange _ _ _ hi
      rw [withRows_rows]
      omega)
  have key : ∀ start finish : Int, (if finish < start then finish else start) = min a b →
      (if finish < start then start else finish) = max a b →
      SetRowStyle hasValue TotalRows f sheet start finish styleID =
        some (storeSheet f1 sheet (withRows ws rows), none) := by
    intro start finish e1 e2
    unfold SetRowStyle
    rw [e1, e2, if_neg (by omega), if_neg (by omega), if_neg (by omega)]
    simp only [hws, prepareSheetXML_rows ws (max a b) (by omega), e, withRows_withRows]
  have hab := key a b (by split <;> omega) (by split <;> omega)
  have hba := key b a (by split <;> omega) (by split <;> omega)
  refine ⟨by rw [hab, hba], rows, hab, ?_, ?_⟩
  · rw [l, withRows_rows]
    exact hl
  · intro i r hr
    rw [g i r (by rw [withRows_rows]; exact hr)]
    have hm : (i : Int) ∈ intRange (min a b - 1) (max a b - 1) ↔
        (min a b ≤ (i : Int) + 1 ∧ (i : Int) + 1 ≤ max a b) := by
      rw [mem_intRange_iff]
      omega
    simp only [hm]

/-- C31 on a worksheet of three rows, with the rows 3 and 2 given in this
order and the style 5: the rows 2 and 3 get the style, the row 1 does not. -/
theorem SetRowStyle_range_witness :
    (SetRowStyle cellHasValue 1048576 (loadedFile threeRowSheet) "Sheet1" 3 2 5 =
        SetRowStyle cellHasValue 1048576 (loadedFile threeRowSheet) "Sheet1" 2 3 5 ∧
      ∃ rows, SetRowStyle cellHasValue 1048576 (loadedFile threeRowSheet) "Sheet1" 3 2 5 =
          some (storeSheet (loadedFile threeRowSheet) "Sheet1" (withRows threeRowSheet rows),
            none) ∧
        (rows.length : Int) = max (threeRowSheet.SheetData.Row.length : Int) (max 3 2) ∧
        ∀ (i : Nat) (r : xlsxRow),
          (threeRowSheet.SheetData.Row ++
            backfillRows threeRowSheet threeRowSheet.SheetData.Row.length (max 3 2))[i]? =
              some r →
          rows[i]? = some (if min (3 : Int) 2 ≤ (i : Int) + 1 ∧ (i : Int) + 1 ≤ max 3 2 then
            { r with S := 5, CustomFormat := true } else r)) ∧
    (SetRowStyle cellHasValue 1048576 (loadedFile threeRowSheet) "Sheet1" 3 2 5).map
        (fun res => (res.2, (loadedSheet res.1 "Sheet1").map
          (fun w => w.SheetData.Row.map (fun r => (r.R, r.S, r.CustomFormat))))) =
      some (none, some [(1, 0, false), (2, 5, true), (3, 5, true)]) :=
  ⟨SetRowStyle_range cellHasValue 1048576 (loadedFile threeRowSheet) (loadedFile threeRowSheet)
      "Sheet1" threeRowSheet 3 2 5 (by decide) (by decide) (by decide) (by decide),
   by decide⟩

/-! ## C38: duplicateMergeCells ends -/

theorem duplicatedRects_length (h : Heap) (row row2 : Int) (cells : List Ptr) :
    (duplicatedRects h row row2 cells).length = singleRowRegions h row cells := by
  unfold duplicatedRects singleRowRegions
  induction cells with
  | nil => rfl
  | cons p rest ih =>
    rw [List.filterMap_cons, List.filter_cons]
    cases hr : regionRect h p with
    | none =>
      simp only []
      rw [if_neg (by simp)]
      exact ih
    | some r =>
      simp only []
      by_cases hrow : r.y1 = r.y2 ∧ r.y1 = row
      · rw [if_pos hrow, if_pos (decide_eq_true hrow)]
        simp only [List.length_cons, ih]
      · rw [if_neg hrow, if_neg (by simp only [decide_eq_true_eq]; exact hrow)]
        exact ih

theorem duplicateMergeCellsLoop_mono (hasValue : xlsxC → Bool) (sheet : String)
    (row row2 : Int) :
    ∀ (fuel i : Nat) (h : Heap) (f : File) (res : Heap × File × Option Err),
      duplicateMergeCellsLoop hasValue sheet row row2 fuel i h f = some res →
      ∀ k : Nat, duplicateMergeCellsLoop hasValue sheet row row2 (fuel + k) i h f = some res := by
  intro fuel
  induction fuel with
  | zero =>
    intro i h f res hres
    simp [duplicateMergeCellsLoop] at hres
  | succ n ih =>
    intro i h f res hres k
    rw [show n + 1 + k = (n + k) + 1 by omega]
    unfold duplicateMergeCellsLoop at hres ⊢
    cases hws : loadedSheet f sheet with
    | none => simp [hws] at hres
    | some ws =>
      simp only [hws] at hres ⊢
      cases hmc : ws.MergeCells with
      | none => simp [hmc] at hres
      | some mc =>
        simp only [hmc] at hres ⊢
        by_cases hlt : i < mc.Cells.length
        · rw [if_pos hlt] at hres ⊢
          cases hp : mc.Cells[i]? with
          | none => simp [hp] at hres
          | some p =>
            cases p with
            | none => simp [hp] at hres
            | some a =>
              simp only [hp] at hres ⊢
              cases hc : h.cells[a]? with
              | none => simp [hc] at hres
              | some c =>
                simp only [hc] at hres ⊢
                cases hparse : areaRefToCoordinates c.Ref with
                | error e => simp [hparse] at hres
                | ok r =>
                  simp only [hparse] at hres ⊢
                  by_cases hon : r.y1 = r.y2 ∧ r.y1 = row
                  · rw [if_pos hon] at hres ⊢
                    cases hm : MergeCell hasValue h f sheet (cellNameOrEmpty r.x1 row2)
                        (cellNameOrEmpty r.x2 row2) with
                    | none => simp [hm] at hres
                    | some v =>
                      obtain ⟨h1, f1, e⟩ := v
                      cases e with
                      | some err =>
                        simp only [hm] at hres ⊢
                        exact hres
                      | none =>
                        simp only [hm] at hres ⊢
                        exact ih _ _ _ _ hres k
                  · rw [if_neg hon] at hres ⊢
                    exact ih _ _ _ _ hres k
        · rw [if_neg hlt] at hres ⊢
          exact hres

theorem duplicateMergeCellsGuard_total (h : Heap) (row2 : Int) :
    ∀ cells : List Ptr, (∀ p ∈ cells, (regionOf h p).isSome = true) →
    ∃ g, duplicateMergeCellsGuard h row2 cells = some g ∧
      (g = .ok () → (∀ p ∈ cells, (regionRect h p).isSome = true) ∧
        spansStrictly h row2 cells = false) := by
  intro cells
  induction cells with
  | nil =>
    intro _
    exact ⟨.ok (), rfl, fun _ => ⟨fun p hp => by simp at hp, rfl⟩⟩
  | cons p rest ih =>
    intro hp
    obtain ⟨g, hg, hok⟩ := ih (fun q hq => hp q (List.mem_cons_of_mem _ hq))
    have h1 := hp p (List.mem_cons_self _ _)
    unfold regionOf at h1
    cases p with
    | none => simp at h1
    | some a =>
      simp only [Option.some_bind] at h1
      cases hc : h.cells[a]? with
      | none => simp [hc] at h1
      | some c =>
        cases hparse : areaRefToCoordinates c.Ref with
        | error e =>
          refine ⟨.error (some e), ?_, fun hcontra => by simp at hcontra⟩
          simp only [duplicateMergeCellsGuard, hc, hparse]
        | ok r =>
          by_cases hspan : r.y1 < row2 ∧ row2 < r.y2
          · refine ⟨.error none, ?_, fun hcontra => by simp at hcontra⟩
            simp only [duplicateMergeCellsGuard, hc, hparse, hspan, and_self, if_true]
          · refine ⟨g, ?_, ?_⟩
            · simp only [duplicateMergeCellsGuard, hc, hparse, hspan, if_false, hg]
            · intro hgok
              obtain ⟨h2, h3⟩ := hok hgok
              have hrr : regionRect h (some a) = some r := by
                simp only [regionRect, hc, hparse]
              refine ⟨?_, ?_⟩
              · intro q hq
                rcases List.mem_cons.1 hq with rfl | hq
                · rw [hrr]; rfl
                · exact h2 q hq
              · simp only [spansStrictly, List.any_cons, hrr, hspan, decide_False,
                  Bool.false_or]
                exact h3

theorem cellNameOrEmpty_row_zero (col row : Int) (h : row < 1) : cellNameOrEmpty col row = "" := by
  unfold cellNameOrEmpty CoordinatesToCellName
  rw [if_pos (Or.inr h)]

theorem MergeCell_empty_names (hasValue : xlsxC → Bool) (h : Heap) (f : File) (sheet : String) :
    MergeCell hasValue h f sheet "" "" = some (h, f, some (.invalidCellName "")) := by
  unfold MergeCell
  have e : areaRefToCoordinates ("" ++ ":" ++ "") = .error (.invalidCellName "") := by decide
  rw [e]

/-- The second loop of `duplicateMergeCells` when `row2` is below 1: it ends,
at the first region on the single row `row` with the error of `MergeCell`,
and changes nothing. -/
theorem duplicateMergeCellsLoop_row_zero (hasValue : xlsxC → Bool) (sheet : String)
    (row row2 : Int) (hrow2 : row2 < 1) (h : Heap) (f : File) (ws : xlsxWorksheet)
    (mc : xlsxMergeCells) (hws : loadedSheet f sheet = some ws) (hmc : ws.MergeCells = some mc)
    (todo : List Ptr) :
    ∀ (pre : List Ptr), mc.Cells = pre ++ todo →
      (∀ p ∈ todo, (regionRect h p).isSome = true) →
      ∃ e, ∀ fuel : Nat, todo.length + 1 ≤ fuel →
        duplicateMergeCellsLoop hasValue sheet row row2 fuel pre.length h f = some (h, f, e) := by
  induction todo with
  | nil =>
    intro pre hcells _
    refine ⟨none, ?_⟩
    intro fuel hfuel
    obtain ⟨fuel1, rfl⟩ : ∃ k, fuel = k + 1 := ⟨fuel - 1, by simp at hfuel; omega⟩
    unfold duplicateMergeCellsLoop
    simp only [hws, hmc]
    rw [if_neg (by rw [hcells]; simp)]
  | cons p rest ih =>
    intro pre hcells htodo
    have hp : mc.Cells[pre.length]? = some p := by
      rw [hcells, List.getElem?_append_right (le_refl _)]
      simp
    have hlen : pre.length < mc.Cells.length := by
      rw [hcells]
      simp
    have h1 := htodo p (List.mem_cons_self _ _)
    obtain ⟨e1, he1⟩ := ih (pre ++ [p]) (by rw [hcells]; simp)
      (fun q hq => htodo q (List.mem_cons_of_mem _ hq))
    unfold regionRect at h1
    cases p with
    | none => simp at h1
    | some a =>
      simp only at h1
      cases hc : h.cells[a]? with
      | none => simp [hc] at h1
      | some c =>
        cases hparse : areaRefToCoordinates c.Ref with
        | error e => simp [hc, hparse] at h1
        | ok r =>
          by_cases hon : r.y1 = r.y2 ∧ r.y1 = row
          · refine ⟨some (.invalidCellName ""), ?_⟩
            intro fuel hfuel
            obtain ⟨fuel1, rfl⟩ : ∃ k, fuel = k + 1 := ⟨fuel - 1, by simp at hfuel; omega⟩
            unfold duplicateMergeCellsLoop
            simp only [hws, hmc]
            rw [if_pos hlen]
            simp only [hp, hc, hparse]
            rw [if_pos hon]
            simp only [cellNameOrEmpty_row_zero _ row2 hrow2, MergeCell_empty_names]
          · refine ⟨e1, ?_⟩
            intro fuel hfuel
            obtain ⟨fuel1, rfl⟩ : ∃ k, fuel = k + 1 := ⟨fuel - 1, by simp at hfuel; omega⟩
            unfold duplicateMergeCellsLoop
            simp only [hws, hmc]
            rw [if_pos hlen]
            simp only [hp, hc, hparse]
            rw [if_neg hon]
            have := he1 fuel1 (by simp at hfuel ⊢; omega)
            simpa using this

/-- With the single-row region `A3:C3` and the rows 2 and 0, a target row
that `DuplicateRowTo` does not pass on, the source row is row 3 after the
insertion and the region lies on it, but `MergeCell` fails on the names of
row 0: the loop ends with the error and appends no region. -/
theorem duplicateMergeCells_row_zero :
    singleRowRegions (mergedFile ["A3:C3"]).1 3 (decodedMergeCells ["A3:C3"]).2.Cells = 1 ∧
    duplicateMergeCells cellHasValue 3 (mergedFile ["A3:C3"]).1 (mergedFile ["A3:C3"]).2
        "Sheet1" 2 0 =
      some ((mergedFile ["A3:C3"]).1, (mergedFile ["A3:C3"]).2, some (.invalidCellName "")) := by
  decide

/-- C38, as amended. For every merge list of regions and every `row ≠ row2`,
`duplicateMergeCells` ends: with enough steps for twice the regions of the
list it returns, and the result does not depend on the number of steps. On a
list whose references parse: when no region starts above `row2` and ends
below it, and `row2 >= 1` as in every call of `DuplicateRowTo`, it returns no
error, the regions that existed stay at the head of the list, and the number
of regions appended is the number of regions that lay on the single source
row (`row + 1` when `row > row2`); when some region starts above `row2` and
ends below it, nothing is appended and no error is returned. -/
theorem duplicateMergeCells_terminates (hasValue : xlsxC → Bool) (h : Heap) (f : File)
    (sheet : String) (ws : xlsxWorksheet) (mc : xlsxMergeCells) (row row2 : Int)
    (hws : loadedSheet f sheet = some ws) (hmc : ws.MergeCells = some mc)
    (hp : ∀ p ∈ mc.Cells, (regionOf h p).isSome = true) (hne : row ≠ row2) :
    (∃ res, ∀ fuel : Nat, 2 * mc.Cells.length + 1 ≤ fuel →
      duplicateMergeCells hasValue fuel h f sheet row row2 = some res) ∧
    ((∀ p ∈ mc.Cells, (regionRect h p).isSome = true) → spansStrictly h row2 mc.Cells = false →
      1 ≤ row2 →
      ∃ h1 f1 mc1, (∀ fuel : Nat, 2 * mc.Cells.length + 1 ≤ fuel →
          duplicateMergeCells hasValue fuel h f sheet row row2 = some (h1, f1, none)) ∧
        loadedSheet f1 sheet = some (withMergeCells ws (some mc1)) ∧
        mc1.Cells.take mc.Cells.length = mc.Cells ∧
        mc1.Cells.length = mc.Cells.length +
          singleRowRegions h (if row > row2 then row + 1 else row) mc.Cells) ∧
    ((∀ p ∈ mc.Cells, (regionRect h p).isSome = true) → spansStrictly h row2 mc.Cells = true →
      ∀ fuel : Nat, duplicateMergeCells hasValue fuel h f sheet row row2 = some (h, f, none)) := by
  have hne1 : (if row > row2 then row + 1 else row) ≠ row2 := by
    split <;> omega
  have hspanned : (∀ p ∈ mc.Cells, (regionRect h p).isSome = true) →
      spansStrictly h row2 mc.Cells = true →
      ∀ fuel : Nat, duplicateMergeCells hasValue fuel h f sheet row row2 = some (h, f, none) := by
    intro hparse hspan fuel
    unfold duplicateMergeCells
    simp only [hws, hmc, duplicateMergeCellsGuard_eq h row2 mc.Cells hparse, hspan, if_true]
  have hfull : (∀ p ∈ mc.Cells, (regionRect h p).isSome = true) →
      spansStrictly h row2 mc.Cells = false → 1 ≤ row2 →
      ∃ h1 f1 mc1, (∀ fuel : Nat, 2 * mc.Cells.length + 1 ≤ fuel →
          duplicateMergeCells hasValue fuel h f sheet row row2 = some (h1, f1, none)) ∧
        loadedSheet f1 sheet = some (withMergeCells ws (some mc1)) ∧
        mc1.Cells.take mc.Cells.length = mc.Cells ∧
        mc1.Cells.length = mc.Cells.length +
          singleRowRegions h (if row > row2 then row + 1 else row) mc.Cells := by
    intro hparse hspan hrow2
    obtain ⟨f1, hloop, hf1, _⟩ := duplicateMergeCellsLoop_spec hasValue sheet
      (if row > row2 then row + 1 else row) row2 hne1 hrow2 mc.Cells [] [] h f ws mc
      (2 * mc.Cells.length + 1) hws hmc (by simp) hparse (by simp)
      (by simp only [List.length_nil]; omega)
    obtain ⟨hcells, _⟩ := addRegions_spec
      (duplicatedRects h (if row > row2 then row + 1 else row) row2 mc.Cells) (h, mc)
    refine ⟨(addRegions (h, mc)
      (duplicatedRects h (if row > row2 then row + 1 else row) row2 mc.Cells)).1, f1,
      (addRegions (h, mc)
      (duplicatedRects h (if row > row2 then row + 1 else row) row2 mc.Cells)).2,
      ?_, hf1, ?_, ?_⟩
    · intro fuel hfuel
      obtain ⟨k, rfl⟩ : ∃ k, fuel = 2 * mc.Cells.length + 1 + k := ⟨fuel - (2 * mc.Cells.length + 1), by omega⟩
      unfold duplicateMergeCells
      simp only [hws, hmc, duplicateMergeCellsGuard_eq h row2 mc.Cells hparse, hspan]
      exact duplicateMergeCellsLoop_mono hasValue sheet _ row2 _ 0 h f _ hloop k
    · rw [hcells]
      simp
    · rw [hcells, ← duplicatedRects_length h _ row2 mc.Cells]
      simp
  refine ⟨?_, hfull, hspanned⟩
  obtain ⟨g, hg, hok⟩ := duplicateMergeCellsGuard_total h row2 mc.Cells hp
  cases g with
  | error r =>
    refine ⟨(h, f, r), ?_⟩
    intro fuel _
    unfold duplicateMergeCells
    simp only [hws, hmc, hg]
  | ok u =>
    obtain ⟨hparse, hspan⟩ := hok rfl
    by_cases hrow2 : 1 ≤ row2
    · obtain ⟨h1, f1, mc1, hres, _⟩ := hfull hparse hspan hrow2
      exact ⟨_, hres⟩
    · obtain ⟨e, he⟩ := duplicateMergeCellsLoop_row_zero hasValue sheet
        (if row > row2 then row + 1 else row) row2 (by omega) h f ws mc hws hmc mc.Cells []
        (by simp) hparse
      refine ⟨(h, f, e), ?_⟩
      intro fuel hfuel
      unfold duplicateMergeCells
      simp only [hws, hmc, hg]
      exact he fuel (by omega)

/-- C38, as amended, on the regions `A2:C2`, `D4:E5`, `E2:F2`, `B1:B1`:
duplicating row 2 to row 7 ends and appends two regions, as many as lie on
row 2; and on the regions `A2:C2`, `D3:E6`, where `D3:E6` starts above row 5
and ends below it: duplicating row 2 to row 5 appends nothing. -/
theorem duplicateMergeCells_terminates_witness :
    ((∃ res, ∀ fuel : Nat,
        2 * (decodedMergeCells ["A2:C2", "D4:E5", "E2:F2", "B1:B1"]).2.Cells.length + 1 ≤ fuel →
        duplicateMergeCells cellHasValue fuel (mergedFile ["A2:C2", "D4:E5", "E2:F2", "B1:B1"]).1
          (mergedFile ["A2:C2", "D4:E5", "E2:F2", "B1:B1"]).2 "Sheet1" 2 7 = some res) ∧
      ((∀ p ∈ (decodedMergeCells ["A2:C2", "D4:E5", "E2:F2", "B1:B1"]).2.Cells,
          (regionRect (mergedFile ["A2:C2", "D4:E5", "E2:F2", "B1:B1"]).1 p).isSome = true) →
        spansStrictly (mergedFile ["A2:C2", "D4:E5", "E2:F2", "B1:B1"]).1 7
          (decodedMergeCells ["A2:C2", "D4:E5", "E2:F2", "B1:B1"]).2.Cells = false →
        (1 : Int) ≤ 7 →
        ∃ h1 f1 mc1, (∀ fuel : Nat,
            2 * (decodedMergeCells ["A2:C2", "D4:E5", "E2:F2", "B1:B1"]).2.Cells.length + 1 ≤ fuel →
            duplicateMergeCells cellHasValue fuel
              (mergedFile ["A2:C2", "D4:E5", "E2:F2", "B1:B1"]).1
              (mergedFile ["A2:C2", "D4:E5", "E2:F2", "B1:B1"]).2 "Sheet1" 2 7 =
              some (h1, f1, none)) ∧
          loadedSheet f1 "Sheet1" = some (withMergeCells
            { MergeCells := some (decodedMergeCells ["A2:C2", "D4:E5", "E2:F2", "B1:B1"]).2 }
            (some mc1)) ∧
          mc1.Cells.take (decodedMergeCells ["A2:C2", "D4:E5", "E2:F2", "B1:B1"]).2.Cells.length =
            (decodedMergeCells ["A2:C2", "D4:E5", "E2:F2", "B1:B1"]).2.Cells ∧
          mc1.Cells.length =
            (decodedMergeCells ["A2:C2", "D4:E5", "E2:F2", "B1:B1"]).2.Cells.length +
              singleRowRegions (mergedFile ["A2:C2", "D4:E5", "E2:F2", "B1:B1"]).1
                (if (2 : Int) > 7 then 2 + 1 else 2)
                (decodedMergeCells ["A2:C2", "D4:E5", "E2:F2", "B1:B1"]).2.Cells) ∧
      ((∀ p ∈ (decodedMergeCells ["A2:C2", "D4:E5", "E2:F2", "B1:B1"]).2.Cells,
          (regionRect (mergedFile ["A2:C2", "D4:E5", "E2:F2", "B1:B1"]).1 p).isSome = true) →
        spansStrictly (mergedFile ["A2:C2", "D4:E5", "E2:F2", "B1:B1"]).1 7
          (decodedMergeCells ["A2:C2", "D4:E5", "E2:F2", "B1:B1"]).2.Cells = true →
        ∀ fuel : Nat, duplicateMergeCells cellHasValue fuel
          (mergedFile ["A2:C2", "D4:E5", "E2:F2", "B1:B1"]).1
          (mergedFile ["A2:C2", "D4:E5", "E2:F2", "B1:B1"]).2 "Sheet1" 2 7 =
          some ((mergedFile ["A2:C2", "D4:E5", "E2:F2", "B1:B1"]).1,
            (mergedFile ["A2:C2", "D4:E5", "E2:F2", "B1:B1"]).2, none))) ∧
    (∀ fuel : Nat, duplicateMergeCells cellHasValue fuel (mergedFile ["A2:C2", "D3:E6"]).1
        (mergedFile ["A2:C2", "D3:E6"]).2 "Sheet1" 2 5 =
      some ((mergedFile ["A2:C2", "D3:E6"]).1, (mergedFile ["A2:C2", "D3:E6"]).2, none)) ∧
    singleRowRegions (mergedFile ["A2:C2", "D4:E5", "E2:F2", "B1:B1"]).1 2
      (decodedMergeCells ["A2:C2", "D4:E5", "E2:F2", "B1:B1"]).2.Cells = 2 ∧
    (duplicateMergeCells cellHasValue 9 (mergedFile ["A2:C2", "D4:E5", "E2:F2", "B1:B1"]).1
        (mergedFile ["A2:C2", "D4:E5", "E2:F2", "B1:B1"]).2 "Sheet1" 2 7).map
      (fun res => (mergedRefs res.1 res.2.1, res.2.2)) =
      some (some (6, ["A2:C2", "D4:E5", "E2:F2", "B1:B1", "A7:C7", "E7:F7"]), none) :=
  ⟨duplicateMergeCells_terminates cellHasValue (mergedFile ["A2:C2", "D4:E5", "E2:F2", "B1:B1"]).1
      (mergedFile ["A2:C2", "D4:E5", "E2:F2", "B1:B1"]).2 "Sheet1"
      { MergeCells := some (decodedMergeCells ["A2:C2", "D4:E5", "E2:F2", "B1:B1"]).2 }
      (decodedMergeCells ["A2:C2", "D4:E5", "E2:F2", "B1:B1"]).2 2 7
      (by decide) (by decide) (by decide) (by decide),
   (duplicateMergeCells_terminates cellHasValue (mergedFile ["A2:C2", "D3:E6"]).1
      (mergedFile ["A2:C2", "D3:E6"]).2 "Sheet1"
      { MergeCells := some (decodedMergeCells ["A2:C2", "D3:E6"]).2 }
      (decodedMergeCells ["A2:C2", "D3:E6"]).2 2 5
      (by decide) (by decide) (by decide) (by decide)).2.2 (by decide) (by decide),
   by decide, by decide⟩

/-! ## C39: the defined names after DeleteSheet -/

/-- C39 fails as stated: the sheet names `Sheet1`, `Data`, `sheet1`,
`Totals` are pairwise distinct, but `DeleteSheet("Sheet1")`, which compares
the names without their case, removes `Sheet1` and `sheet1` and shifts the
defined names for `Sheet1` only: `Rate`, scoped to `sheet1`, is reported in
the scope `Totals`, and `Sum`, scoped to `Totals`, in no scope. -/
theorem DeleteSheet_names_equal_under_folding :
    GetDefinedName foldedBook =
      [{ Name := "Rate", RefersTo := "sheet1!$A$1", Scope := "sheet1" },
       { Name := "Sum", RefersTo := "Totals!$A$1", Scope := "Totals" }] ∧
    (DeleteSheet cellHasValue goLib foldedBook "Sheet1").map GetSheetList =
      some ["Data", "Totals"] ∧
    (DeleteSheet cellHasValue goLib foldedBook "Sheet1").map GetDefinedName =
      some [{ Name := "Rate", RefersTo := "sheet1!$A$1", Scope := "Totals" },
        { Name := "Sum", RefersTo := "Totals!$A$1", Scope := "" }] := by
  decide

theorem workSheetReader_WorkBook (hasValue : xlsxC → Bool) (f f1 : File) (sheet : String)
    (ws : Option xlsxWorksheet) (e : Option Err)
    (h : workSheetReader hasValue f sheet = some (f1, ws, e)) : f1.WorkBook = f.WorkBook := by
  unfold workSheetReader at h
  cases hmap : f.sheetMap.lookup (trimSheetName sheet) with
  | none =>
    simp only [hmap, Option.some.injEq, Prod.mk.injEq] at h
    obtain ⟨rfl, -, -⟩ := h
    rfl
  | some name =>
    simp only [hmap] at h
    cases hws : f.Sheet.lookup name with
    | some w =>
      simp only [hws, Option.some.injEq, Prod.mk.injEq] at h
      obtain ⟨rfl, -, -⟩ := h
      rfl
    | none =>
      simp only [hws] at h
      repeat' split at h
      all_goals first
        | (simp at h; done)
        | (simp only [Option.some.injEq, Prod.mk.injEq] at h
           obtain ⟨rfl, -, -⟩ := h
           rfl)

theorem storeSheet_WorkBook (f : File) (sheet : String) (ws : xlsxWorksheet) :
    (storeSheet f sheet ws).WorkBook = f.WorkBook := by
  unfold storeSheet
  split <;> rfl

theorem setActiveLoop_WorkBook (hasValue : xlsxC → Bool) (index : Int) :
    ∀ (names : List String) (idx : Int) (f f2 : File),
      setActiveLoop hasValue index names idx f = some f2 → f2.WorkBook = f.WorkBook := by
  intro names
  induction names with
  | nil =>
    intro idx f f2 h
    simp only [setActiveLoop, Option.some.injEq] at h
    rw [← h]
  | cons name rest ih =>
    intro idx f f2 h
    unfold setActiveLoop at h
    cases hr : workSheetReader hasValue f name with
    | none => simp [hr] at h
    | some v =>
      obtain ⟨f1, ws, e⟩ := v
      have hw := workSheetReader_WorkBook hasValue f f1 name ws e hr
      cases e with
      | some err =>
        simp only [hr, Option.some.injEq] at h
        rw [← h, hw]
      | none =>
        cases ws with
        | none => simp [hr] at h
        | some w =>
          simp only [hr] at h
          rw [ih _ _ _ h, storeSheet_WorkBook, hw]

theorem setActiveTab_WorkBook (f : File) (index : Int) :
    (setActiveTab f index).WorkBook.Sheets = f.WorkBook.Sheets ∧
      (setActiveTab f index).WorkBook.DefinedNames = f.WorkBook.DefinedNames := by
  unfold setActiveTab
  split
  · exact ⟨rfl, rfl⟩
  · exact ⟨rfl, rfl⟩

theorem SetActiveSheet_WorkBook (hasValue : xlsxC → Bool) (f f2 : File) (index : Int)
    (h : SetActiveSheet hasValue f index = some f2) :
    f2.WorkBook.Sheets = f.WorkBook.Sheets ∧ f2.WorkBook.DefinedNames = f.WorkBook.DefinedNames := by
  unfold SetActiveSheet at h
  have h1 := setActiveLoop_WorkBook hasValue _ _ _ _ _ h
  rw [h1]
  exact setActiveTab_WorkBook f _

theorem deleteSheetFromWorkbookRels_WorkBook (lib : Lib) (f f1 : File) (rID target : String)
    (h : deleteSheetFromWorkbookRels lib f rID = some (f1, target)) :
    f1.WorkBook = f.WorkBook := by
  unfold deleteSheetFromWorkbookRels at h
  repeat' split at h
  all_goals first
    | (simp at h; done)
    | (simp only [Option.some.injEq, Prod.mk.injEq] at h
       obtain ⟨rfl, -⟩ := h
       rfl)

theorem deleteSheetFromContentTypes_WorkBook (f f1 : File) (target : String)
    (h : deleteSheetFromContentTypes f target = some f1) : f1.WorkBook = f.WorkBook := by
  unfold deleteSheetFromContentTypes at h
  split at h
  · simp at h
  · simp only [Option.some.injEq] at h
    rw [← h]

theorem deleteCalcChain_WorkBook (f f1 : File) (index : Int) (axis : String)
    (h : deleteCalcChain f index axis = some f1) : f1.WorkBook = f.WorkBook := by
  unfold deleteCalcChain at h
  split at h
  · split at h
    · simp at h
    · simp only [Option.some.injEq] at h
      rw [← h]
  · simp only [Option.some.injEq] at h
    rw [← h]

theorem deleteSheetBody_WorkBook (lib : Lib) (f f1 : File) (sheetName : String)
    (sheet : xlsxSheet) (h : deleteSheetBody lib f sheetName sheet = some f1) :
    f1.WorkBook = f.WorkBook := by
  unfold deleteSheetBody at h
  cases h1 : deleteSheetFromWorkbookRels lib f sheet.ID with
  | none => simp [h1] at h
  | some v =>
    obtain ⟨g1, target⟩ := v
    simp only [h1] at h
    cases h2 : deleteSheetFromContentTypes g1 target with
    | none => simp [h2] at h
    | some g2 =>
      simp only [h2] at h
      cases h3 : deleteCalcChain g2 sheet.SheetID "" with
      | none => simp [h3] at h
      | some g3 =>
        simp only [h3, Option.some.injEq] at h
        rw [← h]
        show g3.WorkBook = f.WorkBook
        rw [deleteCalcChain_WorkBook _ _ _ _ h3, deleteSheetFromContentTypes_WorkBook _ _ _ h2,
          deleteSheetFromWorkbookRels_WorkBook _ _ _ _ _ h1]

theorem deleteSheetLoop_no_match (lib : Lib) (sheetName : String) :
    ∀ (idxs : List Nat) (f : File) (arr : List xlsxSheet) (len : Nat),
      (∀ idx ∈ idxs, ∃ s, arr[idx]? = some s ∧ lib.EqualFold s.Name sheetName = false) →
      deleteSheetLoop lib sheetName idxs (f, arr, len) = some (f, arr, len) := by
  intro idxs
  induction idxs with
  | nil => intro f arr len _; rfl
  | cons idx rest ih =>
    intro f arr len h
    obtain ⟨s, hs, hno⟩ := h idx (by simp)
    unfold deleteSheetLoop
    simp only [hs, hno, Bool.false_eq_true, if_false]
    exact ih f arr len (fun i hi => h i (by simp [hi]))

theorem deleteSheetLoop_cons (lib : Lib) (sheetName : String) (idx : Nat) (rest : List Nat)
    (f : File) (arr : List xlsxSheet) (len : Nat) :
    deleteSheetLoop lib sheetName (idx :: rest) (f, arr, len) =
      match arr[idx]? with
      | none => none
      | some sheet =>
        if lib.EqualFold sheet.Name sheetName then
          match deleteAt arr len idx with
          | none => none
          | some (arr1, len1) =>
            match deleteSheetBody lib f sheetName sheet with
            | none => none
            | some f1 => deleteSheetLoop lib sheetName rest (f1, arr1, len1)
        else deleteSheetLoop lib sheetName rest (f, arr, len) := by
  rw [deleteSheetLoop]

theorem deleteSheetLoop_append (lib : Lib) (sheetName : String) :
    ∀ (l1 l2 : List Nat) (st : File × List xlsxSheet × Nat),
      deleteSheetLoop lib sheetName (l1 ++ l2) st =
        (deleteSheetLoop lib sheetName l1 st).bind (deleteSheetLoop lib sheetName l2) := by
  intro l1
  induction l1 with
  | nil => intro l2 st; rfl
  | cons idx rest ih =>
    intro l2 st
    obtain ⟨f, arr, len⟩ := st
    rw [List.cons_append, deleteSheetLoop_cons, deleteSheetLoop_cons]
    cases ha : arr[idx]? with
    | none => rfl
    | some sheet =>
      simp only []
      split
      · cases hd : deleteAt arr len idx with
        | none => rfl
        | some v =>
          obtain ⟨arr1, len1⟩ := v
          simp only []
          cases hb : deleteSheetBody lib f sheetName sheet with
          | none => rfl
          | some f1 =>
            simp only []
            exact ih l2 _
      · exact ih l2 _

theorem sheetIndexFrom_first (lib : Lib) (name : String) (sheet : String) (post : List String)
    (hm : lib.EqualFold sheet (trimSheetName name) = true) :
    ∀ (pre : List String) (index : Int),
      (∀ s ∈ pre, lib.EqualFold s (trimSheetName name) = false) →
      sheetIndexFrom lib name (pre ++ sheet :: post) index = index + pre.length := by
  intro pre
  induction pre with
  | nil =>
    intro index _
    simp only [List.nil_append, sheetIndexFrom, hm, if_true, List.length_nil]
    simp
  | cons a rest ih =>
    intro index h
    simp only [List.cons_append]
    unfold sheetIndexFrom
    rw [h a (by simp)]
    simp only [Bool.false_eq_true, if_false]
    rw [ih (index + 1) (fun s hs => h s (by simp [hs]))]
    simp only [List.length_cons]
    push_cast
    omega

theorem getI_append_skip {α : Type} (pre post : List α) (s : α) (id : Int) :
    (id < pre.length → getI (pre ++ post) id = getI (pre ++ s :: post) id) ∧
    (id > pre.length → getI (pre ++ post) (id - 1) = getI (pre ++ s :: post) id) := by
  constructor
  · intro h
    by_cases h0 : id < 0
    · simp [getI, h0]
    · rw [getI_nat _ _ (by omega), getI_nat _ _ (by omega),
        List.getElem?_append_left (by omega), List.getElem?_append_left (by omega)]
  · intro h
    rw [getI_nat _ _ (by omega), getI_nat _ _ (by omega),
      List.getElem?_append_right (by omega), List.getElem?_append_right (by omega)]
    have e : id.toNat - pre.length = ((id - 1).toNat - pre.length) + 1 := by omega
    rw [e, List.getElem?_cons_succ]

theorem deleteSheetLoop_single (lib : Lib) (sheetName : String) (f : File)
    (pre post : List xlsxSheet) (s : xlsxSheet)
    (hm : lib.EqualFold s.Name sheetName = true)
    (hno : ∀ x ∈ pre ++ post, lib.EqualFold x.Name sheetName = false)
    (res : File × List xlsxSheet × Nat)
    (h : deleteSheetLoop lib sheetName (List.range (pre ++ s :: post).length)
      (f, pre ++ s :: post, (pre ++ s :: post).length) = some res) :
    res.1.WorkBook = f.WorkBook ∧ res.2.1.take res.2.2 = pre ++ post := by
  have hlen : (pre ++ s :: post).length = pre.length + (post.length + 1) := by simp
  have hrange : List.range (pre ++ s :: post).length =
      List.range pre.length ++
        (pre.length :: (List.range post.length).map (fun j => pre.length + (j + 1))) := by
    rw [hlen, List.range_add, List.range_succ_eq_map]
    simp [Function.comp_def]
  rw [hrange, deleteSheetLoop_append,
    deleteSheetLoop_no_match lib sheetName (List.range pre.length) f _ _
      (by
        intro idx hidx
        have hlt : idx < pre.length := List.mem_range.1 hidx
        obtain ⟨x, hx⟩ := exists_getElem? pre idx hlt
        refine ⟨x, ?_, hno x (List.mem_append_left _ (List.getElem?_mem hx))⟩
        rw [List.getElem?_append_left hlt]
        exact hx),
    Option.some_bind, deleteSheetLoop_cons] at h
  have hs : (pre ++ s :: post)[pre.length]? = some s := by
    rw [List.getElem?_append_right (le_refl _)]
    simp
  have hdel : deleteAt (pre ++ s :: post) (pre ++ s :: post).length pre.length =
      some (pre ++ post ++ (pre ++ s :: post).drop (pre.length + post.length),
        pre.length + post.length) := by
    unfold deleteAt
    rw [if_pos (by rw [hlen]; omega), hlen]
    have e1 : List.take pre.length (pre ++ s :: post) = pre := by simp
    have e2 : List.drop (pre.length + 1) (pre ++ s :: post) = post := by
      rw [List.drop_append]
      rfl
    have e3 : pre.length + (post.length + 1) - (pre.length + 1) = post.length := by omega
    have e4 : pre.length + (post.length + 1) - 1 = pre.length + post.length := by omega
    rw [e1, e2, e3, e4, List.take_length]
  simp only [hs, hm, if_true, hdel] at h
  cases hb : deleteSheetBody lib f sheetName s with
  | none => simp [hb] at h
  | some f1 =>
    simp only [hb] at h
    rw [deleteSheetLoop_no_match lib sheetName _ f1 _ _
      (by
        intro idx hidx
        obtain ⟨j, hj, rfl⟩ := List.mem_map.1 hidx
        have hjlt : j < post.length := List.mem_range.1 hj
        have hpost : post ≠ [] := by
          intro hnil
          rw [hnil] at hjlt
          simp at hjlt
        rw [List.append_assoc, List.getElem?_append_right (by omega)]
        have e : pre.length + (j + 1) - pre.length = j + 1 := by omega
        rw [e]
        by_cases hj1 : j + 1 < post.length
        · obtain ⟨x, hx⟩ := exists_getElem? post (j + 1) hj1
          refine ⟨x, ?_, hno x (List.mem_append_right _ (List.getElem?_mem hx))⟩
          rw [List.getElem?_append_left hj1]
          exact hx
        · have hj2 : j + 1 = post.length := by omega
          refine ⟨post.getLast hpost, ?_,
            hno _ (List.mem_append_right _ (List.getLast_mem hpost))⟩
          rw [List.getElem?_append_right (by omega), List.drop_append,
            List.drop_length_cons hpost, hj2]
          simp)] at h
    simp only [Option.some.injEq] at h
    rw [← h]
    refine ⟨deleteSheetBody_WorkBook lib f f1 sheetName s hb, ?_⟩
    show List.take (pre.length + post.length) _ = _
    rw [List.take_append_of_le_length (by simp), List.take_of_length_le (by simp)]

theorem reportedScope_shift (f f1 : File) (pre post : List xlsxSheet) (s : xlsxSheet)
    (hS : f.WorkBook.Sheets = pre ++ s :: post) (hS1 : f1.WorkBook.Sheets = pre ++ post) :
    ∀ l : List xlsxDefinedName,
      (deleteSheetDefinedNames (pre.length : Int) l).map (fun dn =>
        ({ Name := dn.Name, Comment := dn.Comment, RefersTo := dn.Data,
           Scope := reportedScope f1 dn } : DefinedName)) =
      (l.filter (fun dn => decide (dn.LocalSheetID ≠ some (pre.length : Int)))).map (fun dn =>
        ({ Name := dn.Name, Comment := dn.Comment, RefersTo := dn.Data,
           Scope := reportedScope f dn } : DefinedName)) := by
  have hname : ∀ id : Int,
      (id < pre.length → GetSheetName f1 id = GetSheetName f id) ∧
      (id > pre.length → GetSheetName f1 (id - 1) = GetSheetName f id) := by
    intro id
    have hk := getI_append_skip (pre.map (fun x => x.Name)) (post.map (fun x => x.Name)) s.Name id
    simp only [List.length_map] at hk
    unfold GetSheetName GetSheetList
    rw [hS, hS1, List.map_append, List.map_append, List.map_cons]
    exact ⟨fun h => by rw [hk.1 h], fun h => by rw [hk.2 h]⟩
  intro l
  induction l with
  | nil => rfl
  | cons dn rest ih =>
    unfold deleteSheetDefinedNames
    rw [List.filter_cons]
    cases hid : dn.LocalSheetID with
    | none =>
      simp only []
      rw [if_pos (by simp), List.map_cons, List.map_cons, ih]
      congr 1
      simp only [reportedScope, hid]
    | some id =>
      simp only []
      by_cases h1 : id = (pre.length : Int)
      · rw [if_pos h1, if_neg (by simp [h1]), ih]
      · have hkeep : decide (some id ≠ some (pre.length : Int)) = true := by simpa using h1
        rw [if_neg h1]
        by_cases h2 : id > (pre.length : Int)
        · rw [if_pos h2, if_pos hkeep, List.map_cons, List.map_cons, ih]
          congr 1
          simp only [reportedScope, hid]
          rw [if_pos (by omega), if_pos (by omega), (hname id).2 h2]
        · rw [if_neg h2, if_pos hkeep, List.map_cons, List.map_cons, ih]
          congr 1
          simp only [reportedScope, hid]
          by_cases h0 : id ≥ 0
          · rw [if_pos h0, if_pos h0, (hname id).1 (by omega)]
          · rw [if_neg h0, if_neg h0]

theorem DeleteSheet_defined_names_of_some (hasValue : xlsxC → Bool) (lib : Lib) (f f1 : File)
    (name : String) (pre post : List xlsxSheet) (sheet : xlsxSheet)
    (hsheets : f.WorkBook.Sheets = pre ++ sheet :: post)
    (hmatch : lib.EqualFold sheet.Name (trimSheetName name) = true)
    (hother : ∀ s ∈ pre ++ post, lib.EqualFold s.Name (trimSheetName name) = false)
    (hcount : f.SheetCount ≠ 1)
    (hdel : DeleteSheet hasValue lib f name = some f1) :
    GetSheetList f1 = (pre ++ post).map (fun s => s.Name) ∧
    GetDefinedName f1 = definedNamesWithout f (pre.length : Int) := by
  have hidx : GetSheetIndex lib f name = (pre.length : Int) := by
    unfold GetSheetIndex GetSheetList
    rw [hsheets, List.map_append, List.map_cons,
      sheetIndexFrom_first lib name sheet.Name _ hmatch _ 0
        (by
          intro s hs
          obtain ⟨x, hx, rfl⟩ := List.mem_map.1 hs
          exact hother x (List.mem_append_left _ hx))]
    simp
  unfold DeleteSheet at hdel
  rw [if_neg (by rw [hidx]; omega)] at hdel
  cases hact : GetActiveSheetIndex f with
  | none => simp [hact] at hdel
  | some active =>
    simp only [hact] at hdel
    cases hloop : deleteSheetLoop lib (trimSheetName name) (List.range f.WorkBook.Sheets.length)
        (withDefinedNames f (f.WorkBook.DefinedNames.map
          (deleteSheetDefinedNames (GetSheetIndex lib f name))),
         f.WorkBook.Sheets, f.WorkBook.Sheets.length) with
    | none => simp [hloop] at hdel
    | some res =>
      obtain ⟨g, arr, len⟩ := res
      simp only [hloop] at hdel
      rw [hsheets] at hloop
      obtain ⟨hwb, htake⟩ := deleteSheetLoop_single lib (trimSheetName name) _ pre post sheet
        hmatch hother _ hloop
      simp only at hwb htake
      obtain ⟨hs1, hd1⟩ := SetActiveSheet_WorkBook hasValue _ f1 _ hdel
      have hS1 : f1.WorkBook.Sheets = pre ++ post := by
        rw [hs1]
        show arr.take len = _
        exact htake
      have hD1 : f1.WorkBook.DefinedNames =
          f.WorkBook.DefinedNames.map (deleteSheetDefinedNames (pre.length : Int)) := by
        rw [hd1]
        show g.WorkBook.DefinedNames = _
        rw [hwb, ← hidx]
        rfl
      refine ⟨?_, ?_⟩
      · unfold GetSheetList
        rw [hS1]
      · unfold GetDefinedName definedNamesWithout
        rw [hD1]
        cases hdn : f.WorkBook.DefinedNames with
        | none => rfl
        | some names =>
          simp only [Option.map_some', Option.getD_some]
          exact reportedScope_shift f f1 pre post sheet hsheets hS1 names

/-- C39, as amended. When the name matches one sheet of the list and no
other (the comparison is the one of `DeleteSheet`, without the case), the
sheet count is not 1 and `DeleteSheet` returns, the sheet list is the one of
before without that sheet, and `GetDefinedName` reports the defined names of
before that were not scoped to that sheet, in their order, each with the
scope it had: the name of the same sheet, or the workbook. -/
theorem DeleteSheet_defined_names (hasValue : xlsxC → Bool) (lib : Lib) (f : File)
    (name : String) (pre post : List xlsxSheet) (sheet : xlsxSheet)
    (hsheets : f.WorkBook.Sheets = pre ++ sheet :: post)
    (hmatch : lib.EqualFold sheet.Name (trimSheetName name) = true)
    (hother : ∀ s ∈ pre ++ post, lib.EqualFold s.Name (trimSheetName name) = false)
    (hcount : f.SheetCount ≠ 1)
    (hdel : (DeleteSheet hasValue lib f name).isSome = true) :
    (DeleteSheet hasValue lib f name).map (fun f1 => (GetSheetList f1, GetDefinedName f1)) =
      some ((pre ++ post).map (fun s => s.Name), definedNamesWithout f (pre.length : Int)) := by
  cases h : DeleteSheet hasValue lib f name with
  | none => simp [h] at hdel
  | some f1 =>
    obtain ⟨h1, h2⟩ := DeleteSheet_defined_names_of_some hasValue lib f f1 name pre post sheet
      hsheets hmatch hother hcount h
    simp only [Option.map_some', h1, h2]

/-- C39, as amended, on the workbook with `Sheet1` and `Sheet2` and the
names `Tax` of `Sheet1`, `Rate` of `Sheet2` and `Total` of the workbook:
after `DeleteSheet("sheet1")` the names are `Rate` of `Sheet2` and `Total`
of the workbook. -/
theorem DeleteSheet_defined_names_witness :
    (DeleteSheet cellHasValue goLib (twoSheetBook (some scopedNames)) "sheet1").map
        (fun f1 => (GetSheetList f1, GetDefinedName f1)) =
      some ((([] : List xlsxSheet) ++
          [({ Name := "Sheet2", SheetID := 2, ID := "rId2" } : xlsxSheet)]).map (fun s => s.Name),
        definedNamesWithout (twoSheetBook (some scopedNames))
          (([] : List xlsxSheet).length : Int)) ∧
    definedNamesWithout (twoSheetBook (some scopedNames)) 0 =
      [{ Name := "Rate", RefersTo := "Sheet2!$A$1", Scope := "Sheet2" },
       { Name := "Total", RefersTo := "Sheet2!$B$1", Scope := "Workbook" }] :=
  ⟨DeleteSheet_defined_names cellHasValue goLib (twoSheetBook (some scopedNames))
      "sheet1" [] [{ Name := "Sheet2", SheetID := 2, ID := "rId2" }]
      { Name := "Sheet1", SheetID := 1, ID := "rId1" } rfl (by decide) (by decide) (by decide)
      (by decide),
   by decide⟩

/-! ## C37: the bounds of the occupancy grid -/

theorem validPtr_mono (h h1 : Heap) (p : Ptr) (hl : h.cells.length ≤ h1.cells.length)
    (hp : validPtr h p) : validPtr h1 p := by
  obtain ⟨a, rfl, ha⟩ := hp
  exact ⟨a, rfl, by omega⟩

theorem rectWithin_mono (cols rows cols1 rows1 : Int) (r : Rect) (hc : cols ≤ cols1)
    (hr : rows ≤ rows1) (h : rectWithin cols rows r) : rectWithin cols1 rows1 r := by
  unfold rectWithin at h ⊢
  omega

theorem Rect_cached (h : Heap) (p : Ptr) (hc : cachedHeap h) (hp : validPtr h p) :
    ∃ r rect, xlsxMergeCell.Rect h p = some (h, .ok r) ∧ h.rects[r]? = some rect := by
  obtain ⟨a, rfl, ha⟩ := hp
  obtain ⟨c, hcell⟩ := exists_getElem? h.cells a ha
  obtain ⟨r, hr, hlt⟩ := hc a c hcell
  obtain ⟨rect, hrect⟩ := exists_getElem? h.rects r hlt
  refine ⟨r, rect, ?_, hrect⟩
  unfold xlsxMergeCell.Rect
  simp only [hcell, hr]

theorem swapCoordinate_total (P : Rect → Prop) (get : Rect → Int) (set : Rect → Int → Rect)
    (hset : ∀ r r1, P r → P r1 → P (set r (get r1))) (gt : Bool) (a1 a2 : Nat)
    (rs : List Rect) (h1 : a1 < rs.length) (h2 : a2 < rs.length)
    (hP : ∀ (i : Nat) (r : Rect), rs[i]? = some r → P r) :
    ∃ rs1, swapCoordinate get set gt a1 a2 rs = some rs1 ∧ rs1.length = rs.length ∧
      ∀ (i : Nat) (r : Rect), rs1[i]? = some r → P r := by
  obtain ⟨r1, hr1⟩ := exists_getElem? rs a1 h1
  obtain ⟨r2, hr2⟩ := exists_getElem? rs a2 h2
  have hmod : ∀ (i : Nat) (r : Rect),
      (List.modify (fun r => set r (get r1)) a2
        (List.modify (fun r => set r (get r2)) a1 rs))[i]? = some r → P r := by
    intro i r hi
    rw [List.getElem?_modify, List.getElem?_modify] at hi
    cases hri : rs[i]? with
    | none => simp [hri] at hi
    | some r0 =>
      have hP0 := hP i r0 hri
      simp only [hri, Option.map_eq_map, Option.map_some', Option.some.injEq] at hi
      rw [← hi]
      split
      · split
        · exact hset _ _ (hset _ _ hP0 (hP a2 r2 hr2)) (hP a1 r1 hr1)
        · exact hset _ _ hP0 (hP a1 r1 hr1)
      · split
        · exact hset _ _ hP0 (hP a2 r2 hr2)
        · exact hP0
  unfold swapCoordinate
  simp only [hr1, hr2]
  by_cases hc : (if gt = true then get r1 > get r2 else get r1 < get r2)
  · rw [if_pos hc]
    exact ⟨_, rfl, by simp, hmod⟩
  · rw [if_neg hc]
    exact ⟨rs, rfl, rfl, hP⟩

theorem mergeCell_total (cols rows : Int) (h : Heap) (c1 c2 : Ptr) (hc : cachedHeap h)
    (hb : boundedHeap cols rows h) (h1 : validPtr h c1) (h2 : validPtr h c2) :
    ∃ h3 p, mergeCell h c1 c2 = some (h3, p) ∧ cachedHeap h3 ∧ boundedHeap cols rows h3 ∧
      h3.cells.length = h.cells.length + 1 ∧ validPtr h3 p := by
  obtain ⟨a1, r1, e1, hr1⟩ := Rect_cached h c1 hc h1
  obtain ⟨a2, r2, e2, hr2⟩ := Rect_cached h c2 hc h2
  have hl1 : a1 < h.rects.length := by
    rcases Nat.lt_or_ge a1 h.rects.length with hlt | hge
    · exact hlt
    · rw [List.getElem?_eq_none hge] at hr1
      simp at hr1
  have hl2 : a2 < h.rects.length := by
    rcases Nat.lt_or_ge a2 h.rects.length with hlt | hge
    · exact hlt
    · rw [List.getElem?_eq_none hge] at hr2
      simp at hr2
  obtain ⟨rs1, s1, l1, b1⟩ := swapCoordinate_total (rectWithin cols rows) (fun r => r.x1)
    (fun r v => { r with x1 := v })
    (by intro r r0 hr hr0; unfold rectWithin at hr hr0 ⊢; simp only; omega)
    true a1 a2 h.rects hl1 hl2 hb
  obtain ⟨rs2, s2, l2, b2⟩ := swapCoordinate_total (rectWithin cols rows) (fun r => r.x2)
    (fun r v => { r with x2 := v })
    (by intro r r0 hr hr0; unfold rectWithin at hr hr0 ⊢; simp only; omega)
    false a1 a2 rs1 (by omega) (by omega) b1
  obtain ⟨rs3, s3, l3, b3⟩ := swapCoordinate_total (rectWithin cols rows) (fun r => r.y1)
    (fun r v => { r with y1 := v })
    (by intro r r0 hr hr0; unfold rectWithin at hr hr0 ⊢; simp only; omega)
    true a1 a2 rs2 (by omega) (by omega) b2
  obtain ⟨rs4, s4, l4, b4⟩ := swapCoordinate_total (rectWithin cols rows) (fun r => r.y2)
    (fun r v => { r with y2 := v })
    (by intro r r0 hr hr0; unfold rectWithin at hr hr0 ⊢; simp only; omega)
    false a1 a2 rs3 (by omega) (by omega) b3
  obtain ⟨r, hr⟩ := exists_getElem? rs4 a1 (by omega)
  refine ⟨Heap.mk (h.cells ++ [xlsxMergeCell.mk
      (cellNameOrEmpty r.x1 r.y1 ++ ":" ++ cellNameOrEmpty r.x2 r.y2) (some a1)]) rs4,
    some h.cells.length, ?_, ?_, ?_, ?_, ?_⟩
  · unfold mergeCell
    simp only [e1, e2, s1, s2, s3, s4, hr]
  · intro a c hac
    simp only at hac
    by_cases ha : a < h.cells.length
    · rw [List.getElem?_append_left ha] at hac
      obtain ⟨r0, h0, h00⟩ := hc a c hac
      exact ⟨r0, h0, by simp only; omega⟩
    · rw [List.getElem?_append_right (by omega)] at hac
      have ha0 : a - h.cells.length = 0 := by
        rcases Nat.eq_zero_or_pos (a - h.cells.length) with hz | hpos
        · exact hz
        · rw [List.getElem?_eq_none (by simp; omega)] at hac
          simp at hac
      rw [ha0] at hac
      simp only [List.getElem?_cons_zero, Option.some.injEq] at hac
      rw [← hac]
      exact ⟨a1, rfl, by simp only; omega⟩
  · exact b4
  · simp
  · exact ⟨h.cells.length, rfl, by simp⟩

theorem mergeAll_total (cols rows : Int) (cell : Ptr) :
    ∀ (ov : List Ptr) (h : Heap) (p : Ptr), cachedHeap h → boundedHeap cols rows h →
      validPtr h cell → validPtr h p → (∀ e ∈ ov, validPtr h e) →
      ∃ h3 p3, mergeAll cell ov (h, p) = some (h3, p3) ∧ cachedHeap h3 ∧
        boundedHeap cols rows h3 ∧ h.cells.length ≤ h3.cells.length ∧ validPtr h3 p3 := by
  intro ov
  induction ov with
  | nil =>
    intro h p hc hb _ hp _
    exact ⟨h, p, rfl, hc, hb, le_refl _, hp⟩
  | cons e rest ih =>
    intro h p hc hb hcell hp hov
    obtain ⟨h1, p1, e1, hc1, hb1, hl1, hp1⟩ := mergeCell_total cols rows h cell e hc hb hcell
      (hov e (by simp))
    obtain ⟨h3, p3, e3, hc3, hb3, hl3, hp3⟩ := ih h1 p1 hc1 hb1
      (validPtr_mono h h1 cell (by omega) hcell) hp1
      (fun x hx => validPtr_mono h h1 x (by omega) (hov x (by simp [hx])))
    refine ⟨h3, p3, ?_, hc3, hb3, by omega, hp3⟩
    unfold mergeAll
    simp only [e1]
    exact e3

theorem intRange_within (lo hi : Int) (n : Int) (h1 : 1 ≤ lo) (h2 : hi ≤ n) :
    ∀ x ∈ intRange (lo - 1) (hi - 1), 0 ≤ x ∧ x < ((n.toNat : Nat) : Int) := by
  intro x hx
  have := mem_intRange _ _ _ hx
  omega

theorem flatMergedCell_total (cols rows : Int) (st : MergeState) (i : Nat) (cell : Ptr)
    (hQ : soundState cols rows st) (hcell : validPtr st.heap cell) (hi : i < st.cells.length) :
    ∃ st1, flatMergedCell st i cell = some (st1, none) ∧ soundState cols rows st1 ∧
      st1.cells.length = st.cells.length ∧ st.heap.cells.length ≤ st1.heap.cells.length := by
  obtain ⟨hc, hb, hd, hm, hcs⟩ := hQ
  obtain ⟨a, rect, e, hrect⟩ := Rect_cached st.heap cell hc hcell
  have hw := hb a rect hrect
  have hw1 := hw
  unfold rectWithin at hw1
  obtain ⟨m1, ov1, ep, hd1, hg1, hov1⟩ := paint_spec cols.toNat rows.toNat cell
    (intRange (rect.y1 - 1) (rect.y2 - 1))
    (intRange_within rect.y1 rect.y2 rows (by omega) (by omega)) (intRange_nodup _ _)
    (intRange (rect.x1 - 1) (rect.x2 - 1)) st.matrix [] hd
    (intRange_within rect.x1 rect.x2 cols (by omega) (by omega)) (intRange_nodup _ _)
  have hov : ∀ x ∈ ov1, validPtr st.heap x := by
    intro x hx
    rcases (hov1 x).1 hx with h0 | ⟨hne, x0, _, y0, _, hxy⟩
    · simp at h0
    · rcases hm x0 y0 x hxy with h1 | h1
      · exact absurd h1 hne
      · exact h1
  have hm1 : ∀ (x y : Int) (v : Ptr), mget m1 x y = some v → v = none ∨ validPtr st.heap v := by
    intro x y v hv
    rw [hg1] at hv
    split at hv
    · simp only [Option.some.injEq] at hv
      rw [← hv]
      exact Or.inr hcell
    · exact hm x y v hv
  by_cases hlen : ov1.length ≠ 0
  · obtain ⟨h2, newCell, e2, hc2, hb2, hl2, hp2⟩ := mergeAll_total cols rows cell ov1 st.heap cell
      hc hb hcell hcell hov
    obtain ⟨a3, newRect, e3, hrect3⟩ := Rect_cached h2 newCell hc2 hp2
    have hw3 := hb2 a3 newRect hrect3
    have hw4 := hw3
    unfold rectWithin at hw4
    obtain ⟨m2, ef, hd2, hg2⟩ := fill_spec cols.toNat rows.toNat newCell
      (intRange (newRect.y1 - 1) (newRect.y2 - 1))
      (intRange_within newRect.y1 newRect.y2 rows (by omega) (by omega))
      (intRange (newRect.x1 - 1) (newRect.x2 - 1)) m1 hd1
      (intRange_within newRect.x1 newRect.x2 cols (by omega) (by omega))
    refine ⟨{ heap := h2, cells := st.cells.set i newCell, matrix := m2 }, ?_, ?_, by simp, hl2⟩
    · unfold flatMergedCell
      simp only [e, hrect, ep]
      rw [if_pos hlen]
      simp only [e2, e3, rectAt, hrect3, ef]
      rw [if_pos hi]
    · refine ⟨hc2, hb2, hd2, ?_, ?_⟩
      · intro x y v hv
        simp only at hv
        rw [hg2] at hv
        split at hv
        · simp only [Option.some.injEq] at hv
          rw [← hv]
          exact Or.inr hp2
        · rcases hm1 x y v hv with h0 | h0
          · exact Or.inl h0
          · exact Or.inr (validPtr_mono st.heap h2 v hl2 h0)
      · intro p hp
        simp only at hp
        rcases List.mem_or_eq_of_mem_set hp with h0 | h0
        · exact validPtr_mono st.heap h2 p hl2 (hcs p h0)
        · rw [h0]
          exact hp2
  · refine ⟨{ heap := st.heap, cells := st.cells, matrix := m1 }, ?_, ?_, rfl, le_refl _⟩
    · unfold flatMergedCell
      simp only [e, hrect, ep]
      rw [if_neg hlen]
    · exact ⟨hc, hb, hd1, hm1, hcs⟩

theorem flatMergedCells_total (cols rows : Int) :
    ∀ (todo : List Ptr) (i : Nat) (st : MergeState), soundState cols rows st →
      (∀ p ∈ todo, validPtr st.heap p) → i + todo.length ≤ st.cells.length →
      ∃ st1, flatMergedCells i todo st = some (st1, none) ∧ soundState cols rows st1 := by
  intro todo
  induction todo with
  | nil =>
    intro i st hQ _ _
    exact ⟨st, rfl, hQ⟩
  | cons cell rest ih =>
    intro i st hQ htodo hi
    simp only [List.length_cons] at hi
    obtain ⟨st1, e1, hQ1, hl1, hh1⟩ := flatMergedCell_total cols rows st i cell hQ
      (htodo cell (by simp)) (by omega)
    obtain ⟨st2, e2, hQ2⟩ := ih (i + 1) st1 hQ1
      (fun p hp => validPtr_mono st.heap st1.heap p hh1 (htodo p (by simp [hp])))
      (by omega)
    refine ⟨st2, ?_, hQ2⟩
    unfold flatMergedCells
    simp only [e1]
    exact e2

theorem keepOwners_total (cols rows : Int) (h : Heap) (hc : cachedHeap h)
    (hb : boundedHeap cols rows h) :
    ∀ (cells : List Ptr) (m : Matrix) (acc : List Ptr),
      matrixDims m cols.toNat rows.toNat → (∀ p ∈ cells, validPtr h p) →
      ∃ m1 kept, keepOwners cells (h, m, acc) = some (h, m1, kept) := by
  intro cells
  induction cells with
  | nil =>
    intro m acc _ _
    exact ⟨m, acc, rfl⟩
  | cons cell rest ih =>
    intro m acc hd hcells
    obtain ⟨a, rect, e, hrect⟩ := Rect_cached h cell hc (hcells cell (by simp))
    have hw := hb a rect hrect
    have hw1 := hw
    unfold rectWithin at hw1
    obtain ⟨v, hv⟩ := mget_inside m cols.toNat rows.toNat hd (rect.x1 - 1) (rect.y1 - 1)
      (by omega) (by omega) (by omega) (by omega)
    obtain ⟨m2, ef, hd2, _⟩ := fill_spec cols.toNat rows.toNat none
      (intRange (rect.y1 - 1) (rect.y2 - 1))
      (intRange_within rect.y1 rect.y2 rows (by omega) (by omega))
      (intRange (rect.x1 - 1) (rect.x2 - 1)) m hd
      (intRange_within rect.x1 rect.x2 cols (by omega) (by omega))
    unfold keepOwners
    simp only [e, rectAt, hrect, hv]
    by_cases hown : v = cell
    · rw [if_pos hown]
      simp only [ef]
      exact ih m2 _ hd2 (fun p hp => hcells p (by simp [hp]))
    · rw [if_neg hown]
      exact ih m _ hd (fun p hp => hcells p (by simp [hp]))

theorem grow_eq (a b c : Int) :
    (if b > (if a > c then a else c) then b else if a > c then a else c) = max (max c a) b := by
  split_ifs <;> omega

theorem validRef_ok (ref : String) (h : validRef ref = true) :
    ∃ rect, areaRefToCoordinates ref = .ok rect := by
  unfold validRef at h
  cases hr : areaRefToCoordinates ref with
  | ok rect => exact ⟨rect, rfl⟩
  | error e => simp [hr] at h

theorem overlapRange_total : ∀ (cells : List Ptr) (h : Heap) (row col : Int),
    (∀ (a : Nat) (c : xlsxMergeCell), h.cells[a]? = some c →
      (∃ r, c.rect = some r ∧ r < h.rects.length) ∨
      (c.rect = none ∧ some a ∈ cells ∧ validRef c.Ref = true)) →
    boundedHeap col row h → (∀ p ∈ cells, validPtr h p) →
    ∃ h1 row1 col1, overlapRange h cells (row, col) = some (h1, row1, col1, none) ∧
      cachedHeap h1 ∧ boundedHeap col1 row1 h1 ∧ h1.cells.length = h.cells.length ∧
      row ≤ row1 ∧ col ≤ col1 ∧ (cells ≠ [] → 1 ≤ row1 ∧ 1 ≤ col1) := by
  intro cells
  induction cells with
  | nil =>
    intro h row col hinv hb _
    refine ⟨h, row, col, rfl, ?_, hb, rfl, le_refl _, le_refl _, fun hn => absurd rfl hn⟩
    intro a c hac
    rcases hinv a c hac with h1 | ⟨_, h2, _⟩
    · exact h1
    · simp at h2
  | cons p rest ih =>
    intro h row col hinv hb hvalid
    obtain ⟨a, rfl, ha⟩ := hvalid (p) (by simp)
    obtain ⟨c, hcell⟩ := exists_getElem? h.cells a ha
    rcases hinv a c hcell with ⟨r, hr, hrlt⟩ | ⟨hnone, _, href⟩
    · obtain ⟨rect, hrect⟩ := exists_getElem? h.rects r hrlt
      have hw := hb r rect hrect
      have hw1 := hw
      unfold rectWithin at hw1
      obtain ⟨h1, row1, col1, e1, hc1, hb1, hl1, hrow1, hcol1, _⟩ := ih h
        (max (max row rect.y1) rect.y2) (max (max col rect.x1) rect.x2)
        (by
          intro a1 c1 hac1
          rcases hinv a1 c1 hac1 with h0 | ⟨h0, h2, h3⟩
          · exact Or.inl h0
          · refine Or.inr ⟨h0, ?_, h3⟩
            rcases List.mem_cons.1 h2 with h4 | h4
            · simp only [Option.some.injEq] at h4
              subst h4
              rw [hcell] at hac1
              simp only [Option.some.injEq] at hac1
              subst hac1
              rw [hr] at h0
              simp at h0
            · exact h4)
        (fun i r0 hi => rectWithin_mono col row _ _ r0 (by omega) (by omega) (hb i r0 hi))
        (fun q hq => hvalid q (by simp [hq]))
      refine ⟨h1, row1, col1, ?_, hc1, hb1, hl1, by omega, by omega, fun _ => by omega⟩
      unfold overlapRange
      rw [if_neg (by simp)]
      simp only [xlsxMergeCell.Rect, hcell, hr, hrect, grow_eq]
      exact e1
    · obtain ⟨rect, hparse⟩ := validRef_ok c.Ref href
      obtain ⟨hp1, hp2, hp3, hp4⟩ := areaRefToCoordinates_pos c.Ref rect hparse
      have hrect : (h.rects ++ [rect])[h.rects.length]? = some rect := by
        rw [List.getElem?_append_right (le_refl _)]
        simp
      obtain ⟨h1, row1, col1, e1, hc1, hb1, hl1, hrow1, hcol1, _⟩ := ih
        (Heap.mk (h.cells.set a { c with rect := some h.rects.length }) (h.rects ++ [rect]))
        (max (max row rect.y1) rect.y2) (max (max col rect.x1) rect.x2)
        (by
          intro a1 c1 hac1
          simp only at hac1
          rw [List.getElem?_set] at hac1
          by_cases haa : a = a1
          · rw [if_pos haa, if_pos ha] at hac1
            simp only [Option.some.injEq] at hac1
            rw [← hac1]
            exact Or.inl ⟨h.rects.length, rfl, by simp⟩
          · rw [if_neg haa] at hac1
            rcases hinv a1 c1 hac1 with ⟨r0, h0, h00⟩ | ⟨h0, h2, h3⟩
            · exact Or.inl ⟨r0, h0, by simp only [List.length_append, List.length_singleton]; omega⟩
            · refine Or.inr ⟨h0, ?_, h3⟩
              rcases List.mem_cons.1 h2 with h4 | h4
              · simp only [Option.some.injEq] at h4
                exact absurd h4.symm haa
              · exact h4)
        (by
          intro i r0 hi
          simp only at hi
          by_cases hil : i < h.rects.length
          · rw [List.getElem?_append_left hil] at hi
            exact rectWithin_mono col row _ _ r0 (by omega) (by omega) (hb i r0 hi)
          · rw [List.getElem?_append_right (by omega)] at hi
            have hi0 : i - h.rects.length = 0 := by
              rcases Nat.eq_zero_or_pos (i - h.rects.length) with hz | hpos
              · exact hz
              · rw [List.getElem?_eq_none (by simp; omega)] at hi
                simp at hi
            rw [hi0] at hi
            simp only [List.getElem?_cons_zero, Option.some.injEq] at hi
            rw [← hi]
            unfold rectWithin
            omega)
        (by
          intro q hq
          obtain ⟨b, hb1, hb2⟩ := hvalid q (by simp [hq])
          exact ⟨b, hb1, by simp only [List.length_set]; exact hb2⟩)
      refine ⟨h1, row1, col1, ?_, hc1, hb1, ?_, by omega, by omega, fun _ => by omega⟩
      · unfold overlapRange
        rw [if_neg (by simp)]
        simp only [xlsxMergeCell.Rect, hcell, hnone, hparse, hrect, grow_eq]
        exact e1
      · rw [hl1]
        simp

/-- C37. On a merge list that is not empty and whose references parse, in
any order of their corners, `mergeOverlapCells` returns, and without error:
no step of `flatMergedCells` or of the scan for the regions that survive
reads or writes the grid outside the columns and rows `overlapRange` has
computed, nor a nil cell or slice. -/
theorem mergeOverlapCells_in_bounds (refs : List String) (hne : refs ≠ [])
    (hvalid : ∀ ref ∈ refs, validRef ref = true) :
    ∃ h1 mc1, mergeOverlapCells (decodedMergeCells refs).1 (decodedMergeCells refs).2 =
      some (h1, mc1, none) := by
  have hcells : ∀ (a : Nat) (c : xlsxMergeCell),
      (decodedMergeCells refs).1.cells[a]? = some c →
      c.rect = none ∧ a < refs.length ∧ validRef c.Ref = true := by
    intro a c hac
    simp only [decodedMergeCells, List.getElem?_map] at hac
    cases hr : refs[a]? with
    | none => simp [hr] at hac
    | some ref =>
      simp only [hr, Option.map_some', Option.some.injEq] at hac
      rw [← hac]
      refine ⟨rfl, ?_, hvalid ref (List.getElem?_mem hr)⟩
      rcases Nat.lt_or_ge a refs.length with hlt | hge
      · exact hlt
      · rw [List.getElem?_eq_none hge] at hr
        simp at hr
  have hptr : ∀ p ∈ (decodedMergeCells refs).2.Cells, validPtr (decodedMergeCells refs).1 p := by
    intro p hp
    simp only [decodedMergeCells, List.mem_map, List.mem_range] at hp
    obtain ⟨a, ha, rfl⟩ := hp
    exact ⟨a, rfl, by simp [decodedMergeCells, ha]⟩
  obtain ⟨h1, rows, cols, e1, hc1, hb1, hl1, hrow, hcol, hpos⟩ := overlapRange_total
    (decodedMergeCells refs).2.Cells (decodedMergeCells refs).1 0 0
    (by
      intro a c hac
      obtain ⟨h0, h2, h3⟩ := hcells a c hac
      refine Or.inr ⟨h0, ?_, h3⟩
      simp only [decodedMergeCells, List.mem_map, List.mem_range]
      exact ⟨a, h2, rfl⟩)
    (by
      intro i r hi
      simp [decodedMergeCells] at hi)
    hptr
  obtain ⟨hrow1, hcol1⟩ := hpos (by
    intro hnil
    simp only [decodedMergeCells, List.map_eq_nil_iff, List.range_eq_nil] at hnil
    exact hne (List.length_eq_zero.1 hnil))
  have hptr1 : ∀ p ∈ (decodedMergeCells refs).2.Cells, validPtr h1 p :=
    fun p hp => validPtr_mono _ h1 p (by omega) (hptr p hp)
  obtain ⟨st, e2, hc2, hb2, hd2, _, hcs2⟩ := flatMergedCells_total cols rows
    (decodedMergeCells refs).2.Cells 0
    { heap := h1, cells := (decodedMergeCells refs).2.Cells,
      matrix := List.replicate cols.toNat (List.replicate rows.toNat none) }
    ⟨hc1, hb1, matrixDims_replicate _ _,
      fun x y v hv => Or.inl (mget_replicate _ _ x y v hv), hptr1⟩
    hptr1 (by simp)
  obtain ⟨m1, kept, e3⟩ := keepOwners_total cols rows st.heap hc2 hb2 st.cells st.matrix [] hd2 hcs2
  refine ⟨st.heap, { Count := kept.length, Cells := kept }, ?_⟩
  unfold mergeOverlapCells
  simp only [e1]
  rw [if_neg (by omega), if_neg (by omega)]
  simp only [e2, e3]

/-- C37 on the references `B2:A1`, written bottom-right corner first,
`A1:C3` and `C3:D4`: the resolution returns, and the three regions have
become the one region `A1:D4`. -/
theorem mergeOverlapCells_in_bounds_witness :
    (∃ h1 mc1, mergeOverlapCells (decodedMergeCells ["B2:A1", "A1:C3", "C3:D4"]).1
        (decodedMergeCells ["B2:A1", "A1:C3", "C3:D4"]).2 = some (h1, mc1, none)) ∧
    resolveTimes 1 (decodedMergeCells ["B2:A1", "A1:C3", "C3:D4"]) =
      some ["A1:D4"] :=
  ⟨mergeOverlapCells_in_bounds ["B2:A1", "A1:C3", "C3:D4"] (by decide) (by decide), by decide⟩

/-! ## C9: a fallback cell and a row of fewer cells than columns -/

/-- C9 fails on the code: the fallback row has the cell `A1` with the value
`f`, and row 1 has the one cell `C1`, with a value. `checkSheetR0` looks for
the target of `A1` at position 0 of the cell list of row 1, finds `C1` there,
which has a value, and drops the fallback cell: after normalization the cell
`A1` of the worksheet, which had no value, is still empty. -/
theorem checkSheet_fallback_sparse_row :
    checkSheet cellHasValue
        { Row := [{ R := 0, C := [{ R := "A1", V := "f" }] },
                  { R := 1, C := [{ R := "C1", V := "own" }] }] } =
      some { Row := [{ R := 1, C := [{ R := "C1", V := "own" }] }] } ∧
    (workSheetReader cellHasValue
        (fileWith [{ R := 0, C := [{ R := "A1", V := "f" }] },
                   { R := 1, C := [{ R := "C1", V := "own" }] }]) "Sheet1").map
        (fun res => (res.2.1.map (fun ws => ws.SheetData.Row), res.2.2)) =
      some (some [{ R := 1, C := [{ R := "A1" }, { R := "B1" }, { R := "C1", V := "own" }] }],
        none) := by
  decide

/-! ## C18: InsertRow and RemoveRow after rows out of order -/

/-- C18 fails on the code: the part has the rows numbered 1, 2, 1, which
`workSheetReader` loads as three rows numbered 1, 2, 0. `InsertRow(3)` shifts
no row, and its normalization numbers the third row 3; `RemoveRow(3)` then
removes that row, which was there before the insertion: two rows are left of
the three. -/
theorem InsertRow_RemoveRow_loses_row :
    (workSheetReader cellHasValue
        (fileWith [{ R := 1, C := [{ R := "A1", V := "a" }] }, { R := 2 },
                   { R := 1, C := [{ R := "B1", V := "b" }] }]) "Sheet1").map
        (fun res => (rowNumbers res.1, res.2.2)) =
      some (some [(1, 2), (2, 0), (0, 0)], none) ∧
    (InsertRow cellHasValue
        (fileWith [{ R := 1, C := [{ R := "A1", V := "a" }] }, { R := 2 },
                   { R := 1, C := [{ R := "B1", V := "b" }] }]) "Sheet1" 3).map
        (fun res => (rowNumbers res.1, res.2)) =
      some (some [(1, 2), (2, 0), (3, 0)], none) ∧
    ((InsertRow cellHasValue
        (fileWith [{ R := 1, C := [{ R := "A1", V := "a" }] }, { R := 2 },
                   { R := 1, C := [{ R := "B1", V := "b" }] }]) "Sheet1" 3).bind
        (fun res => RemoveRow cellHasValue res.1 "Sheet1" 3)).map
        (fun res => (rowNumbers res.1, res.2)) =
      some (some [(1, 2), (2, 0)], none) := by
  refine ⟨?_, ?_, ?_⟩ <;> decide

/-! ## C22: GetRows after an error of Columns -/

/-- C22 fails on the code: the part has three rows, each with one cell that
has a value, and the cell of row 2 has the malformed reference `1B`, so that
`rows.Columns` returns the error of `CellNameToCoordinates` at row 2. The
loop of `GetRows` breaks there, and `GetRows` returns the list of row 1 alone
and no error: row 3, which is not empty, is dropped. -/
theorem GetRows_swallows_Columns_error :
    GetRows
        (fileWith [{ R := 1, C := [{ R := "A1", V := "1" }] },
                   { R := 2, C := [{ R := "1B", V := "2" }] },
                   { R := 3, C := [{ R := "A3", V := "3" }] }])
        "Sheet1" [["1"], ["2"], ["3"]]
        (fun k => if k = 2 then ([], some (.invalidCellName "1B")) else ([strconvItoa k], none))
        none =
      (fileWith [{ R := 1, C := [{ R := "A1", V := "1" }] },
                 { R := 2, C := [{ R := "1B", V := "2" }] },
                 { R := 3, C := [{ R := "A3", V := "3" }] }],
        some [["1"]], none) ∧
    CellNameToCoordinates "1B" = .error (.invalidCellName "1B") := by
  decide

/-! ## C38: a region that spans the target row -/

/-- C38 fails as stated: with the regions `A2:C2` and `D3:E6` and the rows 2
and 5, as `DuplicateRowTo("Sheet1", 2, 5)` calls it, one single-row region
lies on the source row 2, but `D3:E6` starts above row 5 and ends below it:
`duplicateMergeCells` returns nil before its loop and appends no region. -/
theorem duplicateMergeCells_strict_span :
    singleRowRegions (mergedFile ["A2:C2", "D3:E6"]).1 2
      (decodedMergeCells ["A2:C2", "D3:E6"]).2.Cells = 1 ∧
    spansStrictly (mergedFile ["A2:C2", "D3:E6"]).1 5
      (decodedMergeCells ["A2:C2", "D3:E6"]).2.Cells = true ∧
    (duplicateMergeCells cellHasValue 5 (mergedFile ["A2:C2", "D3:E6"]).1
        (mergedFile ["A2:C2", "D3:E6"]).2 "Sheet1" 2 5).map
      (fun res => (mergedRefs res.1 res.2.1, res.2.2)) =
      some (some (2, ["A2:C2", "D3:E6"]), none) := by
  decide

/-! ## C32: the options the caller gives -/

theorem foldl_last_getD {α : Type} (l : List α) :
    ∀ a : α, l.foldl (fun _ o => o) a = l.getLast?.getD a := by
  induction l with
  | nil => intro a; rfl
  | cons x xs ih =>
    intro a
    rw [List.foldl_cons, ih]
    cases xs with
    | nil => rfl
    | cons y ys =>
      rw [List.getLast?_cons_cons]
      cases h : (y :: ys).getLast? with
      | none => simp at h
      | some v => rfl

/-- C32. Let `o` be the options the caller gives: the last of the optional
arguments of `OpenReader`, or the zero value when there is none. `OpenReader`
returns `ErrOptionsUnzipSizeLimit` exactly when both limits of `o` are
non-zero and `WorksheetUnzipMemLimit` exceeds `UnzipSizeLimit`. In every other
case the options are resolved: a zero `UnzipSizeLimit` becomes its default,
or the worksheet limit when that is larger; a zero `WorksheetUnzipMemLimit`
becomes its default, or the resolved `UnzipSizeLimit` when that is smaller; a
limit that is given is kept, as are the other options; and the resolved
limits satisfy `WorksheetUnzipMemLimit <= UnzipSizeLimit`. -/
theorem OpenReader_limits (UnzipSizeLimit StreamChunkSize : Int) (opt : List Options)
    (o : Options) (ho : opt.getLast?.getD {} = o) :
    (OpenReader UnzipSizeLimit StreamChunkSize opt = .error .optionsUnzipSizeLimit ↔
      (o.UnzipSizeLimit ≠ 0 ∧ o.WorksheetUnzipMemLimit ≠ 0 ∧
        o.WorksheetUnzipMemLimit > o.UnzipSizeLimit)) ∧
    (¬ (o.UnzipSizeLimit ≠ 0 ∧ o.WorksheetUnzipMemLimit ≠ 0 ∧
        o.WorksheetUnzipMemLimit > o.UnzipSizeLimit) →
      ∃ r, OpenReader UnzipSizeLimit StreamChunkSize opt = .ok r ∧
        r.UnzipSizeLimit = (if o.UnzipSizeLimit = 0 then
          max UnzipSizeLimit o.WorksheetUnzipMemLimit else o.UnzipSizeLimit) ∧
        r.WorksheetUnzipMemLimit = (if o.WorksheetUnzipMemLimit = 0 then
          min StreamChunkSize r.UnzipSizeLimit else o.WorksheetUnzipMemLimit) ∧
        r.WorksheetUnzipMemLimit ≤ r.UnzipSizeLimit ∧
        r.Password = o.Password ∧
        r.RawCellValue = o.RawCellValue) := by
  have hp : parseOptions opt = o := by
    rw [← ho]
    exact foldl_last_getD opt {}
  have h := OpenReader_limits_parsed UnzipSizeLimit StreamChunkSize opt
  rw [hp] at h
  exact h

/-- C32 with the defaults of 16000 MiB and 16 MiB: the limits 5 and 10, given
in this order of fields, are refused; without options the limits are the
defaults; of two options the last one counts, and its zero worksheet limit
becomes the given `UnzipSizeLimit` of 5, which is smaller than the default. -/
theorem OpenReader_limits_witness :
    ((OpenReader 16777216000 16777216 [{ UnzipSizeLimit := 5, WorksheetUnzipMemLimit := 10 }] =
        .error .optionsUnzipSizeLimit ↔
      (({ UnzipSizeLimit := 5, WorksheetUnzipMemLimit := 10 } : Options).UnzipSizeLimit ≠ 0 ∧
        ({ UnzipSizeLimit := 5, WorksheetUnzipMemLimit := 10 } : Options).WorksheetUnzipMemLimit
          ≠ 0 ∧
        ({ UnzipSizeLimit := 5, WorksheetUnzipMemLimit := 10 } : Options).WorksheetUnzipMemLimit >
          ({ UnzipSizeLimit := 5, WorksheetUnzipMemLimit := 10 } : Options).UnzipSizeLimit))) ∧
    OpenReader 16777216000 16777216 [{ UnzipSizeLimit := 5, WorksheetUnzipMemLimit := 10 }] =
      .error .optionsUnzipSizeLimit ∧
    OpenReader 16777216000 16777216 [] =
      .ok { UnzipSizeLimit := 16777216000, WorksheetUnzipMemLimit := 16777216 } ∧
    OpenReader 16777216000 16777216
        [{ WorksheetUnzipMemLimit := 10 }, { UnzipSizeLimit := 5, Password := "p" }] =
      .ok { UnzipSizeLimit := 5, WorksheetUnzipMemLimit := 5, Password := "p" } :=
  ⟨(OpenReader_limits 16777216000 16777216
      [{ UnzipSizeLimit := 5, WorksheetUnzipMemLimit := 10 }]
      { UnzipSizeLimit := 5, WorksheetUnzipMemLimit := 10 } rfl).1,
    by decide, by decide, by decide⟩

end Xlsx
